import Mathlib

/-!
# Latte Dock: placement of views (`ActiveLayout`)

A shallow embedding of the view bookkeeping of `src/app/layout/activelayout.cpp`:
`addContainment`, `containmentDestroyed`, `addView`, `syncLatteViewsToScreens`,
the free-edge queries and the occupancy helpers.

Conventions of the embedding.

* A `Plasma::Containment *` is a record of the values the layout reads from it.
  Pointer equality is equality of records (a containment is determined by its
  `id`), the null pointer is `none`.  `containment->location()` and the config
  entry `location` are one field: Plasma writes the entry whenever the location
  is set.
* A `QScreen *` is its connector name; `qGuiApp` and the screen pool are the
  record `Corona`, passed to every operation.
* `m_latteViews` and `m_waitingLatteViews` (hashes keyed by containment) are
  lists of views, the key of a view being its containment.  A loop that takes
  entries out of the hash while iterating over it is read as: every view of the
  hash is visited once and the matching ones are taken out.
* `log` is a ghost trace of what an operation did to views and which
  notification it emitted, oldest entry first.
-/

namespace Latte

/-- The values of `Plasma::Types::Location`. -/
inductive Location where
  | Floating
  | Desktop
  | FullScreen
  | TopEdge
  | BottomEdge
  | LeftEdge
  | RightEdge
  deriving DecidableEq, Repr

/-- The values of `Latte::Types::Visibility`. -/
inductive Visibility where
  | None
  | AlwaysVisible
  | AutoHide
  | DodgeActive
  | DodgeMaximized
  | DodgeAllWindows
  | WindowsGoBelow
  deriving DecidableEq, Repr

/-- The values of `Latte::Types::LayoutsMemoryUsage`. -/
inductive MemoryUsage where
  | SingleLayout
  | MultipleLayouts
  deriving DecidableEq, Repr

/-- What the layout reads from a `Plasma::Containment`. -/
structure Containment where
  /-- The value of `containment->id()`. -/
  id : Nat
  /-- The value of `containment->pluginMetaData().pluginId()`. -/
  pluginId : String
  /-- The value of `containment->kPackage().isValid()`. -/
  packageValid : Bool
  /-- The value of `config().readEntry("onPrimary", true)`. -/
  onPrimary : Bool
  /-- The value of `containment->screen()`. -/
  screen : Int
  /-- The value of `containment->lastScreen()`. -/
  lastScreen : Int
  /-- The value of `containment->location()`. -/
  location : Location
  /-- The value of `config().readEntry("visibility", DodgeActive)`. -/
  visibility : Visibility
  /-- The value of `config().readEntry("byPassWM", false)`. -/
  byPassWM : Bool
  /-- The value of `config().readEntry("layoutId", QString())`. -/
  layoutId : String
  deriving DecidableEq, Repr

/-- What the layout reads from `qGuiApp`, the screen pool and the layout manager. -/
structure Corona where
  /-- The names of `qGuiApp->screens()`, in enumeration order. -/
  screens : List String
  /-- The name of `qGuiApp->primaryScreen()`. -/
  primaryScreen : String
  /-- The function `screenPool()->connector(id)`. -/
  connector : Int → String
  /-- The function `screenPool()->id(name)`. -/
  poolId : String → Int
  /-- The value of `screenPool()->primaryScreenId()`. -/
  primaryScreenId : Int
  /-- The function `screenPool()->screenExists(id)`. -/
  screenExists : Int → Bool
  /-- The function `screenPool()->screenForId(id)`, `none` for the null screen. -/
  screenForId : Int → Option String
  /-- The value of `layoutManager()->memoryUsage()`. -/
  memoryUsage : MemoryUsage

/-- Modelled from the spec: `Latte::View` (view.h and positioner.h are not under src/).
"View: a live on-screen instance bound 1:1 to a PanelDefinition and a concrete
Screen"; it carries the onPrimary flag that `forcePrimary` overrides. -/
structure View where
  /-- The value of `view->containment()`. -/
  containment : Containment
  /-- The screen the view is bound to: `view->screen()`,
  `positioner()->currentScreenName()`. -/
  screen : String
  /-- The value of `view->onPrimary()`. -/
  onPrimary : Bool
  /-- The window flag handed to the constructor. -/
  byPassWM : Bool
  deriving DecidableEq, Repr

/-- The value of `view->location()`: the location of its containment. -/
def View.location (v : View) : Location := v.containment.location

/-- The value of `view->positioner()->currentScreenId()`: the pool id of the bound screen. -/
def View.currentScreenId (env : Corona) (v : View) : Int := env.poolId v.screen

/-- Ghost trace of the effects of an operation on views. -/
inductive Event where
  /-- Trace of `new Latte::View(...)`. -/
  | constructed (v : View)
  /-- Trace of `m_latteViews[containment] = latteView`. -/
  | registered (v : View)
  /-- Trace of `m_latteViews.take(...)` followed by `deleteLater()`. -/
  | removed (v : View)
  /-- Trace of `emit viewsCountChanged()`. -/
  | viewsCountChanged
  deriving DecidableEq, Repr

/-- The members of `ActiveLayout` the placement code touches. -/
structure ActiveLayout where
  /-- Whether `m_corona` is set. -/
  corona : Bool
  /-- The value of `m_layoutName`. -/
  layoutName : String
  /-- The value of `m_blockAutomaticLatteViewCreation`. -/
  blockAutomaticLatteViewCreation : Bool
  /-- The list `m_containments`. -/
  containments : List Containment
  /-- The hash `m_latteViews`. -/
  latteViews : List View
  /-- The hash `m_waitingLatteViews`. -/
  waitingLatteViews : List View
  /-- Ghost trace. -/
  log : List Event
  deriving DecidableEq, Repr

/-- `ActiveLayout::isLatteContainment`. -/
def isLatteContainment (containment : Option Containment) : Bool :=
  match containment with
  | none => false
  | some c => if c.pluginId = "org.kde.latte.containment" then true else false

/-- `ActiveLayout::latteViewExists`. -/
def latteViewExists (s : ActiveLayout) (containment : Containment) : Bool :=
  if !s.corona then false
  else (s.latteViews.map View.containment).contains containment

/-- `ActiveLayout::primaryDockOccupyEdge`. -/
def primaryDockOccupyEdge (s : ActiveLayout) (location : Location) : Bool :=
  if !s.corona then false
  else s.containments.any fun containment =>
    isLatteContainment (some containment) && (containment.onPrimary && containment.location = location)

/-- `ActiveLayout::explicitDockOccupyEdge`. -/
def explicitDockOccupyEdge (s : ActiveLayout) (screen : Int) (location : Location) : Bool :=
  if !s.corona then false
  else s.containments.any fun containment =>
    isLatteContainment (some containment)
      && (!containment.onPrimary && containment.lastScreen = screen && containment.location = location)

/-- The screen id a containment reports: `containment->screen()`, or
`containment->lastScreen()` when that is `-1`. -/
def containmentScreenId (containment : Containment) : Int :=
  if containment.screen = -1 then containment.lastScreen else containment.screen

/-- The screen id `addView` works with (the lines that set `id`). -/
def addViewScreenId (containment : Containment) (explicitScreen : Int) : Int :=
  let id := containment.screen
  let id := if id = -1 ∧ explicitScreen = -1 then containment.lastScreen else id
  if explicitScreen > -1 then explicitScreen else id

/-- The explicit branch of `addView`: the screen named by the connector of `id`,
or `none` when the view is rejected (screen not available, or the screen is the
primary one and a primary dock occupies the edge). -/
def explicitTarget (env : Corona) (s : ActiveLayout) (containment : Containment) (id : Int) :
    Option String :=
  let connector := env.connector id
  match env.screens.find? (fun scr => scr = connector) with
  | none => none
  | some nextScreen =>
    if nextScreen = env.primaryScreen ∧ primaryDockOccupyEdge s containment.location = true then none
    else some nextScreen

/-- The test of the onPrimary branch of `addView`: the view is one of an explicit
containment on the primary screen id with the location of `containment`. -/
def evictedBy (env : Corona) (containment : Containment) (view : View) : Bool :=
  let testContainment := view.containment
  let testScreenId := containmentScreenId testContainment
  !testContainment.onPrimary && env.primaryScreenId = testScreenId
    && testContainment.location = containment.location

/-- The onPrimary branch of `addView`: every matching explicit view is taken out of
`m_latteViews` and deleted. -/
def evictExplicit (env : Corona) (s : ActiveLayout) (containment : Containment) : ActiveLayout :=
  { s with
    latteViews := s.latteViews.filter (fun view => !evictedBy env containment view)
    log := s.log ++ (s.latteViews.filter (fun view => evictedBy env containment view)).map Event.removed }

/-- The `byPassWM` flag `addView` hands to the view. -/
def viewByPassWM (containment : Containment) : Bool :=
  if containment.visibility = Visibility.AlwaysVisible ∨ containment.visibility = Visibility.WindowsGoBelow
  then false else containment.byPassWM

/-- The view `addView` constructs: bound to `nextScreen`, flagged onPrimary from the
containment, or by force. -/
def newView (containment : Containment) (nextScreen : String) (forceOnPrimary : Bool) : View :=
  { containment := containment
    screen := nextScreen
    onPrimary := if forceOnPrimary then true else containment.onPrimary
    byPassWM := viewByPassWM containment }

/-- The assignment `m_latteViews[containment] = latteView`. -/
def insertView (views : List View) (latteView : View) : List View :=
  views.filter (fun view => view.containment ≠ latteView.containment) ++ [latteView]

/-- The screen `addView` picks for a valid definition without a view: the screen of the
explicit branch when that branch runs, the primary screen otherwise; `none` when the
explicit branch rejects. -/
def addViewTarget (env : Corona) (s : ActiveLayout) (containment : Containment)
    (forceOnPrimary : Bool) (explicitScreen : Int) : Option String :=
  let onPrimary := containment.onPrimary
  let id := addViewScreenId containment explicitScreen
  if 0 ≤ id ∧ onPrimary = false ∧ forceOnPrimary = false then explicitTarget env s containment id
  else some env.primaryScreen

/-- `ActiveLayout::addView`. -/
def addView (env : Corona) (s : ActiveLayout) (containment : Option Containment)
    (forceOnPrimary : Bool) (explicitScreen : Int) : ActiveLayout :=
  match containment with
  | none => s
  | some c =>
    if s.corona = false ∨ c.packageValid = false then s
    else if isLatteContainment (some c) = false then s
    else if s.latteViews.any (fun dock => dock.containment = c) = true then s
    else
      let onPrimary := c.onPrimary
      let id := addViewScreenId c explicitScreen
      match addViewTarget env s c forceOnPrimary explicitScreen with
      | none => s
      | some nextScreen =>
        let s1 := if 0 ≤ id ∧ onPrimary = true then evictExplicit env s c else s
        let latteView := newView c nextScreen forceOnPrimary
        { s1 with
          latteViews := insertView s1.latteViews latteView
          log := s1.log ++ [Event.constructed latteView, Event.registered latteView,
            Event.viewsCountChanged] }

/-- `ActiveLayout::addContainment`.  It runs as a slot connected by `initToCorona`,
so with `m_corona` set; without it the embedding leaves the layout as it is. -/
def addContainment (env : Corona) (s : ActiveLayout) (containment : Option Containment) :
    ActiveLayout :=
  match containment with
  | none => s
  | some c =>
    if s.containments.contains c = true ∨ s.corona = false then s
    else
      let containmentInLayout : Bool :=
        match env.memoryUsage with
        | MemoryUsage.SingleLayout => true
        | MemoryUsage.MultipleLayouts =>
          if c.layoutId ≠ "" ∧ c.layoutId = s.layoutName then true else false
      if containmentInLayout = true then
        let s1 := { s with containments := s.containments ++ [c] }
        if s1.blockAutomaticLatteViewCreation = false then addView env s1 (some c) false (-1)
        else s1
      else s

/-- `ActiveLayout::containmentDestroyed`. -/
def containmentDestroyed (s : ActiveLayout) (cont : Option Containment) : ActiveLayout :=
  if s.corona = false then s
  else
    match cont with
    | none => s
    | some c =>
      let s1 := { s with containments := s.containments.erase c }
      match s1.latteViews.find? (fun view => view.containment = c) with
      | some view =>
        { s1 with
          latteViews := s1.latteViews.filter (fun v => v.containment ≠ c)
          log := s1.log ++ [Event.removed view, Event.viewsCountChanged] }
      | none =>
        match s1.waitingLatteViews.find? (fun view => view.containment = c) with
        | some view =>
          { s1 with
            waitingLatteViews := s1.waitingLatteViews.filter (fun v => v.containment ≠ c)
            log := s1.log ++ [Event.removed view, Event.viewsCountChanged] }
        | none => s1

/-- The locals `futureDocksLocations` and `futureShownViews` of
`syncLatteViewsToScreens`.  The hash of location lists is kept as the list of its
(screen name, location) pairs: `futureDocksLocations[name].contains(location)` is
membership of the pair, `append` adds the pair at the end. -/
structure FutureViews where
  /-- The pairs of `futureDocksLocations`. -/
  docksLocations : List (String × Location)
  /-- The list `futureShownViews` of containment ids. -/
  shownViews : List Nat
  deriving DecidableEq, Repr

/-- The entry `m_latteViews[containment]`. -/
def viewOf (s : ActiveLayout) (containment : Containment) : Option View :=
  s.latteViews.find? (fun view => view.containment = containment)

/-- The "valid screen id" of both steps of `syncLatteViewsToScreens`.  The `none`
branch is not reached: `latteViewExists` has just found the key. -/
def syncScreenId (env : Corona) (s : ActiveLayout) (containment : Containment) : Int :=
  if latteViewExists s containment = true then
    match viewOf s containment with
    | some view => view.currentScreenId env
    | none => 0
  else containmentScreenId containment

/-- The "valid onPrimary flag" of both steps of `syncLatteViewsToScreens`.  The `none`
branch is not reached: `latteViewExists` has just found the key. -/
def syncOnPrimary (s : ActiveLayout) (containment : Containment) : Bool :=
  if latteViewExists s containment = true then
    match viewOf s containment with
    | some view => view.onPrimary
    | none => true
  else containment.onPrimary

/-- Body of the first loop of `syncLatteViewsToScreens`: primary docks take the free
edges of the primary screen. -/
def syncFirstStep (env : Corona) (s : ActiveLayout) (future : FutureViews)
    (containment : Containment) : FutureViews :=
  if isLatteContainment (some containment) = true then
    let onPrimary := syncOnPrimary s containment
    let location := containment.location
    if onPrimary = true ∧ (env.primaryScreen, location) ∉ future.docksLocations then
      { docksLocations := future.docksLocations ++ [(env.primaryScreen, location)]
        shownViews := future.shownViews ++ [containment.id] }
    else future
  else future

/-- Body of the second loop of `syncLatteViewsToScreens`: explicit docks take the free
edges of their screens. -/
def syncSecondStep (env : Corona) (s : ActiveLayout) (future : FutureViews)
    (containment : Containment) : FutureViews :=
  if isLatteContainment (some containment) = true then
    let screenId := syncScreenId env s containment
    let onPrimary := syncOnPrimary s containment
    let location := containment.location
    if onPrimary = false then
      let expScreenName := env.connector screenId
      if env.screenExists screenId = true ∧ (expScreenName, location) ∉ future.docksLocations then
        { docksLocations := future.docksLocations ++ [(expScreenName, location)]
          shownViews := future.shownViews ++ [containment.id] }
      else future
    else future
  else future

/-- The two targeting loops of `syncLatteViewsToScreens`. -/
def futureViews (env : Corona) (s : ActiveLayout) : FutureViews :=
  s.containments.foldl (syncSecondStep env s)
    (s.containments.foldl (syncFirstStep env s) { docksLocations := [], shownViews := [] })

/-- Body of the "add views" loop of `syncLatteViewsToScreens`. -/
def syncAddStep (env : Corona) (futureShownViews : List Nat) (s : ActiveLayout)
    (containment : Containment) : ActiveLayout :=
  if latteViewExists s containment = false ∧ containment.id ∈ futureShownViews then
    addView env s (some containment) false (-1)
  else s

/-- The "remove views" loop of `syncLatteViewsToScreens`. -/
def syncRemoveViews (futureShownViews : List Nat) (s : ActiveLayout) : ActiveLayout :=
  { s with
    latteViews := s.latteViews.filter (fun view => view.containment.id ∈ futureShownViews)
    log := s.log ++
      (s.latteViews.filter (fun view => view.containment.id ∉ futureShownViews)).map Event.removed }

/-- Modelled from the spec: `Latte::View::reconsiderScreen` (view.cpp and positioner.cpp
are not under src/).  "An onPrimary definition always binds to whichever screen is
currently flagged primary; when the primary screen changes, `syncToScreens` must move
(not duplicate) its bound view"; a pinned view stays on its screen. -/
def View.reconsiderScreen (env : Corona) (view : View) : View :=
  if view.onPrimary = true then { view with screen := env.primaryScreen } else view

/-- The "reconsider views" loop of `syncLatteViewsToScreens`. -/
def syncReconsiderViews (env : Corona) (futureShownViews : List Nat) (s : ActiveLayout) :
    ActiveLayout :=
  { s with
    latteViews := s.latteViews.map (fun view =>
      if view.containment.id ∈ futureShownViews then view.reconsiderScreen env else view) }

/-- `ActiveLayout::syncLatteViewsToScreens`. -/
def syncLatteViewsToScreens (env : Corona) (s : ActiveLayout) : ActiveLayout :=
  if s.corona = false then s
  else
    let future := futureViews env s
    let s1 := s.containments.foldl (syncAddStep env future.shownViews) s
    let s2 := syncRemoveViews future.shownViews s1
    syncReconsiderViews env future.shownViews s2

/-- The operations on the views of a layout. -/
inductive Op where
  | addContainment (containment : Containment)
  | addView (containment : Containment) (forceOnPrimary : Bool) (explicitScreen : Int)
  | containmentDestroyed (containment : Containment)
  | syncLatteViewsToScreens
  deriving DecidableEq, Repr

/-- One operation, run with the screens as they are at that moment. -/
def Op.apply (env : Corona) (s : ActiveLayout) : Op → ActiveLayout
  | Op.addContainment c => Latte.addContainment env s (some c)
  | Op.addView c forceOnPrimary explicitScreen =>
    Latte.addView env s (some c) forceOnPrimary explicitScreen
  | Op.containmentDestroyed c => Latte.containmentDestroyed s (some c)
  | Op.syncLatteViewsToScreens => Latte.syncLatteViewsToScreens env s

/-- A sequence of operations, each paired with the screens in force when it runs:
screens may connect, disconnect and change primary between any two operations. -/
def runOps (s : ActiveLayout) (ops : List (Corona × Op)) : ActiveLayout :=
  ops.foldl (fun st step => step.2.apply step.1 st) s

/-- No two entries of the live set are bound to the same screen with the same edge. -/
def NoSharedEdge (s : ActiveLayout) : Prop :=
  s.latteViews.Pairwise (fun v w => ¬ (v.screen = w.screen ∧ v.location = w.location))

instance (s : ActiveLayout) : Decidable (NoSharedEdge s) := by
  unfold NoSharedEdge; infer_instance

/-- A two-screen setup: `eDP-1` (pool id 0, primary) and `HDMI-1` (pool id 1). -/
def demoCorona : Corona :=
  { screens := ["eDP-1", "HDMI-1"]
    primaryScreen := "eDP-1"
    connector := fun i => if i = 0 then "eDP-1" else if i = 1 then "HDMI-1" else ""
    poolId := fun name => if name = "eDP-1" then 0 else if name = "HDMI-1" then 1 else -1
    primaryScreenId := 0
    screenExists := fun i => decide (i = 0 ∨ i = 1)
    screenForId := fun i => if i = 0 then some "eDP-1" else if i = 1 then some "HDMI-1" else none
    memoryUsage := MemoryUsage.SingleLayout }

/-- The same pool with `HDMI-1` disconnected. -/
def demoCoronaSingle : Corona :=
  { demoCorona with
    screens := ["eDP-1"]
    screenExists := fun i => decide (i = 0)
    screenForId := fun i => if i = 0 then some "eDP-1" else none }

/-- A Latte panel definition with the given id, onPrimary flag, stored screen id and edge. -/
def demoDock (id : Nat) (onPrimary : Bool) (lastScreen : Int) (location : Location) : Containment :=
  { id := id
    pluginId := "org.kde.latte.containment"
    packageValid := true
    onPrimary := onPrimary
    screen := -1
    lastScreen := lastScreen
    location := location
    visibility := Visibility.DodgeActive
    byPassWM := false
    layoutId := "" }

/-- A layout attached to a corona, holding the given containments and no view. -/
def demoLayout (containments : List Containment) : ActiveLayout :=
  { corona := true
    layoutName := "demo"
    blockAutomaticLatteViewCreation := false
    containments := containments
    latteViews := []
    waitingLatteViews := []
    log := [] }

/-- A layout with the live view of an onPrimary dock on the bottom edge. -/
def demoPrimaryLive : ActiveLayout :=
  addView demoCorona (demoLayout [demoDock 1 true 0 Location.BottomEdge])
    (some (demoDock 1 true 0 Location.BottomEdge)) false (-1)

/-- A layout with the live view of an explicit dock on the bottom edge of `eDP-1`. -/
def demoExplicitLive : ActiveLayout :=
  addView demoCorona (demoLayout [demoDock 1 false 0 Location.BottomEdge])
    (some (demoDock 1 false 0 Location.BottomEdge)) false (-1)

/-- The slot (screen name, edge) the targeting loops of `syncLatteViewsToScreens`
reserve for a containment they target. -/
def syncSlot (env : Corona) (s : ActiveLayout) (containment : Containment) : String × Location :=
  (if syncOnPrimary s containment = true then env.primaryScreen
    else env.connector (syncScreenId env s containment), containment.location)

/-- The containments `targets` account for the reservations of `future`: ids and slots
in the same order, no slot reserved twice, every target a Latte containment of the layout. -/
def TargetList (env : Corona) (s : ActiveLayout) (future : FutureViews)
    (targets : List Containment) : Prop :=
  future.shownViews = targets.map Containment.id
    ∧ future.docksLocations = targets.map (syncSlot env s)
    ∧ future.docksLocations.Nodup
    ∧ ∀ c ∈ targets, c ∈ s.containments ∧ isLatteContainment (some c) = true

/-- The screen pool agrees with itself and with the primary screen: ids of connected
screens are not negative and translate back and forth with connector names, and the
primary screen id is the id of the primary screen. -/
structure Corona.Consistent (env : Corona) : Prop where
  nonneg_of_exists : ∀ i, env.screenExists i = true → 0 ≤ i
  poolId_connector : ∀ i, env.screenExists i = true → env.poolId (env.connector i) = i
  connector_poolId : ∀ name, env.screenExists (env.poolId name) = true →
    env.connector (env.poolId name) = name
  primary_nonneg : 0 ≤ env.primaryScreenId
  primary_connector : env.connector env.primaryScreenId = env.primaryScreen

/-- The live set is a hash keyed by containment, views exist only in a layout attached
to its corona, and an id belongs to one containment. -/
structure ActiveLayout.Keyed (s : ActiveLayout) : Prop where
  attached : s.corona = false → s.latteViews = []
  keys_nodup : (s.latteViews.map View.containment).Nodup
  ids : ∀ c ∈ s.containments ++ s.latteViews.map View.containment,
    ∀ d ∈ s.containments ++ s.latteViews.map View.containment, c.id = d.id → c = d

/-- A view mirrors its definition: it carries the onPrimary flag of the definition and,
when explicit, sits on the screen whose id the definition reports, unless the definition
reports no screen (a negative id). -/
def View.Mirrors (env : Corona) (v : View) : Prop :=
  v.onPrimary = v.containment.onPrimary
    ∧ (v.onPrimary = false →
        v.currentScreenId env = containmentScreenId v.containment
          ∨ containmentScreenId v.containment < 0)

/-- The layout is keyed and every live view mirrors its definition. -/
structure ActiveLayout.Coherent (env : Corona) (s : ActiveLayout) : Prop where
  keyed : s.Keyed
  mirrors : ∀ v ∈ s.latteViews, v.Mirrors env

/-- The pool gives the screen of a connected connector the id the connector stands
for. -/
def Corona.ConnectedIds (env : Corona) : Prop :=
  ∀ i, env.connector i ∈ env.screens → env.poolId (env.connector i) = i

/-- The operations that take the screen of a view from its definition: every operation
but an `addView` that forces onPrimary or names a screen other than the stored one. -/
def Op.storedScreen : Op → Bool
  | Op.addView c forceOnPrimary explicitScreen =>
    !forceOnPrimary
      && (decide (explicitScreen = -1) || decide (explicitScreen = containmentScreenId c))
  | _ => true

/-- An explicit containment on the primary screen id whose edge an onPrimary Latte
containment of the layout has: the views `addView` evicts for that containment. -/
def Evictee (env : Corona) (s : ActiveLayout) (c : Containment) : Prop :=
  c.onPrimary = false ∧ env.primaryScreenId = containmentScreenId c
    ∧ ∃ d ∈ s.containments, isLatteContainment (some d) = true ∧ d.onPrimary = true
        ∧ d.location = c.location

/-- A view the "add views" loop creates: for a targeted containment of the layout that
had no view, on the screen `addView` picks. -/
def Fresh (env : Corona) (s : ActiveLayout) (shown : List Nat) (v : View) : Prop :=
  v.containment ∈ s.containments ∧ v.containment.id ∈ shown
    ∧ (∀ u ∈ s.latteViews, u.containment ≠ v.containment)
    ∧ ∃ scr, addViewTarget env s v.containment false (-1) = some scr
        ∧ v = newView v.containment scr false

/-- A containment for which `addView` creates nothing, whatever the live views are. -/
def Rejected (env : Corona) (s : ActiveLayout) (c : Containment) : Prop :=
  c.packageValid = false ∨ isLatteContainment (some c) = false
    ∨ addViewTarget env s c false (-1) = none

/-- What holds of the layout `st` inside the "add views" loop of
`syncLatteViewsToScreens` started from `s`, after the containments `processed`. -/
structure SyncInv (env : Corona) (s : ActiveLayout) (shown : List Nat)
    (processed : List Containment) (st : ActiveLayout) : Prop where
  corona : st.corona = s.corona
  layoutName : st.layoutName = s.layoutName
  block : st.blockAutomaticLatteViewCreation = s.blockAutomaticLatteViewCreation
  containments : st.containments = s.containments
  waiting : st.waitingLatteViews = s.waitingLatteViews
  keys_nodup : (st.latteViews.map View.containment).Nodup
  origin : ∀ v ∈ st.latteViews, v ∈ s.latteViews ∨ Fresh env s shown v
  kept : ∀ u ∈ s.latteViews, u ∈ st.latteViews ∨ Evictee env s u.containment
  trace : ∃ events, st.log = s.log ++ events
    ∧ (∀ ev ∈ events, ev = Event.viewsCountChanged
        ∨ (∃ u ∈ s.latteViews, ev = Event.removed u ∧ Evictee env s u.containment)
        ∨ (∃ w, Fresh env s shown w ∧ (ev = Event.constructed w ∨ ev = Event.registered w)))
    ∧ (∀ u ∈ s.latteViews, u ∈ st.latteViews ∨ Event.removed u ∈ events)
  done : ∀ c ∈ processed, c.id ∈ shown →
    (∃ v ∈ st.latteViews, v.containment = c) ∨ Rejected env s c

/-- The containment an operation is about. -/
def Op.subject : Op → Option Containment
  | Op.addContainment c => some c
  | Op.addView c _ _ => some c
  | Op.containmentDestroyed c => some c
  | Op.syncLatteViewsToScreens => none

/-- The containments a sequence of operations mentions. -/
def opsContainments (ops : List (Corona × Op)) : List Containment :=
  ops.filterMap (fun step => step.2.subject)

/-- The layout only knows containments of `known`, keeps its live set keyed, and has
views only when attached to its corona. -/
structure Within (known : List Containment) (s : ActiveLayout) : Prop where
  attached : s.corona = false → s.latteViews = []
  keys_nodup : (s.latteViews.map View.containment).Nodup
  containments : ∀ c ∈ s.containments, c ∈ known
  keys : ∀ v ∈ s.latteViews, v.containment ∈ known

/-- Three docks added to an empty layout over `demoCorona`: two onPrimary docks that
both have the bottom edge, and an explicit dock pinned to `HDMI-1` on the left edge. -/
def demoCrowded : ActiveLayout :=
  runOps (demoLayout [])
    [(demoCorona, Op.addContainment (demoDock 1 true 0 Location.BottomEdge)),
     (demoCorona, Op.addContainment (demoDock 2 true 0 Location.BottomEdge)),
     (demoCorona, Op.addContainment (demoDock 3 false 1 Location.LeftEdge))]

/-- An explicit dock stored on `HDMI-1` that `addView` was told to force onPrimary,
next to the live onPrimary dock that has the same edge. -/
def demoForced : ActiveLayout :=
  runOps (demoLayout [demoDock 1 true 0 Location.BottomEdge,
      demoDock 2 false 1 Location.BottomEdge])
    [(demoCorona, Op.addView (demoDock 1 true 0 Location.BottomEdge) false (-1)),
     (demoCorona, Op.addView (demoDock 2 false 1 Location.BottomEdge) true (-1))]

/-- An explicit dock stored on the primary screen `eDP-1` whose view `addView` was told
to put on `HDMI-1`, next to an onPrimary dock with the same edge that has no view yet. -/
def demoMoved : ActiveLayout :=
  runOps (demoLayout [demoDock 1 true 0 Location.BottomEdge,
      demoDock 2 false 0 Location.BottomEdge])
    [(demoCorona, Op.addView (demoDock 2 false 0 Location.BottomEdge) false 1)]

/-- The index loops of `viewAtLowerScreenPriority` and `viewAtLowerEdgePriority`: the
priority of `x` is the last index `i`, counted from `i`, at which `items` holds `x`, and
`priority` when no index does. -/
def priorityFrom {α : Type} [DecidableEq α] (x : α) : List α → Int → Int → Int
  | [], _, priority => priority
  | item :: items, i, priority => priorityFrom x items (i + 1) (if item = x then i else priority)

/-- The value `basePriority` / `testPriority` of `viewAtLowerScreenPriority` for a screen:
its index in `qGuiApp->screens()`, `-1` when it is not there. -/
def screenPriority (env : Corona) (screen : String) : Int :=
  priorityFrom screen env.screens 0 (-1)

/-- The value `basePriority` / `testPriority` of `viewAtLowerEdgePriority` for a location:
its index in the list Right, Top, Left, Bottom, `-1` when it is not there. -/
def edgePriority (location : Location) : Int :=
  priorityFrom location
    [Location.RightEdge, Location.TopEdge, Location.LeftEdge, Location.BottomEdge] 0 (-1)

/-- `ActiveLayout::viewAtLowerScreenPriority`; `none` is the null view. -/
def viewAtLowerScreenPriority (env : Corona) (test base : Option View) : Bool :=
  match test, base with
  | some test, some base =>
    if base.screen = test.screen then false
    else if base.screen ≠ env.primaryScreen ∧ test.screen = env.primaryScreen then false
    else if base.screen = env.primaryScreen ∧ test.screen ≠ env.primaryScreen then true
    else
      let basePriority := screenPriority env base.screen
      let testPriority := screenPriority env test.screen
      if testPriority ≤ basePriority then true else false
  | _, _ => true

/-- `ActiveLayout::viewAtLowerEdgePriority`; `none` is the null view. -/
def viewAtLowerEdgePriority (test base : Option View) : Bool :=
  match test, base with
  | some test, some base =>
    let testPriority := edgePriority test.location
    let basePriority := edgePriority base.location
    if testPriority < basePriority then true else false
  | _, _ => true

/-- The swap test of the sorting loops of `sortedLatteViews` for `sortedViews[j]` and
`sortedViews[j + 1]`. -/
def sortSwaps (env : Corona) (current next : View) : Bool :=
  viewAtLowerScreenPriority env (some current) (some next)
    || (decide (current.screen = next.screen)
        && viewAtLowerEdgePriority (some current) (some next))

/-- The inner sorting loop of `sortedLatteViews`: `count` comparisons of neighbours from
the front of the list, each swapping the pair when `swaps` says so. -/
def bubblePass (swaps : View → View → Bool) : Nat → List View → List View
  | count + 1, current :: next :: rest =>
    if swaps current next then next :: bubblePass swaps count (current :: rest)
    else current :: bubblePass swaps count (next :: rest)
  | _, views => views

/-- The two sorting loops of `sortedLatteViews`: pass `i` makes `size - i - 1`
comparisons. -/
def bubbleSort (swaps : View → View → Bool) (views : List View) : List View :=
  (List.range views.length).foldl
    (fun sortedViews i => bubblePass swaps (views.length - i - 1) sortedViews) views

/-- The loop of `sortedLatteViews` that looks for the first view preferred for shortcuts
and takes it out of the list. -/
def takePreferred (isPreferredForShortcuts : View → Bool) :
    List View → Option (View × List View)
  | [] => none
  | view :: views =>
    if isPreferredForShortcuts view = true then some (view, views)
    else (takePreferred isPreferredForShortcuts views).map (fun found => (found.1, view :: found.2))

/-- `ActiveLayout::sortedLatteViews`.  `view->isPreferredForShortcuts()` belongs to
`Latte::View`, which is not under src/: it is the parameter `isPreferredForShortcuts`. -/
def sortedLatteViews (env : Corona) (isPreferredForShortcuts : View → Bool)
    (s : ActiveLayout) : List View :=
  let sortedViews := bubbleSort (sortSwaps env) s.latteViews
  match takePreferred isPreferredForShortcuts sortedViews with
  | some (highestPriorityView, others) => highestPriorityView :: others
  | none => sortedViews

/-- `ActiveLayout::highestPriorityView`; `none` is the null view. -/
def highestPriorityView (env : Corona) (isPreferredForShortcuts : View → Bool)
    (s : ActiveLayout) : Option View :=
  (sortedLatteViews env isPreferredForShortcuts s).head?

/-- The place of an edge in the order Bottom, Left, Top, Right; other locations come last. -/
def edgeOrder : Location → Nat
  | Location.BottomEdge => 0
  | Location.LeftEdge => 1
  | Location.TopEdge => 2
  | Location.RightEdge => 3
  | _ => 4

/-- Three screens in enumeration order `eDP-1` (primary), `HDMI-1`, `DP-1`. -/
def demoCoronaTriple : Corona :=
  { screens := ["eDP-1", "HDMI-1", "DP-1"]
    primaryScreen := "eDP-1"
    connector := fun i =>
      if i = 0 then "eDP-1" else if i = 1 then "HDMI-1" else if i = 2 then "DP-1" else ""
    poolId := fun name =>
      if name = "eDP-1" then 0 else if name = "HDMI-1" then 1 else if name = "DP-1" then 2 else -1
    primaryScreenId := 0
    screenExists := fun i => decide (i = 0 ∨ i = 1 ∨ i = 2)
    screenForId := fun i =>
      if i = 0 then some "eDP-1" else if i = 1 then some "HDMI-1"
      else if i = 2 then some "DP-1" else none
    memoryUsage := MemoryUsage.SingleLayout }

/-- A layout with the views of four explicit docks: bottom of `HDMI-1`, bottom of `DP-1`,
top and left of `eDP-1`. -/
def demoSpread : ActiveLayout :=
  runOps (demoLayout [])
    [(demoCoronaTriple, Op.addContainment (demoDock 1 false 1 Location.BottomEdge)),
     (demoCoronaTriple, Op.addContainment (demoDock 2 false 2 Location.BottomEdge)),
     (demoCoronaTriple, Op.addContainment (demoDock 3 false 0 Location.TopEdge)),
     (demoCoronaTriple, Op.addContainment (demoDock 4 false 0 Location.LeftEdge))]

/-- The rank `sortedLatteViews` sorts by, highest first: the primary screen above every
index of `qGuiApp->screens()`, then the index of the screen, then the edge priority. -/
def sortKey (env : Corona) (view : View) : Int :=
  (if view.screen = env.primaryScreen then (env.screens.length : Int)
    else screenPriority env view.screen) * 8 + (edgePriority view.location + 1)

/-- Views in the order of screens and edges: no view of another screen before a view of
the primary screen, and on one screen the edges in the order Bottom, Left, Top, Right. -/
def ScreenEdgeOrdered (env : Corona) (views : List View) : Prop :=
  views.Pairwise (fun a b =>
    (b.screen = env.primaryScreen → a.screen = env.primaryScreen)
      ∧ (a.screen = b.screen → edgeOrder a.location ≤ edgeOrder b.location))

/-! ## The visibility manager (`app/view/visibilitymanager.cpp`)

The members of the class, its functions and the lambdas of its connections. Left out:
`hide` and `show` (they only call `setVisible` on the view), `saveConfig`,
`applyActivitiesToHiddenWindows`, the destructor, and the panel behaviour set on the
Wayland surface in `setMode`; none of them reads or writes a member. The header with
the initial values of the members is not under src/, so no initial state is fixed:
the theorems hold from every state they describe. -/

/-- A single-shot `QTimer`: whether it is pending, and its interval in milliseconds. -/
structure Timer where
  isActive : Bool
  interval : Int
  deriving DecidableEq, Repr

namespace Timer

/-- The call `QTimer::start()`. -/
def start (timer : Timer) : Timer :=
  { timer with isActive := true }

/-- The call `QTimer::stop()`. -/
def stop (timer : Timer) : Timer :=
  { timer with isActive := false }

/-- The call `QTimer::setInterval(msec)`. -/
def setInterval (timer : Timer) (msec : Int) : Timer :=
  { timer with interval := msec }

end Timer

/-- The value a 32-bit `int` holds after an arithmetic result `x` wraps around. -/
def wrapInt32 (x : Int) : Int :=
  (x + 2 ^ 31) % 2 ^ 32 - 2 ^ 31

/-- The template `qBound(min, val, max)` of Qt: `qMax(min, qMin(max, val))`. -/
def qBound (lowest val highest : Int) : Int :=
  max lowest (min highest val)

/-- What the manager emits or calls on the window manager, in the order it happens: its
own signals, the struts and edge-state calls on `m_wm`, the write of the `visibility`
entry of the containment configuration, and a failed `Q_ASSERT_X` (which a release
build compiles out, so the run goes on). -/
inductive Emission where
  | mustBeShown
  | mustBeHide
  | isHiddenChanged
  | blockHidingChanged
  | containsMouseChanged
  | modeChanged
  | raiseOnDesktopChanged
  | raiseOnActivityChanged
  | timerShowChanged
  | timerHideChanged
  | enableKWinEdgesChanged
  | supportsKWinEdgesChanged
  | setViewStruts
  | removeViewStruts
  | setEdgeStateFor (active : Bool)
  | setViewExtraFlags (ghostWindow : Bool)
  | writeVisibility (mode : Visibility)
  | assertFailed
  deriving DecidableEq, Repr

/-- The signals the connections of `m_connections` and `m_connectionsKWinEdges` listen
to. -/
inductive Sender where
  | currentDesktopChanged
  | currentActivityChanged
  | consumerCurrentActivityChanged
  | activitiesChanged
  | containsMouseChanged
  | activeWindowTouchingChanged
  | activeWindowMaximizedChanged
  | existsWindowTouchingChanged
  deriving DecidableEq, Repr

/-- The slots and lambdas those connections run. -/
inductive Slot where
  | desktopChange
  | activityChange
  | updateStruts
  | raiseViewContainsMouse
  | dodgeActive
  | dodgeMaximized
  | dodgeAllWindows
  | edgeState
  deriving DecidableEq, Repr

/-- A live `QMetaObject::Connection`. -/
structure Connection where
  sender : Sender
  slot : Slot
  deriving DecidableEq, Repr

/-- Modelled from the spec: the window tracker of the view (its class is not under src/),
three boolean readings `activeWindowTouching`, `activeWindowMaximized` and
`existsWindowTouching`, each with a change signal. -/
structure WindowsTracker where
  activeWindowTouching : Bool
  activeWindowMaximized : Bool
  existsWindowTouching : Bool
  deriving DecidableEq, Repr

/-- The entries `restoreConfig` reads from the containment configuration; `none` is an
absent key. -/
structure Config where
  timerShow : Option Int
  timerHide : Option Int
  enableKWinEdges : Option Bool
  raiseOnDesktopChange : Option Bool
  raiseOnActivityChange : Option Bool
  visibility : Option Visibility
  deriving DecidableEq, Repr

/-- The members of `VisibilityManager` (`m_mode`, `m_isHidden`, ...), the pending single
shot of `raiseViewTemporarily` with its duration, the live connections in the order they
were made, what the manager reads from its surroundings (window tracker, memory usage of
the layout manager, whether the view has a containment and a screen, whether its layout
is the current one), and the trace of what it has emitted. -/
structure VisibilityManager where
  mode : Visibility
  isHidden : Bool
  dragEnter : Bool
  blockHiding : Bool
  containsMouse : Bool
  raiseTemporarily : Bool
  hideNow : Bool
  raiseOnDesktopChange : Bool
  raiseOnActivityChange : Bool
  enableKWinEdgesFromUser : Bool
  edgeGhostWindow : Bool
  timerShow : Timer
  timerHide : Timer
  timerStartUp : Timer
  singleShot : Option Int
  connections : List Connection
  tracker : WindowsTracker
  memoryUsage : MemoryUsage
  viewOnScreen : Bool
  managedLayoutIsCurrent : Bool
  managedLayoutIsNamedCurrent : Bool
  emitted : List Emission
  deriving DecidableEq, Repr

/-- The types of `QEvent` that `viewEventManager` tells apart. -/
inductive QEvent where
  | Enter
  | Leave
  | DragEnter
  | DragLeave
  | Drop
  | Show
  | Other
  deriving DecidableEq, Repr

namespace VisibilityManager

/-- An `emit`, or a call on `m_wm`, appended to the trace. -/
def emit (s : VisibilityManager) (emission : Emission) : VisibilityManager :=
  { s with emitted := s.emitted ++ [emission] }

/-- A `connect` stored in `m_connections` or `m_connectionsKWinEdges`. -/
def connect (s : VisibilityManager) (sender : Sender) (slot : Slot) : VisibilityManager :=
  { s with connections := s.connections ++ [{ sender := sender, slot := slot }] }

def updateStrutsBasedOnLayoutsAndActivities (s : VisibilityManager) : VisibilityManager :=
  let multipleLayoutsAndCurrent :=
    decide (s.memoryUsage = MemoryUsage.MultipleLayouts) && s.managedLayoutIsCurrent
  if s.memoryUsage = MemoryUsage.SingleLayout ∨ multipleLayoutsAndCurrent = true then
    s.emit Emission.setViewStruts
  else
    s.emit Emission.removeViewStruts

def supportsKWinEdges (s : VisibilityManager) : Bool :=
  s.edgeGhostWindow

/-- The value of `inCurrentLayout` in `updateGhostWindowState` and in the lambda of
`m_connectionsKWinEdges[0]`. -/
def inCurrentLayout (s : VisibilityManager) : Bool :=
  decide (s.memoryUsage = MemoryUsage.SingleLayout)
    || (decide (s.memoryUsage = MemoryUsage.MultipleLayouts) && s.managedLayoutIsNamedCurrent)

def updateGhostWindowState (s : VisibilityManager) : VisibilityManager :=
  if s.supportsKWinEdges then
    if s.inCurrentLayout then s.emit (Emission.setEdgeStateFor s.isHidden)
    else s.emit (Emission.setEdgeStateFor false)
  else s

def setRaiseOnDesktop (s : VisibilityManager) (enable : Bool) : VisibilityManager :=
  if enable = s.raiseOnDesktopChange then s
  else ({ s with raiseOnDesktopChange := enable }).emit Emission.raiseOnDesktopChanged

def setRaiseOnActivity (s : VisibilityManager) (enable : Bool) : VisibilityManager :=
  if enable = s.raiseOnActivityChange then s
  else ({ s with raiseOnActivityChange := enable }).emit Emission.raiseOnActivityChanged

def setIsHidden (s : VisibilityManager) (isHidden : Bool) : VisibilityManager :=
  if s.isHidden = isHidden then s
  else if s.blockHiding && isHidden then s
  else (({ s with isHidden := isHidden }).updateGhostWindowState).emit Emission.isHiddenChanged

def setTimerShow (s : VisibilityManager) (msec : Int) : VisibilityManager :=
  ({ s with timerShow := s.timerShow.setInterval msec }).emit Emission.timerShowChanged

def setTimerHide (s : VisibilityManager) (msec : Int) : VisibilityManager :=
  ({ s with timerHide := s.timerHide.setInterval msec }).emit Emission.timerHideChanged

def raiseView (s : VisibilityManager) (raise : Bool) : VisibilityManager :=
  if s.blockHiding then s
  else if raise then
    let s := { s with timerHide := s.timerHide.stop }
    if !s.timerShow.isActive then { s with timerShow := s.timerShow.start } else s
  else if !s.dragEnter then
    let s := { s with timerShow := s.timerShow.stop }
    if s.hideNow then ({ s with hideNow := false }).emit Emission.mustBeHide
    else if !s.timerHide.isActive then { s with timerHide := s.timerHide.start }
    else s
  else s

def dodgeActive (s : VisibilityManager) : VisibilityManager :=
  if s.raiseTemporarily then s
  else if s.containsMouse then s.raiseView true
  else s.raiseView (!s.tracker.activeWindowTouching)

def dodgeMaximized (s : VisibilityManager) : VisibilityManager :=
  if s.raiseTemporarily then s
  else if s.containsMouse then s.raiseView true
  else s.raiseView (!s.tracker.activeWindowMaximized)

def dodgeAllWindows (s : VisibilityManager) : VisibilityManager :=
  if s.raiseTemporarily then s
  else
    let s := if s.containsMouse then s.raiseView true else s
    let windowIntersects := s.tracker.activeWindowTouching || s.tracker.existsWindowTouching
    s.raiseView (!windowIntersects)

def updateHiddenState (s : VisibilityManager) : VisibilityManager :=
  if s.dragEnter then s
  else
    match s.mode with
    | Visibility.AutoHide => s.raiseView s.containsMouse
    | Visibility.DodgeActive => s.dodgeActive
    | Visibility.DodgeMaximized => s.dodgeMaximized
    | Visibility.DodgeAllWindows => s.dodgeAllWindows
    | _ => s

def setBlockHiding (s : VisibilityManager) (blockHiding : Bool) : VisibilityManager :=
  if s.blockHiding = blockHiding then s
  else
    let s := { s with blockHiding := blockHiding }
    let s :=
      if s.blockHiding then
        let s := { s with timerHide := s.timerHide.stop }
        if s.isHidden then s.emit Emission.mustBeShown else s
      else s.updateHiddenState
    s.emit Emission.blockHidingChanged

/-- The duration handed to `QTimer::singleShot` in `raiseViewTemporarily`; the product
is computed in a 32-bit `int`. -/
def raiseTemporarilyInterval (s : VisibilityManager) : Int :=
  qBound 1800 (wrapInt32 (2 * s.timerHide.interval)) 3000

/-- The body of `raiseViewTemporarily` up to the scheduling of the single shot. At most
one single shot is pending: the call returns at once while `m_raiseTemporarily` is set,
and only the single shot clears it. -/
def raiseViewTemporarily (s : VisibilityManager) : VisibilityManager :=
  if s.raiseTemporarily then s
  else
    let s := { s with raiseTemporarily := true }
    let s := { s with timerHide := s.timerHide.stop }
    let s := { s with timerShow := s.timerShow.stop }
    let s := if s.isHidden then s.emit Emission.mustBeShown else s
    { s with singleShot := some s.raiseTemporarilyInterval }

/-- The lambda `raiseViewTemporarily` hands to `QTimer::singleShot`, run when the
single shot is due. -/
def singleShotTimeout (s : VisibilityManager) : VisibilityManager :=
  match s.singleShot with
  | none => s
  | some _ =>
    let s := { s with singleShot := none }
    let s := { s with raiseTemporarily := false }
    let s := { s with hideNow := true }
    s.updateHiddenState

/-- The lambda connected to `m_timerShow`, run when the pending timer is due. -/
def timerShowTimeout (s : VisibilityManager) : VisibilityManager :=
  if s.timerShow.isActive then
    let s := { s with timerShow := s.timerShow.stop }
    if s.isHidden then s.emit Emission.mustBeShown else s
  else s

/-- The lambda connected to `m_timerHide`, run when the pending timer is due. -/
def timerHideTimeout (s : VisibilityManager) : VisibilityManager :=
  if s.timerHide.isActive then
    let s := { s with timerHide := s.timerHide.stop }
    if !s.blockHiding && !s.isHidden && !s.dragEnter then s.emit Emission.mustBeHide else s
  else s

/-- What a connection of the manager runs. -/
def runSlot (s : VisibilityManager) : Slot → VisibilityManager
  | Slot.desktopChange => if s.raiseOnDesktopChange then s.raiseViewTemporarily else s
  | Slot.activityChange =>
    if s.raiseOnActivityChange then s.raiseViewTemporarily else s.updateHiddenState
  | Slot.updateStruts => s.updateStrutsBasedOnLayoutsAndActivities
  | Slot.raiseViewContainsMouse => s.raiseView s.containsMouse
  | Slot.dodgeActive => s.dodgeActive
  | Slot.dodgeMaximized => s.dodgeMaximized
  | Slot.dodgeAllWindows => s.dodgeAllWindows
  | Slot.edgeState =>
    if s.edgeGhostWindow then
      if s.inCurrentLayout then s.emit (Emission.setEdgeStateFor s.isHidden)
      else s.emit (Emission.setEdgeStateFor false)
    else s

/-- The delivery of a signal: the slots connected to it run in the order of connection. -/
def signal (s : VisibilityManager) (sender : Sender) : VisibilityManager :=
  (s.connections.filter (fun c => decide (c.sender = sender))).foldl
    (fun s c => s.runSlot c.slot) s

def createEdgeGhostWindow (s : VisibilityManager) : VisibilityManager :=
  if !s.edgeGhostWindow then
    let s := { s with edgeGhostWindow := true }
    let s := s.emit (Emission.setViewExtraFlags true)
    let s := s.connect Sender.currentActivityChanged Slot.edgeState
    s.emit Emission.supportsKWinEdgesChanged
  else s

def deleteEdgeGhostWindow (s : VisibilityManager) : VisibilityManager :=
  if s.edgeGhostWindow then
    let s := { s with edgeGhostWindow := false }
    let s := { s with connections := s.connections.filter (fun c => decide (c.slot ≠ Slot.edgeState)) }
    s.emit Emission.supportsKWinEdgesChanged
  else s

def updateKWinEdgesSupport (s : VisibilityManager) : VisibilityManager :=
  if s.mode = Visibility.AutoHide ∨ s.mode = Visibility.DodgeActive
      ∨ s.mode = Visibility.DodgeAllWindows ∨ s.mode = Visibility.DodgeMaximized then
    if s.enableKWinEdgesFromUser then s.createEdgeGhostWindow
    else if !s.enableKWinEdgesFromUser then s.deleteEdgeGhostWindow
    else s
  else if s.mode = Visibility.AlwaysVisible ∨ s.mode = Visibility.WindowsGoBelow then
    s.deleteEdgeGhostWindow
  else s

def setEnableKWinEdges (s : VisibilityManager) (enable : Bool) : VisibilityManager :=
  if s.enableKWinEdgesFromUser = enable then s
  else
    let s := { s with enableKWinEdgesFromUser := enable }
    let s := s.emit Emission.enableKWinEdgesChanged
    s.updateKWinEdgesSupport

/-- The lambda `createEdgeGhostWindow` connects to the ghost window's
`containsMouseChanged`; the connection lives as long as the ghost window. -/
def ghostContainsMouseChanged (s : VisibilityManager) (contains : Bool) : VisibilityManager :=
  if s.edgeGhostWindow then
    if contains then s.raiseView true
    else ({ s with timerShow := s.timerShow.stop }).updateGhostWindowState
  else s

/-- The function `setMode`. The assertion tests the member `m_mode` before it is
assigned; `m_connections` is emptied by keeping only the connection of
`m_connectionsKWinEdges`. -/
def setMode (s : VisibilityManager) (mode : Visibility) : VisibilityManager :=
  if s.mode = mode then s
  else
    let s := if s.mode ≠ Visibility.None then s else s.emit Emission.assertFailed
    let s := { s with connections := s.connections.filter (fun c => decide (c.slot = Slot.edgeState)) }
    let s := if s.mode = Visibility.AlwaysVisible then s.emit Emission.removeViewStruts else s
    let s := { s with timerShow := s.timerShow.stop }
    let s := { s with timerHide := s.timerHide.stop }
    let s := { s with mode := mode }
    let s :=
      if mode ≠ Visibility.AlwaysVisible ∧ mode ≠ Visibility.WindowsGoBelow then
        (s.connect Sender.currentDesktopChanged Slot.desktopChange).connect
          Sender.currentActivityChanged Slot.activityChange
      else s
    let s :=
      match s.mode with
      | Visibility.AlwaysVisible =>
        let s := if s.viewOnScreen then s.updateStrutsBasedOnLayoutsAndActivities else s
        let s :=
          if s.memoryUsage = MemoryUsage.MultipleLayouts then
            (s.connect Sender.consumerCurrentActivityChanged Slot.updateStruts).connect
              Sender.activitiesChanged Slot.updateStruts
          else s
        s.raiseView true
      | Visibility.AutoHide =>
        let s := s.connect Sender.containsMouseChanged Slot.raiseViewContainsMouse
        s.raiseView s.containsMouse
      | Visibility.DodgeActive =>
        let s := s.connect Sender.containsMouseChanged Slot.dodgeActive
        let s := s.connect Sender.activeWindowTouchingChanged Slot.dodgeActive
        s.dodgeActive
      | Visibility.DodgeMaximized =>
        let s := s.connect Sender.containsMouseChanged Slot.dodgeMaximized
        let s := s.connect Sender.activeWindowMaximizedChanged Slot.dodgeActive
        s.dodgeMaximized
      | Visibility.DodgeAllWindows =>
        let s := s.connect Sender.containsMouseChanged Slot.dodgeAllWindows
        s.connect Sender.existsWindowTouchingChanged Slot.dodgeAllWindows
      | _ => s
    let s := s.emit (Emission.writeVisibility s.mode)
    let s := s.updateKWinEdgesSupport
    s.emit Emission.modeChanged

/-- The body of `restoreConfig`; `none` is a view without containment. The connections to
`userConfiguringChanged` (which save the configuration and shorten the start-up timer)
are left out. -/
def restoreConfig (s : VisibilityManager) (config : Option Config) : VisibilityManager :=
  match config with
  | none => s
  | some config =>
    let s := { s with timerShow := s.timerShow.setInterval (config.timerShow.getD 0) }
    let s := { s with timerHide := s.timerHide.setInterval (config.timerHide.getD 700) }
    let s := s.emit Emission.timerShowChanged
    let s := s.emit Emission.timerHideChanged
    let s := { s with enableKWinEdgesFromUser := config.enableKWinEdges.getD true }
    let s := s.emit Emission.enableKWinEdgesChanged
    let s := s.setRaiseOnDesktop (config.raiseOnDesktopChange.getD false)
    let s := s.setRaiseOnActivity (config.raiseOnActivityChange.getD false)
    let storedMode := config.visibility.getD Visibility.DodgeActive
    if storedMode = Visibility.AlwaysVisible then s.setMode Visibility.AlwaysVisible
    else { s with timerStartUp := s.timerStartUp.start }

/-- The lambda `restoreConfig` connects to `m_timerStartUp`; `fMode` is the `visibility`
entry read when the timer is due. -/
def timerStartUpTimeout (s : VisibilityManager) (fMode : Visibility) : VisibilityManager :=
  if s.timerStartUp.isActive then
    ({ s with timerStartUp := s.timerStartUp.stop }).setMode fMode
  else s

def setContainsMouse (s : VisibilityManager) (contains : Bool) : VisibilityManager :=
  if s.containsMouse = contains then s
  else
    let s := { s with containsMouse := contains }
    let s := s.emit Emission.containsMouseChanged
    let s := s.signal Sender.containsMouseChanged
    if contains = true ∧ s.mode ≠ Visibility.AlwaysVisible then s.raiseView true else s

def activeWindowDraggingStarted (s : VisibilityManager) : VisibilityManager :=
  (s.setContainsMouse false).updateHiddenState

def viewEventManager (s : VisibilityManager) : QEvent → VisibilityManager
  | QEvent.Enter => s.setContainsMouse true
  | QEvent.Leave => s.setContainsMouse false
  | QEvent.DragEnter =>
    let s := { s with dragEnter := true }
    if s.isHidden then s.emit Emission.mustBeShown else s
  | QEvent.DragLeave => ({ s with dragEnter := false }).updateHiddenState
  | QEvent.Drop => ({ s with dragEnter := false }).updateHiddenState
  | QEvent.Show => s.emit (Emission.setViewExtraFlags false)
  | QEvent.Other => s

/-- The lambda the constructor connects to `absoluteGeometryChanged`. -/
def absoluteGeometryChanged (s : VisibilityManager) : VisibilityManager :=
  if s.mode = Visibility.AlwaysVisible ∧ s.viewOnScreen = true then
    s.updateStrutsBasedOnLayoutsAndActivities
  else s

end VisibilityManager

/-- What can happen to a visibility manager: a call of one of its functions, an event of
the view, a signal of the window tracker (with the new reading) or of the window
manager, a signal of the ghost window, or a pending timer becoming due. -/
inductive Input where
  | setMode (mode : Visibility)
  | setRaiseOnDesktop (enable : Bool)
  | setRaiseOnActivity (enable : Bool)
  | setIsHidden (isHidden : Bool)
  | setBlockHiding (blockHiding : Bool)
  | setTimerShow (msec : Int)
  | setTimerHide (msec : Int)
  | setEnableKWinEdges (enable : Bool)
  | raiseView (raise : Bool)
  | raiseViewTemporarily
  | updateHiddenState
  | eventTriggered (ev : QEvent)
  | absoluteGeometryChanged
  | activeWindowDraggingStarted
  | activeWindowTouchingChanged (touching : Bool)
  | activeWindowMaximizedChanged (maximized : Bool)
  | existsWindowTouchingChanged (touching : Bool)
  | currentDesktopChanged
  | currentActivityChanged
  | consumerCurrentActivityChanged
  | activitiesChanged
  | ghostContainsMouseChanged (contains : Bool)
  | timerShowTimeout
  | timerHideTimeout
  | timerStartUpTimeout (fMode : Visibility)
  | singleShotTimeout
  deriving DecidableEq, Repr

namespace VisibilityManager

/-- One input handled to completion (all of it runs on the one UI thread). -/
def step (s : VisibilityManager) : Input → VisibilityManager
  | Input.setMode mode => s.setMode mode
  | Input.setRaiseOnDesktop enable => s.setRaiseOnDesktop enable
  | Input.setRaiseOnActivity enable => s.setRaiseOnActivity enable
  | Input.setIsHidden isHidden => s.setIsHidden isHidden
  | Input.setBlockHiding blockHiding => s.setBlockHiding blockHiding
  | Input.setTimerShow msec => s.setTimerShow msec
  | Input.setTimerHide msec => s.setTimerHide msec
  | Input.setEnableKWinEdges enable => s.setEnableKWinEdges enable
  | Input.raiseView raise => s.raiseView raise
  | Input.raiseViewTemporarily => s.raiseViewTemporarily
  | Input.updateHiddenState => s.updateHiddenState
  | Input.eventTriggered ev => s.viewEventManager ev
  | Input.absoluteGeometryChanged => s.absoluteGeometryChanged
  | Input.activeWindowDraggingStarted => s.activeWindowDraggingStarted
  | Input.activeWindowTouchingChanged touching =>
    ({ s with tracker := { s.tracker with activeWindowTouching := touching } }).signal
      Sender.activeWindowTouchingChanged
  | Input.activeWindowMaximizedChanged maximized =>
    ({ s with tracker := { s.tracker with activeWindowMaximized := maximized } }).signal
      Sender.activeWindowMaximizedChanged
  | Input.existsWindowTouchingChanged touching =>
    ({ s with tracker := { s.tracker with existsWindowTouching := touching } }).signal
      Sender.existsWindowTouchingChanged
  | Input.currentDesktopChanged => s.signal Sender.currentDesktopChanged
  | Input.currentActivityChanged => s.signal Sender.currentActivityChanged
  | Input.consumerCurrentActivityChanged => s.signal Sender.consumerCurrentActivityChanged
  | Input.activitiesChanged => s.signal Sender.activitiesChanged
  | Input.ghostContainsMouseChanged contains => s.ghostContainsMouseChanged contains
  | Input.timerShowTimeout => s.timerShowTimeout
  | Input.timerHideTimeout => s.timerHideTimeout
  | Input.timerStartUpTimeout fMode => s.timerStartUpTimeout fMode
  | Input.singleShotTimeout => s.singleShotTimeout

/-- A run of inputs, each handled to completion before the next. -/
def run (s : VisibilityManager) (inputs : List Input) : VisibilityManager :=
  inputs.foldl step s

/-- How many times `mustBeHide` has been emitted. -/
def mustBeHideCount (s : VisibilityManager) : Nat :=
  s.emitted.count Emission.mustBeHide

/-- How many times `mustBeShown` has been emitted. -/
def mustBeShownCount (s : VisibilityManager) : Nat :=
  s.emitted.count Emission.mustBeShown

end VisibilityManager

/-- A manager in mode `WindowsGoBelow` (which has no connection) with every flag cleared,
both timers idle, a view on a screen in single-layout memory usage, and an empty trace. -/
def demoManager : VisibilityManager :=
  { mode := Visibility.WindowsGoBelow
    isHidden := false
    dragEnter := false
    blockHiding := false
    containsMouse := false
    raiseTemporarily := false
    hideNow := false
    raiseOnDesktopChange := false
    raiseOnActivityChange := false
    enableKWinEdgesFromUser := true
    edgeGhostWindow := false
    timerShow := { isActive := false, interval := 0 }
    timerHide := { isActive := false, interval := 0 }
    timerStartUp := { isActive := false, interval := 5000 }
    singleShot := none
    connections := []
    tracker :=
      { activeWindowTouching := false
        activeWindowMaximized := false
        existsWindowTouching := false }
    memoryUsage := MemoryUsage.SingleLayout
    viewOnScreen := true
    managedLayoutIsCurrent := true
    managedLayoutIsNamedCurrent := true
    emitted := [] }

/-- A configuration without any stored entry. -/
def demoConfig : Config :=
  { timerShow := none
    timerHide := none
    enableKWinEdges := none
    raiseOnDesktopChange := none
    raiseOnActivityChange := none
    visibility := none }

/-- Nothing was hidden between a state and a later one: `blockHiding` is set in the later
state, the hide timer was not started, `mustBeHide` was not emitted and `isHidden` did
not become true. -/
def StaysBlocked (s later : VisibilityManager) : Prop :=
  later.blockHiding = true
    ∧ (s.timerHide.isActive = false → later.timerHide.isActive = false)
    ∧ later.mustBeHideCount = s.mustBeHideCount
    ∧ (s.isHidden = false → later.isHidden = false)

namespace VisibilityManager

/-- The first part of `setMode` past its early return: the assertion, the disconnection
of `m_connections`, the struts of the old mode removed, both timers stopped. -/
def setModeClear (s : VisibilityManager) : VisibilityManager :=
  let s := if s.mode ≠ Visibility.None then s else s.emit Emission.assertFailed
  let s := { s with connections := s.connections.filter (fun c => decide (c.slot = Slot.edgeState)) }
  let s := if s.mode = Visibility.AlwaysVisible then s.emit Emission.removeViewStruts else s
  let s := { s with timerShow := s.timerShow.stop }
  { s with timerHide := s.timerHide.stop }

/-- The second part of `setMode`: the new mode stored and the two connections every mode
but `AlwaysVisible` and `WindowsGoBelow` has. -/
def setModeBase (s : VisibilityManager) (mode : Visibility) : VisibilityManager :=
  let s := { s with mode := mode }
  if mode ≠ Visibility.AlwaysVisible ∧ mode ≠ Visibility.WindowsGoBelow then
    (s.connect Sender.currentDesktopChanged Slot.desktopChange).connect
      Sender.currentActivityChanged Slot.activityChange
  else s

/-- The third part of `setMode`: the `switch` over the new mode. -/
def setModeSwitch (s : VisibilityManager) : VisibilityManager :=
  match s.mode with
  | Visibility.AlwaysVisible =>
    let s := if s.viewOnScreen then s.updateStrutsBasedOnLayoutsAndActivities else s
    let s :=
      if s.memoryUsage = MemoryUsage.MultipleLayouts then
        (s.connect Sender.consumerCurrentActivityChanged Slot.updateStruts).connect
          Sender.activitiesChanged Slot.updateStruts
      else s
    s.raiseView true
  | Visibility.AutoHide =>
    let s := s.connect Sender.containsMouseChanged Slot.raiseViewContainsMouse
    s.raiseView s.containsMouse
  | Visibility.DodgeActive =>
    let s := s.connect Sender.containsMouseChanged Slot.dodgeActive
    let s := s.connect Sender.activeWindowTouchingChanged Slot.dodgeActive
    s.dodgeActive
  | Visibility.DodgeMaximized =>
    let s := s.connect Sender.containsMouseChanged Slot.dodgeMaximized
    let s := s.connect Sender.activeWindowMaximizedChanged Slot.dodgeActive
    s.dodgeMaximized
  | Visibility.DodgeAllWindows =>
    let s := s.connect Sender.containsMouseChanged Slot.dodgeAllWindows
    s.connect Sender.existsWindowTouchingChanged Slot.dodgeAllWindows
  | _ => s

/-- The last part of `setMode`: the configuration entry, the ghost window, `modeChanged`. -/
def setModeFinish (s : VisibilityManager) : VisibilityManager :=
  let s := s.emit (Emission.writeVisibility s.mode)
  let s := s.updateKWinEdgesSupport
  s.emit Emission.modeChanged

end VisibilityManager

/-- A manager in mode `AutoHide` with `blockHiding` set. -/
def demoBlocked : VisibilityManager :=
  VisibilityManager.run (demoManager.restoreConfig (some demoConfig))
    [Input.setMode Visibility.AutoHide, Input.setBlockHiding true]

/-- The show timer and the hide timer are not both pending. -/
def Quiet (s : VisibilityManager) : Prop :=
  ¬ (s.timerShow.isActive = true ∧ s.timerHide.isActive = true)

/-- A manager in mode `AutoHide` with the pointer inside, temporarily raised. -/
def demoRaisedAutoHide : VisibilityManager :=
  VisibilityManager.run (demoManager.restoreConfig (some demoConfig))
    [Input.setMode Visibility.AutoHide, Input.eventTriggered QEvent.Enter,
     Input.raiseViewTemporarily]

/-- A hidden manager in mode `DodgeActive` under a touching active window. -/
def demoDodging : VisibilityManager :=
  VisibilityManager.run (demoManager.restoreConfig (some demoConfig))
    [Input.setMode Visibility.DodgeActive, Input.activeWindowTouchingChanged true,
     Input.timerHideTimeout, Input.setIsHidden true]

/-- The inputs that come from the pointer (enter and leave events of the view, the ghost
window's `containsMouseChanged`) and from the window tracker. -/
def isPointerOrTracker : Input → Bool
  | Input.eventTriggered QEvent.Enter => true
  | Input.eventTriggered QEvent.Leave => true
  | Input.ghostContainsMouseChanged _ => true
  | Input.activeWindowDraggingStarted => true
  | Input.activeWindowTouchingChanged _ => true
  | Input.activeWindowMaximizedChanged _ => true
  | Input.existsWindowTouchingChanged _ => true
  | _ => false

/-- No connection runs the lambda of mode `AutoHide`, as after `setMode` to another mode. -/
def NoAutoHideSlot (s : VisibilityManager) : Prop :=
  ∀ c ∈ s.connections, c.slot ≠ Slot.raiseViewContainsMouse

/-- A temporary raise is in effect in a mode other than `AutoHide`. -/
def Raised (s : VisibilityManager) : Prop :=
  s.raiseTemporarily = true ∧ s.mode ≠ Visibility.AutoHide ∧ NoAutoHideSlot s

/-- Between a state and a later one the temporary raise stayed in effect and nothing was
hidden: same mode, same connections, hide timer not started, `mustBeHide` not emitted. -/
def StaysRaised (s later : VisibilityManager) : Prop :=
  later.raiseTemporarily = true ∧ later.mode = s.mode ∧ later.connections = s.connections
    ∧ (s.timerHide.isActive = false → later.timerHide.isActive = false)
    ∧ later.mustBeHideCount = s.mustBeHideCount

/-- A manager in mode `DodgeActive` whose temporary raise has expired while no window
touched the view: the re-evaluation asked for show, so `hideNow` is still pending. -/
def demoHideNow : VisibilityManager :=
  VisibilityManager.run (demoManager.restoreConfig (some demoConfig))
    [Input.setMode Visibility.DodgeActive, Input.raiseViewTemporarily, Input.singleShotTimeout]

/-- A manager in mode `DodgeMaximized`, entered from `WindowsGoBelow`, with the pointer
outside and an active window that neither touches the view nor is maximized. -/
def demoDodgeMaximized : VisibilityManager :=
  VisibilityManager.run (demoManager.restoreConfig (some demoConfig))
    [Input.setMode Visibility.DodgeMaximized]

/-- A manager in mode `DodgeAllWindows` with the pointer inside while some window
touches the view. -/
def demoDodgeAllWindows : VisibilityManager :=
  { VisibilityManager.run (demoManager.restoreConfig (some demoConfig))
      [Input.setMode Visibility.DodgeAllWindows, Input.eventTriggered QEvent.Enter] with
    tracker :=
      { activeWindowTouching := false
        activeWindowMaximized := false
        existsWindowTouching := true } }

/-- Between a state and a later one `mustBeHide` was not taken back, and a pending
`hideNow` is still pending unless `mustBeHide` was emitted in between. -/
def HideNowKept (s later : VisibilityManager) : Prop :=
  s.mustBeHideCount ≤ later.mustBeHideCount
    ∧ (s.hideNow = true → later.hideNow = true ∨ s.mustBeHideCount < later.mustBeHideCount)

/-- As `HideNowKept`, and `hideNow` did not become pending in between. -/
def HideNowFrame (s later : VisibilityManager) : Prop :=
  HideNowKept s later ∧ (later.hideNow = true → s.hideNow = true)

/-- A manager in mode `DodgeActive`, temporarily raised, no window touching the view. -/
def demoRaisedDodgeActive : VisibilityManager :=
  VisibilityManager.run (demoManager.restoreConfig (some demoConfig))
    [Input.setMode Visibility.DodgeActive, Input.raiseViewTemporarily]

/-- Between a state and a later one a drag stayed in progress and nothing was hidden:
the hide timer was not started and `mustBeHide` was not emitted. -/
def StaysDragging (s later : VisibilityManager) : Prop :=
  later.dragEnter = true
    ∧ (s.timerHide.isActive = false → later.timerHide.isActive = false)
    ∧ later.mustBeHideCount = s.mustBeHideCount

/-- The inputs that end a drag: the drag-leave and drop events of the view. -/
def endsDrag : Input → Bool
  | Input.eventTriggered QEvent.DragLeave => true
  | Input.eventTriggered QEvent.Drop => true
  | _ => false

/-- A hidden manager in mode `AutoHide` with the pointer outside and the hide timer
idle. -/
def demoHiddenAutoHide : VisibilityManager :=
  VisibilityManager.run (demoManager.restoreConfig (some demoConfig))
    [Input.setMode Visibility.AutoHide, Input.timerHideTimeout, Input.setIsHidden true]

/-- The connections run nothing but the struts update and the edge state of the ghost
window, as after `setMode` to `AlwaysVisible` or `WindowsGoBelow`. -/
def CalmSlots (s : VisibilityManager) : Prop :=
  ∀ c ∈ s.connections, c.slot = Slot.updateStruts ∨ c.slot = Slot.edgeState

/-- A manager in mode `AlwaysVisible` or `WindowsGoBelow`, with the connections of such
a mode and an idle hide timer. -/
def Calm (s : VisibilityManager) : Prop :=
  (s.mode = Visibility.AlwaysVisible ∨ s.mode = Visibility.WindowsGoBelow)
    ∧ CalmSlots s ∧ s.timerHide.isActive = false

/-- The later state is calm, in the same mode, and `mustBeHide` was not emitted in
between. -/
def StaysCalm (s later : VisibilityManager) : Prop :=
  Calm later ∧ later.mode = s.mode ∧ later.mustBeHideCount = s.mustBeHideCount

/-- The inputs that set a mode (`setMode`, the start-up timer) or ask for a hide
directly (`raiseView(false)`). -/
def setsModeOrRequestsHide : Input → Bool
  | Input.setMode _ => true
  | Input.timerStartUpTimeout _ => true
  | Input.raiseView false => true
  | _ => false

/-- A manager in mode `AutoHide` with the pointer outside and the hide timer pending. -/
def demoHidingAutoHide : VisibilityManager :=
  VisibilityManager.run (demoManager.restoreConfig (some demoConfig))
    [Input.setMode Visibility.AutoHide]

/-- The ghost window exists exactly when the mode is one of the four hiding modes and
the user has enabled the KWin edges. -/
def GhostAsSpecified (s : VisibilityManager) : Prop :=
  s.supportsKWinEdges = true ↔
    (s.mode = Visibility.AutoHide ∨ s.mode = Visibility.DodgeActive
        ∨ s.mode = Visibility.DodgeMaximized ∨ s.mode = Visibility.DodgeAllWindows)
      ∧ s.enableKWinEdgesFromUser = true

/-- The mode, the user setting of the KWin edges and the ghost window are the same in
both states. -/
def GhostFrame (s later : VisibilityManager) : Prop :=
  later.mode = s.mode ∧ later.enableKWinEdgesFromUser = s.enableKWinEdgesFromUser
    ∧ later.edgeGhostWindow = s.edgeGhostWindow

/-- The inputs that set the mode `None`. -/
def setsModeNone : Input → Bool
  | Input.setMode Visibility.None => true
  | Input.timerStartUpTimeout Visibility.None => true
  | _ => false

/-! ## New ids for an imported layout (`ActiveLayout::availableId`) -/

/-- The loop of `availableId` from the value `i` on, with a bound on the iterations
left; `QString::number(i)` is the decimal string of `i`. The flag `found` of the source
is never set, so the loop runs while `i < 32000`. -/
def availableIdLoop (all assigned : List String) : Nat → Int → String
  | 0, _ => ""
  | fuel + 1, i =>
    if i < 32000 then
      let iStr := toString i
      if !all.contains iStr && !assigned.contains iStr then iStr
      else availableIdLoop all assigned fuel (i + 1)
    else ""

/-- The function `availableId`: the loop from `base` with as many iterations as there
are values below 32000. -/
def availableId (all assigned : List String) (base : Int) : String :=
  availableIdLoop all assigned (32000 - base).toNat base

/-- One reassignment loop of `newUniqueIdsLayoutFromFile`: for every id to investigate,
`newId = availableId(allIds, assignedIds, base)` is appended to `assignedIds`. -/
def assignIds (allIds : List String) (base : Int) (assignedIds toInvestigate : List String) :
    List String :=
  toInvestigate.foldl
    (fun assignedIds _ => assignedIds ++ [availableId allIds assignedIds base]) assignedIds

/-- The list `assignedIds` after both reassignment loops of `newUniqueIdsLayoutFromFile`:
containments from 12, applets from 40. -/
def reassignedIds (allIds toInvestigateContainmentIds toInvestigateAppletIds : List String) :
    List String :=
  assignIds allIds 40 (assignIds allIds 12 [] toInvestigateContainmentIds)
    toInvestigateAppletIds

/-- The id `i` is free: its decimal string is in neither list. -/
def FreeId (all assigned : List String) (i : Int) : Prop :=
  toString i ∉ all ∧ toString i ∉ assigned

/-! ## The two-pass rule of the spec -/

/-- A manager in mode `AutoHide` whose hide timer has expired; a drag entered before
the view reported itself hidden, then the pointer entered: the view is hidden, a drag is
in progress, the show timer is pending and `mustBeShown` has not been emitted. -/
def demoDraggingAutoHide : VisibilityManager :=
  VisibilityManager.run (demoManager.restoreConfig (some demoConfig))
    [Input.setMode Visibility.AutoHide, Input.timerHideTimeout,
     Input.eventTriggered QEvent.DragEnter, Input.setIsHidden true,
     Input.eventTriggered QEvent.Enter]

/-- The verdict of the hidden-state evaluation in the words of the specification:
`AutoHide` is shown iff the pointer is inside; `DodgeActive` is hidden iff the active
window touches the view, the pointer inside overriding to show; `DodgeMaximized` likewise
with the maximized state of the active window; `DodgeAllWindows` is hidden iff the active
window or any window touches the view. `some true` asks for show, `some false` for hide;
`none` is no request: the modes without hide logic, and the Dodge modes during a
temporary raise. -/
def specVerdict (s : VisibilityManager) : Option Bool :=
  match s.mode with
  | Visibility.AutoHide => some s.containsMouse
  | Visibility.DodgeActive =>
    if s.raiseTemporarily then none
    else some (s.containsMouse || !s.tracker.activeWindowTouching)
  | Visibility.DodgeMaximized =>
    if s.raiseTemporarily then none
    else some (s.containsMouse || !s.tracker.activeWindowMaximized)
  | Visibility.DodgeAllWindows =>
    if s.raiseTemporarily then none
    else some (!(s.tracker.activeWindowTouching || s.tracker.existsWindowTouching))
  | _ => none

/-! ## Theorems -/

/-- C10: `addView` changes nothing when the definition is null, its package is invalid,
it is not a Latte (panel-type) containment, or a live view is already bound to it: the
layout after the call is the layout before it, so the live views and the waiting views are
the same, and the trace gains no constructed view and no view-count-changed notification. -/
theorem addView_invalid_definition_changes_nothing (env : Corona) (s : ActiveLayout)
    (containment : Option Containment) (forceOnPrimary : Bool) (explicitScreen : Int)
    (h : ∀ c, containment = some c →
      c.packageValid = false ∨ isLatteContainment (some c) = false
        ∨ ∃ view ∈ s.latteViews, view.containment = c) :
    addView env s containment forceOnPrimary explicitScreen = s := by
  cases containment with
  | none => rfl
  | some c =>
    rcases h c rfl with h | h | ⟨v, hv, hvc⟩
    · simp [addView, h]
    · simp only [addView, h]; simp
    · have : s.latteViews.any (fun dock => decide (dock.containment = c)) = true := by
        simp only [List.any_eq_true, decide_eq_true_eq]; exact ⟨v, hv, hvc⟩
      simp only [addView, this]; simp


theorem addView_of_valid (env : Corona) (s : ActiveLayout) (c : Containment)
    (forceOnPrimary : Bool) (explicitScreen : Int)
    (hcorona : s.corona = true) (hpkg : c.packageValid = true)
    (hlatte : isLatteContainment (some c) = true)
    (hnew : ∀ view ∈ s.latteViews, view.containment ≠ c) :
    addView env s (some c) forceOnPrimary explicitScreen =
      match addViewTarget env s c forceOnPrimary explicitScreen with
      | none => s
      | some nextScreen =>
        { (if 0 ≤ addViewScreenId c explicitScreen ∧ c.onPrimary = true then evictExplicit env s c else s) with
          latteViews := insertView
            (if 0 ≤ addViewScreenId c explicitScreen ∧ c.onPrimary = true then evictExplicit env s c else s).latteViews
            (newView c nextScreen forceOnPrimary)
          log := (if 0 ≤ addViewScreenId c explicitScreen ∧ c.onPrimary = true then evictExplicit env s c else s).log
            ++ [Event.constructed (newView c nextScreen forceOnPrimary),
                Event.registered (newView c nextScreen forceOnPrimary), Event.viewsCountChanged] } := by
  have hany : s.latteViews.any (fun dock => decide (dock.containment = c)) = false := by
    rw [Bool.eq_false_iff]
    intro h
    simp only [List.any_eq_true, decide_eq_true_eq] at h
    obtain ⟨v, hv, hvc⟩ := h
    exact hnew v hv hvc
  simp only [addView, hcorona, hpkg, hlatte, hany]
  simp

/-- C4: for an explicit definition (onPrimary false, onPrimary not forced) whose screen id
is a stored one (not negative) and resolves to a connector name that no connected screen
has, `addView` returns the layout unchanged: no view is constructed, the live views are
the same, and the call just returns (the operation has no failure result). -/
theorem addView_explicit_rejected_when_screen_not_connected (env : Corona) (s : ActiveLayout)
    (c : Containment) (explicitScreen : Int)
    (hexplicit : c.onPrimary = false)
    (hid : 0 ≤ addViewScreenId c explicitScreen)
    (hgone : env.connector (addViewScreenId c explicitScreen) ∉ env.screens) :
    addView env s (some c) false explicitScreen = s := by
  have hfind : env.screens.find? (fun scr => decide (scr = env.connector (addViewScreenId c explicitScreen))) = none := by
    rw [List.find?_eq_none]
    intro x hx hxe
    simp only [decide_eq_true_eq] at hxe
    exact hgone (hxe ▸ hx)
  unfold addView
  simp only [addViewTarget, hexplicit, hid, explicitTarget, hfind]
  split_ifs <;> simp_all


theorem find?_connector_of_mem (screens : List String) (connector : String)
    (h : connector ∈ screens) :
    screens.find? (fun scr => decide (scr = connector)) = some connector := by
  induction screens with
  | nil => simp at h
  | cons x xs ih =>
    by_cases hx : x = connector
    · simp [List.find?_cons, hx]
    · have : connector ∈ xs := by
        rcases List.mem_cons.1 h with h | h
        · exact absurd h.symm hx
        · exact h
      simp [List.find?_cons, hx, ih this]

/-- C3: for an explicit definition (onPrimary false, onPrimary not forced) whose pinned
screen is connected and is the primary screen, when a live view of an onPrimary panel
definition of the layout has the edge of the definition, `addView` returns the layout
unchanged: no view is constructed and the live views are the same. -/
theorem addView_explicit_rejected_when_primary_dock_occupies_edge (env : Corona)
    (s : ActiveLayout) (c : Containment) (explicitScreen : Int)
    (hexplicit : c.onPrimary = false)
    (hid : 0 ≤ addViewScreenId c explicitScreen)
    (hconnected : env.connector (addViewScreenId c explicitScreen) ∈ env.screens)
    (hprimary : env.connector (addViewScreenId c explicitScreen) = env.primaryScreen)
    (hoccupied : ∃ view ∈ s.latteViews, view.containment ∈ s.containments
      ∧ isLatteContainment (some view.containment) = true
      ∧ view.containment.onPrimary = true ∧ view.location = c.location) :
    addView env s (some c) false explicitScreen = s := by
  by_cases hcorona : s.corona = true
  · have hocc : primaryDockOccupyEdge s c.location = true := by
      obtain ⟨v, _, hmem, hl, hon, hloc⟩ := hoccupied
      simp only [primaryDockOccupyEdge, hcorona, Bool.not_true, Bool.false_eq_true, if_false,
        List.any_eq_true, Bool.and_eq_true, decide_eq_true_eq]
      exact ⟨v.containment, hmem, hl, hon, hloc⟩
    have hfind := find?_connector_of_mem _ _ hconnected
    rw [hprimary] at hfind
    unfold addView
    simp only [addViewTarget, hexplicit, hid, explicitTarget, hprimary, hfind, hocc]
    split_ifs <;> simp_all
  · simp [addView, hcorona]


theorem addView_eq_self_of_invalid (env : Corona) (s : ActiveLayout) (c : Containment)
    (forceOnPrimary : Bool) (explicitScreen : Int)
    (h : ¬ (s.corona = true ∧ c.packageValid = true ∧ isLatteContainment (some c) = true
      ∧ ∀ view ∈ s.latteViews, view.containment ≠ c)) :
    addView env s (some c) forceOnPrimary explicitScreen = s := by
  by_cases h1 : s.corona = true
  · by_cases h2 : c.packageValid = true
    · by_cases h3 : isLatteContainment (some c) = true
      · by_cases h4 : ∀ view ∈ s.latteViews, view.containment ≠ c
        · exact absurd ⟨h1, h2, h3, h4⟩ h
        · have : s.latteViews.any (fun dock => decide (dock.containment = c)) = true := by
            simp only [List.any_eq_true, decide_eq_true_eq]
            push_neg at h4
            exact h4
          simp only [addView, this]; simp
      · simp only [addView, Bool.not_eq_true] at h3 ⊢; simp [h3]
    · simp only [Bool.not_eq_true] at h2; simp [addView, h2]
  · simp only [Bool.not_eq_true] at h1; simp [addView, h1]

theorem insertView_of_new (views : List View) (latteView : View)
    (h : ∀ view ∈ views, view.containment ≠ latteView.containment) :
    insertView views latteView = views ++ [latteView] := by
  unfold insertView
  rw [List.filter_eq_self.2]
  intro v hv
  simpa using h v hv

theorem evictExplicit_latteViews_subset (env : Corona) (s : ActiveLayout) (c : Containment)
    (view : View) (h : view ∈ (evictExplicit env s c).latteViews) : view ∈ s.latteViews := by
  unfold evictExplicit at h
  exact List.mem_of_mem_filter h

/-- With the definition onPrimary, or onPrimary forced, a valid `addView` call ends with
the new view on the primary screen, after the eviction of the explicit views in its way. -/
theorem addView_of_primary (env : Corona) (s : ActiveLayout) (c : Containment)
    (forceOnPrimary : Bool) (explicitScreen : Int)
    (hkind : c.onPrimary = true ∨ forceOnPrimary = true)
    (hcorona : s.corona = true) (hpkg : c.packageValid = true)
    (hlatte : isLatteContainment (some c) = true)
    (hnew : ∀ view ∈ s.latteViews, view.containment ≠ c) :
    addView env s (some c) forceOnPrimary explicitScreen =
      { (if 0 ≤ addViewScreenId c explicitScreen ∧ c.onPrimary = true then evictExplicit env s c else s) with
        latteViews :=
          (if 0 ≤ addViewScreenId c explicitScreen ∧ c.onPrimary = true then evictExplicit env s c else s).latteViews
            ++ [newView c env.primaryScreen forceOnPrimary]
        log := (if 0 ≤ addViewScreenId c explicitScreen ∧ c.onPrimary = true then evictExplicit env s c else s).log
          ++ [Event.constructed (newView c env.primaryScreen forceOnPrimary),
              Event.registered (newView c env.primaryScreen forceOnPrimary), Event.viewsCountChanged] } := by
  rw [addView_of_valid env s c forceOnPrimary explicitScreen hcorona hpkg hlatte hnew]
  have htarget : ¬ (0 ≤ addViewScreenId c explicitScreen ∧ c.onPrimary = false ∧ forceOnPrimary = false) := by
    rintro ⟨_, h1, h2⟩
    rcases hkind with h | h
    · rw [h1] at h; exact Bool.noConfusion h
    · rw [h2] at h; exact Bool.noConfusion h
  have htarget' : addViewTarget env s c forceOnPrimary explicitScreen = some env.primaryScreen := by
    unfold addViewTarget
    simp only
    rw [if_neg htarget]
  rw [htarget']
  simp only
  rw [insertView_of_new]
  intro v hv
  simp only [newView]
  apply hnew
  split_ifs at hv
  · exact evictExplicit_latteViews_subset env s c v hv
  · exact hv

/-- C6: with the definition onPrimary, or onPrimary forced in the call, every view that
`addView` adds for the definition is bound to the current primary screen and flagged
onPrimary, whatever screen id the definition stores and whatever `explicitScreen` is; and
for a valid definition without a view the call does add that view: with onPrimary forced
the explicit-screen checks do not run, whichever screens are connected. -/
theorem addView_onPrimary_binds_to_primary_screen (env : Corona) (s : ActiveLayout)
    (c : Containment) (forceOnPrimary : Bool) (explicitScreen : Int)
    (hkind : c.onPrimary = true ∨ forceOnPrimary = true) :
    (∀ view ∈ (addView env s (some c) forceOnPrimary explicitScreen).latteViews,
        view.containment = c → view ∉ s.latteViews →
          view.screen = env.primaryScreen ∧ view.onPrimary = true)
      ∧ (s.corona = true → c.packageValid = true → isLatteContainment (some c) = true →
          (∀ view ∈ s.latteViews, view.containment ≠ c) →
          newView c env.primaryScreen forceOnPrimary
              ∈ (addView env s (some c) forceOnPrimary explicitScreen).latteViews
            ∧ (newView c env.primaryScreen forceOnPrimary).onPrimary = true) := by
  have hflag : (newView c env.primaryScreen forceOnPrimary).onPrimary = true := by
    simp only [newView]
    rcases hkind with h | h
    · simp [h]
    · simp [h]
  constructor
  · intro v hv hvc hvnew
    by_cases hvalid : s.corona = true ∧ c.packageValid = true ∧ isLatteContainment (some c) = true
        ∧ ∀ view ∈ s.latteViews, view.containment ≠ c
    · obtain ⟨h1, h2, h3, h4⟩ := hvalid
      rw [addView_of_primary env s c forceOnPrimary explicitScreen hkind h1 h2 h3 h4] at hv
      simp only [List.mem_append, List.mem_singleton] at hv
      rcases hv with hv | hv
      · exfalso; apply hvnew
        split_ifs at hv
        · exact evictExplicit_latteViews_subset env s c v hv
        · exact hv
      · subst hv
        exact ⟨rfl, hflag⟩
    · exfalso; apply hvnew
      have : addView env s (some c) forceOnPrimary explicitScreen = s := by
        exact addView_eq_self_of_invalid env s c forceOnPrimary explicitScreen hvalid
      rw [this] at hv; exact hv
  · intro h1 h2 h3 h4
    rw [addView_of_primary env s c forceOnPrimary explicitScreen hkind h1 h2 h3 h4]
    exact ⟨by simp, hflag⟩


theorem evictedBy_iff (env : Corona) (c : Containment) (view : View) :
    evictedBy env c view = true ↔
      (view.containment.onPrimary = false
        ∧ containmentScreenId view.containment = env.primaryScreenId
        ∧ view.location = c.location) := by
  simp only [evictedBy, View.location, Bool.and_eq_true, Bool.not_eq_true', decide_eq_true_eq]
  constructor
  · rintro ⟨⟨h1, h2⟩, h3⟩; exact ⟨h1, h2.symm, h3⟩
  · rintro ⟨h1, h2, h3⟩; exact ⟨⟨h1, h2.symm⟩, h3⟩

/-- C5, as stated, fails: an onPrimary definition that stores no screen id (`screen` and
`lastScreen` are `-1`) is placed on the primary screen while the view of an explicit
definition pinned to the primary screen stays live on the same edge. -/
theorem addView_onPrimary_without_screen_id_keeps_explicit_view :
    ∃ view ∈ (runOps (demoLayout [])
        [(demoCorona, Op.addContainment (demoDock 1 false 0 Location.BottomEdge)),
         (demoCorona, Op.addContainment (demoDock 2 true (-1) Location.BottomEdge))]).latteViews,
      view.containment.onPrimary = false
        ∧ containmentScreenId view.containment = demoCorona.primaryScreenId
        ∧ view.screen = demoCorona.primaryScreen
        ∧ view.location = (demoDock 2 true (-1) Location.BottomEdge).location
        ∧ newView (demoDock 2 true (-1) Location.BottomEdge) demoCorona.primaryScreen false
            ∈ (runOps (demoLayout [])
              [(demoCorona, Op.addContainment (demoDock 1 false 0 Location.BottomEdge)),
               (demoCorona, Op.addContainment (demoDock 2 true (-1) Location.BottomEdge))]).latteViews := by
  decide

/-- C5, amended: when `addView` places an onPrimary definition whose screen id is not
negative, the live set afterwards holds no view of an explicit definition whose screen id
is the primary one and whose edge is that of the definition, and the trace shows every
such view removed before the new view is constructed and registered. -/
theorem addView_onPrimary_evicts_explicit_views (env : Corona) (s : ActiveLayout)
    (c : Containment) (forceOnPrimary : Bool) (explicitScreen : Int)
    (honPrimary : c.onPrimary = true)
    (hid : 0 ≤ addViewScreenId c explicitScreen)
    (hcorona : s.corona = true) (hpkg : c.packageValid = true)
    (hlatte : isLatteContainment (some c) = true)
    (hnew : ∀ view ∈ s.latteViews, view.containment ≠ c) :
    (∀ view ∈ (addView env s (some c) forceOnPrimary explicitScreen).latteViews,
        ¬ (view.containment.onPrimary = false
          ∧ containmentScreenId view.containment = env.primaryScreenId
          ∧ view.location = c.location))
      ∧ newView c env.primaryScreen forceOnPrimary
          ∈ (addView env s (some c) forceOnPrimary explicitScreen).latteViews
      ∧ (addView env s (some c) forceOnPrimary explicitScreen).log =
          s.log
            ++ (s.latteViews.filter (fun view =>
                  decide (view.containment.onPrimary = false
                    ∧ containmentScreenId view.containment = env.primaryScreenId
                    ∧ view.location = c.location))).map Event.removed
            ++ [Event.constructed (newView c env.primaryScreen forceOnPrimary),
                Event.registered (newView c env.primaryScreen forceOnPrimary),
                Event.viewsCountChanged] := by
  rw [addView_of_primary env s c forceOnPrimary explicitScreen (Or.inl honPrimary) hcorona hpkg
    hlatte hnew]
  rw [if_pos ⟨hid, honPrimary⟩]
  have hfilter : (fun view => evictedBy env c view) = (fun view =>
      decide (view.containment.onPrimary = false
        ∧ containmentScreenId view.containment = env.primaryScreenId
        ∧ view.location = c.location)) := by
    funext view
    rw [Bool.eq_iff_iff, evictedBy_iff]
    simp
  refine ⟨?_, by simp, ?_⟩
  · intro v hv hcond
    simp only [List.mem_append, List.mem_singleton] at hv
    rcases hv with hv | hv
    · simp only [evictExplicit, List.mem_filter, Bool.not_eq_true'] at hv
      have := (evictedBy_iff env c v).2 hcond
      rw [hv.2] at this
      exact Bool.noConfusion this
    · subst hv
      simp only [newView] at hcond
      rw [honPrimary] at hcond
      exact Bool.noConfusion hcond.1
  · simp only [evictExplicit, hfilter]

/-- C2, as stated, fails: with a live view of an onPrimary definition on the bottom edge,
`addView` on another onPrimary definition with the bottom edge creates a second view on
the primary screen. -/
theorem addView_second_onPrimary_same_edge_not_rejected :
    (demoDock 1 true 0 Location.BottomEdge).onPrimary = true
      ∧ (demoDock 2 true 0 Location.BottomEdge).onPrimary = true
      ∧ newView (demoDock 1 true 0 Location.BottomEdge) "eDP-1" false
          ∈ (addView demoCorona
              (demoLayout [demoDock 1 true 0 Location.BottomEdge, demoDock 2 true 0 Location.BottomEdge])
              (some (demoDock 1 true 0 Location.BottomEdge)) false (-1)).latteViews
      ∧ (addView demoCorona
            (addView demoCorona
              (demoLayout [demoDock 1 true 0 Location.BottomEdge, demoDock 2 true 0 Location.BottomEdge])
              (some (demoDock 1 true 0 Location.BottomEdge)) false (-1))
            (some (demoDock 2 true 0 Location.BottomEdge)) false (-1)).latteViews
          = [newView (demoDock 1 true 0 Location.BottomEdge) "eDP-1" false,
             newView (demoDock 2 true 0 Location.BottomEdge) "eDP-1" false] := by
  decide

/-- C2, amended: in a layout where a live view of an onPrimary definition has edge E,
`addView` on a different, valid onPrimary definition with edge E is not rejected: the
view of the first definition stays live and a new view of the second one, bound to the
primary screen with the same edge, is registered in the live set. -/
theorem addView_second_onPrimary_same_edge_is_placed (env : Corona) (s : ActiveLayout)
    (c : Containment) (forceOnPrimary : Bool) (explicitScreen : Int) (occupant : View)
    (honPrimary : c.onPrimary = true)
    (hcorona : s.corona = true) (hpkg : c.packageValid = true)
    (hlatte : isLatteContainment (some c) = true)
    (hnew : ∀ view ∈ s.latteViews, view.containment ≠ c)
    (hlive : occupant ∈ s.latteViews)
    (hoccupant : occupant.containment.onPrimary = true)
    (hedge : occupant.location = c.location) :
    occupant ∈ (addView env s (some c) forceOnPrimary explicitScreen).latteViews
      ∧ newView c env.primaryScreen forceOnPrimary
          ∈ (addView env s (some c) forceOnPrimary explicitScreen).latteViews
      ∧ newView c env.primaryScreen forceOnPrimary ∉ s.latteViews
      ∧ (newView c env.primaryScreen forceOnPrimary).location = occupant.location
      ∧ Event.registered (newView c env.primaryScreen forceOnPrimary)
          ∈ (addView env s (some c) forceOnPrimary explicitScreen).log := by
  rw [addView_of_primary env s c forceOnPrimary explicitScreen (Or.inl honPrimary) hcorona hpkg
    hlatte hnew]
  refine ⟨?_, by simp, ?_, ?_, by simp⟩
  · simp only [List.mem_append, List.mem_singleton]
    left
    split_ifs
    · simp only [evictExplicit, List.mem_filter, Bool.not_eq_true']
      refine ⟨hlive, ?_⟩
      rw [Bool.eq_false_iff]
      intro h
      have := ((evictedBy_iff env c occupant).1 h).1
      rw [hoccupant] at this
      exact Bool.noConfusion this
    · exact hlive
  · intro h
    exact hnew _ h rfl
  · simp only [View.location, newView] at hedge ⊢
    exact hedge.symm


/-- C10 on a layout where the dock already has its view: a second `addView` changes nothing. -/
theorem addView_invalid_definition_changes_nothing_witness :
    addView demoCorona demoPrimaryLive (some (demoDock 1 true 0 Location.BottomEdge)) false (-1)
      = demoPrimaryLive :=
  addView_invalid_definition_changes_nothing demoCorona demoPrimaryLive
    (some (demoDock 1 true 0 Location.BottomEdge)) false (-1)
    (fun c hc => Or.inr (Or.inr ⟨newView (demoDock 1 true 0 Location.BottomEdge) "eDP-1" false,
      by decide, by cases hc; rfl⟩))

/-- C4 on a dock pinned to `HDMI-1` while only `eDP-1` is connected. -/
theorem addView_explicit_rejected_when_screen_not_connected_witness :
    (demoDock 3 false 1 Location.LeftEdge).onPrimary = false
      ∧ demoCoronaSingle.connector (addViewScreenId (demoDock 3 false 1 Location.LeftEdge) (-1))
          ∉ demoCoronaSingle.screens
      ∧ addView demoCoronaSingle demoPrimaryLive (some (demoDock 3 false 1 Location.LeftEdge))
          false (-1) = demoPrimaryLive :=
  ⟨rfl, by decide,
    addView_explicit_rejected_when_screen_not_connected demoCoronaSingle demoPrimaryLive
      (demoDock 3 false 1 Location.LeftEdge) (-1) rfl (by decide) (by decide)⟩

/-- C3 on a dock pinned to the primary screen `eDP-1`, bottom edge, with the view of an
onPrimary dock on the bottom edge. -/
theorem addView_explicit_rejected_when_primary_dock_occupies_edge_witness :
    demoCorona.connector (addViewScreenId (demoDock 2 false 0 Location.BottomEdge) (-1))
        = demoCorona.primaryScreen
      ∧ addView demoCorona demoPrimaryLive (some (demoDock 2 false 0 Location.BottomEdge))
          false (-1) = demoPrimaryLive :=
  ⟨by decide,
    addView_explicit_rejected_when_primary_dock_occupies_edge demoCorona demoPrimaryLive
      (demoDock 2 false 0 Location.BottomEdge) (-1) rfl (by decide) (by decide) (by decide)
      ⟨newView (demoDock 1 true 0 Location.BottomEdge) "eDP-1" false, by decide, by decide,
        by decide, by decide, by decide⟩⟩

/-- C6 on an onPrimary dock that stores the id of `HDMI-1`: its view goes to `eDP-1`. -/
theorem addView_onPrimary_binds_to_primary_screen_witness :
    newView (demoDock 2 true 1 Location.TopEdge) demoCorona.primaryScreen false
        ∈ (addView demoCorona demoPrimaryLive (some (demoDock 2 true 1 Location.TopEdge))
            false (-1)).latteViews
      ∧ (newView (demoDock 2 true 1 Location.TopEdge) demoCorona.primaryScreen false).onPrimary
          = true :=
  (addView_onPrimary_binds_to_primary_screen demoCorona demoPrimaryLive
    (demoDock 2 true 1 Location.TopEdge) false (-1) (Or.inl rfl)).2
    (by decide) (by decide) (by decide) (by decide)

/-- C5, amended, on an onPrimary dock with stored screen id 0 placed over the view of an
explicit dock on the bottom edge of the primary screen: that view is gone. -/
theorem addView_onPrimary_evicts_explicit_views_witness :
    newView (demoDock 1 false 0 Location.BottomEdge) "eDP-1" false ∈ demoExplicitLive.latteViews
      ∧ newView (demoDock 1 false 0 Location.BottomEdge) "eDP-1" false
          ∉ (addView demoCorona demoExplicitLive (some (demoDock 2 true 0 Location.BottomEdge))
              false (-1)).latteViews :=
  ⟨by decide, fun h =>
    (addView_onPrimary_evicts_explicit_views demoCorona demoExplicitLive
      (demoDock 2 true 0 Location.BottomEdge) false (-1) rfl (by decide) (by decide) (by decide)
      (by decide) (by decide)).1 _ h (by decide)⟩

/-- C2, amended, on a second onPrimary dock with the bottom edge. -/
theorem addView_second_onPrimary_same_edge_is_placed_witness :
    newView (demoDock 2 true 0 Location.BottomEdge) demoCorona.primaryScreen false
      ∈ (addView demoCorona demoPrimaryLive (some (demoDock 2 true 0 Location.BottomEdge))
          false (-1)).latteViews :=
  (addView_second_onPrimary_same_edge_is_placed demoCorona demoPrimaryLive
    (demoDock 2 true 0 Location.BottomEdge) false (-1)
    (newView (demoDock 1 true 0 Location.BottomEdge) "eDP-1" false)
    rfl (by decide) (by decide) (by decide) (by decide) (by decide) (by decide) (by decide)).2.1

theorem syncFirstStep_spec (env : Corona) (s : ActiveLayout) :
    ∀ (cs : List Containment) (future : FutureViews) (targets : List Containment),
      (∀ c ∈ cs, c ∈ s.containments) →
      TargetList env s future targets →
      (∀ c ∈ targets, syncOnPrimary s c = true) →
      ∃ targets', TargetList env s (cs.foldl (syncFirstStep env s) future) targets'
        ∧ (∀ c ∈ targets', syncOnPrimary s c = true)
        ∧ (∀ p ∈ future.docksLocations, p ∈ (cs.foldl (syncFirstStep env s) future).docksLocations)
        ∧ (∀ c ∈ cs, isLatteContainment (some c) = true → syncOnPrimary s c = true →
            (env.primaryScreen, c.location) ∈ (cs.foldl (syncFirstStep env s) future).docksLocations) := by
  intro cs
  induction cs with
  | nil =>
    intro future targets _ ht hp
    exact ⟨targets, ht, hp, fun p hp => hp, fun c hc => by simp at hc⟩
  | cons c cs ih =>
    intro future targets hcs ht hp
    rw [List.foldl_cons]
    have hcs' : ∀ c ∈ cs, c ∈ s.containments := fun d hd => hcs d (List.mem_cons_of_mem _ hd)
    by_cases hstep : isLatteContainment (some c) = true
        ∧ (syncOnPrimary s c = true ∧ (env.primaryScreen, c.location) ∉ future.docksLocations)
    · obtain ⟨hl, hon, hfree⟩ := hstep
      have hnext : syncFirstStep env s future c =
          { docksLocations := future.docksLocations ++ [(env.primaryScreen, c.location)]
            shownViews := future.shownViews ++ [c.id] } := by
        simp [syncFirstStep, hl, hon, hfree]
      have ht' : TargetList env s (syncFirstStep env s future c) (targets ++ [c]) := by
        obtain ⟨h1, h2, h3, h4⟩ := ht
        rw [hnext]
        refine ⟨by simp [h1], by simp [h2, syncSlot, hon], ?_, ?_⟩
        · simp only
          rw [List.nodup_append]
          refine ⟨h3, List.nodup_singleton _, ?_⟩
          intro p hp1 hp2
          rw [List.mem_singleton] at hp2
          exact hfree (hp2 ▸ hp1)
        · intro d hd
          rcases List.mem_append.1 hd with hd | hd
          · exact h4 d hd
          · rw [List.mem_singleton] at hd
            subst hd
            exact ⟨hcs _ (List.mem_cons_self _ _), hl⟩
      have hp' : ∀ d ∈ targets ++ [c], syncOnPrimary s d = true := by
        intro d hd
        rcases List.mem_append.1 hd with hd | hd
        · exact hp d hd
        · rw [List.mem_singleton] at hd
          subst hd
          exact hon
      obtain ⟨t', g1, g2, g3, g4⟩ := ih _ _ hcs' ht' hp'
      refine ⟨t', g1, g2, ?_, ?_⟩
      · intro p hp
        apply g3
        rw [hnext]
        exact List.mem_append_left _ hp
      · intro d hd hdl hdon
        rcases List.mem_cons.1 hd with hd | hd
        · subst hd
          apply g3
          rw [hnext]
          simp
        · exact g4 d hd hdl hdon
    · have hnext : syncFirstStep env s future c = future := by
        unfold syncFirstStep
        by_cases hl : isLatteContainment (some c) = true
        · rw [if_pos hl]
          simp only
          rw [if_neg (fun h => hstep ⟨hl, h⟩)]
        · rw [if_neg hl]
      rw [hnext]
      obtain ⟨t', g1, g2, g3, g4⟩ := ih _ _ hcs' ht hp
      refine ⟨t', g1, g2, g3, ?_⟩
      intro d hd hdl hdon
      rcases List.mem_cons.1 hd with hd | hd
      · subst hd
        apply g3
        by_contra hfree
        exact hstep ⟨hdl, hdon, hfree⟩
      · exact g4 d hd hdl hdon

theorem syncSecondStep_spec (env : Corona) (s : ActiveLayout) (reserved : List (String × Location)) :
    ∀ (cs : List Containment) (future : FutureViews) (targets : List Containment),
      (∀ c ∈ cs, c ∈ s.containments) →
      TargetList env s future targets →
      (∀ p ∈ reserved, p ∈ future.docksLocations) →
      (∀ c ∈ targets, syncOnPrimary s c = false →
        env.screenExists (syncScreenId env s c) = true ∧ syncSlot env s c ∉ reserved) →
      ∃ targets', TargetList env s (cs.foldl (syncSecondStep env s) future) targets'
        ∧ (∀ c ∈ targets', syncOnPrimary s c = false →
            env.screenExists (syncScreenId env s c) = true ∧ syncSlot env s c ∉ reserved) := by
  intro cs
  induction cs with
  | nil =>
    intro future targets _ ht _ hp
    exact ⟨targets, ht, hp⟩
  | cons c cs ih =>
    intro future targets hcs ht hres hp
    rw [List.foldl_cons]
    have hcs' : ∀ c ∈ cs, c ∈ s.containments := fun d hd => hcs d (List.mem_cons_of_mem _ hd)
    by_cases hstep : isLatteContainment (some c) = true ∧ syncOnPrimary s c = false
        ∧ env.screenExists (syncScreenId env s c) = true
        ∧ (env.connector (syncScreenId env s c), c.location) ∉ future.docksLocations
    · obtain ⟨hl, hon, hex, hfree⟩ := hstep
      have hnext : syncSecondStep env s future c =
          { docksLocations := future.docksLocations
              ++ [(env.connector (syncScreenId env s c), c.location)]
            shownViews := future.shownViews ++ [c.id] } := by
        simp [syncSecondStep, hl, hon, hex, hfree]
      have hslot : syncSlot env s c = (env.connector (syncScreenId env s c), c.location) := by
        simp [syncSlot, hon]
      have ht' : TargetList env s (syncSecondStep env s future c) (targets ++ [c]) := by
        obtain ⟨h1, h2, h3, h4⟩ := ht
        rw [hnext]
        refine ⟨by simp [h1], by simp [h2, hslot], ?_, ?_⟩
        · simp only
          rw [List.nodup_append]
          refine ⟨h3, List.nodup_singleton _, ?_⟩
          intro p hp1 hp2
          rw [List.mem_singleton] at hp2
          exact hfree (hp2 ▸ hp1)
        · intro d hd
          rcases List.mem_append.1 hd with hd | hd
          · exact h4 d hd
          · rw [List.mem_singleton] at hd
            subst hd
            exact ⟨hcs _ (List.mem_cons_self _ _), hl⟩
      apply ih _ _ hcs' ht'
      · intro p hp'
        rw [hnext]
        exact List.mem_append_left _ (hres p hp')
      · intro d hd hdon
        rcases List.mem_append.1 hd with hd | hd
        · exact hp d hd hdon
        · rw [List.mem_singleton] at hd
          subst hd
          refine ⟨hex, ?_⟩
          rw [hslot]
          exact fun h => hfree (hres _ h)
    · have hnext : syncSecondStep env s future c = future := by
        unfold syncSecondStep
        by_cases hl : isLatteContainment (some c) = true
        · rw [if_pos hl]
          simp only
          by_cases hon : syncOnPrimary s c = false
          · rw [if_pos hon, if_neg (fun h => hstep ⟨hl, hon, h⟩)]
          · rw [if_neg hon]
        · rw [if_neg hl]
      rw [hnext]
      exact ih _ _ hcs' ht hres hp

theorem futureViews_spec (env : Corona) (s : ActiveLayout) :
    ∃ targets, TargetList env s (futureViews env s) targets
      ∧ ∀ c ∈ targets, syncOnPrimary s c = false →
          env.screenExists (syncScreenId env s c) = true
          ∧ ∀ d ∈ s.containments, isLatteContainment (some d) = true →
              syncOnPrimary s d = true → syncSlot env s c ≠ (env.primaryScreen, d.location) := by
  have hempty : TargetList env s { docksLocations := [], shownViews := [] } [] :=
    ⟨rfl, rfl, List.nodup_nil, fun c hc => by simp at hc⟩
  obtain ⟨t1, h1, h1on, _, h1cov⟩ := syncFirstStep_spec env s s.containments _ []
    (fun c hc => hc) hempty (fun c hc => by simp at hc)
  obtain ⟨t2, h2, h2exp⟩ := syncSecondStep_spec env s
    (s.containments.foldl (syncFirstStep env s) { docksLocations := [], shownViews := [] }).docksLocations
    s.containments _ t1 (fun c hc => hc) h1 (fun p hp => hp)
    (fun c hc hoff => by rw [h1on c hc] at hoff; exact Bool.noConfusion hoff)
  refine ⟨t2, h2, ?_⟩
  intro c hc hoff
  refine ⟨(h2exp c hc hoff).1, ?_⟩
  intro d hd hdl hdon heq
  apply (h2exp c hc hoff).2
  rw [heq]
  exact h1cov d hd hdl hdon

theorem addViewScreenId_neg_one (c : Containment) :
    addViewScreenId c (-1) = containmentScreenId c := by
  unfold addViewScreenId containmentScreenId
  by_cases h : c.screen = -1 <;> simp [h]

theorem primaryDockOccupyEdge_congr (s s' : ActiveLayout) (location : Location)
    (hc : s.corona = s'.corona) (hk : s.containments = s'.containments) :
    primaryDockOccupyEdge s location = primaryDockOccupyEdge s' location := by
  unfold primaryDockOccupyEdge
  rw [hc, hk]

theorem addViewTarget_congr (env : Corona) (s s' : ActiveLayout) (c : Containment)
    (forceOnPrimary : Bool) (explicitScreen : Int)
    (hc : s.corona = s'.corona) (hk : s.containments = s'.containments) :
    addViewTarget env s c forceOnPrimary explicitScreen
      = addViewTarget env s' c forceOnPrimary explicitScreen := by
  unfold addViewTarget explicitTarget
  rw [primaryDockOccupyEdge_congr s s' c.location hc hk]

theorem find?_eq_some_connector (screens : List String) (connector scr : String)
    (h : screens.find? (fun x => decide (x = connector)) = some scr) : scr = connector := by
  have := List.find?_some h
  simpa using this

theorem addViewTarget_evictee (env : Corona) (s : ActiveLayout) (c : Containment)
    (henv : env.Consistent) (hcorona : s.corona = true) (h : Evictee env s c) :
    addViewTarget env s c false (-1) = none := by
  obtain ⟨hoff, hid, d, hd, hdl, hdon, hdloc⟩ := h
  have hocc : primaryDockOccupyEdge s c.location = true := by
    simp only [primaryDockOccupyEdge, hcorona, Bool.not_true, Bool.false_eq_true, if_false,
      List.any_eq_true, Bool.and_eq_true, decide_eq_true_eq]
    exact ⟨d, hd, hdl, hdon, hdloc⟩
  have hid' : addViewScreenId c (-1) = env.primaryScreenId := by
    rw [addViewScreenId_neg_one, hid]
  unfold addViewTarget
  simp only [hid', hoff, henv.primary_nonneg, and_self, if_true, explicitTarget,
    henv.primary_connector]
  cases hfind : env.screens.find? (fun scr => decide (scr = env.primaryScreen)) with
  | none => rfl
  | some scr =>
    have := find?_eq_some_connector _ _ _ hfind
    simp [this, hocc]

theorem addView_eq_self_of_target_none (env : Corona) (s : ActiveLayout) (c : Containment)
    (forceOnPrimary : Bool) (explicitScreen : Int)
    (ht : addViewTarget env s c forceOnPrimary explicitScreen = none) :
    addView env s (some c) forceOnPrimary explicitScreen = s := by
  by_cases hvalid : s.corona = true ∧ c.packageValid = true
      ∧ isLatteContainment (some c) = true ∧ ∀ view ∈ s.latteViews, view.containment ≠ c
  · obtain ⟨h1, h2, h3, h4⟩ := hvalid
    rw [addView_of_valid env s c forceOnPrimary explicitScreen h1 h2 h3 h4, ht]
  · exact addView_eq_self_of_invalid env s c forceOnPrimary explicitScreen hvalid

theorem addView_effect (env : Corona) (s : ActiveLayout) (c : Containment)
    (forceOnPrimary : Bool) (explicitScreen : Int) (scr : String)
    (h1 : s.corona = true) (h2 : c.packageValid = true)
    (h3 : isLatteContainment (some c) = true)
    (h4 : ∀ v ∈ s.latteViews, v.containment ≠ c)
    (ht : addViewTarget env s c forceOnPrimary explicitScreen = some scr) :
    ∃ (kept evicted : List View),
      addView env s (some c) forceOnPrimary explicitScreen =
          { s with
            latteViews := kept ++ [newView c scr forceOnPrimary]
            log := s.log ++ evicted.map Event.removed
              ++ [Event.constructed (newView c scr forceOnPrimary),
                  Event.registered (newView c scr forceOnPrimary),
                  Event.viewsCountChanged] }
        ∧ kept.Sublist s.latteViews
        ∧ (∀ u ∈ s.latteViews, u ∈ kept ∨ u ∈ evicted)
        ∧ (∀ u ∈ evicted, u ∈ s.latteViews ∧ evictedBy env c u = true
            ∧ c.onPrimary = true) := by
  have hform := addView_of_valid env s c forceOnPrimary explicitScreen h1 h2 h3 h4
  rw [ht] at hform
  simp only at hform
  by_cases hev : 0 ≤ addViewScreenId c explicitScreen ∧ c.onPrimary = true
  · rw [if_pos hev] at hform
    refine ⟨s.latteViews.filter (fun view => !evictedBy env c view),
      s.latteViews.filter (fun view => evictedBy env c view), ?_,
      List.filter_sublist _, ?_, ?_⟩
    · rw [hform, insertView_of_new]
      · simp [evictExplicit]
      · intro v hv
        exact h4 v (evictExplicit_latteViews_subset env s c v hv)
    · intro u hu
      by_cases hue : evictedBy env c u = true
      · right; exact List.mem_filter.2 ⟨hu, hue⟩
      · left; exact List.mem_filter.2 ⟨hu, by simpa using hue⟩
    · intro u hu
      have := List.mem_filter.1 hu
      exact ⟨this.1, this.2, hev.2⟩
  · rw [if_neg hev] at hform
    refine ⟨s.latteViews, [], ?_, List.Sublist.refl _, fun u hu => Or.inl hu,
      fun u hu => by simp at hu⟩
    rw [hform, insertView_of_new _ _ (fun v hv => h4 v hv)]
    simp

theorem latteViewExists_eq_true_iff (s : ActiveLayout) (c : Containment)
    (h : s.corona = true) :
    latteViewExists s c = true ↔ ∃ v ∈ s.latteViews, v.containment = c := by
  simp [latteViewExists, h]

theorem latteViewExists_eq_false_iff (s : ActiveLayout) (c : Containment)
    (h : s.corona = true) :
    latteViewExists s c = false ↔ ∀ v ∈ s.latteViews, v.containment ≠ c := by
  rw [← Bool.not_eq_true, latteViewExists_eq_true_iff s c h]
  push_neg
  rfl

theorem evictee_of_evictedBy (env : Corona) (s : ActiveLayout) (c : Containment) (u : View)
    (hc : c ∈ s.containments) (hl : isLatteContainment (some c) = true)
    (hon : c.onPrimary = true) (hu : evictedBy env c u = true) :
    Evictee env s u.containment := by
  obtain ⟨h1, h2, h3⟩ := (evictedBy_iff env c u).1 hu
  exact ⟨h1, h2.symm, c, hc, hl, hon, h3.symm⟩

theorem not_fresh_of_evictee (env : Corona) (s : ActiveLayout) (shown : List Nat) (u : View)
    (henv : env.Consistent) (hcorona : s.corona = true)
    (he : Evictee env s u.containment) (hf : Fresh env s shown u) : False := by
  obtain ⟨_, _, _, scr, hscr, _⟩ := hf
  rw [addViewTarget_evictee env s u.containment henv hcorona he] at hscr
  exact Option.noConfusion hscr

theorem syncAddStep_inv (env : Corona) (s : ActiveLayout) (shown : List Nat)
    (processed : List Containment) (st : ActiveLayout) (c : Containment)
    (henv : env.Consistent) (hcorona : s.corona = true) (hc : c ∈ s.containments)
    (hinv : SyncInv env s shown processed st) :
    SyncInv env s shown (processed ++ [c]) (syncAddStep env shown st c) := by
  have hstc : st.corona = true := by rw [hinv.corona, hcorona]
  have hsame : SyncInv env s shown (processed ++ [c]) st
      ↔ ((c.id ∈ shown → (∃ v ∈ st.latteViews, v.containment = c) ∨ Rejected env s c)) := by
    constructor
    · intro h
      exact h.done c (by simp)
    · intro h
      refine { hinv with done := ?_ }
      intro c' hc' hid
      rcases List.mem_append.1 hc' with hc' | hc'
      · exact hinv.done c' hc' hid
      · rw [List.mem_singleton] at hc'
        subst hc'
        exact h hid
  unfold syncAddStep
  by_cases hcond : latteViewExists st c = false ∧ c.id ∈ shown
  · rw [if_pos hcond]
    obtain ⟨hnone, hid⟩ := hcond
    have h4 : ∀ v ∈ st.latteViews, v.containment ≠ c :=
      (latteViewExists_eq_false_iff st c hstc).1 hnone
    have htc : addViewTarget env st c false (-1) = addViewTarget env s c false (-1) :=
      addViewTarget_congr env st s c false (-1) hinv.corona hinv.containments
    by_cases h2 : c.packageValid = true
    · by_cases h3 : isLatteContainment (some c) = true
      · cases ht : addViewTarget env st c false (-1) with
        | none =>
          rw [addView_eq_self_of_target_none env st c false (-1) ht]
          rw [hsame]
          intro _
          right; right; right
          rw [← htc]; exact ht
        | some scr =>
          have hts : addViewTarget env s c false (-1) = some scr := by rw [← htc]; exact ht
          obtain ⟨kept, evicted, heq, hsub, hcover, hev⟩ :=
            addView_effect env st c false (-1) scr hstc h2 h3 h4 ht
          have hkeys : ∀ u ∈ s.latteViews, u.containment ≠ c := by
            intro u hu huc
            rcases hinv.kept u hu with h | h
            · exact h4 u h huc
            · rw [huc] at h
              rw [addViewTarget_evictee env s c henv hcorona h] at hts
              exact Option.noConfusion hts
          have hfresh : Fresh env s shown (newView c scr false) :=
            ⟨hc, hid, hkeys, scr, hts, rfl⟩
          have hevictee : ∀ u ∈ evicted, u ∈ s.latteViews ∧ Evictee env s u.containment := by
            intro u hu
            obtain ⟨hust, hue, hon⟩ := hev u hu
            have he := evictee_of_evictedBy env s c u hc h3 hon hue
            rcases hinv.origin u hust with h | h
            · exact ⟨h, he⟩
            · exact (not_fresh_of_evictee env s shown u henv hcorona he h).elim
          rw [heq]
          obtain ⟨events, hlog, hevents, hrem⟩ := hinv.trace
          refine
            { corona := hinv.corona
              layoutName := hinv.layoutName
              block := hinv.block
              containments := hinv.containments
              waiting := hinv.waiting
              keys_nodup := ?_
              origin := ?_
              kept := ?_
              trace := ?_
              done := ?_ }
          · simp only [List.map_append, List.map_cons, List.map_nil]
            rw [List.nodup_append]
            refine ⟨(hsub.map View.containment).nodup hinv.keys_nodup, List.nodup_singleton _, ?_⟩
            intro k hk1 hk2
            rw [List.mem_singleton] at hk2
            obtain ⟨v, hv, hvk⟩ := List.mem_map.1 hk1
            apply h4 v (hsub.subset hv)
            rw [hvk, hk2]
            rfl
          · intro v hv
            simp only [List.mem_append, List.mem_singleton] at hv
            rcases hv with hv | hv
            · exact hinv.origin v (hsub.subset hv)
            · right; rw [hv]; exact hfresh
          · intro u hu
            simp only [List.mem_append, List.mem_singleton]
            rcases hinv.kept u hu with h | h
            · rcases hcover u h with h' | h'
              · exact Or.inl (Or.inl h')
              · exact Or.inr (hevictee u h').2
            · exact Or.inr h
          · refine ⟨events ++ evicted.map Event.removed
              ++ [Event.constructed (newView c scr false),
                  Event.registered (newView c scr false), Event.viewsCountChanged], ?_, ?_, ?_⟩
            · simp only [hlog, List.append_assoc]
            · intro ev hev'
              simp only [List.mem_append, List.mem_map, List.mem_cons, List.mem_singleton,
                List.mem_nil_iff, or_false] at hev'
              rcases hev' with (hev' | ⟨u, hu, rfl⟩) | hev' | hev' | hev'
              · exact hevents ev hev'
              · exact Or.inr (Or.inl ⟨u, (hevictee u hu).1, rfl, (hevictee u hu).2⟩)
              · exact Or.inr (Or.inr ⟨_, hfresh, Or.inl hev'⟩)
              · exact Or.inr (Or.inr ⟨_, hfresh, Or.inr hev'⟩)
              · exact Or.inl hev'
            · intro u hu
              simp only [List.mem_append, List.mem_map, List.mem_singleton]
              rcases hrem u hu with h | h
              · rcases hcover u h with h' | h'
                · exact Or.inl (Or.inl h')
                · exact Or.inr (Or.inl (Or.inr ⟨u, h', rfl⟩))
              · exact Or.inr (Or.inl (Or.inl h))
          · intro c' hc' hid'
            simp only [List.mem_append, List.mem_singleton] at hc' ⊢
            rcases hc' with hc' | hc'
            · rcases hinv.done c' hc' hid' with ⟨v, hv, hvc⟩ | h
              · rcases hcover v hv with h' | h'
                · exact Or.inl ⟨v, Or.inl h', hvc⟩
                · right; right; right
                  have := (hevictee v h').2
                  rw [hvc] at this
                  exact addViewTarget_evictee env s c' henv hcorona this
              · exact Or.inr h
            · subst hc'
              exact Or.inl ⟨newView c' scr false, Or.inr rfl, rfl⟩
      · rw [addView_eq_self_of_invalid env st c false (-1) (fun h => h3 h.2.2.1)]
        rw [hsame]
        intro _
        right; right; left
        simpa using h3
    · rw [addView_eq_self_of_invalid env st c false (-1) (fun h => h2 h.2.1)]
      rw [hsame]
      intro _
      right; left
      simpa using h2
  · rw [if_neg hcond]
    rw [hsame]
    intro hid
    left
    apply (latteViewExists_eq_true_iff st c hstc).1
    by_contra h
    exact hcond ⟨by simpa using h, hid⟩

theorem syncAdd_inv (env : Corona) (s : ActiveLayout) (shown : List Nat)
    (henv : env.Consistent) (hcorona : s.corona = true) :
    ∀ (cs processed : List Containment) (st : ActiveLayout),
      (∀ c ∈ cs, c ∈ s.containments) → SyncInv env s shown processed st →
      SyncInv env s shown (processed ++ cs) (cs.foldl (syncAddStep env shown) st) := by
  intro cs
  induction cs with
  | nil => intro processed st _ h; simpa using h
  | cons c cs ih =>
    intro processed st hcs h
    rw [List.foldl_cons]
    have := ih (processed ++ [c]) _ (fun d hd => hcs d (List.mem_cons_of_mem _ hd))
      (syncAddStep_inv env s shown processed st c henv hcorona
        (hcs c (List.mem_cons_self _ _)) h)
    simpa using this

theorem syncInv_init (env : Corona) (s : ActiveLayout) (shown : List Nat)
    (hkeys : (s.latteViews.map View.containment).Nodup) :
    SyncInv env s shown [] s :=
  { corona := rfl
    layoutName := rfl
    block := rfl
    containments := rfl
    waiting := rfl
    keys_nodup := hkeys
    origin := fun v hv => Or.inl hv
    kept := fun u hu => Or.inl hu
    trace := ⟨[], by simp, fun ev hev => by simp at hev, fun u hu => Or.inl hu⟩
    done := fun c hc => by simp at hc }

theorem syncLatteViewsToScreens_eq (env : Corona) (s : ActiveLayout) (h : s.corona = true) :
    syncLatteViewsToScreens env s =
      syncReconsiderViews env (futureViews env s).shownViews
        (syncRemoveViews (futureViews env s).shownViews
          (s.containments.foldl (syncAddStep env (futureViews env s).shownViews) s)) := by
  simp [syncLatteViewsToScreens, h]

theorem syncAdd_inv_full (env : Corona) (s : ActiveLayout) (shown : List Nat)
    (henv : env.Consistent) (hcorona : s.corona = true)
    (hkeys : (s.latteViews.map View.containment).Nodup) :
    SyncInv env s shown s.containments (s.containments.foldl (syncAddStep env shown) s) := by
  have := syncAdd_inv env s shown henv hcorona s.containments [] s (fun c hc => hc)
    (syncInv_init env s shown hkeys)
  simpa using this

theorem viewOf_eq_of_mem (s : ActiveLayout) (u : View)
    (hkeys : (s.latteViews.map View.containment).Nodup) (hu : u ∈ s.latteViews) :
    viewOf s u.containment = some u := by
  unfold viewOf
  generalize s.latteViews = views at hkeys hu
  induction views with
  | nil => simp at hu
  | cons x xs ih =>
    rw [List.map_cons, List.nodup_cons] at hkeys
    by_cases hx : x.containment = u.containment
    · have hxu : x = u := by
        rcases List.mem_cons.1 hu with h | h
        · exact h.symm
        · exfalso
          apply hkeys.1
          rw [hx]
          exact List.mem_map_of_mem _ h
      simp [List.find?_cons, hxu]
    · have hux : u ∈ xs := by
        rcases List.mem_cons.1 hu with h | h
        · exact absurd (h ▸ rfl) hx
        · exact h
      simp only [List.find?_cons, hx, decide_False]
      exact ih hkeys.2 hux

theorem syncOnPrimary_of_mem (s : ActiveLayout) (u : View) (hcorona : s.corona = true)
    (hkeys : (s.latteViews.map View.containment).Nodup) (hu : u ∈ s.latteViews) :
    syncOnPrimary s u.containment = u.onPrimary := by
  have h1 : latteViewExists s u.containment = true :=
    (latteViewExists_eq_true_iff s _ hcorona).2 ⟨u, hu, rfl⟩
  simp [syncOnPrimary, h1, viewOf_eq_of_mem s u hkeys hu]

theorem syncScreenId_of_mem (env : Corona) (s : ActiveLayout) (u : View)
    (hcorona : s.corona = true)
    (hkeys : (s.latteViews.map View.containment).Nodup) (hu : u ∈ s.latteViews) :
    syncScreenId env s u.containment = u.currentScreenId env := by
  have h1 : latteViewExists s u.containment = true :=
    (latteViewExists_eq_true_iff s _ hcorona).2 ⟨u, hu, rfl⟩
  simp [syncScreenId, h1, viewOf_eq_of_mem s u hkeys hu]

theorem syncOnPrimary_of_no_view (s : ActiveLayout) (c : Containment) (hcorona : s.corona = true)
    (h : ∀ u ∈ s.latteViews, u.containment ≠ c) : syncOnPrimary s c = c.onPrimary := by
  have h1 : latteViewExists s c = false := (latteViewExists_eq_false_iff s c hcorona).2 h
  simp [syncOnPrimary, h1]

theorem syncScreenId_of_no_view (env : Corona) (s : ActiveLayout) (c : Containment)
    (hcorona : s.corona = true)
    (h : ∀ u ∈ s.latteViews, u.containment ≠ c) :
    syncScreenId env s c = containmentScreenId c := by
  have h1 : latteViewExists s c = false := (latteViewExists_eq_false_iff s c hcorona).2 h
  simp [syncScreenId, h1]

theorem explicitTarget_eq_some (env : Corona) (s : ActiveLayout) (c : Containment) (id : Int)
    (scr : String) (h : explicitTarget env s c id = some scr) : scr = env.connector id := by
  unfold explicitTarget at h
  simp only at h
  cases hfind : env.screens.find? (fun x => decide (x = env.connector id)) with
  | none => rw [hfind] at h; exact Option.noConfusion h
  | some x =>
    rw [hfind] at h
    simp only at h
    have hx := find?_eq_some_connector _ _ _ hfind
    split_ifs at h
    rw [← hx]
    exact (Option.some.inj h).symm

theorem mem_targets_of_id_mem (env : Corona) (s : ActiveLayout) (targets : List Containment)
    (c : Containment) (hkeyed : s.Keyed)
    (ht : TargetList env s (futureViews env s) targets)
    (hc : c ∈ s.containments ++ s.latteViews.map View.containment)
    (hid : c.id ∈ (futureViews env s).shownViews) : c ∈ targets := by
  rw [ht.1] at hid
  obtain ⟨c', hc', hcid⟩ := List.mem_map.1 hid
  have : c' = c := hkeyed.ids c' (List.mem_append_left _ (ht.2.2.2 c' hc').1) c hc hcid
  rw [← this]
  exact hc'

/-- A view that comes out of the "add views" loop with a targeted containment sits,
once reconsidered, on the slot the targeting loops reserved for its containment. -/
theorem slot_of_survivor (env : Corona) (s : ActiveLayout) (targets : List Containment)
    (u : View) (henv : env.Consistent) (hcorona : s.corona = true) (hkeyed : s.Keyed)
    (ht : TargetList env s (futureViews env s) targets)
    (hexp : ∀ c ∈ targets, syncOnPrimary s c = false →
      env.screenExists (syncScreenId env s c) = true)
    (hu : u ∈ s.latteViews ∨ Fresh env s (futureViews env s).shownViews u)
    (hid : u.containment.id ∈ (futureViews env s).shownViews) :
    u.containment ∈ targets
      ∧ ((u.reconsiderScreen env).screen, u.location) = syncSlot env s u.containment := by
  have hmem : u.containment ∈ targets := by
    apply mem_targets_of_id_mem env s targets _ hkeyed ht _ hid
    rcases hu with hu | hu
    · exact List.mem_append_right _ (List.mem_map_of_mem _ hu)
    · exact List.mem_append_left _ hu.1
  refine ⟨hmem, ?_⟩
  rcases hu with hu | hu
  · have hon := syncOnPrimary_of_mem s u hcorona hkeyed.keys_nodup hu
    have hsid := syncScreenId_of_mem env s u hcorona hkeyed.keys_nodup hu
    unfold syncSlot View.reconsiderScreen View.location
    rw [hon]
    by_cases hflag : u.onPrimary = true
    · simp [hflag]
    · have hoff : syncOnPrimary s u.containment = false := by
        rw [hon]; simpa using hflag
      have hex := hexp _ hmem hoff
      rw [hsid] at hex ⊢
      simp only [Bool.not_eq_true] at hflag
      simp only [hflag, Bool.false_eq_true, if_false]
      rw [View.currentScreenId] at hex ⊢
      rw [henv.connector_poolId _ hex]
  · obtain ⟨_, _, hnone, scr, hscr, hnew⟩ := hu
    have hon := syncOnPrimary_of_no_view s u.containment hcorona hnone
    have hsid := syncScreenId_of_no_view env s u.containment hcorona hnone
    have hflag : u.onPrimary = u.containment.onPrimary := by
      conv_lhs => rw [hnew]
      simp [newView]
    have hscreen : u.screen = scr := by
      conv_lhs => rw [hnew]
      simp [newView]
    unfold syncSlot View.reconsiderScreen View.location
    rw [hon, hflag]
    by_cases hcfg : u.containment.onPrimary = true
    · simp [hcfg]
    · have hoff : syncOnPrimary s u.containment = false := by
        rw [hon]; simpa using hcfg
      have hex := hexp _ hmem hoff
      rw [hsid] at hex ⊢
      have hnn := henv.nonneg_of_exists _ hex
      simp only [Bool.not_eq_true] at hcfg
      simp only [hcfg, Bool.false_eq_true, if_false]
      rw [hscreen]
      unfold addViewTarget at hscr
      rw [addViewScreenId_neg_one] at hscr
      simp only [hnn, hcfg, and_self, if_true] at hscr
      rw [explicitTarget_eq_some env s _ _ scr hscr]

/-- One run of `syncLatteViewsToScreens` over a consistent screen pool, from a keyed
layout, leaves no two live views on the same screen with the same edge. -/
theorem sync_noSharedEdge (env : Corona) (s : ActiveLayout) (henv : env.Consistent)
    (hkeyed : s.Keyed) : NoSharedEdge (syncLatteViewsToScreens env s) := by
  by_cases hcorona : s.corona = true
  · obtain ⟨targets, ht, hexp⟩ := futureViews_spec env s
    have hinv := syncAdd_inv_full env s (futureViews env s).shownViews henv hcorona
      hkeyed.keys_nodup
    rw [syncLatteViewsToScreens_eq env s hcorona]
    unfold NoSharedEdge syncReconsiderViews syncRemoveViews
    simp only
    rw [List.pairwise_map]
    have hp : List.Pairwise (fun a b : View => a.containment ≠ b.containment)
        (s.containments.foldl (syncAddStep env (futureViews env s).shownViews) s).latteViews :=
      List.pairwise_map.1 hinv.keys_nodup
    refine List.Pairwise.imp_of_mem ?_ (hp.sublist (List.filter_sublist _))
    intro a b ha hb hne hshare
    obtain ⟨ha1, ha2⟩ := List.mem_filter.1 ha
    obtain ⟨hb1, hb2⟩ := List.mem_filter.1 hb
    simp only [decide_eq_true_eq] at ha2 hb2
    rw [if_pos ha2, if_pos hb2] at hshare
    obtain ⟨hta, hsa⟩ := slot_of_survivor env s targets a henv hcorona hkeyed ht
      (fun c hc h => (hexp c hc h).1) (hinv.origin a ha1) ha2
    obtain ⟨htb, hsb⟩ := slot_of_survivor env s targets b henv hcorona hkeyed ht
      (fun c hc h => (hexp c hc h).1) (hinv.origin b hb1) hb2
    have hslots : syncSlot env s a.containment = syncSlot env s b.containment := by
      rw [← hsa, ← hsb]
      have h2 : a.location = b.location := by
        have := hshare.2
        simpa [View.location, View.reconsiderScreen, apply_ite View.containment] using this
      rw [hshare.1, h2]
    have hnd : (targets.map (syncSlot env s)).Nodup := by
      rw [← ht.2.1]; exact ht.2.2.1
    exact hne (List.inj_on_of_nodup_map hnd hta htb hslots)
  · simp only [Bool.not_eq_true] at hcorona
    have : syncLatteViewsToScreens env s = s := by simp [syncLatteViewsToScreens, hcorona]
    rw [this]
    unfold NoSharedEdge
    rw [hkeyed.attached hcorona]
    exact List.Pairwise.nil

theorem addView_cases (env : Corona) (s : ActiveLayout) (c : Containment)
    (forceOnPrimary : Bool) (explicitScreen : Int) :
    addView env s (some c) forceOnPrimary explicitScreen = s
      ∨ ∃ (scr : String) (kept evicted : List View),
          s.corona = true ∧ (∀ v ∈ s.latteViews, v.containment ≠ c)
          ∧ addView env s (some c) forceOnPrimary explicitScreen =
              { s with
                latteViews := kept ++ [newView c scr forceOnPrimary]
                log := s.log ++ evicted.map Event.removed
                  ++ [Event.constructed (newView c scr forceOnPrimary),
                      Event.registered (newView c scr forceOnPrimary),
                      Event.viewsCountChanged] }
          ∧ kept.Sublist s.latteViews := by
  by_cases hvalid : s.corona = true ∧ c.packageValid = true
      ∧ isLatteContainment (some c) = true ∧ ∀ view ∈ s.latteViews, view.containment ≠ c
  · obtain ⟨h1, h2, h3, h4⟩ := hvalid
    cases ht : addViewTarget env s c forceOnPrimary explicitScreen with
    | none => exact Or.inl (addView_eq_self_of_target_none env s c _ _ ht)
    | some scr =>
      obtain ⟨kept, evicted, heq, hsub, _, _⟩ :=
        addView_effect env s c forceOnPrimary explicitScreen scr h1 h2 h3 h4 ht
      exact Or.inr ⟨scr, kept, evicted, h1, h4, heq, hsub⟩
  · exact Or.inl (addView_eq_self_of_invalid env s c forceOnPrimary explicitScreen hvalid)

theorem within_addView (known : List Containment) (env : Corona) (s : ActiveLayout)
    (c : Containment) (forceOnPrimary : Bool) (explicitScreen : Int)
    (hc : c ∈ known) (h : Within known s) :
    Within known (addView env s (some c) forceOnPrimary explicitScreen) := by
  rcases addView_cases env s c forceOnPrimary explicitScreen with heq | ⟨scr, kept, evicted,
    hcorona, hnew, heq, hsub⟩
  · rw [heq]; exact h
  · rw [heq]
    refine ⟨?_, ?_, h.containments, ?_⟩
    · intro hfalse
      simp only at hfalse
      rw [hcorona] at hfalse
      exact Bool.noConfusion hfalse
    · simp only [List.map_append, List.map_cons, List.map_nil]
      rw [List.nodup_append]
      refine ⟨(hsub.map View.containment).nodup h.keys_nodup, List.nodup_singleton _, ?_⟩
      intro k hk1 hk2
      rw [List.mem_singleton] at hk2
      obtain ⟨v, hv, hvk⟩ := List.mem_map.1 hk1
      apply hnew v (hsub.subset hv)
      rw [hvk, hk2]
      rfl
    · intro v hv
      simp only [List.mem_append, List.mem_singleton] at hv
      rcases hv with hv | hv
      · exact h.keys v (hsub.subset hv)
      · rw [hv]; exact hc

theorem within_addContainment (known : List Containment) (env : Corona) (s : ActiveLayout)
    (c : Containment) (hc : c ∈ known) (h : Within known s) :
    Within known (addContainment env s (some c)) := by
  have hs1 : Within known { s with containments := s.containments ++ [c] } := by
    refine ⟨h.attached, h.keys_nodup, ?_, h.keys⟩
    intro d hd
    simp only [List.mem_append, List.mem_singleton] at hd
    rcases hd with hd | hd
    · exact h.containments d hd
    · rw [hd]; exact hc
  unfold addContainment
  simp only
  split_ifs
  all_goals first
    | exact h
    | exact hs1
    | exact within_addView known env _ c false (-1) hc hs1

theorem within_containmentDestroyed (known : List Containment) (s : ActiveLayout)
    (c : Containment) (h : Within known s) :
    Within known (containmentDestroyed s (some c)) := by
  have hconts : ∀ d ∈ s.containments.erase c, d ∈ known :=
    fun d hd => h.containments d (List.mem_of_mem_erase hd)
  unfold containmentDestroyed
  split_ifs with h1
  · exact h
  · simp only
    split
    · refine ⟨?_, ?_, hconts, ?_⟩
      · intro hfalse
        simp only at hfalse
        exact absurd hfalse h1
      · exact ((List.filter_sublist _).map View.containment).nodup h.keys_nodup
      · intro v hv
        exact h.keys v (List.mem_of_mem_filter hv)
    · split
      · exact ⟨h.attached, h.keys_nodup, hconts, h.keys⟩
      · exact ⟨h.attached, h.keys_nodup, hconts, h.keys⟩

theorem within_syncAdd (known : List Containment) (env : Corona) (shown : List Nat) :
    ∀ (cs : List Containment) (st : ActiveLayout), (∀ c ∈ cs, c ∈ known) →
      Within known st → Within known (cs.foldl (syncAddStep env shown) st) := by
  intro cs
  induction cs with
  | nil => intro st _ h; exact h
  | cons c cs ih =>
    intro st hcs h
    rw [List.foldl_cons]
    apply ih _ (fun d hd => hcs d (List.mem_cons_of_mem _ hd))
    unfold syncAddStep
    split_ifs
    · exact within_addView known env st c false (-1) (hcs c (List.mem_cons_self _ _)) h
    · exact h

theorem within_sync (known : List Containment) (env : Corona) (s : ActiveLayout)
    (h : Within known s) : Within known (syncLatteViewsToScreens env s) := by
  by_cases hcorona : s.corona = true
  · rw [syncLatteViewsToScreens_eq env s hcorona]
    have h1 := within_syncAdd known env (futureViews env s).shownViews s.containments s
      h.containments h
    have hmap : ∀ l : List View,
        (l.map (fun view => if view.containment.id ∈ (futureViews env s).shownViews
          then view.reconsiderScreen env else view)).map View.containment
        = l.map View.containment := by
      intro l
      rw [List.map_map]
      apply List.map_congr_left
      intro v _
      simp only [Function.comp, View.reconsiderScreen]
      split_ifs <;> rfl
    refine ⟨?_, ?_, h1.containments, ?_⟩
    · intro hfalse
      simp only [syncReconsiderViews, syncRemoveViews] at hfalse ⊢
      rw [h1.attached hfalse]
      rfl
    · simp only [syncReconsiderViews, syncRemoveViews]
      rw [hmap]
      exact ((List.filter_sublist _).map View.containment).nodup h1.keys_nodup
    · intro v hv
      simp only [syncReconsiderViews, syncRemoveViews] at hv
      have : v.containment ∈ (List.filter
          (fun view => decide (view.containment.id ∈ (futureViews env s).shownViews))
          (s.containments.foldl (syncAddStep env (futureViews env s).shownViews) s).latteViews).map
            View.containment := by
        rw [← hmap]
        exact List.mem_map_of_mem _ hv
      obtain ⟨u, hu, huv⟩ := List.mem_map.1 this
      rw [← huv]
      exact h1.keys u (List.mem_of_mem_filter hu)
  · simp only [Bool.not_eq_true] at hcorona
    have : syncLatteViewsToScreens env s = s := by simp [syncLatteViewsToScreens, hcorona]
    rw [this]; exact h

theorem within_runOps (known : List Containment) :
    ∀ (ops : List (Corona × Op)) (s : ActiveLayout),
      (∀ c ∈ opsContainments ops, c ∈ known) → Within known s →
      Within known (runOps s ops) := by
  intro ops
  induction ops with
  | nil => intro s _ h; exact h
  | cons step ops ih =>
    intro s hops h
    have hrest : ∀ c ∈ opsContainments ops, c ∈ known := by
      intro c hc
      apply hops
      unfold opsContainments at hc ⊢
      rw [List.filterMap_cons]
      split
      · exact hc
      · exact List.mem_cons_of_mem _ hc
    have hsubj : ∀ c, step.2.subject = some c → c ∈ known := by
      intro c hc
      apply hops
      unfold opsContainments
      rw [List.filterMap_cons, hc]
      exact List.mem_cons_self _ _
    unfold runOps
    rw [List.foldl_cons]
    apply ih _ hrest
    obtain ⟨env, op⟩ := step
    cases op with
    | addContainment c => exact within_addContainment known env s c (hsubj c rfl) h
    | addView c f e => exact within_addView known env s c f e (hsubj c rfl) h
    | containmentDestroyed c => exact within_containmentDestroyed known s c h
    | syncLatteViewsToScreens => exact within_sync known env s h

theorem keyed_of_within (known : List Containment) (s : ActiveLayout)
    (hids : ∀ c ∈ known, ∀ d ∈ known, c.id = d.id → c = d) (h : Within known s) :
    s.Keyed := by
  refine ⟨h.attached, h.keys_nodup, ?_⟩
  have hmem : ∀ c ∈ s.containments ++ s.latteViews.map View.containment, c ∈ known := by
    intro c hc
    rcases List.mem_append.1 hc with hc | hc
    · exact h.containments c hc
    · obtain ⟨v, hv, hvc⟩ := List.mem_map.1 hc
      rw [← hvc]; exact h.keys v hv
  intro c hc d hd hid
  exact hids c (hmem c hc) d (hmem d hd) hid

/-- The pool of `demoCorona` is consistent. -/
theorem demoCorona_consistent : demoCorona.Consistent := by
  refine ⟨?_, ?_, ?_, by decide, by decide⟩
  · intro i hi
    simp only [demoCorona, decide_eq_true_eq] at hi
    omega
  · intro i hi
    simp only [demoCorona, decide_eq_true_eq] at hi
    rcases hi with rfl | rfl <;> decide
  · intro name hname
    simp only [demoCorona, decide_eq_true_eq] at hname ⊢
    by_cases h1 : name = "eDP-1"
    · simp [h1]
    · by_cases h2 : name = "HDMI-1"
      · simp [h2]
      · simp [h1, h2] at hname

/-- C1, as stated, fails: from a layout without views, adding two onPrimary definitions
with the bottom edge leaves two live views on the primary screen with the same edge. -/
theorem two_added_onPrimary_views_share_an_edge :
    (demoLayout []).latteViews = []
      ∧ ¬ NoSharedEdge (runOps (demoLayout [])
          [(demoCorona, Op.addContainment (demoDock 1 true 0 Location.BottomEdge)),
           (demoCorona, Op.addContainment (demoDock 2 true 0 Location.BottomEdge))]) := by
  decide

/-- C1, amended: starting from a layout with no live views, after every finite sequence
of addContainment, addView, containmentDestroyed and syncLatteViewsToScreens operations
(each run with the screens of its moment) that ends with a syncLatteViewsToScreens run
over a consistent screen pool, no two live views are bound to the same screen with the
same edge, provided an id belongs to one definition. -/
theorem no_shared_edge_after_sync (init : ActiveLayout) (ops : List (Corona × Op))
    (env : Corona) (hinit : init.latteViews = [])
    (hids : ∀ c ∈ init.containments ++ opsContainments ops,
      ∀ d ∈ init.containments ++ opsContainments ops, c.id = d.id → c = d)
    (henv : env.Consistent) :
    NoSharedEdge (runOps init (ops ++ [(env, Op.syncLatteViewsToScreens)])) := by
  have h0 : Within (init.containments ++ opsContainments ops) init := by
    refine ⟨fun _ => hinit, ?_, fun c hc => List.mem_append_left _ hc, ?_⟩
    · rw [hinit]; exact List.nodup_nil
    · intro v hv
      rw [hinit] at hv
      simp at hv
  have h1 := within_runOps (init.containments ++ opsContainments ops) ops init
    (fun c hc => List.mem_append_right _ hc) h0
  have hkeyed := keyed_of_within _ _ hids h1
  have hrun : runOps init (ops ++ [(env, Op.syncLatteViewsToScreens)])
      = syncLatteViewsToScreens env (runOps init ops) := by
    unfold runOps
    rw [List.foldl_append]
    rfl
  rw [hrun]
  exact sync_noSharedEdge env _ henv hkeyed

/-- C1, amended, on two onPrimary docks with the bottom edge: they share the edge after
the two additions, and no longer after a `syncLatteViewsToScreens` run. -/
theorem no_shared_edge_after_sync_witness :
    ¬ NoSharedEdge (runOps (demoLayout [])
        [(demoCorona, Op.addContainment (demoDock 1 true 0 Location.BottomEdge)),
         (demoCorona, Op.addContainment (demoDock 2 true 0 Location.BottomEdge))])
      ∧ NoSharedEdge (runOps (demoLayout [])
          ([(demoCorona, Op.addContainment (demoDock 1 true 0 Location.BottomEdge)),
            (demoCorona, Op.addContainment (demoDock 2 true 0 Location.BottomEdge))]
            ++ [(demoCorona, Op.syncLatteViewsToScreens)])) :=
  ⟨by decide,
    no_shared_edge_after_sync (demoLayout [])
      [(demoCorona, Op.addContainment (demoDock 1 true 0 Location.BottomEdge)),
       (demoCorona, Op.addContainment (demoDock 2 true 0 Location.BottomEdge))]
      demoCorona rfl (by decide) demoCorona_consistent⟩

theorem viewOf_containment (s : ActiveLayout) (c : Containment) (v : View)
    (h : viewOf s c = some v) : v.containment = c ∧ v ∈ s.latteViews := by
  unfold viewOf at h
  have h1 := List.find?_some h
  exact ⟨by simpa using h1, List.mem_of_find?_eq_some h⟩

theorem syncOnPrimary_coherent (s : ActiveLayout) (c : Containment)
    (hflag : ∀ v ∈ s.latteViews, v.onPrimary = v.containment.onPrimary)
    (hcorona : s.corona = true) : syncOnPrimary s c = c.onPrimary := by
  by_cases h : ∃ u ∈ s.latteViews, u.containment = c
  · have h1 : latteViewExists s c = true := (latteViewExists_eq_true_iff s c hcorona).2 h
    unfold syncOnPrimary
    rw [if_pos h1]
    cases hv : viewOf s c with
    | none =>
      exfalso
      obtain ⟨u, hu, huc⟩ := h
      unfold viewOf at hv
      rw [List.find?_eq_none] at hv
      exact hv u hu (by simpa using huc)
    | some v =>
      obtain ⟨hvc, hvm⟩ := viewOf_containment s c v hv
      simp only
      rw [hflag v hvm, hvc]
  · push_neg at h
    exact syncOnPrimary_of_no_view s c hcorona h

theorem syncScreenId_coherent (env : Corona) (s : ActiveLayout) (c : Containment)
    (hflag : ∀ v ∈ s.latteViews, v.onPrimary = v.containment.onPrimary)
    (hpinned : ∀ v ∈ s.latteViews, v.onPrimary = false →
      v.currentScreenId env = containmentScreenId v.containment)
    (hcorona : s.corona = true) (hoff : c.onPrimary = false) :
    syncScreenId env s c = containmentScreenId c := by
  by_cases h : ∃ u ∈ s.latteViews, u.containment = c
  · have h1 : latteViewExists s c = true := (latteViewExists_eq_true_iff s c hcorona).2 h
    unfold syncScreenId
    rw [if_pos h1]
    cases hv : viewOf s c with
    | none =>
      exfalso
      obtain ⟨u, hu, huc⟩ := h
      unfold viewOf at hv
      rw [List.find?_eq_none] at hv
      exact hv u hu (by simpa using huc)
    | some v =>
      obtain ⟨hvc, hvm⟩ := viewOf_containment s c v hv
      simp only
      have hvoff : v.onPrimary = false := by rw [hflag v hvm, hvc, hoff]
      rw [hpinned v hvm hvoff, hvc]
  · push_neg at h
    exact syncScreenId_of_no_view env s c hcorona h

/-- The screen id the targeting loops work with is the stored one when every view of
the definition sits on the screen of that id. -/
theorem syncScreenId_of_views (env : Corona) (s : ActiveLayout) (c : Containment)
    (hcorona : s.corona = true)
    (h : ∀ v ∈ s.latteViews, v.containment = c →
      v.currentScreenId env = containmentScreenId c) :
    syncScreenId env s c = containmentScreenId c := by
  by_cases hex : ∃ u ∈ s.latteViews, u.containment = c
  · have h1 : latteViewExists s c = true := (latteViewExists_eq_true_iff s c hcorona).2 hex
    unfold syncScreenId
    rw [if_pos h1]
    cases hv : viewOf s c with
    | none =>
      exfalso
      obtain ⟨u, hu, huc⟩ := hex
      unfold viewOf at hv
      rw [List.find?_eq_none] at hv
      exact hv u hu (by simpa using huc)
    | some v =>
      obtain ⟨hvc, hvm⟩ := viewOf_containment s c v hv
      exact h v hvm hvc
  · push_neg at hex
    exact syncScreenId_of_no_view env s c hcorona hex

/-- In a coherent layout the targeting loops never target a definition whose view
`addView` would evict. -/
theorem evictee_not_targeted (env : Corona) (s : ActiveLayout) (e : Containment)
    (henv : env.Consistent) (hcoh : s.Coherent env) (hcorona : s.corona = true)
    (he : Evictee env s e)
    (hmem : e ∈ s.containments ++ s.latteViews.map View.containment) :
    e.id ∉ (futureViews env s).shownViews := by
  intro hid
  obtain ⟨targets, ht, hexp⟩ := futureViews_spec env s
  have het := mem_targets_of_id_mem env s targets e hcoh.keyed ht hmem hid
  obtain ⟨hoff, hprim, d, hd, hdl, hdon, hdloc⟩ := he
  have hflag : ∀ v ∈ s.latteViews, v.onPrimary = v.containment.onPrimary :=
    fun v hv => (hcoh.mirrors v hv).1
  have hon := syncOnPrimary_coherent s e hflag hcorona
  have hsid : syncScreenId env s e = containmentScreenId e := by
    apply syncScreenId_of_views env s e hcorona
    intro v hv hve
    have hvoff : v.onPrimary = false := by rw [hflag v hv, hve, hoff]
    rcases (hcoh.mirrors v hv).2 hvoff with h | h
    · rw [h, hve]
    · exfalso
      rw [hve, ← hprim] at h
      have := henv.primary_nonneg
      omega
  have hdon' : syncOnPrimary s d = true := by
    rw [syncOnPrimary_coherent s d hflag hcorona, hdon]
  apply (hexp e het (by rw [hon, hoff])).2 d hd hdl hdon'
  unfold syncSlot
  rw [hon, hoff, hsid, ← hprim, henv.primary_connector, hdloc]
  simp

theorem mem_sync_views (env : Corona) (shown : List Nat) (st : ActiveLayout) (w : View) :
    w ∈ (syncReconsiderViews env shown (syncRemoveViews shown st)).latteViews
      ↔ ∃ u ∈ st.latteViews, u.containment.id ∈ shown ∧ w = u.reconsiderScreen env := by
  simp only [syncReconsiderViews, syncRemoveViews, List.mem_map, List.mem_filter,
    decide_eq_true_eq]
  constructor
  · rintro ⟨u, ⟨hu, hid⟩, rfl⟩
    exact ⟨u, hu, hid, by rw [if_pos hid]⟩
  · rintro ⟨u, hu, hid, rfl⟩
    exact ⟨u, ⟨hu, hid⟩, by rw [if_pos hid]⟩

theorem reconsiderScreen_containment (env : Corona) (u : View) :
    (u.reconsiderScreen env).containment = u.containment := by
  unfold View.reconsiderScreen
  split_ifs <;> rfl

theorem sync_log (env : Corona) (shown : List Nat) (st : ActiveLayout) :
    (syncReconsiderViews env shown (syncRemoveViews shown st)).log
      = st.log ++ (st.latteViews.filter
          (fun view => decide (view.containment.id ∉ shown))).map Event.removed := rfl

theorem eq_of_mem_of_containment_eq (views : List View) (a b : View)
    (hkeys : (views.map View.containment).Nodup) (ha : a ∈ views) (hb : b ∈ views)
    (hab : a.containment = b.containment) : a = b :=
  List.inj_on_of_nodup_map hkeys ha hb hab

/-- From a coherent layout and over a consistent screen pool, what
`syncLatteViewsToScreens` leaves: views of targeted definitions only, the untargeted
live views removed, the targeted live views kept as they were. -/
theorem sync_keeps_targeted_of_coherent (env : Corona) (s : ActiveLayout)
    (henv : env.Consistent) (hcoh : s.Coherent env) :
    ∃ events, (syncLatteViewsToScreens env s).log = s.log ++ events
      ∧ (∀ w ∈ (syncLatteViewsToScreens env s).latteViews,
          w.containment.id ∈ (futureViews env s).shownViews)
      ∧ (∀ v ∈ s.latteViews, v.containment.id ∉ (futureViews env s).shownViews →
          (∀ w ∈ (syncLatteViewsToScreens env s).latteViews, w.containment ≠ v.containment)
            ∧ Event.removed v ∈ events)
      ∧ (∀ v ∈ s.latteViews, v.containment.id ∈ (futureViews env s).shownViews →
          v.reconsiderScreen env ∈ (syncLatteViewsToScreens env s).latteViews
            ∧ (∀ w ∈ (syncLatteViewsToScreens env s).latteViews,
                w.containment = v.containment → w = v.reconsiderScreen env)
            ∧ Event.removed v ∉ events
            ∧ ∀ w, w.containment = v.containment → Event.constructed w ∉ events)
      ∧ (∀ c, c.id ∉ (futureViews env s).shownViews →
          ∀ w ∈ (syncLatteViewsToScreens env s).latteViews, w.containment ≠ c) := by
  by_cases hcorona : s.corona = true
  · have hinv := syncAdd_inv_full env s (futureViews env s).shownViews henv hcorona
      hcoh.keyed.keys_nodup
    obtain ⟨events, hlog, hevents, hrem⟩ := hinv.trace
    have hwithin := within_sync (s.containments ++ s.latteViews.map View.containment) env s
      ⟨hcoh.keyed.attached, hcoh.keyed.keys_nodup, fun c hc => List.mem_append_left _ hc,
        fun v hv => List.mem_append_right _ (List.mem_map_of_mem _ hv)⟩
    have hP1 : ∀ w ∈ (syncLatteViewsToScreens env s).latteViews,
        w.containment.id ∈ (futureViews env s).shownViews := by
      intro w hw
      rw [syncLatteViewsToScreens_eq env s hcorona, mem_sync_views] at hw
      obtain ⟨u, _, hid, rfl⟩ := hw
      rw [reconsiderScreen_containment]
      exact hid
    have hsafe : ∀ v ∈ s.latteViews, v.containment.id ∈ (futureViews env s).shownViews →
        ¬ Evictee env s v.containment := by
      intro v hv hid he
      exact evictee_not_targeted env s v.containment henv hcoh hcorona he
        (List.mem_append_right _ (List.mem_map_of_mem _ hv)) hid
    refine ⟨events ++ ((s.containments.foldl (syncAddStep env (futureViews env s).shownViews)
      s).latteViews.filter (fun view => decide (view.containment.id
        ∉ (futureViews env s).shownViews))).map Event.removed, ?_, hP1, ?_, ?_, ?_⟩
    · rw [syncLatteViewsToScreens_eq env s hcorona, sync_log, hlog, List.append_assoc]
    · intro v hv hid
      constructor
      · intro w hw hwc
        apply hid
        rw [← hwc]
        exact hP1 w hw
      · simp only [List.mem_append, List.mem_map, List.mem_filter, decide_eq_true_eq]
        rcases hrem v hv with h | h
        · exact Or.inr ⟨v, ⟨h, hid⟩, rfl⟩
        · exact Or.inl h
    · intro v hv hid
      have hkept : v ∈ (s.containments.foldl
          (syncAddStep env (futureViews env s).shownViews) s).latteViews := by
        rcases hinv.kept v hv with h | h
        · exact h
        · exact (hsafe v hv hid h).elim
      have hmem : v.reconsiderScreen env ∈ (syncLatteViewsToScreens env s).latteViews := by
        rw [syncLatteViewsToScreens_eq env s hcorona, mem_sync_views]
        exact ⟨v, hkept, hid, rfl⟩
      refine ⟨hmem, ?_, ?_, ?_⟩
      · intro w hw hwc
        apply eq_of_mem_of_containment_eq _ w _ hwithin.keys_nodup hw hmem
        rw [hwc, reconsiderScreen_containment]
      · simp only [List.mem_append, List.mem_map, List.mem_filter, decide_eq_true_eq, not_or,
          not_exists, not_and]
        constructor
        · intro hin
          rcases hevents _ hin with h | ⟨u, hu, heq, he⟩ | ⟨w, _, h | h⟩
          · exact Event.noConfusion h
          · have : v = u := by injection heq
            rw [← this] at he
            exact hsafe v hv hid he
          · exact Event.noConfusion h
          · exact Event.noConfusion h
        · intro u hu heq
          have : u = v := by injection heq
          rw [this] at hu
          exact hu.2 hid
      · intro w hwc
        simp only [List.mem_append, List.mem_map, List.mem_filter, decide_eq_true_eq, not_or,
          not_exists, not_and]
        constructor
        · intro hin
          rcases hevents _ hin with h | ⟨u, _, heq, _⟩ | ⟨w', hfresh, h | h⟩
          · exact Event.noConfusion h
          · exact Event.noConfusion heq
          · have : w = w' := by injection h
            rw [← this] at hfresh
            exact hfresh.2.2.1 v hv hwc.symm
          · exact Event.noConfusion h
        · intro u _ heq
          exact Event.noConfusion heq
    · intro c hc w hw hwc
      apply hc
      rw [← hwc]
      exact hP1 w hw
  · simp only [Bool.not_eq_true] at hcorona
    have hs : syncLatteViewsToScreens env s = s := by simp [syncLatteViewsToScreens, hcorona]
    have hnil := hcoh.keyed.attached hcorona
    rw [hs]
    refine ⟨[], by simp, ?_, ?_, ?_, ?_⟩
    · intro w hw; rw [hnil] at hw; simp at hw
    · intro v hv; rw [hnil] at hv; simp at hv
    · intro v hv; rw [hnil] at hv; simp at hv
    · intro c _ w hw; rw [hnil] at hw; simp at hw

theorem syncSecondStep_shown_mono (env : Corona) (s : ActiveLayout) :
    ∀ (cs : List Containment) (future : FutureViews), ∀ x ∈ future.shownViews,
      x ∈ (cs.foldl (syncSecondStep env s) future).shownViews := by
  intro cs
  induction cs with
  | nil => intro future x hx; exact hx
  | cons c cs ih =>
    intro future x hx
    rw [List.foldl_cons]
    apply ih
    simp only [syncSecondStep]
    split_ifs
    · simp only [List.mem_append]
      exact Or.inl hx
    all_goals exact hx

theorem syncSecondStep_eq_or (env : Corona) (s : ActiveLayout) (future : FutureViews)
    (c : Containment) :
    syncSecondStep env s future c = future
      ∨ c.id ∈ (syncSecondStep env s future c).shownViews := by
  simp only [syncSecondStep]
  split_ifs
  · right
    simp
  all_goals exact Or.inl rfl

/-- The second targeting loop gives the same result in two layouts that agree on the
onPrimary flag of every containment and on the screen id of every explicit one, but for
explicit containments the loop does not target and whose screen id in the other layout
does not exist. -/
theorem foldl_syncSecondStep_congr (env : Corona) (s s' : ActiveLayout) :
    ∀ (cs : List Containment) (future : FutureViews),
      (∀ c ∈ cs, syncOnPrimary s' c = syncOnPrimary s c) →
      (∀ c ∈ cs, syncOnPrimary s c = false →
        syncScreenId env s' c = syncScreenId env s c
          ∨ (env.screenExists (syncScreenId env s' c) = false
              ∧ c.id ∉ (cs.foldl (syncSecondStep env s) future).shownViews)) →
      cs.foldl (syncSecondStep env s') future = cs.foldl (syncSecondStep env s) future := by
  intro cs
  induction cs with
  | nil => intro future _ _; rfl
  | cons c cs ih =>
    intro future hon hsid
    rw [List.foldl_cons, List.foldl_cons]
    have hhead : syncSecondStep env s' future c = syncSecondStep env s future c := by
      by_cases hoff : syncOnPrimary s c = false
      · rcases hsid c (List.mem_cons_self _ _) hoff with heq | ⟨hex, hid⟩
        · unfold syncSecondStep
          rw [hon c (List.mem_cons_self _ _), heq]
        · rw [List.foldl_cons] at hid
          have hleft : syncSecondStep env s' future c = future := by
            unfold syncSecondStep
            simp [hex]
          rw [hleft]
          rcases syncSecondStep_eq_or env s future c with h | h
          · exact h.symm
          · exact absurd (syncSecondStep_shown_mono env s cs _ _ h) hid
      · simp only [Bool.not_eq_false] at hoff
        unfold syncSecondStep
        rw [hon c (List.mem_cons_self _ _)]
        simp [hoff]
    rw [hhead]
    apply ih
    · intro d hd
      exact hon d (List.mem_cons_of_mem _ hd)
    · intro d hd hoff
      have := hsid d (List.mem_cons_of_mem _ hd) hoff
      rw [List.foldl_cons] at this
      exact this

theorem futureViews_congr (env : Corona) (s s' : ActiveLayout)
    (hk : s'.containments = s.containments)
    (hon : ∀ c ∈ s.containments, syncOnPrimary s' c = syncOnPrimary s c)
    (hsid : ∀ c ∈ s.containments, syncOnPrimary s c = false →
      syncScreenId env s' c = syncScreenId env s c
        ∨ (env.screenExists (syncScreenId env s' c) = false
            ∧ c.id ∉ (futureViews env s).shownViews)) :
    futureViews env s' = futureViews env s := by
  unfold futureViews
  rw [hk]
  have h1 : ∀ (f : FutureViews), ∀ c ∈ s.containments,
      syncFirstStep env s' f c = syncFirstStep env s f c := by
    intro f c hc
    unfold syncFirstStep
    rw [hon c hc]
  rw [List.foldl_ext _ _ _ h1]
  exact foldl_syncSecondStep_congr env s s' s.containments _ hon hsid

theorem reconsiderScreen_onPrimary (env : Corona) (u : View) :
    (u.reconsiderScreen env).onPrimary = u.onPrimary := by
  unfold View.reconsiderScreen
  split_ifs with h
  · simp [h]
  · rfl

theorem reconsiderScreen_of_explicit (env : Corona) (u : View) (h : u.onPrimary = false) :
    u.reconsiderScreen env = u := by
  unfold View.reconsiderScreen
  simp [h]

theorem reconsiderScreen_of_primary (env : Corona) (u : View) (h : u.onPrimary = true) :
    (u.reconsiderScreen env).screen = env.primaryScreen := by
  unfold View.reconsiderScreen
  simp [h]

/-- A view the "add views" loop creates for a targeted definition carries the flag of
the definition and, when explicit, sits on the screen of the stored id. -/
theorem fresh_mirrors (env : Corona) (s : ActiveLayout) (u : View)
    (henv : env.Consistent) (hkeyed : s.Keyed) (hcorona : s.corona = true)
    (hu : Fresh env s (futureViews env s).shownViews u)
    (hid : u.containment.id ∈ (futureViews env s).shownViews) :
    u.onPrimary = u.containment.onPrimary
      ∧ (u.onPrimary = false → u.currentScreenId env = containmentScreenId u.containment) := by
  obtain ⟨targets, ht, hexp⟩ := futureViews_spec env s
  obtain ⟨hmem, hslot⟩ := slot_of_survivor env s targets u henv hcorona hkeyed ht
    (fun c hc h => (hexp c hc h).1) (Or.inr hu) hid
  obtain ⟨_, _, hnone, scr, _, hnew⟩ := hu
  have hflag : u.onPrimary = u.containment.onPrimary := by
    conv_lhs => rw [hnew]
    simp [newView]
  refine ⟨hflag, ?_⟩
  intro hoff
  have hon := syncOnPrimary_of_no_view s u.containment hcorona hnone
  have hsid := syncScreenId_of_no_view env s u.containment hcorona hnone
  have hoff' : syncOnPrimary s u.containment = false := by rw [hon, ← hflag, hoff]
  have hex := (hexp _ hmem hoff').1
  rw [hsid] at hex
  rw [reconsiderScreen_of_explicit env u hoff] at hslot
  unfold syncSlot at hslot
  rw [hoff', hsid] at hslot
  simp only [Bool.false_eq_true, if_false, Prod.mk.injEq] at hslot
  unfold View.currentScreenId
  rw [hslot.1, henv.poolId_connector _ hex]

theorem mirrors_reconsiderScreen (env : Corona) (u : View) (h : u.Mirrors env) :
    (u.reconsiderScreen env).Mirrors env := by
  unfold View.Mirrors at *
  rw [reconsiderScreen_onPrimary, reconsiderScreen_containment]
  refine ⟨h.1, ?_⟩
  intro hoff
  rw [reconsiderScreen_of_explicit env u hoff]
  exact h.2 hoff

/-- One run of `syncLatteViewsToScreens` over a consistent screen pool keeps a layout
coherent. -/
theorem coherent_sync (env : Corona) (s : ActiveLayout) (henv : env.Consistent)
    (hcoh : s.Coherent env) : (syncLatteViewsToScreens env s).Coherent env := by
  by_cases hcorona : s.corona = true
  · have hinv := syncAdd_inv_full env s (futureViews env s).shownViews henv hcorona
      hcoh.keyed.keys_nodup
    have hwithin := within_sync (s.containments ++ s.latteViews.map View.containment) env s
      ⟨hcoh.keyed.attached, hcoh.keyed.keys_nodup, fun c hc => List.mem_append_left _ hc,
        fun v hv => List.mem_append_right _ (List.mem_map_of_mem _ hv)⟩
    refine ⟨keyed_of_within _ _ hcoh.keyed.ids hwithin, ?_⟩
    intro w hw
    rw [syncLatteViewsToScreens_eq env s hcorona, mem_sync_views] at hw
    obtain ⟨u, hu, hid, rfl⟩ := hw
    apply mirrors_reconsiderScreen
    rcases hinv.origin u hu with h | h
    · exact hcoh.mirrors u h
    · have := fresh_mirrors env s u henv hcoh.keyed hcorona h hid
      exact ⟨this.1, fun hoff => Or.inl (this.2 hoff)⟩
  · simp only [Bool.not_eq_true] at hcorona
    have hs : syncLatteViewsToScreens env s = s := by simp [syncLatteViewsToScreens, hcorona]
    rw [hs]
    exact hcoh

theorem syncRemoveViews_eq_self (shown : List Nat) (st : ActiveLayout)
    (h : ∀ v ∈ st.latteViews, v.containment.id ∈ shown) : syncRemoveViews shown st = st := by
  unfold syncRemoveViews
  have h1 : st.latteViews.filter (fun view => decide (view.containment.id ∈ shown))
      = st.latteViews := by
    rw [List.filter_eq_self]
    intro v hv
    simpa using h v hv
  have h2 : st.latteViews.filter (fun view => decide (view.containment.id ∉ shown)) = [] := by
    rw [List.filter_eq_nil_iff]
    intro v hv
    simpa using h v hv
  rw [h1, h2]
  simp

theorem syncReconsiderViews_eq_self (env : Corona) (shown : List Nat) (st : ActiveLayout)
    (h : ∀ v ∈ st.latteViews, v.onPrimary = true → v.screen = env.primaryScreen) :
    syncReconsiderViews env shown st = st := by
  unfold syncReconsiderViews
  have h1 : st.latteViews.map (fun view =>
      if view.containment.id ∈ shown then view.reconsiderScreen env else view)
      = st.latteViews := by
    conv_rhs => rw [← List.map_id st.latteViews]
    apply List.map_congr_left
    intro v hv
    simp only [id]
    split_ifs
    · unfold View.reconsiderScreen
      split_ifs with hp
      · rw [← h v hv hp]
      · rfl
    · rfl
  rw [h1]

theorem foldl_eq_self_of_step (step : ActiveLayout → Containment → ActiveLayout)
    (st : ActiveLayout) :
    ∀ cs : List Containment, (∀ c ∈ cs, step st c = st) → cs.foldl step st = st := by
  intro cs
  induction cs with
  | nil => intro _; rfl
  | cons c cs ih =>
    intro h
    rw [List.foldl_cons, h c (List.mem_cons_self _ _)]
    exact ih (fun d hd => h d (List.mem_cons_of_mem _ hd))

theorem addView_eq_self_of_rejected (env : Corona) (s st : ActiveLayout) (c : Containment)
    (hc : st.corona = s.corona) (hk : st.containments = s.containments)
    (h : Rejected env s c) : addView env st (some c) false (-1) = st := by
  rcases h with h | h | h
  · apply addView_eq_self_of_invalid
    intro hv
    rw [hv.2.1] at h
    exact Bool.noConfusion h
  · apply addView_eq_self_of_invalid
    intro hv
    rw [hv.2.2.1] at h
    exact Bool.noConfusion h
  · apply addView_eq_self_of_target_none
    rw [addViewTarget_congr env st s c false (-1) hc hk]
    exact h

/-- From a coherent layout and over a consistent screen pool that stays as it is, a
second run of `syncLatteViewsToScreens` right after a first changes nothing. -/
theorem sync_idempotent_of_coherent (env : Corona) (s : ActiveLayout)
    (henv : env.Consistent) (hcoh : s.Coherent env) :
    syncLatteViewsToScreens env (syncLatteViewsToScreens env s)
      = syncLatteViewsToScreens env s := by
  by_cases hcorona : s.corona = true
  · have hinv := syncAdd_inv_full env s (futureViews env s).shownViews henv hcorona
      hcoh.keyed.keys_nodup
    have hcoh1 := coherent_sync env s henv hcoh
    have hflag : ∀ v ∈ s.latteViews, v.onPrimary = v.containment.onPrimary :=
      fun v hv => (hcoh.mirrors v hv).1
    have hflag1 : ∀ w ∈ (syncLatteViewsToScreens env s).latteViews,
        w.onPrimary = w.containment.onPrimary := fun w hw => (hcoh1.mirrors w hw).1
    have hviews : ∀ w ∈ (syncLatteViewsToScreens env s).latteViews,
        ∃ u ∈ (s.containments.foldl (syncAddStep env (futureViews env s).shownViews)
          s).latteViews, u.containment.id ∈ (futureViews env s).shownViews
            ∧ w = u.reconsiderScreen env := by
      intro w hw
      rw [syncLatteViewsToScreens_eq env s hcorona, mem_sync_views] at hw
      exact hw
    have hcor1 : (syncLatteViewsToScreens env s).corona = true := by
      rw [syncLatteViewsToScreens_eq env s hcorona]
      simp only [syncReconsiderViews, syncRemoveViews]
      rw [hinv.corona, hcorona]
    have hcont1 : (syncLatteViewsToScreens env s).containments = s.containments := by
      rw [syncLatteViewsToScreens_eq env s hcorona]
      simp only [syncReconsiderViews, syncRemoveViews]
      exact hinv.containments
    have hfuture : futureViews env (syncLatteViewsToScreens env s) = futureViews env s := by
      apply futureViews_congr env s _ hcont1
      · intro c _
        rw [syncOnPrimary_coherent _ c hflag1 hcor1, syncOnPrimary_coherent s c hflag hcorona]
      · intro c _ hoff
        rw [syncOnPrimary_coherent s c hflag hcorona] at hoff
        by_cases hstrict : ∀ v ∈ s.latteViews, v.containment = c →
            v.currentScreenId env = containmentScreenId c
        · left
          rw [syncScreenId_of_views env s c hcorona hstrict]
          apply syncScreenId_of_views env _ c hcor1
          intro w hw hwc
          obtain ⟨u, hu, hid, rfl⟩ := hviews w hw
          rw [reconsiderScreen_containment] at hwc
          have hwoff : (u.reconsiderScreen env).onPrimary = false := by
            rw [hflag1 _ hw, reconsiderScreen_containment, hwc, hoff]
          rw [reconsiderScreen_onPrimary] at hwoff
          rw [reconsiderScreen_of_explicit env u hwoff]
          rcases hinv.origin u hu with hold | hfresh
          · exact hstrict u hold hwc
          · have := (fresh_mirrors env s u henv hcoh.keyed hcorona hfresh hid).2 hwoff
            rw [hwc] at this
            exact this
        · push_neg at hstrict
          obtain ⟨v, hv, hvc, hne⟩ := hstrict
          have hvoff : v.onPrimary = false := by rw [hflag v hv, hvc, hoff]
          have hneg : containmentScreenId c < 0 := by
            rcases (hcoh.mirrors v hv).2 hvoff with h | h
            · rw [hvc] at h
              exact absurd h hne
            · rw [hvc] at h
              exact h
          by_cases hid : c.id ∈ (futureViews env s).shownViews
          · left
            have hkept : v ∈ (s.containments.foldl
                (syncAddStep env (futureViews env s).shownViews) s).latteViews := by
              rcases hinv.kept v hv with h | h
              · exact h
              · exfalso
                have h2 := h.2.1
                rw [hvc] at h2
                have := henv.primary_nonneg
                omega
            have hmem : v ∈ (syncLatteViewsToScreens env s).latteViews := by
              rw [syncLatteViewsToScreens_eq env s hcorona, mem_sync_views]
              exact ⟨v, hkept, by rw [hvc]; exact hid,
                (reconsiderScreen_of_explicit env v hvoff).symm⟩
            rw [← hvc, syncScreenId_of_mem env s v hcorona hcoh.keyed.keys_nodup hv,
              syncScreenId_of_mem env _ v hcor1 hcoh1.keyed.keys_nodup hmem]
          · right
            have hnone : ∀ w ∈ (syncLatteViewsToScreens env s).latteViews,
                w.containment ≠ c := by
              intro w hw hwc
              apply hid
              obtain ⟨u, _, huid, rfl⟩ := hviews w hw
              rw [reconsiderScreen_containment] at hwc
              rw [← hwc]
              exact huid
            rw [syncScreenId_of_no_view env _ c hcor1 hnone]
            refine ⟨?_, hid⟩
            cases hex : env.screenExists (containmentScreenId c)
            · rfl
            · have := henv.nonneg_of_exists _ hex
              omega
    have hstep : ∀ c ∈ s.containments,
        syncAddStep env (futureViews env s).shownViews (syncLatteViewsToScreens env s) c
          = syncLatteViewsToScreens env s := by
      intro c hc
      unfold syncAddStep
      split_ifs with hcond
      · obtain ⟨hnone, hid⟩ := hcond
        rcases hinv.done c hc hid with ⟨v, hv, hvc⟩ | hrej
        · exfalso
          have hex : latteViewExists (syncLatteViewsToScreens env s) c = true := by
            rw [latteViewExists_eq_true_iff _ c hcor1]
            refine ⟨v.reconsiderScreen env, ?_, ?_⟩
            · rw [syncLatteViewsToScreens_eq env s hcorona, mem_sync_views]
              exact ⟨v, hv, by rw [hvc]; exact hid, rfl⟩
            · rw [reconsiderScreen_containment, hvc]
          rw [hex] at hnone
          exact Bool.noConfusion hnone
        · exact addView_eq_self_of_rejected env s _ c (by rw [hcor1, hcorona]) hcont1 hrej
      · rfl
    rw [syncLatteViewsToScreens_eq env (syncLatteViewsToScreens env s) hcor1, hfuture, hcont1,
      foldl_eq_self_of_step _ _ s.containments hstep,
      syncRemoveViews_eq_self, syncReconsiderViews_eq_self]
    · intro w hw hp
      obtain ⟨u, _, _, rfl⟩ := hviews w hw
      rw [reconsiderScreen_onPrimary] at hp
      exact reconsiderScreen_of_primary env u hp
    · intro w hw
      obtain ⟨u, _, hid, rfl⟩ := hviews w hw
      rw [reconsiderScreen_containment]
      exact hid
  · simp only [Bool.not_eq_true] at hcorona
    have hs : syncLatteViewsToScreens env s = s := by simp [syncLatteViewsToScreens, hcorona]
    rw [hs, hs]

theorem mirrors_congr (env env' : Corona) (hpool : env'.poolId = env.poolId) (v : View)
    (h : v.Mirrors env') : v.Mirrors env := by
  unfold View.Mirrors View.currentScreenId at *
  rw [← hpool]
  exact h

theorem addViewScreenId_of_stored (c : Containment) (explicitScreen : Int)
    (hstored : explicitScreen = -1 ∨ explicitScreen = containmentScreenId c)
    (hid : 0 ≤ containmentScreenId c) :
    addViewScreenId c explicitScreen = containmentScreenId c := by
  rcases hstored with h | h
  · rw [h, addViewScreenId_neg_one]
  · unfold addViewScreenId
    have hpos : explicitScreen > -1 := by omega
    simp only [hpos, if_true]
    exact h

theorem explicitTarget_mem (env : Corona) (s : ActiveLayout) (c : Containment) (id : Int)
    (scr : String) (h : explicitTarget env s c id = some scr) : scr ∈ env.screens := by
  unfold explicitTarget at h
  simp only at h
  cases hfind : env.screens.find? (fun x => decide (x = env.connector id)) with
  | none => rw [hfind] at h; exact Option.noConfusion h
  | some x =>
    rw [hfind] at h
    simp only at h
    split_ifs at h
    rw [← Option.some.inj h]
    exact List.mem_of_find?_eq_some hfind

/-- The view `addView` constructs from the stored screen of a definition mirrors the
definition. -/
theorem newView_mirrors (env : Corona) (s : ActiveLayout) (c : Containment)
    (explicitScreen : Int) (scr : String) (hpool : env.ConnectedIds)
    (hstored : explicitScreen = -1 ∨ explicitScreen = containmentScreenId c)
    (ht : addViewTarget env s c false explicitScreen = some scr) :
    (newView c scr false).Mirrors env := by
  unfold View.Mirrors
  refine ⟨by simp [newView], ?_⟩
  intro hoff
  have hcoff : c.onPrimary = false := by simpa [newView] using hoff
  by_cases hneg : containmentScreenId c < 0
  · right
    exact hneg
  · left
    have hnn : 0 ≤ containmentScreenId c := by omega
    have hid := addViewScreenId_of_stored c explicitScreen hstored hnn
    unfold addViewTarget at ht
    simp only [hid, hnn, hcoff, and_self, if_true] at ht
    have hscr := explicitTarget_eq_some env s c _ scr ht
    have hmem := explicitTarget_mem env s c _ scr ht
    rw [hscr] at hmem
    show env.poolId scr = containmentScreenId c
    rw [hscr]
    exact hpool _ hmem

theorem addView_views (env : Corona) (s : ActiveLayout) (c : Containment)
    (forceOnPrimary : Bool) (explicitScreen : Int) :
    ∀ w ∈ (addView env s (some c) forceOnPrimary explicitScreen).latteViews,
      w ∈ s.latteViews
        ∨ ∃ scr, addViewTarget env s c forceOnPrimary explicitScreen = some scr
            ∧ w = newView c scr forceOnPrimary := by
  intro w hw
  by_cases hvalid : s.corona = true ∧ c.packageValid = true
      ∧ isLatteContainment (some c) = true ∧ ∀ view ∈ s.latteViews, view.containment ≠ c
  · obtain ⟨h1, h2, h3, h4⟩ := hvalid
    cases ht : addViewTarget env s c forceOnPrimary explicitScreen with
    | none =>
      rw [addView_eq_self_of_target_none env s c _ _ ht] at hw
      exact Or.inl hw
    | some scr =>
      obtain ⟨kept, evicted, heq, hsub, _, _⟩ :=
        addView_effect env s c forceOnPrimary explicitScreen scr h1 h2 h3 h4 ht
      rw [heq] at hw
      simp only [List.mem_append, List.mem_singleton] at hw
      rcases hw with hw | hw
      · exact Or.inl (hsub.subset hw)
      · exact Or.inr ⟨scr, rfl, hw⟩
  · rw [addView_eq_self_of_invalid env s c forceOnPrimary explicitScreen hvalid] at hw
    exact Or.inl hw

theorem mirrors_addView (env : Corona) (s : ActiveLayout) (c : Containment)
    (explicitScreen : Int) (hpool : env.ConnectedIds)
    (hstored : explicitScreen = -1 ∨ explicitScreen = containmentScreenId c)
    (h : ∀ v ∈ s.latteViews, v.Mirrors env) :
    ∀ v ∈ (addView env s (some c) false explicitScreen).latteViews, v.Mirrors env := by
  intro v hv
  rcases addView_views env s c false explicitScreen v hv with hold | ⟨scr, ht, rfl⟩
  · exact h v hold
  · exact newView_mirrors env s c explicitScreen scr hpool hstored ht

theorem mirrors_addContainment (env : Corona) (s : ActiveLayout) (c : Containment)
    (hpool : env.ConnectedIds) (h : ∀ v ∈ s.latteViews, v.Mirrors env) :
    ∀ v ∈ (addContainment env s (some c)).latteViews, v.Mirrors env := by
  unfold addContainment
  simp only
  split_ifs
  all_goals first
    | exact h
    | exact mirrors_addView env _ c (-1) hpool (Or.inl rfl) h

theorem containmentDestroyed_views (s : ActiveLayout) (c : Containment) :
    ∀ v ∈ (containmentDestroyed s (some c)).latteViews, v ∈ s.latteViews := by
  intro v hv
  unfold containmentDestroyed at hv
  split_ifs at hv with h1
  · exact hv
  · simp only at hv
    split at hv
    · exact List.mem_of_mem_filter hv
    · split at hv
      · exact hv
      · exact hv

theorem within_step (known : List Containment) (env : Corona) (s : ActiveLayout) (op : Op)
    (hsubj : ∀ c, op.subject = some c → c ∈ known) (h : Within known s) :
    Within known (op.apply env s) := by
  cases op with
  | addContainment c => exact within_addContainment known env s c (hsubj c rfl) h
  | addView c f e => exact within_addView known env s c f e (hsubj c rfl) h
  | containmentDestroyed c => exact within_containmentDestroyed known s c h
  | syncLatteViewsToScreens => exact within_sync known env s h

/-- One operation that takes the screen from the definition, run over a consistent pool
that shares its ids with `env`, keeps the views mirroring their definitions. -/
theorem mirrors_step (known : List Containment) (env stepEnv : Corona) (s : ActiveLayout)
    (op : Op) (hids : ∀ c ∈ known, ∀ d ∈ known, c.id = d.id → c = d)
    (hcons : stepEnv.Consistent) (hconn : stepEnv.ConnectedIds)
    (hpool : stepEnv.poolId = env.poolId) (hop : op.storedScreen = true)
    (hwithin : Within known s) (h : ∀ v ∈ s.latteViews, v.Mirrors env) :
    ∀ v ∈ (op.apply stepEnv s).latteViews, v.Mirrors env := by
  have h' : ∀ v ∈ s.latteViews, v.Mirrors stepEnv :=
    fun v hv => mirrors_congr stepEnv env hpool.symm v (h v hv)
  intro v hv
  apply mirrors_congr env stepEnv hpool
  cases op with
  | addContainment c => exact mirrors_addContainment stepEnv s c hconn h' v hv
  | addView c f e =>
    simp only [Op.storedScreen, Bool.and_eq_true, Bool.not_eq_true', Bool.or_eq_true,
      decide_eq_true_eq] at hop
    obtain ⟨hf, he⟩ := hop
    rw [hf] at hv
    exact mirrors_addView stepEnv s c e hconn he h' v hv
  | containmentDestroyed c => exact h' v (containmentDestroyed_views s c v hv)
  | syncLatteViewsToScreens =>
    exact (coherent_sync stepEnv s hcons
      ⟨keyed_of_within known s hids hwithin, h'⟩).mirrors v hv

/-- From a layout without views, every sequence of operations that take the screen of a
view from its definition, each run over a consistent pool that knows the connected
connectors and shares its ids with `env`, ends in a layout coherent for `env`, provided
an id belongs to one definition. -/
theorem coherent_runOps (env : Corona) (init : ActiveLayout) (ops : List (Corona × Op))
    (hinit : init.latteViews = [])
    (hids : ∀ c ∈ init.containments ++ opsContainments ops,
      ∀ d ∈ init.containments ++ opsContainments ops, c.id = d.id → c = d)
    (hops : ∀ step ∈ ops, step.1.Consistent ∧ step.1.ConnectedIds
      ∧ step.1.poolId = env.poolId ∧ step.2.storedScreen = true) :
    (runOps init ops).Coherent env := by
  have hgen : ∀ (known : List Containment) (todo : List (Corona × Op)) (s : ActiveLayout),
      (∀ c ∈ known, ∀ d ∈ known, c.id = d.id → c = d) →
      (∀ c ∈ opsContainments todo, c ∈ known) →
      (∀ step ∈ todo, step.1.Consistent ∧ step.1.ConnectedIds
        ∧ step.1.poolId = env.poolId ∧ step.2.storedScreen = true) →
      Within known s → (∀ v ∈ s.latteViews, v.Mirrors env) →
      Within known (runOps s todo) ∧ ∀ v ∈ (runOps s todo).latteViews, v.Mirrors env := by
    intro known todo
    induction todo with
    | nil => intro s _ _ _ hw hm; exact ⟨hw, hm⟩
    | cons step todo ih =>
      intro s hk hmem hstep hw hm
      have hrest : ∀ c ∈ opsContainments todo, c ∈ known := by
        intro c hc
        apply hmem
        unfold opsContainments at hc ⊢
        rw [List.filterMap_cons]
        split
        · exact hc
        · exact List.mem_cons_of_mem _ hc
      have hsubj : ∀ c, step.2.subject = some c → c ∈ known := by
        intro c hc
        apply hmem
        unfold opsContainments
        rw [List.filterMap_cons, hc]
        exact List.mem_cons_self _ _
      obtain ⟨h1, h2, h3, h4⟩ := hstep step (List.mem_cons_self _ _)
      unfold runOps
      rw [List.foldl_cons]
      exact ih (step.2.apply step.1 s) hk hrest
        (fun st hst => hstep st (List.mem_cons_of_mem _ hst))
        (within_step known step.1 s step.2 hsubj hw)
        (mirrors_step known env step.1 s step.2 hk h1 h2 h3 h4 hw hm)
  have h0 : Within (init.containments ++ opsContainments ops) init := by
    refine ⟨fun _ => hinit, ?_, fun c hc => List.mem_append_left _ hc, ?_⟩
    · rw [hinit]; exact List.nodup_nil
    · intro v hv
      rw [hinit] at hv
      simp at hv
  obtain ⟨hw, hm⟩ := hgen (init.containments ++ opsContainments ops) ops init hids
    (fun c hc => List.mem_append_right _ hc) hops h0
    (fun v hv => by rw [hinit] at hv; simp at hv)
  exact ⟨keyed_of_within _ _ hids hw, hm⟩

/-- The pool of `demoCorona` knows its two connectors. -/
theorem demoCorona_connectedIds : demoCorona.ConnectedIds := by
  intro i hi
  simp only [demoCorona, List.mem_cons, List.mem_singleton, List.not_mem_nil, or_false] at hi ⊢
  by_cases h0 : i = 0
  · simp [h0]
  · by_cases h1 : i = 1
    · simp [h1]
    · simp [h0, h1] at hi

/-- C9, as stated, fails: the explicit dock 2 stores the primary screen `eDP-1` but has
its live view on `HDMI-1`, where `addView` was told to put it; the onPrimary dock 1 with
the same edge has no view yet. The targeting loops target both, dock 2 on `HDMI-1`; the
`addView` of dock 1 then evicts the view of dock 2, which ends without a view. -/
theorem sync_evicts_the_view_of_a_targeted_definition :
    newView (demoDock 2 false 0 Location.BottomEdge) "HDMI-1" false ∈ demoMoved.latteViews
      ∧ (demoDock 2 false 0 Location.BottomEdge).id
          ∈ (futureViews demoCorona demoMoved).shownViews
      ∧ Event.removed (newView (demoDock 2 false 0 Location.BottomEdge) "HDMI-1" false)
          ∈ (syncLatteViewsToScreens demoCorona demoMoved).log
      ∧ ∀ w ∈ (syncLatteViewsToScreens demoCorona demoMoved).latteViews,
          w.containment ≠ demoDock 2 false 0 Location.BottomEdge := by
  decide

/-- C9, amended: over a consistent screen pool, from every layout whose live views
mirror their definitions (a view carries the onPrimary flag of its definition and, when
explicit, sits on the screen whose id the definition stores, unless the definition stores
no screen), after `syncLatteViewsToScreens` every live view belongs to a targeted
definition; a view that was live and whose definition is not targeted is removed (its
definition has no view and the trace records the removal); a view that was live and whose
definition is targeted is kept: it is in the live set, reconsidered, as the only view of
its definition, and the trace records neither its removal nor the construction of a view
for its definition; and an untargeted definition has no view afterwards. Every layout
built from one without views is such a layout, when it is built by operations that take
the screen of a view from its definition (all but an `addView` that forces onPrimary or
names a screen other than the stored one), each run over a consistent pool that knows the
connected connectors and shares its ids with the present one, an id belonging to one
definition. -/
theorem sync_keeps_exactly_the_targeted_views (env : Corona) (henv : env.Consistent) :
    (∀ s : ActiveLayout, s.Coherent env →
      ∃ events, (syncLatteViewsToScreens env s).log = s.log ++ events
        ∧ (∀ w ∈ (syncLatteViewsToScreens env s).latteViews,
            w.containment.id ∈ (futureViews env s).shownViews)
        ∧ (∀ v ∈ s.latteViews, v.containment.id ∉ (futureViews env s).shownViews →
            (∀ w ∈ (syncLatteViewsToScreens env s).latteViews, w.containment ≠ v.containment)
              ∧ Event.removed v ∈ events)
        ∧ (∀ v ∈ s.latteViews, v.containment.id ∈ (futureViews env s).shownViews →
            v.reconsiderScreen env ∈ (syncLatteViewsToScreens env s).latteViews
              ∧ (∀ w ∈ (syncLatteViewsToScreens env s).latteViews,
                  w.containment = v.containment → w = v.reconsiderScreen env)
              ∧ Event.removed v ∉ events
              ∧ ∀ w, w.containment = v.containment → Event.constructed w ∉ events)
        ∧ (∀ c, c.id ∉ (futureViews env s).shownViews →
            ∀ w ∈ (syncLatteViewsToScreens env s).latteViews, w.containment ≠ c))
      ∧ (∀ (init : ActiveLayout) (ops : List (Corona × Op)),
          init.latteViews = [] →
          (∀ c ∈ init.containments ++ opsContainments ops,
            ∀ d ∈ init.containments ++ opsContainments ops, c.id = d.id → c = d) →
          (∀ step ∈ ops, step.1.Consistent ∧ step.1.ConnectedIds
            ∧ step.1.poolId = env.poolId ∧ step.2.storedScreen = true) →
          (runOps init ops).Coherent env) :=
  ⟨fun s hcoh => sync_keeps_targeted_of_coherent env s henv hcoh,
    fun init ops hinit hids hops => coherent_runOps env init ops hinit hids hops⟩

/-- C9, amended, on `demoCrowded`, three docks added to an empty layout: the second
onPrimary dock of the bottom edge is live, is not targeted and has no view after the
run. -/
theorem sync_keeps_exactly_the_targeted_views_witness :
    demoCorona.Consistent
      ∧ newView (demoDock 2 true 0 Location.BottomEdge) "eDP-1" false ∈ demoCrowded.latteViews
      ∧ (demoDock 2 true 0 Location.BottomEdge).id
          ∉ (futureViews demoCorona demoCrowded).shownViews
      ∧ ∀ w ∈ (syncLatteViewsToScreens demoCorona demoCrowded).latteViews,
          w.containment ≠ demoDock 2 true 0 Location.BottomEdge := by
  have hthm := sync_keeps_exactly_the_targeted_views demoCorona demoCorona_consistent
  have hcoh : demoCrowded.Coherent demoCorona :=
    hthm.2 (demoLayout [])
      [(demoCorona, Op.addContainment (demoDock 1 true 0 Location.BottomEdge)),
       (demoCorona, Op.addContainment (demoDock 2 true 0 Location.BottomEdge)),
       (demoCorona, Op.addContainment (demoDock 3 false 1 Location.LeftEdge))]
      rfl (by decide)
      (fun step hstep => by
        simp only [List.mem_cons, List.mem_singleton, List.not_mem_nil, or_false] at hstep
        rcases hstep with h | h | h <;> rw [h] <;>
          exact ⟨demoCorona_consistent, demoCorona_connectedIds, rfl, rfl⟩)
  obtain ⟨_, _, _, _, _, h⟩ := hthm.1 demoCrowded hcoh
  exact ⟨demoCorona_consistent, by decide, by decide, h _ (by decide)⟩

/-- C8, as stated, fails: the explicit dock 2 stores `HDMI-1` and has a view that
`addView` was told to force onPrimary, next to the live onPrimary dock 1 with the same
edge. The first run takes the flag of the view, targets dock 1 alone and removes the view
of dock 2; the second run takes the flag of the definition, targets dock 2 on `HDMI-1`
and constructs a view there. -/
theorem second_sync_constructs_a_view :
    newView (demoDock 2 false 1 Location.BottomEdge) "eDP-1" true ∈ demoForced.latteViews
      ∧ (∀ w ∈ (syncLatteViewsToScreens demoCorona demoForced).latteViews,
          w.containment ≠ demoDock 2 false 1 Location.BottomEdge)
      ∧ Event.constructed (newView (demoDock 2 false 1 Location.BottomEdge) "HDMI-1" false)
          ∉ (syncLatteViewsToScreens demoCorona demoForced).log
      ∧ Event.constructed (newView (demoDock 2 false 1 Location.BottomEdge) "HDMI-1" false)
          ∈ (syncLatteViewsToScreens demoCorona
              (syncLatteViewsToScreens demoCorona demoForced)).log
      ∧ newView (demoDock 2 false 1 Location.BottomEdge) "HDMI-1" false
          ∈ (syncLatteViewsToScreens demoCorona
              (syncLatteViewsToScreens demoCorona demoForced)).latteViews
      ∧ syncLatteViewsToScreens demoCorona (syncLatteViewsToScreens demoCorona demoForced)
          ≠ syncLatteViewsToScreens demoCorona demoForced := by
  decide

/-- C8, amended: over a consistent screen pool that stays as it is, from every layout
whose live views mirror their definitions (a view carries the onPrimary flag of its
definition and, when explicit, sits on the screen whose id the definition stores, unless
the definition stores no screen), running `syncLatteViewsToScreens` a second time right
after a first run changes nothing: the layout after the second run is the layout after
the first, with the same live views and a trace that gains no constructed and no removed
view. Every layout built from one without views is such a layout, and so has this
property, when it is built by operations that take the screen of a view from its
definition (all but an `addView` that forces onPrimary or names a screen other than the
stored one), each run over a consistent pool that knows the connected connectors and
shares its ids with the present one, an id belonging to one definition. -/
theorem sync_twice_eq_sync_once (env : Corona) (henv : env.Consistent) :
    (∀ s : ActiveLayout, s.Coherent env →
      syncLatteViewsToScreens env (syncLatteViewsToScreens env s)
        = syncLatteViewsToScreens env s)
      ∧ (∀ (init : ActiveLayout) (ops : List (Corona × Op)),
          init.latteViews = [] →
          (∀ c ∈ init.containments ++ opsContainments ops,
            ∀ d ∈ init.containments ++ opsContainments ops, c.id = d.id → c = d) →
          (∀ step ∈ ops, step.1.Consistent ∧ step.1.ConnectedIds
            ∧ step.1.poolId = env.poolId ∧ step.2.storedScreen = true) →
          (runOps init ops).Coherent env
            ∧ syncLatteViewsToScreens env (syncLatteViewsToScreens env (runOps init ops))
                = syncLatteViewsToScreens env (runOps init ops)) :=
  ⟨fun s hcoh => sync_idempotent_of_coherent env s henv hcoh,
    fun init ops hinit hids hops =>
      ⟨coherent_runOps env init ops hinit hids hops,
        sync_idempotent_of_coherent env _ henv (coherent_runOps env init ops hinit hids hops)⟩⟩

/-- C8, amended, on `demoCrowded`, three docks added to an empty layout: the first run
changes the live views, the second changes nothing. -/
theorem sync_twice_eq_sync_once_witness :
    demoCorona.Consistent
      ∧ (syncLatteViewsToScreens demoCorona demoCrowded).latteViews ≠ demoCrowded.latteViews
      ∧ syncLatteViewsToScreens demoCorona (syncLatteViewsToScreens demoCorona demoCrowded)
          = syncLatteViewsToScreens demoCorona demoCrowded :=
  ⟨demoCorona_consistent, by decide,
    ((sync_twice_eq_sync_once demoCorona demoCorona_consistent).2 (demoLayout [])
      [(demoCorona, Op.addContainment (demoDock 1 true 0 Location.BottomEdge)),
       (demoCorona, Op.addContainment (demoDock 2 true 0 Location.BottomEdge)),
       (demoCorona, Op.addContainment (demoDock 3 false 1 Location.LeftEdge))]
      rfl (by decide)
      (fun step hstep => by
        simp only [List.mem_cons, List.mem_singleton, List.not_mem_nil, or_false] at hstep
        rcases hstep with h | h | h <;> rw [h] <;>
          exact ⟨demoCorona_consistent, demoCorona_connectedIds, rfl, rfl⟩)).2⟩

theorem priorityFrom_of_not_mem {α : Type} [DecidableEq α] (x : α) :
    ∀ (items : List α) (i priority : Int), x ∉ items →
      priorityFrom x items i priority = priority := by
  intro items
  induction items with
  | nil => intro i priority _; rfl
  | cons item items ih =>
    intro i priority h
    rw [List.mem_cons, not_or] at h
    unfold priorityFrom
    rw [ih _ _ h.2, if_neg (fun hx => h.1 hx.symm)]

theorem priorityFrom_of_mem {α : Type} [DecidableEq α] (x : α) :
    ∀ (items : List α) (i priority : Int), x ∈ items →
      ∃ k : Nat, priorityFrom x items i priority = i + k ∧ items[k]? = some x := by
  intro items
  induction items with
  | nil => intro i priority h; simp at h
  | cons item items ih =>
    intro i priority h
    unfold priorityFrom
    by_cases hmem : x ∈ items
    · obtain ⟨k, hk, hget⟩ := ih (i + 1) (if item = x then i else priority) hmem
      refine ⟨k + 1, ?_, ?_⟩
      · rw [hk]; push_cast; ring
      · simpa using hget
    · have hx : item = x := by
        rcases List.mem_cons.1 h with h | h
        · exact h.symm
        · exact absurd h hmem
      rw [priorityFrom_of_not_mem x items _ _ hmem, if_pos hx]
      exact ⟨0, by simp, by simp [hx]⟩

theorem screenPriority_range (env : Corona) (screen : String) (h : screen ∈ env.screens) :
    0 ≤ screenPriority env screen ∧ screenPriority env screen < env.screens.length := by
  obtain ⟨k, hk, hget⟩ := priorityFrom_of_mem screen env.screens 0 (-1) h
  unfold screenPriority
  rw [hk]
  have hlt : k < env.screens.length := by
    by_contra hge
    rw [List.getElem?_eq_none (by omega)] at hget
    exact Option.noConfusion hget
  omega

theorem screenPriority_injective (env : Corona) (a b : String)
    (ha : a ∈ env.screens) (hb : b ∈ env.screens)
    (h : screenPriority env a = screenPriority env b) : a = b := by
  obtain ⟨k, hk, hget⟩ := priorityFrom_of_mem a env.screens 0 (-1) ha
  obtain ⟨l, hl, hget'⟩ := priorityFrom_of_mem b env.screens 0 (-1) hb
  unfold screenPriority at h
  rw [hk, hl] at h
  have : k = l := by omega
  rw [this, hget'] at hget
  exact (Option.some.inj hget).symm

theorem edgePriority_eq (location : Location) :
    edgePriority location = 3 - (edgeOrder location : Int) := by
  cases location <;> decide

theorem edgeOrder_le_four (location : Location) : edgeOrder location ≤ 4 := by
  cases location <;> decide

theorem sortSwaps_iff (env : Corona) (a b : View)
    (ha : a.screen ∈ env.screens) (hb : b.screen ∈ env.screens) :
    sortSwaps env a b = true ↔ sortKey env a < sortKey env b := by
  have hea := edgePriority_eq a.location
  have heb := edgePriority_eq b.location
  have hoa := edgeOrder_le_four a.location
  have hob := edgeOrder_le_four b.location
  have hra := screenPriority_range env a.screen ha
  have hrb := screenPriority_range env b.screen hb
  unfold sortSwaps viewAtLowerScreenPriority viewAtLowerEdgePriority sortKey View.location
  simp only
  rw [← View.location, ← View.location] at *
  by_cases hsame : a.screen = b.screen
  · have hsame' : b.screen = a.screen := hsame.symm
    simp only [hsame', if_true, Bool.false_or, decide_True, Bool.true_and]
    constructor
    · intro h
      split_ifs at h with hlt
      split_ifs <;> omega
    · intro h
      have hlt : edgePriority a.location < edgePriority b.location := by
        split_ifs at h <;> omega
      rw [if_pos hlt]
  · have hsame' : ¬ b.screen = a.screen := fun h => hsame h.symm
    simp only [hsame', hsame, if_false, decide_False, Bool.false_and, Bool.or_false]
    by_cases hpa : a.screen = env.primaryScreen
    · have hpb : ¬ b.screen = env.primaryScreen := fun h => hsame (hpa.trans h.symm)
      simp only [hpa, hpb, ne_eq, not_false_eq_true, and_self, if_true, not_true_eq_false,
        and_false, if_false, Bool.false_eq_true, false_iff, not_lt]
      rw [hpa] at hsame
      have := hrb.2
      omega
    · by_cases hpb : b.screen = env.primaryScreen
      · simp only [hpa, hpb, ne_eq, not_true_eq_false, false_and, if_false, not_false_eq_true,
          and_self, if_true, true_iff]
        have := hra.2
        omega
      · simp only [hpa, hpb, ne_eq, not_false_eq_true, true_and, if_false, false_and]
        have hne : screenPriority env a.screen ≠ screenPriority env b.screen :=
          fun h => hsame (screenPriority_injective env _ _ ha hb h)
        constructor
        · intro h
          split_ifs at h with hle
          omega
        · intro h
          have hle : screenPriority env a.screen ≤ screenPriority env b.screen := by omega
          rw [if_pos hle]

theorem bubblePass_spec (swaps : View → View → Bool) (key : View → Int) :
    ∀ (count : Nat) (carried : View) (rest suffix : List View),
      rest.length = count →
      (∀ a ∈ carried :: rest, ∀ b ∈ carried :: rest, (swaps a b = true ↔ key a < key b)) →
      ∃ init lowest,
        bubblePass swaps count (carried :: rest ++ suffix) = init ++ lowest :: suffix
          ∧ (lowest :: init).Perm (carried :: rest)
          ∧ ∀ x ∈ init, key lowest ≤ key x := by
  intro count
  induction count with
  | zero =>
    intro carried rest suffix hlen _
    have hrest : rest = [] := List.length_eq_zero.1 hlen
    subst hrest
    refine ⟨[], carried, ?_, List.Perm.refl _, fun x hx => by simp at hx⟩
    simp [bubblePass]
  | succ k ih =>
    intro carried rest suffix hlen hkey
    obtain ⟨next, rest', rfl⟩ : ∃ next rest', rest = next :: rest' := by
      cases rest with
      | nil => simp at hlen
      | cons next rest' => exact ⟨next, rest', rfl⟩
    have hlen' : rest'.length = k := by simpa using hlen
    have hstep : bubblePass swaps (k + 1) (carried :: (next :: rest') ++ suffix)
        = if swaps carried next = true
          then next :: bubblePass swaps k (carried :: rest' ++ suffix)
          else carried :: bubblePass swaps k (next :: rest' ++ suffix) := by
      simp [bubblePass]
    rw [hstep]
    by_cases hsw : swaps carried next = true
    · rw [if_pos hsw]
      have hlt : key carried < key next :=
        (hkey carried (by simp) next (by simp)).1 hsw
      obtain ⟨init, lowest, heq, hperm, hlow⟩ := ih carried rest' suffix hlen'
        (fun a ha b hb => hkey a (by
          rcases List.mem_cons.1 ha with h | h
          · simp [h]
          · simp [h]) b (by
          rcases List.mem_cons.1 hb with h | h
          · simp [h]
          · simp [h]))
      refine ⟨next :: init, lowest, by rw [heq]; rfl, ?_, ?_⟩
      · exact ((List.Perm.swap next lowest init).trans (hperm.cons next)).trans
          (List.Perm.swap carried next rest')
      · intro x hx
        rcases List.mem_cons.1 hx with h | h
        · subst h
          have hc : carried ∈ lowest :: init := hperm.symm.subset (List.mem_cons_self _ _)
          rcases List.mem_cons.1 hc with h' | h'
          · rw [← h']; omega
          · have := hlow carried h'; omega
        · exact hlow x h
    · rw [if_neg hsw]
      have hge : key next ≤ key carried := by
        have := (hkey carried (by simp) next (by simp)).not.1 hsw
        omega
      obtain ⟨init, lowest, heq, hperm, hlow⟩ := ih next rest' suffix hlen'
        (fun a ha b hb => hkey a (List.mem_cons_of_mem _ ha) b (List.mem_cons_of_mem _ hb))
      refine ⟨carried :: init, lowest, by rw [heq]; rfl, ?_, ?_⟩
      · exact (List.Perm.swap carried lowest init).trans (hperm.cons carried)
      · intro x hx
        rcases List.mem_cons.1 hx with h | h
        · subst h
          have hc : next ∈ lowest :: init := hperm.symm.subset (List.mem_cons_self _ _)
          rcases List.mem_cons.1 hc with h' | h'
          · rw [← h']; omega
          · have := hlow next h'; omega
        · exact hlow x h

theorem bubbleSort_passes (swaps : View → View → Bool) (key : View → Int) (views : List View)
    (hkey : ∀ a ∈ views, ∀ b ∈ views, (swaps a b = true ↔ key a < key b)) :
    ∀ i, i ≤ views.length →
      ∃ unsorted done,
        (List.range i).foldl
            (fun sortedViews i => bubblePass swaps (views.length - i - 1) sortedViews) views
          = unsorted ++ done
        ∧ done.length = i
        ∧ (unsorted ++ done).Perm views
        ∧ done.Pairwise (fun a b => key b ≤ key a)
        ∧ ∀ x ∈ unsorted, ∀ y ∈ done, key y ≤ key x := by
  intro i
  induction i with
  | zero =>
    intro _
    exact ⟨views, [], by simp, rfl, by simp, List.Pairwise.nil, fun x _ y hy => by simp at hy⟩
  | succ i ih =>
    intro hi
    obtain ⟨unsorted, done, heq, hlen, hperm, hsorted, hdom⟩ := ih (by omega)
    rw [List.range_succ, List.foldl_append, List.foldl_cons, List.foldl_nil, heq]
    have hulen : unsorted.length = views.length - i := by
      have := hperm.length_eq
      rw [List.length_append] at this
      omega
    obtain ⟨carried, rest, rfl⟩ : ∃ carried rest, unsorted = carried :: rest := by
      cases unsorted with
      | nil => simp at hulen; omega
      | cons carried rest => exact ⟨carried, rest, rfl⟩
    have hrest : rest.length = views.length - i - 1 := by
      simp only [List.length_cons] at hulen
      omega
    have hmem : ∀ a ∈ carried :: rest, a ∈ views :=
      fun a ha => hperm.subset (List.mem_append_left _ ha)
    obtain ⟨init, lowest, hpass, hperm', hlow⟩ :=
      bubblePass_spec swaps key (views.length - i - 1) carried rest done hrest
        (fun a ha b hb => hkey a (hmem a ha) b (hmem b hb))
    have hlowmem : lowest ∈ carried :: rest := hperm'.subset (List.mem_cons_self _ _)
    refine ⟨init, lowest :: done, ?_, by simp [hlen], ?_, ?_, ?_⟩
    · rw [← hpass]
    · have h1 : (init ++ lowest :: done).Perm ((lowest :: init) ++ done) :=
        List.perm_middle
      exact h1.trans ((hperm'.append_right done).trans hperm)
    · rw [List.pairwise_cons]
      exact ⟨fun y hy => hdom lowest hlowmem y hy, hsorted⟩
    · intro x hx y hy
      rcases List.mem_cons.1 hy with h | h
      · rw [h]; exact hlow x hx
      · exact hdom x (hperm'.subset (List.mem_cons_of_mem _ hx)) y h

theorem bubbleSort_spec (swaps : View → View → Bool) (key : View → Int) (views : List View)
    (hkey : ∀ a ∈ views, ∀ b ∈ views, (swaps a b = true ↔ key a < key b)) :
    (bubbleSort swaps views).Perm views
      ∧ (bubbleSort swaps views).Pairwise (fun a b => key b ≤ key a) := by
  obtain ⟨unsorted, done, heq, hlen, hperm, hsorted, _⟩ :=
    bubbleSort_passes swaps key views hkey views.length (le_refl _)
  have hnil : unsorted = [] := by
    have := hperm.length_eq
    rw [List.length_append] at this
    exact List.length_eq_zero.1 (by omega)
  subst hnil
  unfold bubbleSort
  rw [heq]
  exact ⟨hperm, by simpa using hsorted⟩

theorem takePreferred_none (isPreferred : View → Bool) :
    ∀ views : List View, takePreferred isPreferred views = none →
      ∀ v ∈ views, isPreferred v = false := by
  intro views
  induction views with
  | nil => intro _ v hv; simp at hv
  | cons view views ih =>
    intro h v hv
    unfold takePreferred at h
    by_cases hp : isPreferred view = true
    · rw [if_pos hp] at h
      exact Option.noConfusion h
    · rw [if_neg hp] at h
      have hrest : takePreferred isPreferred views = none := by
        cases hr : takePreferred isPreferred views with
        | none => rfl
        | some found => rw [hr] at h; exact Option.noConfusion h
      rcases List.mem_cons.1 hv with hv | hv
      · rw [hv]; simpa using hp
      · exact ih hrest v hv

theorem takePreferred_some (isPreferred : View → Bool) :
    ∀ (views : List View) (first : View) (others : List View),
      takePreferred isPreferred views = some (first, others) →
      isPreferred first = true ∧ (first :: others).Perm views ∧ others.Sublist views := by
  intro views
  induction views with
  | nil => intro first others h; exact Option.noConfusion h
  | cons view views ih =>
    intro first others h
    unfold takePreferred at h
    by_cases hp : isPreferred view = true
    · rw [if_pos hp] at h
      have h' := Option.some.inj h
      have h1 : view = first := congrArg Prod.fst h'
      have h2 : views = others := congrArg Prod.snd h'
      subst h1 h2
      exact ⟨hp, List.Perm.refl _, List.sublist_cons_self _ _⟩
    · rw [if_neg hp] at h
      cases hr : takePreferred isPreferred views with
      | none => rw [hr] at h; exact Option.noConfusion h
      | some found =>
        rw [hr] at h
        have h' := Option.some.inj h
        have h1 : found.1 = first := congrArg Prod.fst h'
        have h2 : view :: found.2 = others := congrArg Prod.snd h'
        obtain ⟨g1, g2, g3⟩ := ih found.1 found.2 hr
        subst h1 h2
        exact ⟨g1, (List.Perm.swap view found.1 found.2).trans (g2.cons view), g3.cons₂ view⟩

/-- What `sortedLatteViews` returns when every view sits on a connected screen: the live
views, the first view preferred for shortcuts (if any) in front, the others from the
highest rank to the lowest. -/
theorem sortedLatteViews_core (env : Corona) (isPreferred : View → Bool) (s : ActiveLayout)
    (hscreens : ∀ v ∈ s.latteViews, v.screen ∈ env.screens) :
    (sortedLatteViews env isPreferred s).Perm s.latteViews
      ∧ (((∀ v ∈ s.latteViews, isPreferred v = false)
            ∧ (sortedLatteViews env isPreferred s).Pairwise
                (fun a b => sortKey env b ≤ sortKey env a))
          ∨ ∃ first others, sortedLatteViews env isPreferred s = first :: others
              ∧ isPreferred first = true
              ∧ others.Pairwise (fun a b => sortKey env b ≤ sortKey env a)) := by
  obtain ⟨hperm, hsorted⟩ := bubbleSort_spec (sortSwaps env) (sortKey env) s.latteViews
    (fun a ha b hb => sortSwaps_iff env a b (hscreens a ha) (hscreens b hb))
  unfold sortedLatteViews
  simp only
  cases hr : takePreferred isPreferred (bubbleSort (sortSwaps env) s.latteViews) with
  | none =>
    simp only
    refine ⟨hperm, Or.inl ⟨?_, hsorted⟩⟩
    intro v hv
    exact takePreferred_none isPreferred _ hr v (hperm.symm.subset hv)
  | some found =>
    obtain ⟨first, others⟩ := found
    obtain ⟨g1, g2, g3⟩ := takePreferred_some isPreferred _ first others hr
    simp only
    exact ⟨g2.trans hperm, Or.inr ⟨first, others, rfl, g1, hsorted.sublist g3⟩⟩

theorem screenEdgeOrdered_of_sorted (env : Corona) (views : List View)
    (hscreens : ∀ v ∈ views, v.screen ∈ env.screens)
    (hsorted : views.Pairwise (fun a b => sortKey env b ≤ sortKey env a)) :
    ScreenEdgeOrdered env views := by
  unfold ScreenEdgeOrdered
  refine List.Pairwise.imp_of_mem ?_ hsorted
  intro a b ha hb hle
  have hea := edgePriority_eq a.location
  have heb := edgePriority_eq b.location
  have hoa := edgeOrder_le_four a.location
  have hob := edgeOrder_le_four b.location
  have hra := screenPriority_range env a.screen (hscreens a ha)
  have hrb := screenPriority_range env b.screen (hscreens b hb)
  unfold sortKey at hle
  constructor
  · intro hpb
    by_contra hpa
    rw [if_pos hpb, if_neg hpa] at hle
    omega
  · intro hsame
    rw [hsame] at hle
    split_ifs at hle <;> omega

/-- C11: when every live view sits on a connected screen, `sortedLatteViews` returns a
permutation of the live views; if some view is flagged preferred for shortcuts, a
flagged view comes first; the remaining views (all of them when none is flagged) are in
an order where no view of another screen precedes a view of the primary screen and views
of one screen follow the edge order Bottom, Left, Top, Right; and `highestPriorityView`
is the first element of that list, none exactly when the live set is empty. -/
theorem sortedLatteViews_order (env : Corona) (isPreferred : View → Bool) (s : ActiveLayout)
    (hscreens : ∀ v ∈ s.latteViews, v.screen ∈ env.screens) :
    (sortedLatteViews env isPreferred s).Perm s.latteViews
      ∧ ((∃ v ∈ s.latteViews, isPreferred v = true) →
          ∃ first others, sortedLatteViews env isPreferred s = first :: others
            ∧ isPreferred first = true ∧ ScreenEdgeOrdered env others)
      ∧ ((∀ v ∈ s.latteViews, isPreferred v = false) →
          ScreenEdgeOrdered env (sortedLatteViews env isPreferred s))
      ∧ highestPriorityView env isPreferred s = (sortedLatteViews env isPreferred s).head?
      ∧ (highestPriorityView env isPreferred s = none ↔ s.latteViews = []) := by
  obtain ⟨hperm, hcases⟩ := sortedLatteViews_core env isPreferred s hscreens
  have hmem : ∀ v ∈ sortedLatteViews env isPreferred s, v.screen ∈ env.screens :=
    fun v hv => hscreens v (hperm.subset hv)
  refine ⟨hperm, ?_, ?_, rfl, ?_⟩
  · rintro ⟨v, hv, hpv⟩
    rcases hcases with ⟨hnone, _⟩ | ⟨first, others, heq, hfirst, hsorted⟩
    · rw [hnone v hv] at hpv
      exact Bool.noConfusion hpv
    · refine ⟨first, others, heq, hfirst, screenEdgeOrdered_of_sorted env others ?_ hsorted⟩
      intro w hw
      apply hmem
      rw [heq]
      exact List.mem_cons_of_mem _ hw
  · intro hnone
    rcases hcases with ⟨_, hsorted⟩ | ⟨first, others, heq, hfirst, _⟩
    · exact screenEdgeOrdered_of_sorted env _ hmem hsorted
    · have : first ∈ s.latteViews := hperm.subset (by rw [heq]; exact List.mem_cons_self _ _)
      rw [hnone first this] at hfirst
      exact Bool.noConfusion hfirst
  · unfold highestPriorityView
    rw [List.head?_eq_none_iff]
    constructor
    · intro h
      rw [h] at hperm
      exact hperm.symm.eq_nil
    · intro h
      rw [h] at hperm
      exact hperm.eq_nil

/-- Witness of C11 on a layout of four views on three screens, the view of dock 1
preferred for shortcuts. -/
theorem sortedLatteViews_order_witness :
    (∀ v ∈ demoSpread.latteViews, v.screen ∈ demoCoronaTriple.screens)
      ∧ (sortedLatteViews demoCoronaTriple (fun v => decide (v.containment.id = 1))
          demoSpread).Perm demoSpread.latteViews
      ∧ (highestPriorityView demoCoronaTriple (fun v => decide (v.containment.id = 1))
          demoSpread).map (fun v => v.containment.id) = some 1
      ∧ (sortedLatteViews demoCoronaTriple (fun v => decide (v.containment.id = 1))
          demoSpread).map (fun v => v.containment.id) = [1, 4, 3, 2] :=
  ⟨by decide,
    (sortedLatteViews_order demoCoronaTriple (fun v => decide (v.containment.id = 1))
      demoSpread (by decide)).1,
    by decide, by decide⟩

theorem priorityFrom_of_getElem {α : Type} [DecidableEq α] (x : α) (items : List α)
    (hnodup : items.Nodup) (k : Nat) (hk : items[k]? = some x) (priority : Int) :
    priorityFrom x items 0 priority = k := by
  have hmem : x ∈ items := List.getElem?_mem hk
  obtain ⟨l, hl, hget⟩ := priorityFrom_of_mem x items 0 priority hmem
  rw [hl]
  have hlt : k < items.length := by
    by_contra hge
    rw [List.getElem?_eq_none (by omega)] at hk
    exact Option.noConfusion hk
  have : k = l := List.getElem?_inj hlt hnodup (hk.trans hget.symm)
  omega

theorem sorted_positions (env : Corona) (views : List View)
    (hsorted : views.Pairwise (fun a b => sortKey env b ≤ sortKey env a))
    (a b : View) (hlt : sortKey env a < sortKey env b) (m n : Nat)
    (hm : views[m]? = some a) (hn : views[n]? = some b) : n < m := by
  by_contra hge
  have hmlt : m < views.length := by
    by_contra h
    rw [List.getElem?_eq_none (by omega)] at hm
    exact Option.noConfusion hm
  have hnlt : n < views.length := by
    by_contra h
    rw [List.getElem?_eq_none (by omega)] at hn
    exact Option.noConfusion hn
  rw [List.getElem?_eq_getElem hmlt] at hm
  rw [List.getElem?_eq_getElem hnlt] at hn
  have hm' := Option.some.inj hm
  have hn' := Option.some.inj hn
  rcases Nat.lt_or_ge m n with h | h
  · have := List.pairwise_iff_getElem.1 hsorted m n hmlt hnlt h
    rw [hm', hn'] at this
    omega
  · have hmn : m = n := by omega
    subst hmn
    rw [hm'] at hn'
    rw [hn'] at hlt
    omega

/-- C12: the view on the later screen of the enumeration comes first in
`sortedLatteViews`. -/
theorem sortedLatteViews_demo_later_screen_first :
    demoCoronaTriple.screens = ["eDP-1", "HDMI-1", "DP-1"]
      ∧ demoCoronaTriple.primaryScreen = "eDP-1"
      ∧ (sortedLatteViews demoCoronaTriple (fun _ => false) demoSpread).map
          (fun v => (v.containment.id, v.screen))
        = [(4, "eDP-1"), (3, "eDP-1"), (2, "DP-1"), (1, "HDMI-1")] := by
  decide

/-- C12: for two views on distinct screens other than the primary one, neither preferred
for shortcuts, in a layout whose views all sit on connected screens, the view whose
screen comes later in the enumeration of screens precedes the other in
`sortedLatteViews`: every position of `b` is before every position of `a` when the
screen of `a` is enumerated before the screen of `b`. -/
theorem sortedLatteViews_later_screen_first (env : Corona) (isPreferred : View → Bool)
    (s : ActiveLayout) (a b : View) (i j : Nat)
    (hscreens : ∀ v ∈ s.latteViews, v.screen ∈ env.screens)
    (hnodup : env.screens.Nodup)
    (hi : env.screens[i]? = some a.screen) (hj : env.screens[j]? = some b.screen)
    (hij : i < j)
    (ha : a.screen ≠ env.primaryScreen) (hb : b.screen ≠ env.primaryScreen)
    (hpa : isPreferred a = false) (hpb : isPreferred b = false) :
    ∀ m n : Nat, (sortedLatteViews env isPreferred s)[m]? = some a →
      (sortedLatteViews env isPreferred s)[n]? = some b → n < m := by
  have hkey : sortKey env a < sortKey env b := by
    have hea := edgePriority_eq a.location
    have heb := edgePriority_eq b.location
    have hoa := edgeOrder_le_four a.location
    have hob := edgeOrder_le_four b.location
    have hia : screenPriority env a.screen = i :=
      priorityFrom_of_getElem a.screen env.screens hnodup i hi (-1)
    have hjb : screenPriority env b.screen = j :=
      priorityFrom_of_getElem b.screen env.screens hnodup j hj (-1)
    unfold sortKey
    rw [if_neg ha, if_neg hb, hia, hjb]
    omega
  obtain ⟨_, hcases⟩ := sortedLatteViews_core env isPreferred s hscreens
  intro m n hm hn
  rcases hcases with ⟨_, hsorted⟩ | ⟨first, others, heq, hfirst, hsorted⟩
  · exact sorted_positions env _ hsorted a b hkey m n hm hn
  · rw [heq] at hm hn
    cases m with
    | zero =>
      simp only [List.getElem?_cons_zero] at hm
      rw [Option.some.inj hm, hpa] at hfirst
      exact Bool.noConfusion hfirst
    | succ m =>
      cases n with
      | zero =>
        simp only [List.getElem?_cons_zero] at hn
        rw [Option.some.inj hn, hpb] at hfirst
        exact Bool.noConfusion hfirst
      | succ n =>
        simp only [List.getElem?_cons_succ] at hm hn
        have := sorted_positions env _ hsorted a b hkey m n hm hn
        omega

/-- Witness of C12 on three screens: the view on `DP-1` (third screen) is at position 2,
the view on `HDMI-1` (second screen) at position 3. -/
theorem sortedLatteViews_later_screen_first_witness :
    (sortedLatteViews demoCoronaTriple (fun _ => false) demoSpread)[3]?
        = some (newView (demoDock 1 false 1 Location.BottomEdge) "HDMI-1" false)
      ∧ (sortedLatteViews demoCoronaTriple (fun _ => false) demoSpread)[2]?
        = some (newView (demoDock 2 false 2 Location.BottomEdge) "DP-1" false)
      ∧ 2 < 3 :=
  ⟨by decide, by decide,
    sortedLatteViews_later_screen_first demoCoronaTriple (fun _ => false) demoSpread
      (newView (demoDock 1 false 1 Location.BottomEdge) "HDMI-1" false)
      (newView (demoDock 2 false 2 Location.BottomEdge) "DP-1" false) 1 2
      (by decide) (by decide) (by decide) (by decide) (by decide) (by decide) (by decide)
      rfl rfl 3 2 (by decide) (by decide)⟩

/-! ### The visibility manager -/

open VisibilityManager

/-- C18: with a hide-timer interval of 2^30 ms the doubled interval wraps around in the
32-bit `int` and the temporary raise lasts 1800 ms, not max(1800, min(2·t, 3000)) = 3000. -/
theorem raiseViewTemporarily_window_wraps_around :
    (-2147483648 : Int) ≤ 1073741824 ∧ (1073741824 : Int) ≤ 2147483647
      ∧ (({ demoManager with timerHide := { isActive := false, interval := 1073741824 } } :
            VisibilityManager).raiseViewTemporarily).singleShot = some 1800
      ∧ max (1800 : Int) (min (2 * 1073741824) 3000) = 3000 := by
  decide

/-- C18: a `raiseViewTemporarily` call that starts a temporary raise schedules its end
after a window that is never shorter than 1800 ms and never longer than 3000 ms, that is
max(1800, min(2·t, 3000)) for every hide-timer interval t with -2^30 ≤ t < 2^30 (where
2·t fits the 32-bit `int`), and exactly 2·t whenever 900 ≤ t ≤ 1500. -/
theorem raiseViewTemporarily_window (s : VisibilityManager)
    (hraise : s.raiseTemporarily = false) :
    ∃ window : Int, (s.raiseViewTemporarily).singleShot = some window
      ∧ 1800 ≤ window ∧ window ≤ 3000
      ∧ (-2 ^ 30 ≤ s.timerHide.interval ∧ s.timerHide.interval < 2 ^ 30 →
          window = max 1800 (min (2 * s.timerHide.interval) 3000))
      ∧ (900 ≤ s.timerHide.interval ∧ s.timerHide.interval ≤ 1500 →
          window = 2 * s.timerHide.interval) := by
  refine ⟨qBound 1800 (wrapInt32 (2 * s.timerHide.interval)) 3000, ?_, ?_, ?_, ?_, ?_⟩
  · unfold raiseViewTemporarily raiseTemporarilyInterval
    rw [hraise]
    by_cases hhidden : s.isHidden = true <;> simp [hhidden, emit, Timer.stop]
  · unfold qBound
    omega
  · unfold qBound
    omega
  · rintro ⟨hlow, hhigh⟩
    unfold qBound wrapInt32
    omega
  · rintro ⟨hlow, hhigh⟩
    unfold qBound wrapInt32
    omega

/-- Witness of C18 at the default hide-timer interval of 700 ms. -/
theorem raiseViewTemporarily_window_witness :
    ∃ window : Int,
      ((demoManager.restoreConfig (some demoConfig)).raiseViewTemporarily).singleShot
          = some window
      ∧ 1800 ≤ window ∧ window ≤ 3000 := by
  obtain ⟨window, h1, h2, h3, _⟩ :=
    raiseViewTemporarily_window (demoManager.restoreConfig (some demoConfig)) (by decide)
  exact ⟨window, h1, h2, h3⟩

theorem raiseView_of_blockHiding (s : VisibilityManager) (raise : Bool)
    (hblock : s.blockHiding = true) : s.raiseView raise = s := by
  unfold raiseView
  rw [if_pos hblock]

theorem raiseView_false_of_dragEnter (s : VisibilityManager) (hdrag : s.dragEnter = true) :
    s.raiseView false = s := by
  unfold raiseView
  simp [hdrag]

theorem raiseView_true_eq (s : VisibilityManager) (hblock : s.blockHiding = false) :
    s.raiseView true
      = { s with
          timerHide := s.timerHide.stop
          timerShow := { isActive := true, interval := s.timerShow.interval } } := by
  unfold raiseView
  by_cases hactive : s.timerShow.isActive = true
  · have : s.timerShow = { isActive := true, interval := s.timerShow.interval } := by
      rw [← hactive]
    simp [hblock, hactive, Timer.start]
    exact this
  · simp [hblock, hactive, Timer.start]

theorem raiseView_false_eq (s : VisibilityManager) (hblock : s.blockHiding = false)
    (hdrag : s.dragEnter = false) (hnow : s.hideNow = false) :
    s.raiseView false
      = { s with
          timerShow := s.timerShow.stop
          timerHide := { isActive := true, interval := s.timerHide.interval } } := by
  unfold raiseView
  by_cases hactive : s.timerHide.isActive = true
  · have : s.timerHide = { isActive := true, interval := s.timerHide.interval } := by
      rw [← hactive]
    simp [hblock, hdrag, hnow, hactive, Timer.start]
    exact this
  · simp [hblock, hdrag, hnow, hactive, Timer.start]

theorem raiseView_false_hideNow_eq (s : VisibilityManager) (hblock : s.blockHiding = false)
    (hdrag : s.dragEnter = false) (hnow : s.hideNow = true) :
    s.raiseView false
      = { s with
          timerShow := s.timerShow.stop
          hideNow := false
          emitted := s.emitted ++ [Emission.mustBeHide] } := by
  unfold raiseView
  simp [hblock, hdrag, hnow, emit]

/-- C14: in a state with `blockHiding` false, no drag in progress and `hideNow` not
pending, `raiseView(false)` stops the show timer, leaves the hide timer pending and
emits nothing; after `raiseView(true)` followed by `raiseView(false)` the show timer is
stopped (its expiry emits nothing, so no `mustBeShown` comes from that show request)
and the hide timer is pending; and in any state with `blockHiding` set or a drag in
progress `raiseView(false)` changes nothing, so it does not start the hide timer. -/
theorem raiseView_false_cancels_show_and_starts_hide_timer (s : VisibilityManager)
    (hblock : s.blockHiding = false) (hdrag : s.dragEnter = false)
    (hnow : s.hideNow = false) :
    ((s.raiseView false).timerShow.isActive = false
        ∧ (s.raiseView false).timerHide.isActive = true
        ∧ (s.raiseView false).emitted = s.emitted)
      ∧ (((s.raiseView true).raiseView false).timerShow.isActive = false
        ∧ ((s.raiseView true).raiseView false).timerHide.isActive = true
        ∧ ((s.raiseView true).raiseView false).emitted = s.emitted
        ∧ (((s.raiseView true).raiseView false).timerShowTimeout).emitted = s.emitted)
      ∧ ∀ blocked : VisibilityManager,
          blocked.blockHiding = true ∨ blocked.dragEnter = true →
            blocked.raiseView false = blocked := by
  refine ⟨?_, ?_, ?_⟩
  · rw [raiseView_false_eq s hblock hdrag hnow]
    exact ⟨rfl, rfl, rfl⟩
  · have h1 := raiseView_true_eq s hblock
    have hb : (s.raiseView true).blockHiding = false := by rw [h1]; exact hblock
    have hd : (s.raiseView true).dragEnter = false := by rw [h1]; exact hdrag
    have hn : (s.raiseView true).hideNow = false := by rw [h1]; exact hnow
    have he : (s.raiseView true).emitted = s.emitted := by rw [h1]
    rw [raiseView_false_eq (s.raiseView true) hb hd hn]
    refine ⟨rfl, rfl, he, ?_⟩
    unfold timerShowTimeout
    simp [Timer.stop, he]
  · intro blocked h
    rcases h with h | h
    · exact raiseView_of_blockHiding blocked false h
    · exact raiseView_false_of_dragEnter blocked h

/-- Witness of C14 on a manager restored from an empty configuration. -/
theorem raiseView_false_cancels_show_and_starts_hide_timer_witness :
    ((demoManager.restoreConfig (some demoConfig)).raiseView false).timerShow.isActive = false
      ∧ ((demoManager.restoreConfig (some demoConfig)).raiseView false).timerHide
          = { isActive := true, interval := 700 }
      ∧ ((demoManager.restoreConfig (some demoConfig)).raiseView false).emitted
          = (demoManager.restoreConfig (some demoConfig)).emitted :=
  ⟨(raiseView_false_cancels_show_and_starts_hide_timer
      (demoManager.restoreConfig (some demoConfig)) (by decide) (by decide) (by decide)).1.1,
    by decide,
    (raiseView_false_cancels_show_and_starts_hide_timer
      (demoManager.restoreConfig (some demoConfig)) (by decide) (by decide) (by decide)).1.2.2⟩

theorem raiseView_true_twice (s : VisibilityManager) (hblock : s.blockHiding = false) :
    (s.raiseView true).raiseView true = s.raiseView true := by
  have h1 := raiseView_true_eq s hblock
  have hb : (s.raiseView true).blockHiding = false := by rw [h1]; exact hblock
  rw [raiseView_true_eq (s.raiseView true) hb, h1]
  rfl

theorem run_raiseView_true :
    ∀ (n : Nat) (s : VisibilityManager), s.blockHiding = false →
      run s (List.replicate (n + 1) (Input.raiseView true)) = s.raiseView true := by
  intro n
  induction n with
  | zero => intro s _; rfl
  | succ n ih =>
    intro s hblock
    have h1 := raiseView_true_eq s hblock
    have hb : (s.raiseView true).blockHiding = false := by rw [h1]; exact hblock
    have : run s (List.replicate (n + 1 + 1) (Input.raiseView true))
        = run (s.raiseView true) (List.replicate (n + 1) (Input.raiseView true)) := rfl
    rw [this, ih (s.raiseView true) hb, raiseView_true_twice s hblock]

theorem timerShowTimeout_of_idle (s : VisibilityManager)
    (hidle : s.timerShow.isActive = false) : s.timerShowTimeout = s := by
  unfold timerShowTimeout
  simp [hidle]

theorem run_timerShowTimeout_of_idle (s : VisibilityManager)
    (hidle : s.timerShow.isActive = false) :
    ∀ k : Nat, run s (List.replicate k Input.timerShowTimeout) = s := by
  intro k
  induction k with
  | zero => rfl
  | succ k ih =>
    have : run s (List.replicate (k + 1) Input.timerShowTimeout)
        = run s.timerShowTimeout (List.replicate k Input.timerShowTimeout) := rfl
    rw [this, timerShowTimeout_of_idle s hidle, ih]

/-- C15: in a state with `isHidden` true and `blockHiding` false, after one or more
consecutive `raiseView(true)` calls the show timer is pending and nothing has been
emitted; its expiry emits `mustBeShown` once, and any number of further expiries of the
show timer (none can happen before a new show request starts it again) emit nothing. -/
theorem show_requests_emit_mustBeShown_once (s : VisibilityManager) (n k : Nat)
    (hhidden : s.isHidden = true) (hblock : s.blockHiding = false) (hn : 0 < n) :
    (run s (List.replicate n (Input.raiseView true))).timerShow.isActive = true
      ∧ (run s (List.replicate n (Input.raiseView true))).emitted = s.emitted
      ∧ (run s (List.replicate n (Input.raiseView true) ++ [Input.timerShowTimeout])).emitted
          = s.emitted ++ [Emission.mustBeShown]
      ∧ (run s (List.replicate n (Input.raiseView true) ++ [Input.timerShowTimeout])).timerShow.isActive
          = false
      ∧ (run s (List.replicate n (Input.raiseView true)
            ++ Input.timerShowTimeout :: List.replicate k Input.timerShowTimeout)).emitted
          = s.emitted ++ [Emission.mustBeShown] := by
  obtain ⟨m, rfl⟩ : ∃ m, n = m + 1 := ⟨n - 1, by omega⟩
  have hrun := run_raiseView_true m s hblock
  have h1 := raiseView_true_eq s hblock
  have hfire : (s.raiseView true).timerShowTimeout
      = { s.raiseView true with
          timerShow := (s.raiseView true).timerShow.stop
          emitted := s.emitted ++ [Emission.mustBeShown] } := by
    rw [h1]
    unfold timerShowTimeout
    simp [hhidden, emit]
  have happ : ∀ inputs : List Input,
      run s (List.replicate (m + 1) (Input.raiseView true) ++ inputs)
        = run (s.raiseView true) inputs := by
    intro inputs
    unfold run
    rw [List.foldl_append]
    exact congrArg (fun t => List.foldl step t inputs) hrun
  refine ⟨?_, ?_, ?_, ?_, ?_⟩
  · rw [hrun, h1]
  · rw [hrun, h1]
  · rw [happ]
    exact congrArg VisibilityManager.emitted hfire
  · rw [happ]
    exact congrArg (fun t => t.timerShow.isActive) hfire
  · rw [happ]
    have : run (s.raiseView true) (Input.timerShowTimeout :: List.replicate k Input.timerShowTimeout)
        = run (s.raiseView true).timerShowTimeout (List.replicate k Input.timerShowTimeout) := rfl
    rw [this, run_timerShowTimeout_of_idle _ (by rw [hfire]; rfl) k, hfire]

/-- Witness of C15: a hidden manager, three show requests, then four expiries. -/
theorem show_requests_emit_mustBeShown_once_witness :
    (run ({ demoManager with isHidden := true } : VisibilityManager)
        (List.replicate 3 (Input.raiseView true)
          ++ Input.timerShowTimeout :: List.replicate 3 Input.timerShowTimeout)).emitted
      = [Emission.mustBeShown] :=
  (show_requests_emit_mustBeShown_once ({ demoManager with isHidden := true }) 3 3
    rfl rfl (by decide)).2.2.2.2

theorem ite_proj (c : Prop) [Decidable c] (a b : VisibilityManager) :
    ((if c then a else b).mode = if c then a.mode else b.mode)
      ∧ ((if c then a else b).isHidden = if c then a.isHidden else b.isHidden)
      ∧ ((if c then a else b).dragEnter = if c then a.dragEnter else b.dragEnter)
      ∧ ((if c then a else b).blockHiding = if c then a.blockHiding else b.blockHiding)
      ∧ ((if c then a else b).containsMouse = if c then a.containsMouse else b.containsMouse)
      ∧ ((if c then a else b).raiseTemporarily
          = if c then a.raiseTemporarily else b.raiseTemporarily)
      ∧ ((if c then a else b).hideNow = if c then a.hideNow else b.hideNow)
      ∧ ((if c then a else b).raiseOnDesktopChange
          = if c then a.raiseOnDesktopChange else b.raiseOnDesktopChange)
      ∧ ((if c then a else b).raiseOnActivityChange
          = if c then a.raiseOnActivityChange else b.raiseOnActivityChange)
      ∧ ((if c then a else b).enableKWinEdgesFromUser
          = if c then a.enableKWinEdgesFromUser else b.enableKWinEdgesFromUser)
      ∧ ((if c then a else b).edgeGhostWindow
          = if c then a.edgeGhostWindow else b.edgeGhostWindow)
      ∧ ((if c then a else b).timerShow = if c then a.timerShow else b.timerShow)
      ∧ ((if c then a else b).timerHide = if c then a.timerHide else b.timerHide)
      ∧ ((if c then a else b).timerStartUp = if c then a.timerStartUp else b.timerStartUp)
      ∧ ((if c then a else b).singleShot = if c then a.singleShot else b.singleShot)
      ∧ ((if c then a else b).connections = if c then a.connections else b.connections)
      ∧ ((if c then a else b).tracker = if c then a.tracker else b.tracker)
      ∧ ((if c then a else b).memoryUsage = if c then a.memoryUsage else b.memoryUsage)
      ∧ ((if c then a else b).viewOnScreen = if c then a.viewOnScreen else b.viewOnScreen)
      ∧ ((if c then a else b).managedLayoutIsCurrent
          = if c then a.managedLayoutIsCurrent else b.managedLayoutIsCurrent)
      ∧ ((if c then a else b).managedLayoutIsNamedCurrent
          = if c then a.managedLayoutIsNamedCurrent else b.managedLayoutIsNamedCurrent)
      ∧ ((if c then a else b).emitted = if c then a.emitted else b.emitted) := by
  split_ifs <;> simp

/-- Every member after `raiseView`, in terms of the members before. -/
theorem raiseView_proj (s : VisibilityManager) (raise : Bool) :
    (s.raiseView raise).mode = s.mode
      ∧ (s.raiseView raise).isHidden = s.isHidden
      ∧ (s.raiseView raise).dragEnter = s.dragEnter
      ∧ (s.raiseView raise).blockHiding = s.blockHiding
      ∧ (s.raiseView raise).containsMouse = s.containsMouse
      ∧ (s.raiseView raise).raiseTemporarily = s.raiseTemporarily
      ∧ (s.raiseView raise).raiseOnDesktopChange = s.raiseOnDesktopChange
      ∧ (s.raiseView raise).raiseOnActivityChange = s.raiseOnActivityChange
      ∧ (s.raiseView raise).enableKWinEdgesFromUser = s.enableKWinEdgesFromUser
      ∧ (s.raiseView raise).edgeGhostWindow = s.edgeGhostWindow
      ∧ (s.raiseView raise).timerStartUp = s.timerStartUp
      ∧ (s.raiseView raise).singleShot = s.singleShot
      ∧ (s.raiseView raise).connections = s.connections
      ∧ (s.raiseView raise).tracker = s.tracker
      ∧ (s.raiseView raise).memoryUsage = s.memoryUsage
      ∧ (s.raiseView raise).viewOnScreen = s.viewOnScreen
      ∧ (s.raiseView raise).managedLayoutIsCurrent = s.managedLayoutIsCurrent
      ∧ (s.raiseView raise).managedLayoutIsNamedCurrent = s.managedLayoutIsNamedCurrent
      ∧ (s.raiseView raise).timerShow
          = (if s.blockHiding = true then s.timerShow
            else if raise = true then
              (if s.timerShow.isActive = true then s.timerShow else s.timerShow.start)
            else if s.dragEnter = true then s.timerShow
            else s.timerShow.stop)
      ∧ (s.raiseView raise).timerHide
          = (if s.blockHiding = true then s.timerHide
            else if raise = true then s.timerHide.stop
            else if s.dragEnter = true then s.timerHide
            else if s.hideNow = true then s.timerHide
            else if s.timerHide.isActive = true then s.timerHide
            else s.timerHide.start)
      ∧ (s.raiseView raise).hideNow
          = (if s.blockHiding = true then s.hideNow
            else if raise = true then s.hideNow
            else if s.dragEnter = true then s.hideNow
            else false)
      ∧ (s.raiseView raise).emitted
          = (if s.blockHiding = true then s.emitted
            else if raise = true then s.emitted
            else if s.dragEnter = true then s.emitted
            else if s.hideNow = true then s.emitted ++ [Emission.mustBeHide]
            else s.emitted) := by
  simp only [raiseView, emit, ite_proj]
  split_ifs <;> simp_all

theorem dodgeActive_of_blockHiding (s : VisibilityManager) (hblock : s.blockHiding = true) :
    s.dodgeActive = s := by
  simp only [dodgeActive, raiseView_of_blockHiding s _ hblock, ite_self]

theorem dodgeMaximized_of_blockHiding (s : VisibilityManager) (hblock : s.blockHiding = true) :
    s.dodgeMaximized = s := by
  simp only [dodgeMaximized, raiseView_of_blockHiding s _ hblock, ite_self]

theorem dodgeAllWindows_of_blockHiding (s : VisibilityManager)
    (hblock : s.blockHiding = true) : s.dodgeAllWindows = s := by
  simp only [dodgeAllWindows, raiseView_of_blockHiding s _ hblock, ite_self]

theorem updateHiddenState_of_blockHiding (s : VisibilityManager)
    (hblock : s.blockHiding = true) : s.updateHiddenState = s := by
  unfold updateHiddenState
  split_ifs
  · rfl
  · split
    · exact raiseView_of_blockHiding s _ hblock
    · exact dodgeActive_of_blockHiding s hblock
    · exact dodgeMaximized_of_blockHiding s hblock
    · exact dodgeAllWindows_of_blockHiding s hblock
    · rfl

theorem staysBlocked_refl (s : VisibilityManager) (hblock : s.blockHiding = true) :
    StaysBlocked s s :=
  ⟨hblock, fun h => h, rfl, fun h => h⟩

theorem staysBlocked_trans (s t u : VisibilityManager) (h1 : StaysBlocked s t)
    (h2 : StaysBlocked t u) : StaysBlocked s u :=
  ⟨h2.1, fun h => h2.2.1 (h1.2.1 h), h2.2.2.1.trans h1.2.2.1, fun h => h2.2.2.2 (h1.2.2.2 h)⟩

theorem staysBlocked_raiseViewTemporarily (s : VisibilityManager)
    (hblock : s.blockHiding = true) : StaysBlocked s s.raiseViewTemporarily := by
  simp only [StaysBlocked, mustBeHideCount, raiseViewTemporarily, emit, ite_proj, Timer.stop]
  split_ifs <;> simp_all

theorem staysBlocked_runSlot (s : VisibilityManager) (slot : Slot)
    (hblock : s.blockHiding = true) : StaysBlocked s (s.runSlot slot) := by
  cases slot <;>
  simp only [runSlot, dodgeActive_of_blockHiding s hblock, dodgeMaximized_of_blockHiding s hblock,
    dodgeAllWindows_of_blockHiding s hblock, updateHiddenState_of_blockHiding s hblock,
    raiseView_of_blockHiding s _ hblock] <;>
  (try split_ifs) <;>
  first
    | exact staysBlocked_refl s hblock
    | exact staysBlocked_raiseViewTemporarily s hblock
    | (simp only [StaysBlocked, mustBeHideCount, updateStrutsBasedOnLayoutsAndActivities, emit,
        ite_proj]
       (try split_ifs) <;> simp_all)

theorem foldl_runSlot_invariant (P : VisibilityManager → Prop)
    (hslot : ∀ (t : VisibilityManager) (slot : Slot), P t → P (t.runSlot slot)) :
    ∀ (connections : List Connection) (s : VisibilityManager), P s →
      P (connections.foldl (fun s c => s.runSlot c.slot) s) := by
  intro connections
  induction connections with
  | nil => intro s h; exact h
  | cons c connections ih =>
    intro s h
    exact ih _ (hslot s c.slot h)

theorem staysBlocked_signal (s : VisibilityManager) (sender : Sender)
    (hblock : s.blockHiding = true) : StaysBlocked s (s.signal sender) := by
  unfold signal
  apply foldl_runSlot_invariant (fun t => StaysBlocked s t)
  · intro t slot ht
    exact staysBlocked_trans s t _ ht (staysBlocked_runSlot t slot ht.1)
  · exact staysBlocked_refl s hblock

/-- The four parts of `setMode` make up `setMode`. -/
theorem setMode_eq (s : VisibilityManager) (mode : Visibility) :
    s.setMode mode
      = if s.mode = mode then s
        else ((s.setModeClear.setModeBase mode).setModeSwitch).setModeFinish := by
  rfl

theorem staysBlocked_updateKWinEdgesSupport (s : VisibilityManager)
    (hblock : s.blockHiding = true) : StaysBlocked s s.updateKWinEdgesSupport := by
  simp only [StaysBlocked, mustBeHideCount, updateKWinEdgesSupport, createEdgeGhostWindow,
    deleteEdgeGhostWindow, emit, connect, ite_proj]
  split_ifs <;> simp_all

theorem staysBlocked_setModeClear (s : VisibilityManager) (hblock : s.blockHiding = true) :
    StaysBlocked s s.setModeClear := by
  simp only [StaysBlocked, mustBeHideCount, setModeClear, emit, ite_proj, Timer.stop]
  split_ifs <;> simp_all

theorem staysBlocked_setModeBase (s : VisibilityManager) (mode : Visibility)
    (hblock : s.blockHiding = true) : StaysBlocked s (s.setModeBase mode) := by
  simp only [StaysBlocked, mustBeHideCount, setModeBase, connect, ite_proj]
  split_ifs <;> simp_all

theorem staysBlocked_setModeSwitch (s : VisibilityManager) (hblock : s.blockHiding = true) :
    StaysBlocked s s.setModeSwitch := by
  unfold setModeSwitch
  split <;>
  simp only [StaysBlocked, mustBeHideCount, emit, connect, ite_proj, raiseView_proj,
    dodgeActive, dodgeMaximized, updateStrutsBasedOnLayoutsAndActivities] <;>
  (try split_ifs) <;> simp_all

theorem staysBlocked_emit (s : VisibilityManager) (emission : Emission)
    (hne : emission ≠ Emission.mustBeHide) (hblock : s.blockHiding = true) :
    StaysBlocked s (s.emit emission) := by
  refine ⟨hblock, fun h => h, ?_, fun h => h⟩
  simp only [mustBeHideCount, emit, List.count_append, List.count_singleton]
  simp [hne]

theorem staysBlocked_setModeFinish (s : VisibilityManager) (hblock : s.blockHiding = true) :
    StaysBlocked s s.setModeFinish := by
  have h1 := staysBlocked_emit s (Emission.writeVisibility s.mode) (by simp) hblock
  have h2 := staysBlocked_updateKWinEdgesSupport _ h1.1
  have h3 := staysBlocked_trans _ _ _ h1 h2
  exact staysBlocked_trans _ _ _ h3 (staysBlocked_emit _ Emission.modeChanged (by decide) h3.1)

theorem staysBlocked_setMode (s : VisibilityManager) (mode : Visibility)
    (hblock : s.blockHiding = true) : StaysBlocked s (s.setMode mode) := by
  rw [setMode_eq]
  split_ifs
  · exact staysBlocked_refl s hblock
  · have h1 := staysBlocked_setModeClear s hblock
    have h2 := staysBlocked_setModeBase _ mode h1.1
    have h3 := staysBlocked_trans _ _ _ h1 h2
    have h4 := staysBlocked_setModeSwitch _ h3.1
    have h5 := staysBlocked_trans _ _ _ h3 h4
    exact staysBlocked_trans _ _ _ h5 (staysBlocked_setModeFinish _ h5.1)

theorem staysBlocked_setContainsMouse (s : VisibilityManager) (contains : Bool)
    (hblock : s.blockHiding = true) : StaysBlocked s (s.setContainsMouse contains) := by
  unfold setContainsMouse
  split_ifs with h
  · exact staysBlocked_refl s hblock
  · have h1 : StaysBlocked s (({ s with containsMouse := contains }).emit
        Emission.containsMouseChanged) := by
      simp only [StaysBlocked, mustBeHideCount, emit]
      simp_all
    have h2 := staysBlocked_signal _ Sender.containsMouseChanged h1.1
    have h3 := staysBlocked_trans _ _ _ h1 h2
    simp only
    split_ifs
    · rw [raiseView_of_blockHiding _ _ h3.1]
      exact h3
    · exact h3

theorem staysBlocked_viewEventManager (s : VisibilityManager) (ev : QEvent)
    (hblock : s.blockHiding = true) : StaysBlocked s (s.viewEventManager ev) := by
  cases ev
  · exact staysBlocked_setContainsMouse s true hblock
  · exact staysBlocked_setContainsMouse s false hblock
  · simp only [StaysBlocked, mustBeHideCount, viewEventManager, emit, ite_proj]
    split_ifs <;> simp_all
  · simp only [viewEventManager]
    rw [updateHiddenState_of_blockHiding ({ s with dragEnter := false }) hblock]
    exact ⟨hblock, fun h => h, rfl, fun h => h⟩
  · simp only [viewEventManager]
    rw [updateHiddenState_of_blockHiding ({ s with dragEnter := false }) hblock]
    exact ⟨hblock, fun h => h, rfl, fun h => h⟩
  · simp only [StaysBlocked, mustBeHideCount, viewEventManager, emit]
    simp_all
  · exact staysBlocked_refl s hblock

theorem staysBlocked_tracker (s : VisibilityManager) (tracker : WindowsTracker)
    (sender : Sender) (hblock : s.blockHiding = true) :
    StaysBlocked s (({ s with tracker := tracker }).signal sender) := by
  have h := staysBlocked_signal ({ s with tracker := tracker }) sender hblock
  exact ⟨h.1, h.2.1, h.2.2.1, h.2.2.2⟩

theorem staysBlocked_step (s : VisibilityManager) (input : Input)
    (hblock : s.blockHiding = true) (hkeep : input ≠ Input.setBlockHiding false) :
    StaysBlocked s (s.step input) := by
  cases input with
  | setMode mode => exact staysBlocked_setMode s mode hblock
  | setRaiseOnDesktop enable =>
    simp only [step, StaysBlocked, mustBeHideCount, setRaiseOnDesktop, emit, ite_proj]
    split_ifs <;> simp_all
  | setRaiseOnActivity enable =>
    simp only [step, StaysBlocked, mustBeHideCount, setRaiseOnActivity, emit, ite_proj]
    split_ifs <;> simp_all
  | setIsHidden isHidden =>
    simp only [step, StaysBlocked, mustBeHideCount, setIsHidden, updateGhostWindowState,
      supportsKWinEdges, emit, ite_proj]
    split_ifs <;> simp_all
  | setBlockHiding blockHiding =>
    have hb : blockHiding = true := by
      cases blockHiding
      · exact absurd rfl hkeep
      · rfl
    subst hb
    simp only [step, setBlockHiding, hblock, if_true]
    exact staysBlocked_refl s hblock
  | setTimerShow msec =>
    simp only [step, StaysBlocked, mustBeHideCount, setTimerShow, emit, Timer.setInterval]
    simp_all
  | setTimerHide msec =>
    simp only [step, StaysBlocked, mustBeHideCount, setTimerHide, emit, Timer.setInterval]
    simp_all
  | setEnableKWinEdges enable =>
    simp only [step, StaysBlocked, mustBeHideCount, setEnableKWinEdges, updateKWinEdgesSupport,
      createEdgeGhostWindow, deleteEdgeGhostWindow, emit, connect, ite_proj]
    split_ifs <;> simp_all
  | raiseView raise =>
    simp only [step, raiseView_of_blockHiding s raise hblock]
    exact staysBlocked_refl s hblock
  | raiseViewTemporarily => exact staysBlocked_raiseViewTemporarily s hblock
  | updateHiddenState =>
    simp only [step, updateHiddenState_of_blockHiding s hblock]
    exact staysBlocked_refl s hblock
  | eventTriggered ev => exact staysBlocked_viewEventManager s ev hblock
  | absoluteGeometryChanged =>
    simp only [step, StaysBlocked, mustBeHideCount, absoluteGeometryChanged,
      updateStrutsBasedOnLayoutsAndActivities, emit, ite_proj]
    split_ifs <;> simp_all
  | activeWindowDraggingStarted =>
    have h := staysBlocked_setContainsMouse s false hblock
    simp only [step, VisibilityManager.activeWindowDraggingStarted,
      updateHiddenState_of_blockHiding _ h.1]
    exact h
  | activeWindowTouchingChanged touching =>
    exact staysBlocked_tracker s _ Sender.activeWindowTouchingChanged hblock
  | activeWindowMaximizedChanged maximized =>
    exact staysBlocked_tracker s _ Sender.activeWindowMaximizedChanged hblock
  | existsWindowTouchingChanged touching =>
    exact staysBlocked_tracker s _ Sender.existsWindowTouchingChanged hblock
  | currentDesktopChanged => exact staysBlocked_signal s _ hblock
  | currentActivityChanged => exact staysBlocked_signal s _ hblock
  | consumerCurrentActivityChanged => exact staysBlocked_signal s _ hblock
  | activitiesChanged => exact staysBlocked_signal s _ hblock
  | ghostContainsMouseChanged contains =>
    simp only [step, StaysBlocked, mustBeHideCount, VisibilityManager.ghostContainsMouseChanged,
      updateGhostWindowState, supportsKWinEdges, emit, ite_proj, raiseView_proj, Timer.stop]
    split_ifs <;> simp_all
  | timerShowTimeout =>
    simp only [step, StaysBlocked, mustBeHideCount, VisibilityManager.timerShowTimeout, emit,
      ite_proj, Timer.stop]
    split_ifs <;> simp_all
  | timerHideTimeout =>
    simp only [step, StaysBlocked, mustBeHideCount, VisibilityManager.timerHideTimeout, emit,
      ite_proj, Timer.stop]
    split_ifs <;> simp_all
  | timerStartUpTimeout fMode =>
    simp only [step, VisibilityManager.timerStartUpTimeout]
    split_ifs
    · have h := staysBlocked_setMode ({ s with timerStartUp := s.timerStartUp.stop }) fMode hblock
      exact ⟨h.1, h.2.1, h.2.2.1, h.2.2.2⟩
    · exact staysBlocked_refl s hblock
  | singleShotTimeout =>
    simp only [step, VisibilityManager.singleShotTimeout]
    split
    · exact staysBlocked_refl s hblock
    · rw [updateHiddenState_of_blockHiding
        ({ s with singleShot := none, raiseTemporarily := false, hideNow := true }) hblock]
      exact ⟨hblock, fun h => h, rfl, fun h => h⟩

theorem staysBlocked_run :
    ∀ (inputs : List Input) (s : VisibilityManager), s.blockHiding = true →
      Input.setBlockHiding false ∉ inputs → StaysBlocked s (s.run inputs) := by
  intro inputs
  induction inputs with
  | nil => intro s hblock _; exact staysBlocked_refl s hblock
  | cons input inputs ih =>
    intro s hblock hkeep
    have h1 := staysBlocked_step s input hblock
      (fun h => hkeep (by rw [h]; exact List.mem_cons_self _ _))
    have h2 := ih (s.step input) h1.1 (fun h => hkeep (List.mem_cons_of_mem _ h))
    exact staysBlocked_trans s _ _ h1 h2

/-- C13: while `blockHiding` is true nothing hides the view. From a state with
`blockHiding` set, after any inputs other than `setBlockHiding(false)` (in every mode):
`blockHiding` is still set, `mustBeHide` has not been emitted, the hide timer has not
been started and `isHidden` has not become true; and in the state reached
`setIsHidden(true)` changes nothing, `raiseView(false)` changes nothing (it neither
starts the hide timer nor emits `mustBeHide`) and an expiry of the hide timer emits
nothing. -/
theorem blockHiding_prevents_hiding (s : VisibilityManager) (inputs : List Input)
    (hblock : s.blockHiding = true) (hkeep : Input.setBlockHiding false ∉ inputs) :
    (s.run inputs).blockHiding = true
      ∧ (s.run inputs).mustBeHideCount = s.mustBeHideCount
      ∧ (s.timerHide.isActive = false → (s.run inputs).timerHide.isActive = false)
      ∧ (s.isHidden = false → (s.run inputs).isHidden = false)
      ∧ (s.run inputs).setIsHidden true = s.run inputs
      ∧ (s.run inputs).raiseView false = s.run inputs
      ∧ ((s.run inputs).timerHideTimeout).emitted = (s.run inputs).emitted := by
  have h := staysBlocked_run inputs s hblock hkeep
  refine ⟨h.1, h.2.2.1, h.2.1, h.2.2.2, ?_, raiseView_of_blockHiding _ _ h.1, ?_⟩
  · simp only [setIsHidden, h.1, Bool.true_and, if_true, ite_self]
  · simp only [timerHideTimeout, emit, ite_proj, h.1]
    split_ifs <;> simp_all

/-- Witness of C13: a blocked manager in mode `AutoHide`; the pointer leaves, a hide is
requested, `isHidden` is set and the hide timer is tried. -/
theorem blockHiding_prevents_hiding_witness :
    demoBlocked.blockHiding = true
      ∧ (demoBlocked.run [Input.eventTriggered QEvent.Leave, Input.raiseView false,
          Input.setIsHidden true, Input.timerHideTimeout]).mustBeHideCount
        = demoBlocked.mustBeHideCount
      ∧ (demoBlocked.run [Input.eventTriggered QEvent.Leave, Input.raiseView false,
          Input.setIsHidden true, Input.timerHideTimeout]).isHidden = false :=
  ⟨by decide,
    (blockHiding_prevents_hiding demoBlocked [Input.eventTriggered QEvent.Leave,
      Input.raiseView false, Input.setIsHidden true, Input.timerHideTimeout]
      (by decide) (by decide)).2.1,
    by decide⟩

theorem quiet_raiseView (s : VisibilityManager) (raise : Bool) (h : Quiet s) :
    Quiet (s.raiseView raise) := by
  simp only [Quiet, raiseView_proj, Timer.start, Timer.stop] at *
  split_ifs <;> simp_all

theorem quiet_dodgeActive (s : VisibilityManager) (h : Quiet s) : Quiet s.dodgeActive := by
  unfold dodgeActive
  split_ifs
  · exact h
  · exact quiet_raiseView s _ h
  · exact quiet_raiseView s _ h

theorem quiet_dodgeMaximized (s : VisibilityManager) (h : Quiet s) :
    Quiet s.dodgeMaximized := by
  unfold dodgeMaximized
  split_ifs
  · exact h
  · exact quiet_raiseView s _ h
  · exact quiet_raiseView s _ h

theorem quiet_dodgeAllWindows (s : VisibilityManager) (h : Quiet s) :
    Quiet s.dodgeAllWindows := by
  unfold dodgeAllWindows
  split_ifs
  · exact h
  · exact quiet_raiseView _ _ (quiet_raiseView s _ h)
  · exact quiet_raiseView s _ h

theorem quiet_updateHiddenState (s : VisibilityManager) (h : Quiet s) :
    Quiet s.updateHiddenState := by
  unfold updateHiddenState
  split_ifs
  · exact h
  · split
    · exact quiet_raiseView s _ h
    · exact quiet_dodgeActive s h
    · exact quiet_dodgeMaximized s h
    · exact quiet_dodgeAllWindows s h
    · exact h

theorem quiet_of_timers (s t : VisibilityManager) (h : Quiet s)
    (hshow : t.timerShow.isActive = true → s.timerShow.isActive = true)
    (hhide : t.timerHide.isActive = true → s.timerHide.isActive = true) : Quiet t :=
  fun ht => h ⟨hshow ht.1, hhide ht.2⟩

theorem quiet_emit (s : VisibilityManager) (emission : Emission) (h : Quiet s) :
    Quiet (s.emit emission) :=
  h

theorem quiet_raiseViewTemporarily (s : VisibilityManager) (h : Quiet s) :
    Quiet s.raiseViewTemporarily := by
  simp only [Quiet, raiseViewTemporarily, emit, ite_proj, Timer.stop] at *
  split_ifs <;> simp_all

theorem quiet_updateStruts (s : VisibilityManager) (h : Quiet s) :
    Quiet s.updateStrutsBasedOnLayoutsAndActivities := by
  simp only [Quiet, updateStrutsBasedOnLayoutsAndActivities, emit, ite_proj] at *
  split_ifs <;> simp_all

theorem quiet_updateGhostWindowState (s : VisibilityManager) (h : Quiet s) :
    Quiet s.updateGhostWindowState := by
  simp only [Quiet, updateGhostWindowState, emit, ite_proj] at *
  split_ifs <;> simp_all

theorem quiet_updateKWinEdgesSupport (s : VisibilityManager) (h : Quiet s) :
    Quiet s.updateKWinEdgesSupport := by
  simp only [Quiet, updateKWinEdgesSupport, createEdgeGhostWindow, deleteEdgeGhostWindow, emit,
    connect, ite_proj] at *
  split_ifs <;> simp_all

theorem quiet_runSlot (s : VisibilityManager) (slot : Slot) (h : Quiet s) :
    Quiet (s.runSlot slot) := by
  cases slot <;> simp only [runSlot] <;> (try split_ifs) <;>
  first
    | exact h
    | exact quiet_raiseViewTemporarily s h
    | exact quiet_updateHiddenState s h
    | exact quiet_updateStruts s h
    | exact quiet_raiseView s _ h
    | exact quiet_dodgeActive s h
    | exact quiet_dodgeMaximized s h
    | exact quiet_dodgeAllWindows s h

theorem quiet_signal (s : VisibilityManager) (sender : Sender) (h : Quiet s) :
    Quiet (s.signal sender) :=
  foldl_runSlot_invariant Quiet quiet_runSlot _ s h

theorem quiet_setModeClear (s : VisibilityManager) : Quiet s.setModeClear := by
  simp only [Quiet, setModeClear, emit, ite_proj, Timer.stop]
  simp

theorem quiet_setModeBase (s : VisibilityManager) (mode : Visibility) (h : Quiet s) :
    Quiet (s.setModeBase mode) := by
  simp only [Quiet, setModeBase, connect, ite_proj] at *
  split_ifs <;> simp_all

theorem quiet_setModeSwitch (s : VisibilityManager) (h : Quiet s) : Quiet s.setModeSwitch := by
  unfold setModeSwitch
  split
  · apply quiet_raiseView
    simp only [Quiet, connect, ite_proj, updateStrutsBasedOnLayoutsAndActivities, emit] at *
    split_ifs <;> simp_all
  · exact quiet_raiseView _ _ h
  · exact quiet_dodgeActive _ h
  · exact quiet_dodgeMaximized _ h
  · exact h
  · exact h

theorem quiet_setMode (s : VisibilityManager) (mode : Visibility) (h : Quiet s) :
    Quiet (s.setMode mode) := by
  rw [setMode_eq]
  split_ifs
  · exact h
  · exact quiet_updateKWinEdgesSupport _
      (quiet_setModeSwitch _ (quiet_setModeBase _ mode (quiet_setModeClear s)))

theorem quiet_setContainsMouse (s : VisibilityManager) (contains : Bool) (h : Quiet s) :
    Quiet (s.setContainsMouse contains) := by
  unfold setContainsMouse
  split_ifs with h1
  · exact h
  · simp only []
    split_ifs
    · exact quiet_raiseView _ _ (quiet_signal _ _ h)
    · exact quiet_signal _ _ h

theorem quiet_viewEventManager (s : VisibilityManager) (ev : QEvent) (h : Quiet s) :
    Quiet (s.viewEventManager ev) := by
  cases ev
  · exact quiet_setContainsMouse s true h
  · exact quiet_setContainsMouse s false h
  · simp only [Quiet, viewEventManager, emit, ite_proj] at *
    split_ifs <;> simp_all
  · exact quiet_updateHiddenState ({ s with dragEnter := false }) h
  · exact quiet_updateHiddenState ({ s with dragEnter := false }) h
  · exact h
  · exact h

theorem quiet_step (s : VisibilityManager) (input : Input) (h : Quiet s) :
    Quiet (s.step input) := by
  cases input with
  | setMode mode => exact quiet_setMode s mode h
  | setRaiseOnDesktop enable =>
    simp only [step, Quiet, setRaiseOnDesktop, emit, ite_proj] at *
    split_ifs <;> simp_all
  | setRaiseOnActivity enable =>
    simp only [step, Quiet, setRaiseOnActivity, emit, ite_proj] at *
    split_ifs <;> simp_all
  | setIsHidden isHidden =>
    simp only [step, Quiet, setIsHidden, updateGhostWindowState, supportsKWinEdges, emit,
      ite_proj] at *
    split_ifs <;> simp_all
  | setBlockHiding blockHiding =>
    simp only [step, setBlockHiding]
    split_ifs <;>
    first
      | exact h
      | exact quiet_emit _ _ (quiet_updateHiddenState ({ s with blockHiding := blockHiding }) h)
      | (simp only [Quiet, emit, Timer.stop] at *
         simp_all)
  | setTimerShow msec => exact h
  | setTimerHide msec => exact h
  | setEnableKWinEdges enable =>
    simp only [step, setEnableKWinEdges]
    split_ifs
    · exact h
    · exact quiet_updateKWinEdgesSupport _ h
  | raiseView raise => exact quiet_raiseView s raise h
  | raiseViewTemporarily => exact quiet_raiseViewTemporarily s h
  | updateHiddenState => exact quiet_updateHiddenState s h
  | eventTriggered ev => exact quiet_viewEventManager s ev h
  | absoluteGeometryChanged =>
    simp only [step, VisibilityManager.absoluteGeometryChanged]
    split_ifs
    · exact quiet_updateStruts s h
    · exact h
  | activeWindowDraggingStarted =>
    exact quiet_updateHiddenState _ (quiet_setContainsMouse s false h)
  | activeWindowTouchingChanged touching =>
    exact quiet_signal ({ s with tracker := { s.tracker with activeWindowTouching := touching } })
      _ h
  | activeWindowMaximizedChanged maximized =>
    exact quiet_signal
      ({ s with tracker := { s.tracker with activeWindowMaximized := maximized } }) _ h
  | existsWindowTouchingChanged touching =>
    exact quiet_signal ({ s with tracker := { s.tracker with existsWindowTouching := touching } })
      _ h
  | currentDesktopChanged => exact quiet_signal s _ h
  | currentActivityChanged => exact quiet_signal s _ h
  | consumerCurrentActivityChanged => exact quiet_signal s _ h
  | activitiesChanged => exact quiet_signal s _ h
  | ghostContainsMouseChanged contains =>
    simp only [step, VisibilityManager.ghostContainsMouseChanged]
    split_ifs
    · exact quiet_raiseView s true h
    · apply quiet_updateGhostWindowState
      exact quiet_of_timers s _ h (fun ht => Bool.noConfusion ht) (fun ht => ht)
    · exact h
  | timerShowTimeout =>
    simp only [step, Quiet, VisibilityManager.timerShowTimeout, emit, ite_proj, Timer.stop] at *
    split_ifs <;> simp_all
  | timerHideTimeout =>
    simp only [step, Quiet, VisibilityManager.timerHideTimeout, emit, ite_proj, Timer.stop] at *
    split_ifs <;> simp_all
  | timerStartUpTimeout fMode =>
    simp only [step, VisibilityManager.timerStartUpTimeout]
    split_ifs
    · exact quiet_setMode ({ s with timerStartUp := s.timerStartUp.stop }) fMode h
    · exact h
  | singleShotTimeout =>
    simp only [step, VisibilityManager.singleShotTimeout]
    split
    · exact h
    · exact quiet_updateHiddenState
        ({ s with singleShot := none, raiseTemporarily := false, hideNow := true }) h

theorem timerHideTimeout_of_idle (s : VisibilityManager)
    (h : s.timerHide.isActive = false) : s.timerHideTimeout = s := by
  simp [timerHideTimeout, h]

theorem timerHideTimeout_of_blockHiding (s : VisibilityManager)
    (h : s.blockHiding = true) : s.timerHideTimeout.emitted = s.emitted := by
  simp only [timerHideTimeout, emit, ite_proj, h]
  split_ifs <;> simp_all

/-- C16, as stated, fails: during a drag in mode `AutoHide` the show timer is pending
over a hidden view; the pointer leaves, so the mode asks for a hide, and the request is
dropped without stopping the show timer, whose expiry then emits `mustBeShown`. The same
happens to a direct hide request, and with `blockHiding` set. -/
theorem show_timer_fires_after_hide_request_during_drag :
    demoDraggingAutoHide.timerShow.isActive = true
      ∧ demoDraggingAutoHide.dragEnter = true
      ∧ demoDraggingAutoHide.mustBeShownCount = 0
      ∧ (demoDraggingAutoHide.step (Input.eventTriggered QEvent.Leave)).timerShow.isActive = true
      ∧ (demoDraggingAutoHide.run
          [Input.eventTriggered QEvent.Leave, Input.timerShowTimeout]).emitted
          = (demoDraggingAutoHide.step (Input.eventTriggered QEvent.Leave)).emitted
              ++ [Emission.mustBeShown]
      ∧ (demoDraggingAutoHide.run
          [Input.raiseView false, Input.timerShowTimeout]).emitted
          = demoDraggingAutoHide.emitted ++ [Emission.mustBeShown]
      ∧ ((demoHiddenAutoHide.run [Input.eventTriggered QEvent.Enter,
            Input.setBlockHiding true]).run
          [Input.raiseView false, Input.timerShowTimeout]).emitted
          = (demoHiddenAutoHide.run [Input.eventTriggered QEvent.Enter,
              Input.setBlockHiding true]).emitted ++ [Emission.mustBeShown] := by
  decide

/-- C16, amended: from a state in which the show timer and the hide timer are not both
pending (as when both are freshly constructed), after every sequence of inputs (mode
changes, show and hide requests, pointer, drag, window, `blockHiding`, temporary-raise
and timer events) the two timers are not both pending. In every state, a show request
made while `blockHiding` is clear stops the hide timer, and a hide request made while
`blockHiding` is clear and no drag is in progress stops the show timer; the expiry of
the stopped timer then changes nothing. A hide request made while `blockHiding` is set
or a drag is in progress is dropped whole and so leaves a pending show timer running;
a show request made while `blockHiding` is set is dropped too, and the expiry of the
hide timer emits nothing while `blockHiding` is set. -/
theorem timers_never_both_pending (s : VisibilityManager) (inputs : List Input)
    (h : Quiet s) :
    ¬ ((s.run inputs).timerShow.isActive = true ∧ (s.run inputs).timerHide.isActive = true)
      ∧ (∀ t : VisibilityManager, t.blockHiding = false →
          (t.raiseView true).timerHide.isActive = false
            ∧ (t.raiseView true).step Input.timerHideTimeout = t.raiseView true)
      ∧ (∀ t : VisibilityManager, t.blockHiding = false → t.dragEnter = false →
          (t.raiseView false).timerShow.isActive = false
            ∧ (t.raiseView false).step Input.timerShowTimeout = t.raiseView false)
      ∧ (∀ t : VisibilityManager, t.blockHiding = true ∨ t.dragEnter = true →
          t.raiseView false = t)
      ∧ (∀ t : VisibilityManager, t.blockHiding = true →
          t.raiseView true = t
            ∧ (t.step Input.timerHideTimeout).emitted = t.emitted) := by
  refine ⟨?_, ?_, ?_, ?_, ?_⟩
  · induction inputs generalizing s with
    | nil => exact h
    | cons input inputs ih => exact ih (s.step input) (quiet_step s input h)
  · intro t hblock
    have hidle : (t.raiseView true).timerHide.isActive = false := by
      simp [raiseView_proj, hblock, Timer.stop]
    exact ⟨hidle, timerHideTimeout_of_idle _ hidle⟩
  · intro t hblock hdrag
    have hidle : (t.raiseView false).timerShow.isActive = false := by
      simp [raiseView_proj, hblock, hdrag, Timer.stop]
    exact ⟨hidle, timerShowTimeout_of_idle _ hidle⟩
  · intro t ht
    rcases ht with ht | ht
    · exact raiseView_of_blockHiding t false ht
    · unfold raiseView
      simp [ht]
  · intro t hblock
    exact ⟨raiseView_of_blockHiding t true hblock, timerHideTimeout_of_blockHiding t hblock⟩

/-- Witness of C16, amended: a show request answered by a hide request, in mode `AutoHide`. -/
theorem timers_never_both_pending_witness :
    Quiet demoManager
      ∧ (demoManager.run [Input.setMode Visibility.AutoHide, Input.eventTriggered QEvent.Enter,
          Input.eventTriggered QEvent.Leave]).timerHide.isActive = true
      ∧ ¬ ((demoManager.run [Input.setMode Visibility.AutoHide,
            Input.eventTriggered QEvent.Enter,
            Input.eventTriggered QEvent.Leave]).timerShow.isActive = true
          ∧ (demoManager.run [Input.setMode Visibility.AutoHide,
            Input.eventTriggered QEvent.Enter,
            Input.eventTriggered QEvent.Leave]).timerHide.isActive = true) :=
  ⟨by unfold Quiet; decide, by decide,
    (timers_never_both_pending demoManager [Input.setMode Visibility.AutoHide,
      Input.eventTriggered QEvent.Enter, Input.eventTriggered QEvent.Leave]
      (by unfold Quiet; decide)).1⟩

/-- C17: in mode `AutoHide` a pointer leave during a temporary raise starts the hide
timer, and its expiry emits `mustBeHide` while the temporary raise is still in effect. -/
theorem autoHide_hides_during_temporary_raise :
    demoRaisedAutoHide.mode = Visibility.AutoHide
      ∧ demoRaisedAutoHide.raiseTemporarily = true
      ∧ demoRaisedAutoHide.timerHide.isActive = false
      ∧ (demoRaisedAutoHide.run [Input.eventTriggered QEvent.Leave]).timerHide.isActive = true
      ∧ (demoRaisedAutoHide.run [Input.eventTriggered QEvent.Leave,
            Input.timerHideTimeout]).mustBeHideCount
          = demoRaisedAutoHide.mustBeHideCount + 1
      ∧ (demoRaisedAutoHide.run [Input.eventTriggered QEvent.Leave,
            Input.timerHideTimeout]).raiseTemporarily = true
      ∧ (demoRaisedAutoHide.run [Input.eventTriggered QEvent.Leave,
            Input.timerHideTimeout]).singleShot = some 1800 := by
  decide

theorem staysRaised_refl (s : VisibilityManager) (h : s.raiseTemporarily = true) :
    StaysRaised s s :=
  ⟨h, rfl, rfl, fun h => h, rfl⟩

theorem staysRaised_trans (s t u : VisibilityManager) (h1 : StaysRaised s t)
    (h2 : StaysRaised t u) : StaysRaised s u :=
  ⟨h2.1, h2.2.1.trans h1.2.1, h2.2.2.1.trans h1.2.2.1, fun h => h2.2.2.2.1 (h1.2.2.2.1 h),
    h2.2.2.2.2.trans h1.2.2.2.2⟩

theorem raised_of_staysRaised (s t : VisibilityManager) (h : Raised s)
    (hst : StaysRaised s t) : Raised t := by
  refine ⟨hst.1, ?_, ?_⟩
  · rw [hst.2.1]; exact h.2.1
  · unfold NoAutoHideSlot
    rw [hst.2.2.1]
    exact h.2.2

theorem dodgeActive_of_raiseTemporarily (s : VisibilityManager)
    (h : s.raiseTemporarily = true) : s.dodgeActive = s := by
  simp only [dodgeActive, h, if_true]

theorem dodgeMaximized_of_raiseTemporarily (s : VisibilityManager)
    (h : s.raiseTemporarily = true) : s.dodgeMaximized = s := by
  simp only [dodgeMaximized, h, if_true]

theorem dodgeAllWindows_of_raiseTemporarily (s : VisibilityManager)
    (h : s.raiseTemporarily = true) : s.dodgeAllWindows = s := by
  simp only [dodgeAllWindows, h, if_true]

theorem raiseViewTemporarily_of_raiseTemporarily (s : VisibilityManager)
    (h : s.raiseTemporarily = true) : s.raiseViewTemporarily = s := by
  simp only [raiseViewTemporarily, h, if_true]

theorem updateHiddenState_of_raised (s : VisibilityManager) (h : Raised s) :
    s.updateHiddenState = s := by
  unfold updateHiddenState
  split_ifs
  · rfl
  · split
    · rename_i hmode
      exact absurd hmode h.2.1
    · exact dodgeActive_of_raiseTemporarily s h.1
    · exact dodgeMaximized_of_raiseTemporarily s h.1
    · exact dodgeAllWindows_of_raiseTemporarily s h.1
    · rfl

theorem staysRaised_raiseView_true (s : VisibilityManager) (h : s.raiseTemporarily = true) :
    StaysRaised s (s.raiseView true) := by
  simp only [StaysRaised, mustBeHideCount, raiseView_proj, Timer.stop]
  split_ifs <;> simp_all

theorem staysRaised_runSlot (s : VisibilityManager) (slot : Slot) (h : Raised s)
    (hslot : slot ≠ Slot.raiseViewContainsMouse) : StaysRaised s (s.runSlot slot) := by
  cases slot <;>
  simp only [runSlot, dodgeActive_of_raiseTemporarily s h.1,
    dodgeMaximized_of_raiseTemporarily s h.1, dodgeAllWindows_of_raiseTemporarily s h.1,
    updateHiddenState_of_raised s h, raiseViewTemporarily_of_raiseTemporarily s h.1, ite_self] <;>
  first
    | exact staysRaised_refl s h.1
    | exact absurd rfl hslot
    | (simp only [StaysRaised, mustBeHideCount, updateStrutsBasedOnLayoutsAndActivities, emit,
        ite_proj]
       (try split_ifs) <;> simp_all [h.1])

theorem foldl_runSlot_invariant_mem (P : VisibilityManager → Prop) :
    ∀ (connections : List Connection) (s : VisibilityManager),
      (∀ (t : VisibilityManager) (c : Connection), c ∈ connections → P t →
        P (t.runSlot c.slot)) →
      P s → P (connections.foldl (fun s c => s.runSlot c.slot) s) := by
  intro connections
  induction connections with
  | nil => intro s _ h; exact h
  | cons c connections ih =>
    intro s hslot h
    exact ih _ (fun t d hd => hslot t d (List.mem_cons_of_mem _ hd))
      (hslot s c (List.mem_cons_self _ _) h)

theorem staysRaised_signal (s : VisibilityManager) (sender : Sender) (h : Raised s) :
    StaysRaised s (s.signal sender) := by
  unfold signal
  apply foldl_runSlot_invariant_mem (fun t => StaysRaised s t)
  · intro t c hc ht
    have hc' : c ∈ s.connections := (List.mem_filter.1 hc).1
    exact staysRaised_trans s t _ ht
      (staysRaised_runSlot t c.slot (raised_of_staysRaised s t h ht) (h.2.2 c hc'))
  · exact staysRaised_refl s h.1

theorem staysRaised_setContainsMouse (s : VisibilityManager) (contains : Bool)
    (h : Raised s) : StaysRaised s (s.setContainsMouse contains) := by
  unfold setContainsMouse
  split_ifs with h1
  · exact staysRaised_refl s h.1
  · have h2 : StaysRaised s (({ s with containsMouse := contains }).emit
        Emission.containsMouseChanged) := by
      simp only [StaysRaised, mustBeHideCount, emit]
      simp [h.1]
    have h3 := staysRaised_trans _ _ _ h2
      (staysRaised_signal _ Sender.containsMouseChanged (raised_of_staysRaised _ _ h h2))
    simp only []
    split_ifs
    · exact staysRaised_trans _ _ _ h3 (staysRaised_raiseView_true _ h3.1)
    · exact h3

theorem staysRaised_tracker (s : VisibilityManager) (tracker : WindowsTracker)
    (sender : Sender) (h : Raised s) :
    StaysRaised s (({ s with tracker := tracker }).signal sender) := by
  have h1 := staysRaised_signal ({ s with tracker := tracker }) sender h
  exact ⟨h1.1, h1.2.1, h1.2.2.1, h1.2.2.2.1, h1.2.2.2.2⟩

theorem staysRaised_step (s : VisibilityManager) (input : Input) (h : Raised s)
    (hinput : isPointerOrTracker input = true) : StaysRaised s (s.step input) := by
  cases input with
  | eventTriggered ev =>
    cases ev
    · exact staysRaised_setContainsMouse s true h
    · exact staysRaised_setContainsMouse s false h
    all_goals exact Bool.noConfusion hinput
  | ghostContainsMouseChanged contains =>
    simp only [step, StaysRaised, mustBeHideCount, VisibilityManager.ghostContainsMouseChanged,
      updateGhostWindowState, supportsKWinEdges, emit, ite_proj, raiseView_proj, Timer.stop]
    split_ifs <;> simp_all [h.1]
  | activeWindowDraggingStarted =>
    have h1 := staysRaised_setContainsMouse s false h
    simp only [step, VisibilityManager.activeWindowDraggingStarted,
      updateHiddenState_of_raised _ (raised_of_staysRaised _ _ h h1)]
    exact h1
  | activeWindowTouchingChanged touching =>
    exact staysRaised_tracker s _ Sender.activeWindowTouchingChanged h
  | activeWindowMaximizedChanged maximized =>
    exact staysRaised_tracker s _ Sender.activeWindowMaximizedChanged h
  | existsWindowTouchingChanged touching =>
    exact staysRaised_tracker s _ Sender.existsWindowTouchingChanged h
  | _ => exact Bool.noConfusion hinput

theorem staysRaised_run :
    ∀ (inputs : List Input) (s : VisibilityManager), Raised s →
      (∀ input ∈ inputs, isPointerOrTracker input = true) → StaysRaised s (s.run inputs) := by
  intro inputs
  induction inputs with
  | nil => intro s h _; exact staysRaised_refl s h.1
  | cons input inputs ih =>
    intro s h hinputs
    have h1 := staysRaised_step s input h (hinputs input (List.mem_cons_self _ _))
    have h2 := ih (s.step input) (raised_of_staysRaised _ _ h h1)
      (fun i hi => hinputs i (List.mem_cons_of_mem _ hi))
    exact staysRaised_trans s _ _ h1 h2

theorem noAutoHideSlot_setModeClear (s : VisibilityManager) :
    NoAutoHideSlot s.setModeClear := by
  intro c hc
  have hconn : s.setModeClear.connections
      = s.connections.filter (fun c => decide (c.slot = Slot.edgeState)) := by
    simp only [setModeClear, emit, ite_proj, ite_self]
  rw [hconn] at hc
  have := (List.mem_filter.1 hc).2
  simp only [decide_eq_true_eq] at this
  rw [this]
  decide

theorem noAutoHideSlot_setModeBase (s : VisibilityManager) (mode : Visibility)
    (h : NoAutoHideSlot s) : NoAutoHideSlot (s.setModeBase mode) := by
  intro c hc
  simp only [setModeBase, connect, ite_proj] at hc
  split_ifs at hc
  · simp only [List.append_assoc, List.mem_append, List.mem_singleton, List.mem_cons,
      List.not_mem_nil, or_false] at hc
    rcases hc with hc | hc | hc
    · exact h c hc
    · rw [hc]; decide
    · rw [hc]; decide
  · exact h c hc

theorem noAutoHideSlot_setModeSwitch (s : VisibilityManager) (h : NoAutoHideSlot s)
    (hmode : s.mode ≠ Visibility.AutoHide) : NoAutoHideSlot s.setModeSwitch := by
  intro c hc
  unfold setModeSwitch at hc
  split at hc
  · simp only [raiseView_proj, connect, ite_proj, updateStrutsBasedOnLayoutsAndActivities,
      emit, ite_self] at hc
    split_ifs at hc
    · simp only [List.append_assoc, List.mem_append, List.mem_singleton, List.mem_cons,
        List.not_mem_nil, or_false] at hc
      rcases hc with hc | hc | hc
      · exact h c hc
      · rw [hc]; decide
      · rw [hc]; decide
    · exact h c hc
  · rename_i hm
    exact absurd hm hmode
  · simp only [dodgeActive, raiseView_proj, connect, ite_proj, ite_self] at hc
    simp only [List.append_assoc, List.mem_append, List.mem_singleton, List.mem_cons,
      List.not_mem_nil, or_false] at hc
    rcases hc with hc | hc | hc
    · exact h c hc
    · rw [hc]; decide
    · rw [hc]; decide
  · simp only [dodgeMaximized, raiseView_proj, connect, ite_proj, ite_self] at hc
    simp only [List.append_assoc, List.mem_append, List.mem_singleton, List.mem_cons,
      List.not_mem_nil, or_false] at hc
    rcases hc with hc | hc | hc
    · exact h c hc
    · rw [hc]; decide
    · rw [hc]; decide
  · simp only [connect] at hc
    simp only [List.append_assoc, List.mem_append, List.mem_singleton, List.mem_cons,
      List.not_mem_nil, or_false] at hc
    rcases hc with hc | hc | hc
    · exact h c hc
    · rw [hc]; decide
    · rw [hc]; decide
  · exact h c hc

theorem noAutoHideSlot_updateKWinEdgesSupport (s : VisibilityManager)
    (h : NoAutoHideSlot s) : NoAutoHideSlot s.updateKWinEdgesSupport := by
  intro c hc
  simp only [updateKWinEdgesSupport, createEdgeGhostWindow, deleteEdgeGhostWindow, emit,
    connect, ite_proj] at hc
  split_ifs at hc <;>
  first
    | exact h c hc
    | exact h c (List.mem_filter.1 hc).1
    | (simp only [List.mem_append, List.mem_singleton] at hc
       rcases hc with hc | hc
       · exact h c hc
       · rw [hc]; decide)

theorem setModeSwitch_mode (s : VisibilityManager) : s.setModeSwitch.mode = s.mode := by
  unfold setModeSwitch
  split <;>
  simp only [raiseView_proj, dodgeActive, dodgeMaximized, connect, ite_proj,
    updateStrutsBasedOnLayoutsAndActivities, emit, ite_self]

theorem setModeBase_mode (s : VisibilityManager) (mode : Visibility) :
    (s.setModeBase mode).mode = mode := by
  simp only [setModeBase, connect, ite_proj, ite_self]

/-- After `setMode` to a mode other than `AutoHide` no connection runs the lambda of
`AutoHide`. -/
theorem noAutoHideSlot_setMode (s : VisibilityManager) (mode : Visibility)
    (hchange : s.mode ≠ mode) (hmode : mode ≠ Visibility.AutoHide) :
    NoAutoHideSlot (s.setMode mode) := by
  rw [setMode_eq, if_neg hchange]
  exact noAutoHideSlot_updateKWinEdgesSupport _
    (noAutoHideSlot_setModeSwitch _ (noAutoHideSlot_setModeBase _ mode
      (noAutoHideSlot_setModeClear s)) (by rw [setModeBase_mode]; exact hmode))

/-- C17: in the modes `DodgeActive`, `DodgeMaximized` and `DodgeAllWindows` (with the
connections `setMode` makes for them, none of which runs the lambda of `AutoHide`), a
`raiseViewTemporarily` call that starts a temporary raise emits `mustBeShown` at once
when the view is hidden (and nothing otherwise), and after every sequence of pointer and
window-tracker inputs that follows, the temporary raise is still in effect, the hide
timer is not pending and `mustBeHide` has not been emitted. -/
theorem temporary_raise_holds_off_hiding_in_dodge_modes (s : VisibilityManager)
    (inputs : List Input)
    (hmode : s.mode = Visibility.DodgeActive ∨ s.mode = Visibility.DodgeMaximized
      ∨ s.mode = Visibility.DodgeAllWindows)
    (hwired : NoAutoHideSlot s) (hstart : s.raiseTemporarily = false)
    (hinputs : ∀ input ∈ inputs, isPointerOrTracker input = true) :
    (s.isHidden = true → s.raiseViewTemporarily.emitted = s.emitted ++ [Emission.mustBeShown])
      ∧ (s.isHidden = false → s.raiseViewTemporarily.emitted = s.emitted)
      ∧ (s.raiseViewTemporarily.run inputs).raiseTemporarily = true
      ∧ (s.raiseViewTemporarily.run inputs).timerHide.isActive = false
      ∧ (s.raiseViewTemporarily.run inputs).mustBeHideCount = s.mustBeHideCount := by
  have hproj : s.raiseViewTemporarily.raiseTemporarily = true
      ∧ s.raiseViewTemporarily.mode = s.mode
      ∧ s.raiseViewTemporarily.connections = s.connections
      ∧ s.raiseViewTemporarily.timerHide.isActive = false
      ∧ s.raiseViewTemporarily.mustBeHideCount = s.mustBeHideCount := by
    simp only [mustBeHideCount, raiseViewTemporarily, emit, ite_proj, Timer.stop, hstart,
      Bool.false_eq_true, if_false]
    split_ifs <;> simp
  have hraised : Raised s.raiseViewTemporarily := by
    refine ⟨hproj.1, ?_, ?_⟩
    · rw [hproj.2.1]
      rcases hmode with h | h | h <;> rw [h] <;> decide
    · unfold NoAutoHideSlot
      rw [hproj.2.2.1]
      exact hwired
  have hrun := staysRaised_run inputs s.raiseViewTemporarily hraised hinputs
  refine ⟨?_, ?_, hrun.1, hrun.2.2.2.1 hproj.2.2.2.1, hrun.2.2.2.2.trans hproj.2.2.2.2⟩
  · intro hhidden
    simp only [raiseViewTemporarily, emit, ite_proj, hstart, hhidden, Bool.false_eq_true,
      if_false, if_true]
  · intro hshown
    simp only [raiseViewTemporarily, emit, ite_proj, hstart, hshown, Bool.false_eq_true,
      if_false]

/-- Witness of C17: a hidden manager in mode `DodgeActive` under a touching window is
raised temporarily; the pointer and the window tracker then report. -/
theorem temporary_raise_holds_off_hiding_in_dodge_modes_witness :
    demoDodging.isHidden = true
      ∧ demoDodging.tracker.activeWindowTouching = true
      ∧ demoDodging.raiseViewTemporarily.emitted = demoDodging.emitted ++ [Emission.mustBeShown]
      ∧ (demoDodging.raiseViewTemporarily.run [Input.eventTriggered QEvent.Enter,
          Input.eventTriggered QEvent.Leave, Input.activeWindowTouchingChanged true,
          Input.activeWindowDraggingStarted]).timerHide.isActive = false :=
  ⟨by decide, by decide,
    (temporary_raise_holds_off_hiding_in_dodge_modes demoDodging
      [Input.eventTriggered QEvent.Enter, Input.eventTriggered QEvent.Leave,
        Input.activeWindowTouchingChanged true, Input.activeWindowDraggingStarted]
      (by decide) (by unfold NoAutoHideSlot; decide) (by decide) (by decide)).1 (by decide),
    (temporary_raise_holds_off_hiding_in_dodge_modes demoDodging
      [Input.eventTriggered QEvent.Enter, Input.eventTriggered QEvent.Leave,
        Input.activeWindowTouchingChanged true, Input.activeWindowDraggingStarted]
      (by decide) (by unfold NoAutoHideSlot; decide) (by decide) (by decide)).2.2.2.1⟩

theorem updateKWinEdgesSupport_timers (s : VisibilityManager) :
    s.updateKWinEdgesSupport.timerShow = s.timerShow
      ∧ s.updateKWinEdgesSupport.timerHide = s.timerHide := by
  simp only [updateKWinEdgesSupport, createEdgeGhostWindow, deleteEdgeGhostWindow, emit, connect,
    ite_proj, ite_self, and_self]

theorem setModeClear_timerHide_interval (s : VisibilityManager) :
    s.setModeClear.timerHide.interval = s.timerHide.interval := by
  simp only [setModeClear, emit, ite_proj, ite_self, Timer.stop]

theorem setModeBase_timerHide (s : VisibilityManager) (mode : Visibility) :
    (s.setModeBase mode).timerHide = s.timerHide := by
  simp only [setModeBase, connect, ite_proj, ite_self]

theorem raiseView_timerHide_interval (s : VisibilityManager) (raise : Bool) :
    (s.raiseView raise).timerHide.interval = s.timerHide.interval := by
  simp only [raiseView_proj, Timer.start, Timer.stop]
  split_ifs <;> rfl

theorem setModeSwitch_timerHide_interval (s : VisibilityManager) :
    s.setModeSwitch.timerHide.interval = s.timerHide.interval := by
  unfold setModeSwitch
  split <;>
  simp only [raiseView_timerHide_interval, dodgeActive, dodgeMaximized, connect, ite_proj,
    updateStrutsBasedOnLayoutsAndActivities, emit, apply_ite Timer.interval, ite_self]

theorem setMode_timerHide_interval (s : VisibilityManager) (mode : Visibility) :
    (s.setMode mode).timerHide.interval = s.timerHide.interval := by
  rw [setMode_eq]
  split_ifs
  · rfl
  · have h : (s.setModeClear.setModeBase mode).setModeSwitch.setModeFinish.timerHide
        = (s.setModeClear.setModeBase mode).setModeSwitch.timerHide :=
      (updateKWinEdgesSupport_timers _).2
    rw [h, setModeSwitch_timerHide_interval, setModeBase_timerHide,
      setModeClear_timerHide_interval]

theorem restoreConfig_timerHide_interval (s : VisibilityManager) (config : Config) :
    (s.restoreConfig (some config)).timerHide.interval = config.timerHide.getD 700 := by
  simp only [restoreConfig]
  split_ifs
  · rw [setMode_timerHide_interval]
    simp only [setRaiseOnActivity, setRaiseOnDesktop, emit, ite_proj, ite_self,
      Timer.setInterval]
  · simp only [setRaiseOnActivity, setRaiseOnDesktop, emit, ite_proj, ite_self,
      Timer.setInterval]

/-- C19: in mode `DodgeActive` with `hideNow` pending, an evaluation with the pointer
outside and a touching active window emits `mustBeHide` at once and does not start the
hide timer. -/
theorem dodgeActive_with_hideNow_pending_hides_at_once :
    demoHideNow.mode = Visibility.DodgeActive
      ∧ demoHideNow.raiseTemporarily = false
      ∧ demoHideNow.blockHiding = false
      ∧ demoHideNow.dragEnter = false
      ∧ demoHideNow.containsMouse = false
      ∧ demoHideNow.hideNow = true
      ∧ (demoHideNow.step (Input.activeWindowTouchingChanged true)).tracker.activeWindowTouching
          = true
      ∧ (demoHideNow.step (Input.activeWindowTouchingChanged true)).timerHide.isActive = false
      ∧ (demoHideNow.step (Input.activeWindowTouchingChanged true)).emitted
          = demoHideNow.emitted ++ [Emission.mustBeHide] := by
  decide

/-- C19: in mode `DodgeActive` with no temporary raise, `blockHiding` false and no drag
in progress, the evaluation of the hidden state is `dodgeActive`; it requests show
(`raiseView(true)`: hide timer stopped, show timer pending, nothing emitted) when the
pointer is contained or the active window does not touch, and requests hide
(`raiseView(false)`: show timer stopped) exactly when the pointer is not contained and
the active window touches; that hide request starts the hide timer when `hideNow` is
not pending, and emits `mustBeHide` at once, leaving the hide timer as it was, when
`hideNow` is pending. The interval of the hide timer is 700 ms after `restoreConfig`
when the configuration stores none. -/
theorem dodgeActive_requests (s : VisibilityManager)
    (hmode : s.mode = Visibility.DodgeActive) (hraise : s.raiseTemporarily = false)
    (hblock : s.blockHiding = false) (hdrag : s.dragEnter = false) :
    s.updateHiddenState = s.dodgeActive
      ∧ (s.containsMouse = true ∨ s.tracker.activeWindowTouching = false →
          s.dodgeActive = s.raiseView true
            ∧ s.dodgeActive.timerShow.isActive = true
            ∧ s.dodgeActive.timerHide.isActive = false
            ∧ s.dodgeActive.emitted = s.emitted)
      ∧ (s.containsMouse = false ∧ s.tracker.activeWindowTouching = true →
          s.dodgeActive = s.raiseView false
            ∧ s.dodgeActive.timerShow.isActive = false
            ∧ (s.hideNow = false →
                s.dodgeActive.timerHide = { isActive := true, interval := s.timerHide.interval }
                  ∧ s.dodgeActive.emitted = s.emitted)
            ∧ (s.hideNow = true →
                s.dodgeActive.timerHide = s.timerHide
                  ∧ s.dodgeActive.emitted = s.emitted ++ [Emission.mustBeHide]
                  ∧ s.dodgeActive.hideNow = false))
      ∧ ∀ (fresh : VisibilityManager) (config : Config), config.timerHide = none →
          (fresh.restoreConfig (some config)).timerHide.interval = 700 := by
  refine ⟨?_, ?_, ?_, ?_⟩
  · simp only [updateHiddenState, hdrag, hmode, Bool.false_eq_true, if_false]
  · intro h
    have heq : s.dodgeActive = s.raiseView true := by
      simp only [dodgeActive, hraise, Bool.false_eq_true, if_false]
      rcases h with h | h
      · simp only [h, if_true]
      · simp only [h, Bool.not_false, ite_self]
    rw [heq, raiseView_true_eq s hblock]
    exact ⟨rfl, rfl, rfl, rfl⟩
  · rintro ⟨hout, htouch⟩
    have heq : s.dodgeActive = s.raiseView false := by
      simp only [dodgeActive, hraise, hout, htouch, Bool.false_eq_true, if_false, Bool.not_true]
    rw [heq]
    refine ⟨rfl, ?_, ?_, ?_⟩
    · simp only [raiseView_proj, hblock, hdrag, Bool.false_eq_true, if_false, Timer.stop]
    · intro hnow
      rw [raiseView_false_eq s hblock hdrag hnow]
      exact ⟨rfl, rfl⟩
    · intro hnow
      rw [raiseView_false_hideNow_eq s hblock hdrag hnow]
      exact ⟨rfl, rfl, rfl⟩
  · intro fresh config hconfig
    rw [restoreConfig_timerHide_interval, hconfig]
    rfl

/-- Witness of C19: a manager entered into `DodgeActive` from an empty configuration, the
active window touching. -/
theorem dodgeActive_requests_witness :
    (demoManager.restoreConfig (some demoConfig)).timerHide.interval = 700
      ∧ (demoDodging.setIsHidden false).tracker.activeWindowTouching = true
      ∧ (demoDodging.setIsHidden false).dodgeActive.timerHide
          = { isActive := true, interval := 700 } :=
  ⟨(dodgeActive_requests (demoDodging.setIsHidden false) (by decide) (by decide) (by decide)
      (by decide)).2.2.2 demoManager demoConfig rfl,
    by decide,
    ((dodgeActive_requests (demoDodging.setIsHidden false) (by decide) (by decide) (by decide)
      (by decide)).2.2.1 ⟨by decide, by decide⟩).2.2.1 (by decide) |>.1⟩

/-- C20: in mode `DodgeMaximized` the connection of `activeWindowMaximizedChanged` runs
`dodgeActive`, and none runs `dodgeMaximized` on that signal. When the active window
becomes maximized while it does not touch the view and the pointer is outside, the show
timer is started and the hide timer is not, where `dodgeMaximized` on the state reached
starts the hide timer. -/
theorem dodgeMaximized_change_runs_dodgeActive :
    demoDodgeMaximized.mode = Visibility.DodgeMaximized
      ∧ demoDodgeMaximized.containsMouse = false
      ∧ demoDodgeMaximized.blockHiding = false
      ∧ demoDodgeMaximized.dragEnter = false
      ∧ demoDodgeMaximized.raiseTemporarily = false
      ∧ demoDodgeMaximized.tracker.activeWindowTouching = false
      ∧ ({ sender := Sender.activeWindowMaximizedChanged, slot := Slot.dodgeActive } : Connection)
          ∈ demoDodgeMaximized.connections
      ∧ ({ sender := Sender.activeWindowMaximizedChanged, slot := Slot.dodgeMaximized } : Connection)
          ∉ demoDodgeMaximized.connections
      ∧ (demoDodgeMaximized.step (Input.activeWindowMaximizedChanged true)).tracker.activeWindowMaximized
          = true
      ∧ (demoDodgeMaximized.step (Input.activeWindowMaximizedChanged true)).timerShow.isActive
          = true
      ∧ (demoDodgeMaximized.step (Input.activeWindowMaximizedChanged true)).timerHide.isActive
          = false
      ∧ (demoDodgeMaximized.step (Input.activeWindowMaximizedChanged true)).dodgeMaximized.timerHide.isActive
          = true := by
  decide

/-- C21: in a state with no temporary raise, `blockHiding` false and no drag in progress
(the mode `DodgeAllWindows` evaluates its hidden state with `dodgeAllWindows`), whatever
the pointer-containment flag is, `dodgeAllWindows` ends with `raiseView(false)` when the
active window touches the view or some window touches it, and with `raiseView(true)`
otherwise. The hide request leaves the show timer stopped and the hide timer pending
(or, with `hideNow` pending, emits `mustBeHide` at once); the show request leaves the
hide timer stopped, the show timer pending and emits nothing. -/
theorem dodgeAllWindows_ends_with_request (s : VisibilityManager)
    (hraise : s.raiseTemporarily = false) (hblock : s.blockHiding = false)
    (hdrag : s.dragEnter = false) :
    (s.mode = Visibility.DodgeAllWindows → s.updateHiddenState = s.dodgeAllWindows)
      ∧ (s.tracker.activeWindowTouching = true ∨ s.tracker.existsWindowTouching = true →
          s.dodgeAllWindows
              = (if s.containsMouse = true then s.raiseView true else s).raiseView false
            ∧ s.dodgeAllWindows.timerShow.isActive = false
            ∧ (s.hideNow = false →
                s.dodgeAllWindows.timerHide.isActive = true
                  ∧ s.dodgeAllWindows.emitted = s.emitted)
            ∧ (s.hideNow = true →
                s.dodgeAllWindows.emitted = s.emitted ++ [Emission.mustBeHide]))
      ∧ (s.tracker.activeWindowTouching = false ∧ s.tracker.existsWindowTouching = false →
          s.dodgeAllWindows
              = (if s.containsMouse = true then s.raiseView true else s).raiseView true
            ∧ s.dodgeAllWindows.timerShow.isActive = true
            ∧ s.dodgeAllWindows.timerHide.isActive = false
            ∧ s.dodgeAllWindows.emitted = s.emitted) := by
  refine ⟨?_, ?_, ?_⟩
  · intro hmode
    simp only [updateHiddenState, hdrag, hmode, Bool.false_eq_true, if_false]
  · intro h
    have hw : (!(s.tracker.activeWindowTouching || s.tracker.existsWindowTouching)) = false := by
      rcases h with h | h <;> simp [h]
    have heq : s.dodgeAllWindows
        = (if s.containsMouse = true then s.raiseView true else s).raiseView false := by
      simp only [dodgeAllWindows, hraise, Bool.false_eq_true, if_false, raiseView_proj,
        ite_proj, ite_self, hw]
    rw [heq]
    refine ⟨rfl, ?_, ?_, ?_⟩
    · by_cases hc : s.containsMouse = true <;>
        simp [raiseView_proj, hc, hblock, hdrag, Timer.stop]
    · intro hnow
      by_cases hc : s.containsMouse = true <;>
        by_cases ha : s.timerHide.isActive = true <;>
        simp [raiseView_proj, hc, ha, hblock, hdrag, hnow, Timer.stop, Timer.start]
    · intro hnow
      by_cases hc : s.containsMouse = true <;>
        simp [raiseView_proj, hc, hblock, hdrag, hnow]
  · rintro ⟨h1, h2⟩
    have hw : (!(s.tracker.activeWindowTouching || s.tracker.existsWindowTouching)) = true := by
      simp [h1, h2]
    have heq : s.dodgeAllWindows
        = (if s.containsMouse = true then s.raiseView true else s).raiseView true := by
      simp only [dodgeAllWindows, hraise, Bool.false_eq_true, if_false, raiseView_proj,
        ite_proj, ite_self, hw]
    rw [heq]
    refine ⟨rfl, ?_, ?_, ?_⟩
    · by_cases hc : s.containsMouse = true <;>
        by_cases ha : s.timerShow.isActive = true <;>
        simp [raiseView_proj, hc, ha, hblock, hdrag, Timer.stop, Timer.start]
    · by_cases hc : s.containsMouse = true <;>
        simp [raiseView_proj, hc, hblock, hdrag, Timer.stop, Timer.start]
    · by_cases hc : s.containsMouse = true <;>
        simp [raiseView_proj, hc, hblock, hdrag]

/-- Witness of C21: the pointer is inside and a window touches the view. -/
theorem dodgeAllWindows_ends_with_request_witness :
    demoDodgeAllWindows.containsMouse = true
      ∧ demoDodgeAllWindows.tracker.existsWindowTouching = true
      ∧ demoDodgeAllWindows.dodgeAllWindows.timerShow.isActive = false
      ∧ demoDodgeAllWindows.dodgeAllWindows.timerHide.isActive = true :=
  ⟨by decide, by decide,
    ((dodgeAllWindows_ends_with_request demoDodgeAllWindows (by decide) (by decide)
      (by decide)).2.1 (Or.inr (by decide))).2.1,
    (((dodgeAllWindows_ends_with_request demoDodgeAllWindows (by decide) (by decide)
      (by decide)).2.1 (Or.inr (by decide))).2.2.1 (by decide)).1⟩

/-- C25: the assertion of `setMode` tests the mode the manager is in, not the mode it
is given: `setMode(None)` from `WindowsGoBelow` passes it, and the `setMode(AutoHide)`
that follows, from `None`, fails it. -/
theorem setMode_asserts_on_the_old_mode :
    demoManager.mode = Visibility.WindowsGoBelow
      ∧ Emission.assertFailed ∉ (demoManager.setMode Visibility.None).emitted
      ∧ (demoManager.setMode Visibility.None).mode = Visibility.None
      ∧ Emission.assertFailed
          ∈ ((demoManager.setMode Visibility.None).setMode Visibility.AutoHide).emitted
      ∧ ((demoManager.setMode Visibility.None).setMode Visibility.AutoHide).mode
          = Visibility.AutoHide := by
  decide

/-- C27: a show request starts the show timer of a view that is not hidden. -/
theorem raiseView_true_starts_show_timer_when_not_hidden :
    demoManager.isHidden = false
      ∧ demoManager.blockHiding = false
      ∧ demoManager.timerShow.isActive = false
      ∧ (demoManager.raiseView true).timerShow.isActive = true := by
  decide

/-- C27: `raiseView(true)` starts the show timer whether or not the view is hidden. In
every state with `blockHiding` false it leaves the show timer pending and the hide timer
stopped and emits nothing; `isHidden` is read when the show timer expires: that expiry
emits `mustBeShown` when `isHidden` is true and nothing when it is false. With
`blockHiding` set the request changes nothing. -/
theorem raiseView_true_starts_show_timer (s : VisibilityManager)
    (hblock : s.blockHiding = false) :
    (s.raiseView true).timerShow.isActive = true
      ∧ (s.raiseView true).timerHide.isActive = false
      ∧ (s.raiseView true).emitted = s.emitted
      ∧ (s.isHidden = true →
          (s.raiseView true).timerShowTimeout.emitted = s.emitted ++ [Emission.mustBeShown])
      ∧ (s.isHidden = false → (s.raiseView true).timerShowTimeout.emitted = s.emitted)
      ∧ ∀ blocked : VisibilityManager, blocked.blockHiding = true →
          blocked.raiseView true = blocked := by
  rw [raiseView_true_eq s hblock]
  refine ⟨rfl, rfl, rfl, ?_, ?_, fun blocked h => raiseView_of_blockHiding blocked true h⟩
  · intro hhidden
    simp only [timerShowTimeout, emit, ite_proj, hhidden, if_true]
  · intro hshown
    simp only [timerShowTimeout, emit, ite_proj, hshown, Bool.false_eq_true, if_false, if_true]

/-- Witness of C27: a hidden manager and one that is shown. -/
theorem raiseView_true_starts_show_timer_witness :
    (({ demoManager with isHidden := true } : VisibilityManager).raiseView true).timerShow.isActive
        = true
      ∧ (demoManager.raiseView true).timerShowTimeout.emitted = demoManager.emitted :=
  ⟨(raiseView_true_starts_show_timer ({ demoManager with isHidden := true }) rfl).1,
    (raiseView_true_starts_show_timer demoManager rfl).2.2.2.2.1 rfl⟩

theorem hideNowKept_refl (s : VisibilityManager) : HideNowKept s s :=
  ⟨Nat.le_refl _, fun h => Or.inl h⟩

theorem hideNowKept_trans (s t u : VisibilityManager) (h1 : HideNowKept s t)
    (h2 : HideNowKept t u) : HideNowKept s u := by
  refine ⟨Nat.le_trans h1.1 h2.1, fun h => ?_⟩
  rcases h1.2 h with ht | ht
  · rcases h2.2 ht with hu | hu
    · exact Or.inl hu
    · exact Or.inr (Nat.lt_of_le_of_lt h1.1 hu)
  · exact Or.inr (Nat.lt_of_lt_of_le ht h2.1)

theorem hideNowFrame_refl (s : VisibilityManager) : HideNowFrame s s :=
  ⟨hideNowKept_refl s, fun h => h⟩

theorem hideNowFrame_trans (s t u : VisibilityManager) (h1 : HideNowFrame s t)
    (h2 : HideNowFrame t u) : HideNowFrame s u :=
  ⟨hideNowKept_trans s t u h1.1 h2.1, fun h => h1.2 (h2.2 h)⟩

/-- A step that leaves `hideNow` alone and only adds to the trace. -/
theorem hideNowFrame_of_same (s t : VisibilityManager) (hnow : t.hideNow = s.hideNow)
    (hcount : s.mustBeHideCount ≤ t.mustBeHideCount) : HideNowFrame s t :=
  ⟨⟨hcount, fun h => Or.inl (by rw [hnow]; exact h)⟩, fun h => by rw [← hnow]; exact h⟩

theorem hideNowFrame_emit (s : VisibilityManager) (emission : Emission) :
    HideNowFrame s (s.emit emission) := by
  refine hideNowFrame_of_same s (s.emit emission) rfl ?_
  simp only [mustBeHideCount, emit, List.count_append]
  exact Nat.le_add_right _ _

theorem hideNowFrame_connect (s : VisibilityManager) (sender : Sender) (slot : Slot) :
    HideNowFrame s (s.connect sender slot) :=
  hideNowFrame_of_same s (s.connect sender slot) rfl (Nat.le_refl _)

theorem hideNowFrame_raiseView (s : VisibilityManager) (raise : Bool) :
    HideNowFrame s (s.raiseView raise) := by
  simp only [HideNowFrame, HideNowKept, mustBeHideCount, raiseView_proj]
  split_ifs <;> simp_all

theorem hideNowFrame_dodgeActive (s : VisibilityManager) : HideNowFrame s s.dodgeActive := by
  unfold dodgeActive
  split_ifs
  · exact hideNowFrame_refl s
  · exact hideNowFrame_raiseView s _
  · exact hideNowFrame_raiseView s _

theorem hideNowFrame_dodgeMaximized (s : VisibilityManager) :
    HideNowFrame s s.dodgeMaximized := by
  unfold dodgeMaximized
  split_ifs
  · exact hideNowFrame_refl s
  · exact hideNowFrame_raiseView s _
  · exact hideNowFrame_raiseView s _

theorem hideNowFrame_dodgeAllWindows (s : VisibilityManager) :
    HideNowFrame s s.dodgeAllWindows := by
  unfold dodgeAllWindows
  split_ifs
  · exact hideNowFrame_refl s
  · exact hideNowFrame_trans _ _ _ (hideNowFrame_raiseView s _) (hideNowFrame_raiseView _ _)
  · exact hideNowFrame_raiseView s _

theorem hideNowFrame_updateHiddenState (s : VisibilityManager) :
    HideNowFrame s s.updateHiddenState := by
  unfold updateHiddenState
  split_ifs
  · exact hideNowFrame_refl s
  · split
    · exact hideNowFrame_raiseView s _
    · exact hideNowFrame_dodgeActive s
    · exact hideNowFrame_dodgeMaximized s
    · exact hideNowFrame_dodgeAllWindows s
    · exact hideNowFrame_refl s

theorem hideNowFrame_raiseViewTemporarily (s : VisibilityManager) :
    HideNowFrame s s.raiseViewTemporarily := by
  apply hideNowFrame_of_same
  · simp only [raiseViewTemporarily, emit, ite_proj, ite_self]
  · simp only [mustBeHideCount, raiseViewTemporarily, emit, ite_proj]
    split_ifs <;> simp

theorem hideNowFrame_updateStruts (s : VisibilityManager) :
    HideNowFrame s s.updateStrutsBasedOnLayoutsAndActivities := by
  unfold updateStrutsBasedOnLayoutsAndActivities
  simp only []
  split_ifs <;> exact hideNowFrame_emit s _

theorem hideNowFrame_updateGhostWindowState (s : VisibilityManager) :
    HideNowFrame s s.updateGhostWindowState := by
  unfold updateGhostWindowState
  split_ifs
  · exact hideNowFrame_emit s _
  · exact hideNowFrame_emit s _
  · exact hideNowFrame_refl s

theorem hideNowFrame_updateKWinEdgesSupport (s : VisibilityManager) :
    HideNowFrame s s.updateKWinEdgesSupport := by
  apply hideNowFrame_of_same
  · simp only [updateKWinEdgesSupport, createEdgeGhostWindow, deleteEdgeGhostWindow, emit,
      connect, ite_proj, ite_self]
  · simp only [mustBeHideCount, updateKWinEdgesSupport, createEdgeGhostWindow,
      deleteEdgeGhostWindow, emit, connect, ite_proj]
    split_ifs <;> simp

theorem hideNowFrame_runSlot (s : VisibilityManager) (slot : Slot) :
    HideNowFrame s (s.runSlot slot) := by
  cases slot <;> simp only [runSlot] <;> (try split_ifs) <;>
  first
    | exact hideNowFrame_refl s
    | exact hideNowFrame_emit s _
    | exact hideNowFrame_raiseViewTemporarily s
    | exact hideNowFrame_updateHiddenState s
    | exact hideNowFrame_updateStruts s
    | exact hideNowFrame_raiseView s _
    | exact hideNowFrame_dodgeActive s
    | exact hideNowFrame_dodgeMaximized s
    | exact hideNowFrame_dodgeAllWindows s

theorem hideNowFrame_signal (s : VisibilityManager) (sender : Sender) :
    HideNowFrame s (s.signal sender) := by
  unfold signal
  apply foldl_runSlot_invariant (fun t => HideNowFrame s t)
  · intro t slot ht
    exact hideNowFrame_trans s t _ ht (hideNowFrame_runSlot t slot)
  · exact hideNowFrame_refl s

theorem hideNowFrame_setModeClear (s : VisibilityManager) : HideNowFrame s s.setModeClear := by
  apply hideNowFrame_of_same
  · simp only [setModeClear, emit, ite_proj, ite_self]
  · simp only [mustBeHideCount, setModeClear, emit, ite_proj]
    split_ifs <;> simp

theorem hideNowFrame_setModeBase (s : VisibilityManager) (mode : Visibility) :
    HideNowFrame s (s.setModeBase mode) := by
  apply hideNowFrame_of_same
  · simp only [setModeBase, connect, ite_proj, ite_self]
  · simp only [mustBeHideCount, setModeBase, connect, ite_proj, ite_self]
    exact Nat.le_refl _

theorem hideNowFrame_setModeSwitch (s : VisibilityManager) :
    HideNowFrame s s.setModeSwitch := by
  unfold setModeSwitch
  split
  · refine hideNowFrame_trans s _ _ ?_ (hideNowFrame_raiseView _ _)
    apply hideNowFrame_of_same
    · simp only [connect, ite_proj, updateStrutsBasedOnLayoutsAndActivities, emit, ite_self]
    · simp only [mustBeHideCount, connect, ite_proj, updateStrutsBasedOnLayoutsAndActivities,
        emit]
      split_ifs <;> simp
  · exact hideNowFrame_trans _ _ _ (hideNowFrame_connect s _ _) (hideNowFrame_raiseView _ _)
  · exact hideNowFrame_trans _ _ _
      (hideNowFrame_trans _ _ _ (hideNowFrame_connect s _ _) (hideNowFrame_connect _ _ _))
      (hideNowFrame_dodgeActive _)
  · exact hideNowFrame_trans _ _ _
      (hideNowFrame_trans _ _ _ (hideNowFrame_connect s _ _) (hideNowFrame_connect _ _ _))
      (hideNowFrame_dodgeMaximized _)
  · exact hideNowFrame_trans _ _ _ (hideNowFrame_connect s _ _) (hideNowFrame_connect _ _ _)
  · exact hideNowFrame_refl s

theorem hideNowFrame_setMode (s : VisibilityManager) (mode : Visibility) :
    HideNowFrame s (s.setMode mode) := by
  rw [setMode_eq]
  split_ifs
  · exact hideNowFrame_refl s
  · have h1 := hideNowFrame_setModeClear s
    have h2 := hideNowFrame_trans _ _ _ h1 (hideNowFrame_setModeBase s.setModeClear mode)
    have h3 := hideNowFrame_trans _ _ _ h2 (hideNowFrame_setModeSwitch _)
    have h4 := hideNowFrame_trans _ _ _ h3 (hideNowFrame_emit _ (Emission.writeVisibility
      (s.setModeClear.setModeBase mode).setModeSwitch.mode))
    have h5 := hideNowFrame_trans _ _ _ h4 (hideNowFrame_updateKWinEdgesSupport _)
    exact hideNowFrame_trans _ _ _ h5 (hideNowFrame_emit _ Emission.modeChanged)

theorem hideNowFrame_setContainsMouse (s : VisibilityManager) (contains : Bool) :
    HideNowFrame s (s.setContainsMouse contains) := by
  unfold setContainsMouse
  split_ifs with h1
  · exact hideNowFrame_refl s
  · have h2 : HideNowFrame s (({ s with containsMouse := contains }).emit
        Emission.containsMouseChanged) :=
      hideNowFrame_emit ({ s with containsMouse := contains }) Emission.containsMouseChanged
    have h3 := hideNowFrame_trans _ _ _ h2 (hideNowFrame_signal _ Sender.containsMouseChanged)
    simp only []
    split_ifs
    · exact hideNowFrame_trans _ _ _ h3 (hideNowFrame_raiseView _ _)
    · exact h3

theorem hideNowFrame_viewEventManager (s : VisibilityManager) (ev : QEvent) :
    HideNowFrame s (s.viewEventManager ev) := by
  cases ev
  · exact hideNowFrame_setContainsMouse s true
  · exact hideNowFrame_setContainsMouse s false
  · simp only [viewEventManager]
    split_ifs
    · exact hideNowFrame_emit ({ s with dragEnter := true }) Emission.mustBeShown
    · exact hideNowFrame_refl s
  · exact hideNowFrame_updateHiddenState ({ s with dragEnter := false })
  · exact hideNowFrame_updateHiddenState ({ s with dragEnter := false })
  · exact hideNowFrame_emit s _
  · exact hideNowFrame_refl s

theorem hideNowFrame_step (s : VisibilityManager) (input : Input)
    (hinput : input ≠ Input.singleShotTimeout) : HideNowFrame s (s.step input) := by
  cases input with
  | setMode mode => exact hideNowFrame_setMode s mode
  | setRaiseOnDesktop enable =>
    simp only [step, setRaiseOnDesktop]
    split_ifs
    · exact hideNowFrame_refl s
    · exact hideNowFrame_emit ({ s with raiseOnDesktopChange := enable }) _
  | setRaiseOnActivity enable =>
    simp only [step, setRaiseOnActivity]
    split_ifs
    · exact hideNowFrame_refl s
    · exact hideNowFrame_emit ({ s with raiseOnActivityChange := enable }) _
  | setIsHidden isHidden =>
    simp only [step, setIsHidden]
    split_ifs
    · exact hideNowFrame_refl s
    · exact hideNowFrame_refl s
    · exact hideNowFrame_trans _ _ _
        (hideNowFrame_updateGhostWindowState ({ s with isHidden := isHidden }))
        (hideNowFrame_emit _ _)
  | setBlockHiding blockHiding =>
    simp only [step, setBlockHiding]
    split_ifs <;>
    first
      | exact hideNowFrame_refl s
      | exact hideNowFrame_trans _ _ _
          (hideNowFrame_updateHiddenState ({ s with blockHiding := blockHiding }))
          (hideNowFrame_emit _ _)
      | (apply hideNowFrame_of_same
         · simp only [emit]
         · simp [mustBeHideCount, emit])
  | setTimerShow msec =>
    exact hideNowFrame_emit ({ s with timerShow := s.timerShow.setInterval msec }) _
  | setTimerHide msec =>
    exact hideNowFrame_emit ({ s with timerHide := s.timerHide.setInterval msec }) _
  | setEnableKWinEdges enable =>
    simp only [step, setEnableKWinEdges]
    split_ifs
    · exact hideNowFrame_refl s
    · exact hideNowFrame_trans _ _ _
        (hideNowFrame_emit ({ s with enableKWinEdgesFromUser := enable })
          Emission.enableKWinEdgesChanged)
        (hideNowFrame_updateKWinEdgesSupport _)
  | raiseView raise => exact hideNowFrame_raiseView s raise
  | raiseViewTemporarily => exact hideNowFrame_raiseViewTemporarily s
  | updateHiddenState => exact hideNowFrame_updateHiddenState s
  | eventTriggered ev => exact hideNowFrame_viewEventManager s ev
  | absoluteGeometryChanged =>
    simp only [step, VisibilityManager.absoluteGeometryChanged]
    split_ifs
    · exact hideNowFrame_updateStruts s
    · exact hideNowFrame_refl s
  | activeWindowDraggingStarted =>
    exact hideNowFrame_trans _ _ _ (hideNowFrame_setContainsMouse s false)
      (hideNowFrame_updateHiddenState _)
  | activeWindowTouchingChanged touching =>
    exact hideNowFrame_signal
      ({ s with tracker := { s.tracker with activeWindowTouching := touching } }) _
  | activeWindowMaximizedChanged maximized =>
    exact hideNowFrame_signal
      ({ s with tracker := { s.tracker with activeWindowMaximized := maximized } }) _
  | existsWindowTouchingChanged touching =>
    exact hideNowFrame_signal
      ({ s with tracker := { s.tracker with existsWindowTouching := touching } }) _
  | currentDesktopChanged => exact hideNowFrame_signal s _
  | currentActivityChanged => exact hideNowFrame_signal s _
  | consumerCurrentActivityChanged => exact hideNowFrame_signal s _
  | activitiesChanged => exact hideNowFrame_signal s _
  | ghostContainsMouseChanged contains =>
    simp only [step, VisibilityManager.ghostContainsMouseChanged]
    split_ifs
    · exact hideNowFrame_raiseView s true
    · exact hideNowFrame_updateGhostWindowState ({ s with timerShow := s.timerShow.stop })
    · exact hideNowFrame_refl s
  | timerShowTimeout =>
    simp only [step, VisibilityManager.timerShowTimeout]
    split_ifs
    · exact hideNowFrame_emit ({ s with timerShow := s.timerShow.stop }) _
    · exact hideNowFrame_refl s
    · exact hideNowFrame_refl s
  | timerHideTimeout =>
    simp only [step, VisibilityManager.timerHideTimeout]
    split_ifs
    · exact hideNowFrame_emit ({ s with timerHide := s.timerHide.stop }) _
    · exact hideNowFrame_refl s
    · exact hideNowFrame_refl s
  | timerStartUpTimeout fMode =>
    simp only [step, VisibilityManager.timerStartUpTimeout]
    split_ifs
    · exact hideNowFrame_setMode ({ s with timerStartUp := s.timerStartUp.stop }) fMode
    · exact hideNowFrame_refl s
  | singleShotTimeout => exact absurd rfl hinput

theorem hideNowFrame_run :
    ∀ (inputs : List Input) (s : VisibilityManager), Input.singleShotTimeout ∉ inputs →
      HideNowFrame s (s.run inputs) := by
  intro inputs
  induction inputs with
  | nil => intro s _; exact hideNowFrame_refl s
  | cons input inputs ih =>
    intro s hinputs
    exact hideNowFrame_trans s _ _
      (hideNowFrame_step s input (fun h => hinputs (by rw [h]; exact List.mem_cons_self _ _)))
      (ih (s.step input) (fun h => hinputs (List.mem_cons_of_mem _ h)))

theorem singleShotTimeout_eq (s : VisibilityManager) (window : Int)
    (hshot : s.singleShot = some window) :
    s.singleShotTimeout
      = ({ s with singleShot := none, raiseTemporarily := false, hideNow := true } :
          VisibilityManager).updateHiddenState := by
  simp only [singleShotTimeout, hshot]

theorem hideNowKept_singleShotTimeout (s : VisibilityManager) :
    HideNowKept s s.singleShotTimeout := by
  cases hshot : s.singleShot with
  | none =>
    simp only [singleShotTimeout, hshot]
    exact hideNowKept_refl s
  | some window =>
    rw [singleShotTimeout_eq s window hshot]
    have h := (hideNowFrame_updateHiddenState
      ({ s with singleShot := none, raiseTemporarily := false, hideNow := true })).1
    exact ⟨h.1, fun _ => h.2 rfl⟩

theorem hideNowKept_step (s : VisibilityManager) (input : Input) :
    HideNowKept s (s.step input) := by
  by_cases h : input = Input.singleShotTimeout
  · rw [h]
    exact hideNowKept_singleShotTimeout s
  · exact (hideNowFrame_step s input h).1

theorem hideNowKept_run :
    ∀ (inputs : List Input) (s : VisibilityManager), HideNowKept s (s.run inputs) := by
  intro inputs
  induction inputs with
  | nil => intro s; exact hideNowKept_refl s
  | cons input inputs ih =>
    intro s
    exact hideNowKept_trans s _ _ (hideNowKept_step s input) (ih (s.step input))

/-- C28: in a state with `hideNow` pending, `blockHiding` false and no drag in
progress, `raiseView(false)` emits `mustBeHide` at once, leaves the hide timer as it was
(it is not started) and clears `hideNow`. And `hideNow` becomes pending only when the
single shot of a temporary raise expires: from a state where it is not pending, no
sequence of other inputs makes it pending, and the expiry of a pending single shot in
a state that blocks the re-evaluation (a drag in progress) leaves it pending. -/
theorem raiseView_false_with_hideNow_pending (s : VisibilityManager)
    (hnow : s.hideNow = true) (hblock : s.blockHiding = false) (hdrag : s.dragEnter = false) :
    (s.raiseView false).emitted = s.emitted ++ [Emission.mustBeHide]
      ∧ (s.raiseView false).timerHide = s.timerHide
      ∧ (s.raiseView false).hideNow = false
      ∧ (∀ (start : VisibilityManager) (inputs : List Input),
          start.hideNow = false → Input.singleShotTimeout ∉ inputs →
            (start.run inputs).hideNow = false)
      ∧ (∀ (start : VisibilityManager) (window : Int),
          start.singleShot = some window → start.dragEnter = true →
            start.singleShotTimeout.hideNow = true) := by
  rw [raiseView_false_hideNow_eq s hblock hdrag hnow]
  refine ⟨rfl, rfl, rfl, ?_, ?_⟩
  · intro start inputs hstart hinputs
    have h := (hideNowFrame_run inputs start hinputs).2
    cases hrun : (start.run inputs).hideNow
    · rfl
    · rw [h hrun] at hstart
      exact Bool.noConfusion hstart
  · intro start window hshot hdragging
    rw [singleShotTimeout_eq start window hshot]
    simp only [updateHiddenState, hdragging, if_true]

/-- Witness of C28: in mode `DodgeActive`, after a temporary raise that expired while no
window touched, the active window touches. -/
theorem raiseView_false_with_hideNow_pending_witness :
    demoHideNow.hideNow = true
      ∧ (demoHideNow.raiseView false).emitted = demoHideNow.emitted ++ [Emission.mustBeHide]
      ∧ (demoHideNow.raiseView false).timerHide.isActive = false
      ∧ (demoManager.run [Input.setMode Visibility.AutoHide, Input.eventTriggered QEvent.Enter,
          Input.eventTriggered QEvent.Leave, Input.timerHideTimeout]).hideNow = false :=
  ⟨by decide,
    (raiseView_false_with_hideNow_pending demoHideNow (by decide) (by decide) (by decide)).1,
    by decide,
    (raiseView_false_with_hideNow_pending demoHideNow (by decide) (by decide)
      (by decide)).2.2.2.1 demoManager _ (by decide) (by decide)⟩

theorem updateHiddenState_raiseTemporarily (s : VisibilityManager) :
    s.updateHiddenState.raiseTemporarily = s.raiseTemporarily := by
  unfold updateHiddenState
  split_ifs
  · rfl
  · split <;>
    simp only [dodgeActive, dodgeMaximized, dodgeAllWindows, raiseView_proj, ite_proj, ite_self]

/-- C29: when the single shot of a temporary raise expires, the temporary raise ends and
`hideNow` is set; it stays pending after the re-evaluation unless that re-evaluation
emitted `mustBeHide`, in particular when a drag is in progress, `blockHiding` is set,
the mode has no hide logic, or the mode asks for show. From then on, after any inputs,
`hideNow` is still pending unless `mustBeHide` has been emitted in between; and in any
state with `hideNow` pending, `blockHiding` false and no drag, `raiseView(false)` emits
`mustBeHide` at once and leaves the hide timer as it was. -/
theorem hideNow_stays_pending_until_hidden (s : VisibilityManager) (window : Int)
    (hshot : s.singleShot = some window) :
    s.singleShotTimeout.raiseTemporarily = false
      ∧ (s.singleShotTimeout.mustBeHideCount = s.mustBeHideCount →
          s.singleShotTimeout.hideNow = true)
      ∧ (s.dragEnter = true ∨ s.blockHiding = true
          ∨ s.mode = Visibility.None ∨ s.mode = Visibility.AlwaysVisible
          ∨ s.mode = Visibility.WindowsGoBelow
          ∨ (s.mode = Visibility.AutoHide ∧ s.containsMouse = true)
          ∨ (s.mode = Visibility.DodgeActive
              ∧ (s.containsMouse = true ∨ s.tracker.activeWindowTouching = false))
          ∨ (s.mode = Visibility.DodgeMaximized
              ∧ (s.containsMouse = true ∨ s.tracker.activeWindowMaximized = false))
          ∨ (s.mode = Visibility.DodgeAllWindows
              ∧ s.tracker.activeWindowTouching = false
              ∧ s.tracker.existsWindowTouching = false) →
          s.singleShotTimeout.hideNow = true
            ∧ s.singleShotTimeout.mustBeHideCount = s.mustBeHideCount)
      ∧ (∀ inputs : List Input,
          s.singleShotTimeout.hideNow = true →
          (s.singleShotTimeout.run inputs).mustBeHideCount = s.singleShotTimeout.mustBeHideCount →
            (s.singleShotTimeout.run inputs).hideNow = true)
      ∧ (∀ later : VisibilityManager,
          later.hideNow = true → later.blockHiding = false → later.dragEnter = false →
            (later.raiseView false).emitted = later.emitted ++ [Emission.mustBeHide]
              ∧ (later.raiseView false).timerHide = later.timerHide) := by
  have heq := singleShotTimeout_eq s window hshot
  have hframe := hideNowFrame_updateHiddenState
    ({ s with singleShot := none, raiseTemporarily := false, hideNow := true })
  refine ⟨?_, ?_, ?_, ?_, ?_⟩
  · rw [heq, updateHiddenState_raiseTemporarily]
  · intro hcount
    rw [heq] at hcount ⊢
    rcases hframe.1.2 rfl with h | h
    · exact h
    · have hlt : s.mustBeHideCount < _ := h
      rw [hcount] at hlt
      exact absurd hlt (Nat.lt_irrefl _)
  · intro hcase
    rw [heq]
    rcases hcase with h | h | h | h | h | ⟨hm, h⟩ | ⟨hm, h⟩ | ⟨hm, h⟩ | ⟨hm, h1, h2⟩
    · simp [updateHiddenState, h, mustBeHideCount]
    · rw [updateHiddenState_of_blockHiding
        ({ s with singleShot := none, raiseTemporarily := false, hideNow := true }) h]
      exact ⟨rfl, rfl⟩
    · by_cases hd : s.dragEnter = true <;>
        simp [updateHiddenState, h, hd, mustBeHideCount]
    · by_cases hd : s.dragEnter = true <;>
        simp [updateHiddenState, h, hd, mustBeHideCount]
    · by_cases hd : s.dragEnter = true <;>
        simp [updateHiddenState, h, hd, mustBeHideCount]
    · by_cases hd : s.dragEnter = true <;> by_cases hb : s.blockHiding = true <;>
        simp [updateHiddenState, hm, h, hd, hb, mustBeHideCount, raiseView_proj]
    · by_cases hd : s.dragEnter = true <;> by_cases hb : s.blockHiding = true <;>
        rcases h with h | h <;>
        simp [updateHiddenState, dodgeActive, hm, h, hd, hb, mustBeHideCount, raiseView_proj]
    · by_cases hd : s.dragEnter = true <;> by_cases hb : s.blockHiding = true <;>
        rcases h with h | h <;>
        simp [updateHiddenState, dodgeMaximized, hm, h, hd, hb, mustBeHideCount,
          raiseView_proj]
    · by_cases hd : s.dragEnter = true <;> by_cases hb : s.blockHiding = true <;>
        by_cases hc : s.containsMouse = true <;>
        simp [updateHiddenState, dodgeAllWindows, hm, h1, h2, hd, hb, hc, mustBeHideCount,
          raiseView_proj]
  · intro inputs hnow hcount
    rcases (hideNowKept_run inputs s.singleShotTimeout).2 hnow with h | h
    · exact h
    · rw [hcount] at h
      exact absurd h (Nat.lt_irrefl _)
  · intro later hnow hblock hdrag
    rw [raiseView_false_hideNow_eq later hblock hdrag hnow]
    exact ⟨rfl, rfl⟩

/-- Witness of C29: in mode `DodgeActive` the temporary raise expires while no window
touches; the pointer enters and leaves, then the active window touches. -/
theorem hideNow_stays_pending_until_hidden_witness :
    demoRaisedDodgeActive.singleShot = some 1800
      ∧ demoRaisedDodgeActive.singleShotTimeout.hideNow = true
      ∧ (demoRaisedDodgeActive.singleShotTimeout.run [Input.eventTriggered QEvent.Enter,
          Input.eventTriggered QEvent.Leave]).hideNow = true
      ∧ (demoRaisedDodgeActive.singleShotTimeout.run [Input.eventTriggered QEvent.Enter,
          Input.eventTriggered QEvent.Leave, Input.activeWindowTouchingChanged true]).emitted
        = demoRaisedDodgeActive.emitted
            ++ [Emission.containsMouseChanged, Emission.containsMouseChanged,
                Emission.mustBeHide] :=
  ⟨by decide,
    ((hideNow_stays_pending_until_hidden demoRaisedDodgeActive 1800 (by decide)).2.2.1
      (Or.inr (Or.inr (Or.inr (Or.inr (Or.inr (Or.inr (Or.inl
        ⟨by decide, Or.inr (by decide)⟩)))))))).1,
    (hideNow_stays_pending_until_hidden demoRaisedDodgeActive 1800 (by decide)).2.2.2.1
      [Input.eventTriggered QEvent.Enter, Input.eventTriggered QEvent.Leave]
      (by decide) (by decide),
    by decide⟩

theorem staysDragging_refl (s : VisibilityManager) (h : s.dragEnter = true) :
    StaysDragging s s :=
  ⟨h, fun h => h, rfl⟩

theorem staysDragging_trans (s t u : VisibilityManager) (h1 : StaysDragging s t)
    (h2 : StaysDragging t u) : StaysDragging s u :=
  ⟨h2.1, fun h => h2.2.1 (h1.2.1 h), h2.2.2.trans h1.2.2⟩

theorem staysDragging_emit (s : VisibilityManager) (emission : Emission)
    (hne : emission ≠ Emission.mustBeHide) (h : s.dragEnter = true) :
    StaysDragging s (s.emit emission) := by
  refine ⟨h, fun h => h, ?_⟩
  simp only [mustBeHideCount, emit, List.count_append, List.count_singleton]
  simp [hne]

theorem staysDragging_raiseView (s : VisibilityManager) (raise : Bool)
    (h : s.dragEnter = true) : StaysDragging s (s.raiseView raise) := by
  simp only [StaysDragging, mustBeHideCount, raiseView_proj, Timer.stop, Timer.start]
  split_ifs <;> simp_all

theorem staysDragging_dodgeActive (s : VisibilityManager) (h : s.dragEnter = true) :
    StaysDragging s s.dodgeActive := by
  unfold dodgeActive
  split_ifs
  · exact staysDragging_refl s h
  · exact staysDragging_raiseView s _ h
  · exact staysDragging_raiseView s _ h

theorem staysDragging_dodgeMaximized (s : VisibilityManager) (h : s.dragEnter = true) :
    StaysDragging s s.dodgeMaximized := by
  unfold dodgeMaximized
  split_ifs
  · exact staysDragging_refl s h
  · exact staysDragging_raiseView s _ h
  · exact staysDragging_raiseView s _ h

theorem staysDragging_dodgeAllWindows (s : VisibilityManager) (h : s.dragEnter = true) :
    StaysDragging s s.dodgeAllWindows := by
  unfold dodgeAllWindows
  split_ifs
  · exact staysDragging_refl s h
  · have h1 := staysDragging_raiseView s true h
    exact staysDragging_trans _ _ _ h1 (staysDragging_raiseView _ _ h1.1)
  · exact staysDragging_raiseView s _ h

theorem updateHiddenState_of_dragEnter (s : VisibilityManager) (h : s.dragEnter = true) :
    s.updateHiddenState = s := by
  simp only [updateHiddenState, h, if_true]

theorem staysDragging_raiseViewTemporarily (s : VisibilityManager) (h : s.dragEnter = true) :
    StaysDragging s s.raiseViewTemporarily := by
  simp only [StaysDragging, mustBeHideCount, raiseViewTemporarily, emit, ite_proj, Timer.stop]
  split_ifs <;> simp_all

theorem staysDragging_updateStruts (s : VisibilityManager) (h : s.dragEnter = true) :
    StaysDragging s s.updateStrutsBasedOnLayoutsAndActivities := by
  unfold updateStrutsBasedOnLayoutsAndActivities
  simp only []
  split_ifs <;> exact staysDragging_emit s _ (by decide) h

theorem staysDragging_updateGhostWindowState (s : VisibilityManager) (h : s.dragEnter = true) :
    StaysDragging s s.updateGhostWindowState := by
  unfold updateGhostWindowState
  split_ifs
  · exact staysDragging_emit s _ (by simp) h
  · exact staysDragging_emit s _ (by simp) h
  · exact staysDragging_refl s h

theorem staysDragging_updateKWinEdgesSupport (s : VisibilityManager) (h : s.dragEnter = true) :
    StaysDragging s s.updateKWinEdgesSupport := by
  simp only [StaysDragging, mustBeHideCount, updateKWinEdgesSupport, createEdgeGhostWindow,
    deleteEdgeGhostWindow, emit, connect, ite_proj]
  split_ifs <;> simp_all

theorem staysDragging_runSlot (s : VisibilityManager) (slot : Slot) (h : s.dragEnter = true) :
    StaysDragging s (s.runSlot slot) := by
  cases slot <;> simp only [runSlot, updateHiddenState_of_dragEnter s h] <;> (try split_ifs) <;>
  first
    | exact staysDragging_refl s h
    | exact staysDragging_emit s _ (by simp) h
    | exact staysDragging_raiseViewTemporarily s h
    | exact staysDragging_updateStruts s h
    | exact staysDragging_raiseView s _ h
    | exact staysDragging_dodgeActive s h
    | exact staysDragging_dodgeMaximized s h
    | exact staysDragging_dodgeAllWindows s h

theorem staysDragging_signal (s : VisibilityManager) (sender : Sender)
    (h : s.dragEnter = true) : StaysDragging s (s.signal sender) := by
  unfold signal
  apply foldl_runSlot_invariant (fun t => StaysDragging s t)
  · intro t slot ht
    exact staysDragging_trans s t _ ht (staysDragging_runSlot t slot ht.1)
  · exact staysDragging_refl s h

theorem staysDragging_setModeClear (s : VisibilityManager) (h : s.dragEnter = true) :
    StaysDragging s s.setModeClear := by
  simp only [StaysDragging, mustBeHideCount, setModeClear, emit, ite_proj, Timer.stop]
  split_ifs <;> simp_all

theorem staysDragging_setModeBase (s : VisibilityManager) (mode : Visibility)
    (h : s.dragEnter = true) : StaysDragging s (s.setModeBase mode) := by
  simp only [StaysDragging, mustBeHideCount, setModeBase, connect, ite_proj]
  split_ifs <;> simp_all

theorem staysDragging_connect (s : VisibilityManager) (sender : Sender) (slot : Slot)
    (h : s.dragEnter = true) : StaysDragging s (s.connect sender slot) :=
  ⟨h, fun h => h, rfl⟩

theorem staysDragging_setModeSwitch (s : VisibilityManager) (h : s.dragEnter = true) :
    StaysDragging s s.setModeSwitch := by
  unfold setModeSwitch
  split
  · refine staysDragging_trans s _ _ ?_ (staysDragging_raiseView _ true ?_)
    · simp only [StaysDragging, mustBeHideCount, connect, ite_proj,
        updateStrutsBasedOnLayoutsAndActivities, emit]
      split_ifs <;> simp_all
    · simp only [connect, ite_proj, updateStrutsBasedOnLayoutsAndActivities, emit, ite_self]
      exact h
  · have h1 := staysDragging_connect s Sender.containsMouseChanged Slot.raiseViewContainsMouse h
    exact staysDragging_trans _ _ _ h1 (staysDragging_raiseView _ _ h1.1)
  · have h1 := staysDragging_connect s Sender.containsMouseChanged Slot.dodgeActive h
    have h2 := staysDragging_trans _ _ _ h1 (staysDragging_connect _
      Sender.activeWindowTouchingChanged Slot.dodgeActive h1.1)
    exact staysDragging_trans _ _ _ h2 (staysDragging_dodgeActive _ h2.1)
  · have h1 := staysDragging_connect s Sender.containsMouseChanged Slot.dodgeMaximized h
    have h2 := staysDragging_trans _ _ _ h1 (staysDragging_connect _
      Sender.activeWindowMaximizedChanged Slot.dodgeActive h1.1)
    exact staysDragging_trans _ _ _ h2 (staysDragging_dodgeMaximized _ h2.1)
  · have h1 := staysDragging_connect s Sender.containsMouseChanged Slot.dodgeAllWindows h
    exact staysDragging_trans _ _ _ h1 (staysDragging_connect _
      Sender.existsWindowTouchingChanged Slot.dodgeAllWindows h1.1)
  · exact staysDragging_refl s h

theorem staysDragging_setMode (s : VisibilityManager) (mode : Visibility)
    (h : s.dragEnter = true) : StaysDragging s (s.setMode mode) := by
  rw [setMode_eq]
  split_ifs
  · exact staysDragging_refl s h
  · have h1 := staysDragging_setModeClear s h
    have h2 := staysDragging_trans _ _ _ h1 (staysDragging_setModeBase _ mode h1.1)
    have h3 := staysDragging_trans _ _ _ h2 (staysDragging_setModeSwitch _ h2.1)
    have h4 := staysDragging_trans _ _ _ h3 (staysDragging_emit _ (Emission.writeVisibility
      (s.setModeClear.setModeBase mode).setModeSwitch.mode) (by simp) h3.1)
    have h5 := staysDragging_trans _ _ _ h4 (staysDragging_updateKWinEdgesSupport _ h4.1)
    exact staysDragging_trans _ _ _ h5 (staysDragging_emit _ Emission.modeChanged (by decide) h5.1)

theorem staysDragging_setContainsMouse (s : VisibilityManager) (contains : Bool)
    (h : s.dragEnter = true) : StaysDragging s (s.setContainsMouse contains) := by
  unfold setContainsMouse
  split_ifs with h1
  · exact staysDragging_refl s h
  · have h2 : StaysDragging s (({ s with containsMouse := contains }).emit
        Emission.containsMouseChanged) :=
      staysDragging_emit ({ s with containsMouse := contains }) _ (by decide) h
    have h3 := staysDragging_trans _ _ _ h2
      (staysDragging_signal _ Sender.containsMouseChanged h2.1)
    simp only []
    split_ifs
    · exact staysDragging_trans _ _ _ h3 (staysDragging_raiseView _ _ h3.1)
    · exact h3

theorem staysDragging_step (s : VisibilityManager) (input : Input) (h : s.dragEnter = true)
    (hinput : endsDrag input = false) : StaysDragging s (s.step input) := by
  cases input with
  | setMode mode => exact staysDragging_setMode s mode h
  | setRaiseOnDesktop enable =>
    simp only [step, setRaiseOnDesktop]
    split_ifs
    · exact staysDragging_refl s h
    · exact staysDragging_emit ({ s with raiseOnDesktopChange := enable }) _ (by decide) h
  | setRaiseOnActivity enable =>
    simp only [step, setRaiseOnActivity]
    split_ifs
    · exact staysDragging_refl s h
    · exact staysDragging_emit ({ s with raiseOnActivityChange := enable }) _ (by decide) h
  | setIsHidden isHidden =>
    simp only [step, setIsHidden]
    split_ifs
    · exact staysDragging_refl s h
    · exact staysDragging_refl s h
    · have h1 := staysDragging_updateGhostWindowState ({ s with isHidden := isHidden }) h
      exact staysDragging_trans s _ _ ⟨h1.1, h1.2.1, h1.2.2⟩
        (staysDragging_emit _ Emission.isHiddenChanged (by decide) h1.1)
  | setBlockHiding blockHiding =>
    simp only [step, setBlockHiding, updateHiddenState_of_dragEnter
      ({ s with blockHiding := blockHiding }) h]
    simp only [StaysDragging, mustBeHideCount, emit, ite_proj, Timer.stop]
    split_ifs <;> simp_all
  | setTimerShow msec =>
    exact staysDragging_emit ({ s with timerShow := s.timerShow.setInterval msec }) _
      (by decide) h
  | setTimerHide msec =>
    simp only [step, StaysDragging, mustBeHideCount, setTimerHide, emit, Timer.setInterval]
    simp_all
  | setEnableKWinEdges enable =>
    simp only [step, setEnableKWinEdges]
    split_ifs
    · exact staysDragging_refl s h
    · have h1 := staysDragging_emit ({ s with enableKWinEdgesFromUser := enable })
        Emission.enableKWinEdgesChanged (by decide) h
      exact staysDragging_trans s _ _ ⟨h1.1, h1.2.1, h1.2.2⟩
        (staysDragging_updateKWinEdgesSupport _ h1.1)
  | raiseView raise => exact staysDragging_raiseView s raise h
  | raiseViewTemporarily => exact staysDragging_raiseViewTemporarily s h
  | updateHiddenState =>
    simp only [step, updateHiddenState_of_dragEnter s h]
    exact staysDragging_refl s h
  | eventTriggered ev =>
    cases ev
    · exact staysDragging_setContainsMouse s true h
    · exact staysDragging_setContainsMouse s false h
    · simp only [step, viewEventManager]
      split_ifs
      · exact staysDragging_emit ({ s with dragEnter := true }) _ (by decide) rfl
      · exact ⟨rfl, fun h => h, rfl⟩
    · exact Bool.noConfusion hinput
    · exact Bool.noConfusion hinput
    · exact staysDragging_emit s _ (by simp) h
    · exact staysDragging_refl s h
  | absoluteGeometryChanged =>
    simp only [step, VisibilityManager.absoluteGeometryChanged]
    split_ifs
    · exact staysDragging_updateStruts s h
    · exact staysDragging_refl s h
  | activeWindowDraggingStarted =>
    have h1 := staysDragging_setContainsMouse s false h
    simp only [step, VisibilityManager.activeWindowDraggingStarted,
      updateHiddenState_of_dragEnter _ h1.1]
    exact h1
  | activeWindowTouchingChanged touching =>
    have h1 := staysDragging_signal
      ({ s with tracker := { s.tracker with activeWindowTouching := touching } })
      Sender.activeWindowTouchingChanged h
    exact ⟨h1.1, h1.2.1, h1.2.2⟩
  | activeWindowMaximizedChanged maximized =>
    have h1 := staysDragging_signal
      ({ s with tracker := { s.tracker with activeWindowMaximized := maximized } })
      Sender.activeWindowMaximizedChanged h
    exact ⟨h1.1, h1.2.1, h1.2.2⟩
  | existsWindowTouchingChanged touching =>
    have h1 := staysDragging_signal
      ({ s with tracker := { s.tracker with existsWindowTouching := touching } })
      Sender.existsWindowTouchingChanged h
    exact ⟨h1.1, h1.2.1, h1.2.2⟩
  | currentDesktopChanged => exact staysDragging_signal s _ h
  | currentActivityChanged => exact staysDragging_signal s _ h
  | consumerCurrentActivityChanged => exact staysDragging_signal s _ h
  | activitiesChanged => exact staysDragging_signal s _ h
  | ghostContainsMouseChanged contains =>
    simp only [step, StaysDragging, mustBeHideCount, VisibilityManager.ghostContainsMouseChanged,
      updateGhostWindowState, supportsKWinEdges, emit, ite_proj, raiseView_proj, Timer.stop]
    split_ifs <;> simp_all
  | timerShowTimeout =>
    simp only [step, StaysDragging, mustBeHideCount, VisibilityManager.timerShowTimeout, emit,
      ite_proj, Timer.stop]
    split_ifs <;> simp_all
  | timerHideTimeout =>
    simp only [step, StaysDragging, mustBeHideCount, VisibilityManager.timerHideTimeout, emit,
      ite_proj, Timer.stop]
    split_ifs <;> simp_all
  | timerStartUpTimeout fMode =>
    simp only [step, VisibilityManager.timerStartUpTimeout]
    split_ifs
    · have h1 := staysDragging_setMode ({ s with timerStartUp := s.timerStartUp.stop }) fMode h
      exact ⟨h1.1, h1.2.1, h1.2.2⟩
    · exact staysDragging_refl s h
  | singleShotTimeout =>
    simp only [step, VisibilityManager.singleShotTimeout]
    split
    · exact staysDragging_refl s h
    · rw [updateHiddenState_of_dragEnter
        ({ s with singleShot := none, raiseTemporarily := false, hideNow := true }) h]
      exact ⟨h, fun h => h, rfl⟩

theorem staysDragging_run :
    ∀ (inputs : List Input) (s : VisibilityManager), s.dragEnter = true →
      (∀ input ∈ inputs, endsDrag input = false) → StaysDragging s (s.run inputs) := by
  intro inputs
  induction inputs with
  | nil => intro s h _; exact staysDragging_refl s h
  | cons input inputs ih =>
    intro s h hinputs
    have h1 := staysDragging_step s input h (hinputs input (List.mem_cons_self _ _))
    exact staysDragging_trans s _ _ h1
      (ih (s.step input) h1.1 (fun i hi => hinputs i (List.mem_cons_of_mem _ hi)))

/-- What `updateHiddenState` does outside a drag and without `blockHiding`, by the
verdict of the mode. -/
theorem updateHiddenState_by_verdict (s : VisibilityManager)
    (hdrag : s.dragEnter = false) (hblock : s.blockHiding = false) :
    (specVerdict s = some false →
        s.updateHiddenState.timerShow.isActive = false
          ∧ (s.hideNow = false →
              s.updateHiddenState.timerHide.isActive = true
                ∧ s.updateHiddenState.emitted = s.emitted)
          ∧ (s.hideNow = true →
              s.updateHiddenState.emitted = s.emitted ++ [Emission.mustBeHide]
                ∧ s.updateHiddenState.hideNow = false))
      ∧ (specVerdict s = some true →
          s.updateHiddenState.timerShow.isActive = true
            ∧ s.updateHiddenState.timerHide.isActive = false
            ∧ s.updateHiddenState.emitted = s.emitted)
      ∧ (specVerdict s = none → s.updateHiddenState = s) := by
  refine ⟨?_, ?_, ?_⟩
  · intro hv
    cases hm : s.mode <;> cases hr : s.raiseTemporarily <;> cases hc : s.containsMouse <;>
      cases ha : s.tracker.activeWindowTouching <;>
      cases hx : s.tracker.activeWindowMaximized <;>
      cases he : s.tracker.existsWindowTouching <;>
      simp [specVerdict, hm, hr, hc, ha, hx, he] at hv <;>
      cases hn : s.hideNow <;> cases hh : s.timerHide.isActive <;>
      cases hs : s.timerShow.isActive <;>
      simp [updateHiddenState, dodgeActive, dodgeMaximized, dodgeAllWindows, raiseView, emit,
        Timer.stop, Timer.start, hdrag, hblock, hm, hr, hc, ha, hx, he, hn, hh, hs]
  · intro hv
    cases hm : s.mode <;> cases hr : s.raiseTemporarily <;> cases hc : s.containsMouse <;>
      cases ha : s.tracker.activeWindowTouching <;>
      cases hx : s.tracker.activeWindowMaximized <;>
      cases he : s.tracker.existsWindowTouching <;>
      simp [specVerdict, hm, hr, hc, ha, hx, he] at hv <;>
      cases hh : s.timerHide.isActive <;>
      cases hs : s.timerShow.isActive <;>
      simp [updateHiddenState, dodgeActive, dodgeMaximized, dodgeAllWindows, raiseView, emit,
        Timer.stop, Timer.start, hdrag, hblock, hm, hr, hc, ha, hx, he, hh, hs]
  · intro hv
    cases hm : s.mode <;> cases hr : s.raiseTemporarily <;>
      simp [specVerdict, hm, hr] at hv <;>
      simp [updateHiddenState, dodgeActive, dodgeMaximized, dodgeAllWindows, hdrag, hm, hr]

theorem updateHiddenState_dragEnter (s : VisibilityManager) :
    s.updateHiddenState.dragEnter = s.dragEnter := by
  unfold updateHiddenState
  split_ifs
  · rfl
  · split <;>
    simp only [dodgeActive, dodgeMaximized, dodgeAllWindows, raiseView_proj, ite_proj, ite_self]

/-- What a drag-leave or a drop does: the flag is cleared and the evaluation of the mode
runs on the cleared state. -/
theorem viewEventManager_ends_drag (s : VisibilityManager) (ending : QEvent)
    (hending : ending = QEvent.DragLeave ∨ ending = QEvent.Drop) :
    s.step (Input.eventTriggered ending)
      = ({ s with dragEnter := false } : VisibilityManager).updateHiddenState := by
  rcases hending with h | h <;> rw [h] <;> rfl

/-- C23: a drag-enter event sets the drag flag and, when the view is hidden, emits
`mustBeShown` at once (and nothing otherwise). From then on, after any inputs other than
drag-leave and drop (pointer, window, timer and any other inputs), the drag is still in
progress, `mustBeHide` has not been emitted and the hide timer has not been started. A
drag-leave or a drop clears the flag and the evaluation of the mode runs again, acting on
the verdict of the mode: when the mode asks for hide (and `blockHiding` is clear) the
show timer is stopped and either the hide timer is pending afterwards or, with `hideNow`
pending, `mustBeHide` is emitted at once; when the mode asks for show the hide timer is
stopped and the show timer is pending; with `blockHiding` set or in a mode without
verdict only the flag changes. -/
theorem drag_holds_off_hiding (s : VisibilityManager) (inputs : List Input)
    (hinputs : ∀ input ∈ inputs, endsDrag input = false) :
    (s.isHidden = true →
        (s.step (Input.eventTriggered QEvent.DragEnter)).emitted
          = s.emitted ++ [Emission.mustBeShown])
      ∧ (s.isHidden = false →
          (s.step (Input.eventTriggered QEvent.DragEnter)).emitted = s.emitted)
      ∧ ((s.step (Input.eventTriggered QEvent.DragEnter)).run inputs).dragEnter = true
      ∧ ((s.step (Input.eventTriggered QEvent.DragEnter)).run inputs).mustBeHideCount
          = s.mustBeHideCount
      ∧ (s.timerHide.isActive = false →
          ((s.step (Input.eventTriggered QEvent.DragEnter)).run inputs).timerHide.isActive
            = false)
      ∧ (∀ (dragging : VisibilityManager) (ending : QEvent),
          ending = QEvent.DragLeave ∨ ending = QEvent.Drop →
          (dragging.step (Input.eventTriggered ending)).dragEnter = false
            ∧ (dragging.blockHiding = false → specVerdict dragging = some false →
                (dragging.step (Input.eventTriggered ending)).timerShow.isActive = false
                  ∧ (dragging.hideNow = false →
                      (dragging.step (Input.eventTriggered ending)).timerHide.isActive = true
                        ∧ (dragging.step (Input.eventTriggered ending)).emitted
                            = dragging.emitted)
                  ∧ (dragging.hideNow = true →
                      (dragging.step (Input.eventTriggered ending)).emitted
                          = dragging.emitted ++ [Emission.mustBeHide]
                        ∧ (dragging.step (Input.eventTriggered ending)).hideNow = false))
            ∧ (dragging.blockHiding = false → specVerdict dragging = some true →
                (dragging.step (Input.eventTriggered ending)).timerShow.isActive = true
                  ∧ (dragging.step (Input.eventTriggered ending)).timerHide.isActive = false
                  ∧ (dragging.step (Input.eventTriggered ending)).emitted = dragging.emitted)
            ∧ (dragging.blockHiding = true ∨ specVerdict dragging = none →
                dragging.step (Input.eventTriggered ending)
                  = ({ dragging with dragEnter := false } : VisibilityManager))) := by
  have hstart : (s.step (Input.eventTriggered QEvent.DragEnter)).dragEnter = true
      ∧ (s.step (Input.eventTriggered QEvent.DragEnter)).timerHide = s.timerHide
      ∧ (s.step (Input.eventTriggered QEvent.DragEnter)).mustBeHideCount = s.mustBeHideCount := by
    simp only [step, viewEventManager, mustBeHideCount, emit, ite_proj]
    split_ifs <;> simp
  have hrun := staysDragging_run inputs _ hstart.1 hinputs
  refine ⟨?_, ?_, hrun.1, hrun.2.2.trans hstart.2.2, ?_, ?_⟩
  · intro hhidden
    simp only [step, viewEventManager, emit, hhidden, if_true]
  · intro hshown
    simp only [step, viewEventManager, emit, hshown, Bool.false_eq_true, if_false]
  · intro hidle
    apply hrun.2.1
    rw [hstart.2.1]
    exact hidle
  · intro dragging ending hending
    rw [viewEventManager_ends_drag dragging ending hending]
    have hverdict : specVerdict ({ dragging with dragEnter := false } : VisibilityManager)
        = specVerdict dragging := rfl
    refine ⟨?_, ?_, ?_, ?_⟩
    · rw [updateHiddenState_dragEnter]
    · intro hblock hv
      exact (updateHiddenState_by_verdict ({ dragging with dragEnter := false }) rfl hblock).1
        (hverdict.trans hv)
    · intro hblock hv
      exact (updateHiddenState_by_verdict ({ dragging with dragEnter := false }) rfl
        hblock).2.1 (hverdict.trans hv)
    · intro hcase
      rcases hcase with hblock | hv
      · exact updateHiddenState_of_blockHiding _ hblock
      · by_cases hb : dragging.blockHiding = true
        · exact updateHiddenState_of_blockHiding _ hb
        · exact (updateHiddenState_by_verdict ({ dragging with dragEnter := false }) rfl
            (by simpa using hb)).2.2 (hverdict.trans hv)

/-- Witness of C23: a drag enters a hidden view in mode `AutoHide`; the pointer enters
and leaves, the desktop changes and the show timer expires during the drag, and the hide
timer stays idle; the drop that ends the drag starts it. -/
theorem drag_holds_off_hiding_witness :
    demoHiddenAutoHide.isHidden = true
      ∧ (demoHiddenAutoHide.step (Input.eventTriggered QEvent.DragEnter)).emitted
          = demoHiddenAutoHide.emitted ++ [Emission.mustBeShown]
      ∧ ((demoHiddenAutoHide.step (Input.eventTriggered QEvent.DragEnter)).run
          [Input.eventTriggered QEvent.Enter, Input.eventTriggered QEvent.Leave,
            Input.currentDesktopChanged, Input.timerShowTimeout]).timerHide.isActive = false
      ∧ (((demoHiddenAutoHide.step (Input.eventTriggered QEvent.DragEnter)).run
          [Input.eventTriggered QEvent.Enter, Input.eventTriggered QEvent.Leave,
            Input.currentDesktopChanged, Input.timerShowTimeout]).step
          (Input.eventTriggered QEvent.Drop)).timerHide.isActive = true :=
  ⟨by decide,
    (drag_holds_off_hiding demoHiddenAutoHide [] (by decide)).1 (by decide),
    (drag_holds_off_hiding demoHiddenAutoHide
      [Input.eventTriggered QEvent.Enter, Input.eventTriggered QEvent.Leave,
        Input.currentDesktopChanged, Input.timerShowTimeout] (by decide)).2.2.2.2.1
      (by decide),
    ((((drag_holds_off_hiding demoHiddenAutoHide [] (by decide)).2.2.2.2.2
      ((demoHiddenAutoHide.step (Input.eventTriggered QEvent.DragEnter)).run
        [Input.eventTriggered QEvent.Enter, Input.eventTriggered QEvent.Leave,
          Input.currentDesktopChanged, Input.timerShowTimeout])
      QEvent.Drop (Or.inr rfl)).2.1 (by decide) (by decide)).2.1 (by decide)).1⟩

theorem staysCalm_refl (s : VisibilityManager) (h : Calm s) : StaysCalm s s :=
  ⟨h, rfl, rfl⟩

theorem staysCalm_trans (s t u : VisibilityManager) (h1 : StaysCalm s t)
    (h2 : StaysCalm t u) : StaysCalm s u :=
  ⟨h2.1, h2.2.1.trans h1.2.1, h2.2.2.trans h1.2.2⟩

/-- A step that keeps the mode, the idle hide timer and the count of `mustBeHide`, and
adds no connection. -/
theorem staysCalm_of_same (s t : VisibilityManager) (h : Calm s) (hmode : t.mode = s.mode)
    (hconn : ∀ c ∈ t.connections, c ∈ s.connections)
    (hhide : t.timerHide.isActive = false)
    (hcount : t.mustBeHideCount = s.mustBeHideCount) : StaysCalm s t := by
  refine ⟨⟨?_, fun c hc => h.2.1 c (hconn c hc), hhide⟩, hmode, hcount⟩
  rw [hmode]
  exact h.1

theorem staysCalm_emit (s : VisibilityManager) (emission : Emission)
    (hne : emission ≠ Emission.mustBeHide) (h : Calm s) : StaysCalm s (s.emit emission) := by
  refine staysCalm_of_same s _ h rfl (fun c hc => hc) h.2.2 ?_
  simp only [mustBeHideCount, emit, List.count_append, List.count_singleton]
  simp [hne]

theorem staysCalm_raiseView_true (s : VisibilityManager) (h : Calm s) :
    StaysCalm s (s.raiseView true) := by
  refine staysCalm_of_same s _ h ?_ ?_ ?_ ?_
  · simp only [raiseView_proj]
  · simp only [raiseView_proj]
    exact fun c hc => hc
  · have := h.2.2
    simp only [raiseView_proj, Timer.stop]
    split_ifs <;> simp_all
  · simp only [mustBeHideCount, raiseView_proj]
    split_ifs <;> simp_all

theorem updateHiddenState_of_calm (s : VisibilityManager)
    (h : s.mode = Visibility.AlwaysVisible ∨ s.mode = Visibility.WindowsGoBelow) :
    s.updateHiddenState = s := by
  unfold updateHiddenState
  rcases h with h | h <;> simp [h]

theorem staysCalm_raiseViewTemporarily (s : VisibilityManager) (h : Calm s) :
    StaysCalm s s.raiseViewTemporarily := by
  refine staysCalm_of_same s _ h ?_ ?_ ?_ ?_
  · simp only [raiseViewTemporarily, emit, ite_proj, ite_self]
  · simp only [raiseViewTemporarily, emit, ite_proj, ite_self]
    exact fun c hc => hc
  · have := h.2.2
    simp only [raiseViewTemporarily, emit, ite_proj, Timer.stop]
    split_ifs <;> simp_all
  · simp only [mustBeHideCount, raiseViewTemporarily, emit, ite_proj]
    split_ifs <;> simp_all

theorem staysCalm_updateStruts (s : VisibilityManager) (h : Calm s) :
    StaysCalm s s.updateStrutsBasedOnLayoutsAndActivities := by
  unfold updateStrutsBasedOnLayoutsAndActivities
  simp only []
  split_ifs <;> exact staysCalm_emit s _ (by decide) h

theorem staysCalm_updateGhostWindowState (s : VisibilityManager) (h : Calm s) :
    StaysCalm s s.updateGhostWindowState := by
  unfold updateGhostWindowState
  split_ifs
  · exact staysCalm_emit s _ (by simp) h
  · exact staysCalm_emit s _ (by simp) h
  · exact staysCalm_refl s h

theorem staysCalm_runSlot (s : VisibilityManager) (slot : Slot) (h : Calm s)
    (hslot : slot = Slot.updateStruts ∨ slot = Slot.edgeState) :
    StaysCalm s (s.runSlot slot) := by
  rcases hslot with hslot | hslot <;> subst hslot <;> simp only [runSlot]
  · exact staysCalm_updateStruts s h
  · split_ifs
    · exact staysCalm_emit s _ (by simp) h
    · exact staysCalm_emit s _ (by simp) h
    · exact staysCalm_refl s h

theorem staysCalm_signal (s : VisibilityManager) (sender : Sender) (h : Calm s) :
    StaysCalm s (s.signal sender) := by
  unfold signal
  apply foldl_runSlot_invariant_mem
    (fun t => StaysCalm s t ∧ ∀ c ∈ s.connections, c.slot = Slot.updateStruts
      ∨ c.slot = Slot.edgeState)
    _ s ?_ ⟨staysCalm_refl s h, h.2.1⟩ |>.1
  intro t c hc ht
  have hc' : c ∈ s.connections := (List.mem_filter.1 hc).1
  exact ⟨staysCalm_trans s t _ ht.1 (staysCalm_runSlot t c.slot ht.1.1 (ht.2 c hc')), ht.2⟩

theorem staysCalm_setContainsMouse (s : VisibilityManager) (contains : Bool) (h : Calm s) :
    StaysCalm s (s.setContainsMouse contains) := by
  unfold setContainsMouse
  split_ifs with h1
  · exact staysCalm_refl s h
  · have h2 : StaysCalm s (({ s with containsMouse := contains }).emit
        Emission.containsMouseChanged) := by
      have := staysCalm_emit ({ s with containsMouse := contains })
        Emission.containsMouseChanged (by decide) h
      exact ⟨this.1, this.2.1, this.2.2⟩
    have h3 := staysCalm_trans _ _ _ h2 (staysCalm_signal _ Sender.containsMouseChanged h2.1)
    simp only []
    split_ifs
    · exact staysCalm_trans _ _ _ h3 (staysCalm_raiseView_true _ h3.1)
    · exact h3

theorem staysCalm_updateKWinEdgesSupport (s : VisibilityManager) (h : Calm s) :
    StaysCalm s s.updateKWinEdgesSupport := by
  have hmode := h.1
  refine staysCalm_of_same s _ h ?_ ?_ ?_ ?_
  · simp only [updateKWinEdgesSupport, createEdgeGhostWindow, deleteEdgeGhostWindow, emit,
      connect, ite_proj, ite_self]
  · intro c hc
    simp only [updateKWinEdgesSupport, createEdgeGhostWindow, deleteEdgeGhostWindow, emit,
      connect, ite_proj] at hc
    rcases hmode with hm | hm <;> simp only [hm] at hc <;> simp at hc <;>
      split_ifs at hc <;>
      first
        | exact hc
        | exact (List.mem_filter.1 hc).1
  · rw [(updateKWinEdgesSupport_timers s).2]
    exact h.2.2
  · simp only [mustBeHideCount, updateKWinEdgesSupport, createEdgeGhostWindow,
      deleteEdgeGhostWindow, emit, connect, ite_proj]
    split_ifs <;> simp

theorem calm_setModeBase (s : VisibilityManager) (mode : Visibility)
    (hmode : mode = Visibility.AlwaysVisible ∨ mode = Visibility.WindowsGoBelow) :
    Calm (s.setModeClear.setModeBase mode) := by
  have hconn : (s.setModeClear.setModeBase mode).connections
      = s.connections.filter (fun c => decide (c.slot = Slot.edgeState)) := by
    rcases hmode with h | h <;> subst h <;>
      simp [setModeBase, setModeClear, emit, ite_proj]
  refine ⟨?_, ?_, ?_⟩
  · rw [setModeBase_mode]
    exact hmode
  · intro c hc
    rw [hconn] at hc
    have := (List.mem_filter.1 hc).2
    simp only [decide_eq_true_eq] at this
    exact Or.inr this
  · rw [setModeBase_timerHide]
    simp only [setModeClear, emit, ite_proj, ite_self, Timer.stop]

theorem staysCalm_connect_updateStruts (s : VisibilityManager) (sender : Sender)
    (h : Calm s) : StaysCalm s (s.connect sender Slot.updateStruts) := by
  refine ⟨⟨h.1, ?_, h.2.2⟩, rfl, rfl⟩
  intro c hc
  simp only [connect, List.mem_append, List.mem_singleton] at hc
  rcases hc with hc | hc
  · exact h.2.1 c hc
  · rw [hc]
    exact Or.inl rfl

theorem staysCalm_setModeSwitch (s : VisibilityManager) (h : Calm s) :
    StaysCalm s s.setModeSwitch := by
  unfold setModeSwitch
  split
  · refine staysCalm_trans s _ _ ?_ (staysCalm_raiseView_true _ ?_)
    · have h1 : StaysCalm s
          (if s.viewOnScreen = true then s.updateStrutsBasedOnLayoutsAndActivities else s) := by
        split_ifs
        · exact staysCalm_updateStruts s h
        · exact staysCalm_refl s h
      by_cases hm : (if s.viewOnScreen = true then s.updateStrutsBasedOnLayoutsAndActivities
          else s).memoryUsage = MemoryUsage.MultipleLayouts
      · rw [if_pos hm]
        have h2 := staysCalm_trans _ _ _ h1 (staysCalm_connect_updateStruts _
          Sender.consumerCurrentActivityChanged h1.1)
        exact staysCalm_trans _ _ _ h2 (staysCalm_connect_updateStruts _
          Sender.activitiesChanged h2.1)
      · rw [if_neg hm]
        exact h1
    · have h1 : StaysCalm s
          (if s.viewOnScreen = true then s.updateStrutsBasedOnLayoutsAndActivities else s) := by
        split_ifs
        · exact staysCalm_updateStruts s h
        · exact staysCalm_refl s h
      by_cases hm : (if s.viewOnScreen = true then s.updateStrutsBasedOnLayoutsAndActivities
          else s).memoryUsage = MemoryUsage.MultipleLayouts
      · rw [if_pos hm]
        have h2 := staysCalm_trans _ _ _ h1 (staysCalm_connect_updateStruts _
          Sender.consumerCurrentActivityChanged h1.1)
        exact (staysCalm_trans _ _ _ h2 (staysCalm_connect_updateStruts _
          Sender.activitiesChanged h2.1)).1
      · rw [if_neg hm]
        exact h1.1
  all_goals
    first
      | exact staysCalm_refl s h
      | (rename_i hm
         rcases h.1 with h1 | h1 <;> rw [h1] at hm <;> exact Visibility.noConfusion hm)

theorem calm_setMode (s : VisibilityManager) (mode : Visibility)
    (hmode : mode = Visibility.AlwaysVisible ∨ mode = Visibility.WindowsGoBelow)
    (hchange : s.mode ≠ mode) : Calm (s.setMode mode) ∧ (s.setMode mode).mode = mode := by
  rw [setMode_eq, if_neg hchange]
  have h1 := calm_setModeBase s mode hmode
  have h2 := staysCalm_setModeSwitch _ h1
  have h3 := staysCalm_trans _ _ _ h2 (staysCalm_emit _ (Emission.writeVisibility
    (s.setModeClear.setModeBase mode).setModeSwitch.mode) (by simp) h2.1)
  have h4 := staysCalm_trans _ _ _ h3 (staysCalm_updateKWinEdgesSupport _ h3.1)
  have h5 := staysCalm_trans _ _ _ h4 (staysCalm_emit _ Emission.modeChanged (by decide) h4.1)
  refine ⟨h5.1, ?_⟩
  have := h5.2.1
  rw [setModeBase_mode] at this
  exact this

theorem staysCalm_step (s : VisibilityManager) (input : Input) (h : Calm s)
    (hinput : setsModeOrRequestsHide input = false) : StaysCalm s (s.step input) := by
  cases input with
  | setMode mode => exact Bool.noConfusion hinput
  | timerStartUpTimeout fMode => exact Bool.noConfusion hinput
  | raiseView raise =>
    cases raise
    · exact Bool.noConfusion hinput
    · exact staysCalm_raiseView_true s h
  | setRaiseOnDesktop enable =>
    simp only [step, setRaiseOnDesktop]
    split_ifs
    · exact staysCalm_refl s h
    · exact staysCalm_emit ({ s with raiseOnDesktopChange := enable }) _ (by decide) h
  | setRaiseOnActivity enable =>
    simp only [step, setRaiseOnActivity]
    split_ifs
    · exact staysCalm_refl s h
    · exact staysCalm_emit ({ s with raiseOnActivityChange := enable }) _ (by decide) h
  | setIsHidden isHidden =>
    simp only [step, setIsHidden]
    split_ifs
    · exact staysCalm_refl s h
    · exact staysCalm_refl s h
    · have h1 := staysCalm_updateGhostWindowState ({ s with isHidden := isHidden }) h
      exact staysCalm_trans s _ _ ⟨h1.1, h1.2.1, h1.2.2⟩
        (staysCalm_emit _ Emission.isHiddenChanged (by decide) h1.1)
  | setBlockHiding blockHiding =>
    simp only [step, setBlockHiding, updateHiddenState_of_calm
      ({ s with blockHiding := blockHiding }) h.1]
    split_ifs <;>
    first
      | exact staysCalm_refl s h
      | (refine staysCalm_of_same s _ h rfl (fun c hc => hc) ?_ ?_
         · first | rfl | exact h.2.2
         · simp [mustBeHideCount, emit])
  | setTimerShow msec =>
    exact staysCalm_emit ({ s with timerShow := s.timerShow.setInterval msec }) _ (by decide) h
  | setTimerHide msec =>
    refine staysCalm_of_same s _ h rfl (fun c hc => hc) h.2.2 ?_
    simp [step, setTimerHide, mustBeHideCount, emit]
  | setEnableKWinEdges enable =>
    simp only [step, setEnableKWinEdges]
    split_ifs
    · exact staysCalm_refl s h
    · have h1 := staysCalm_emit ({ s with enableKWinEdgesFromUser := enable })
        Emission.enableKWinEdgesChanged (by decide) h
      exact staysCalm_trans s _ _ ⟨h1.1, h1.2.1, h1.2.2⟩
        (staysCalm_updateKWinEdgesSupport _ h1.1)
  | raiseViewTemporarily => exact staysCalm_raiseViewTemporarily s h
  | updateHiddenState =>
    simp only [step, updateHiddenState_of_calm s h.1]
    exact staysCalm_refl s h
  | eventTriggered ev =>
    cases ev
    · exact staysCalm_setContainsMouse s true h
    · exact staysCalm_setContainsMouse s false h
    · simp only [step, viewEventManager]
      split_ifs
      · exact staysCalm_emit ({ s with dragEnter := true }) _ (by decide) h
      · exact staysCalm_refl ({ s with dragEnter := true }) h
    · simp only [step, viewEventManager,
        updateHiddenState_of_calm ({ s with dragEnter := false }) h.1]
      exact staysCalm_refl ({ s with dragEnter := false }) h
    · simp only [step, viewEventManager,
        updateHiddenState_of_calm ({ s with dragEnter := false }) h.1]
      exact staysCalm_refl ({ s with dragEnter := false }) h
    · exact staysCalm_emit s _ (by simp) h
    · exact staysCalm_refl s h
  | absoluteGeometryChanged =>
    simp only [step, VisibilityManager.absoluteGeometryChanged]
    split_ifs
    · exact staysCalm_updateStruts s h
    · exact staysCalm_refl s h
  | activeWindowDraggingStarted =>
    have h1 := staysCalm_setContainsMouse s false h
    simp only [step, VisibilityManager.activeWindowDraggingStarted,
      updateHiddenState_of_calm _ h1.1.1]
    exact h1
  | activeWindowTouchingChanged touching =>
    have h1 := staysCalm_signal
      ({ s with tracker := { s.tracker with activeWindowTouching := touching } })
      Sender.activeWindowTouchingChanged h
    exact ⟨h1.1, h1.2.1, h1.2.2⟩
  | activeWindowMaximizedChanged maximized =>
    have h1 := staysCalm_signal
      ({ s with tracker := { s.tracker with activeWindowMaximized := maximized } })
      Sender.activeWindowMaximizedChanged h
    exact ⟨h1.1, h1.2.1, h1.2.2⟩
  | existsWindowTouchingChanged touching =>
    have h1 := staysCalm_signal
      ({ s with tracker := { s.tracker with existsWindowTouching := touching } })
      Sender.existsWindowTouchingChanged h
    exact ⟨h1.1, h1.2.1, h1.2.2⟩
  | currentDesktopChanged => exact staysCalm_signal s _ h
  | currentActivityChanged => exact staysCalm_signal s _ h
  | consumerCurrentActivityChanged => exact staysCalm_signal s _ h
  | activitiesChanged => exact staysCalm_signal s _ h
  | ghostContainsMouseChanged contains =>
    simp only [step, VisibilityManager.ghostContainsMouseChanged]
    split_ifs
    · exact staysCalm_raiseView_true s h
    · have h1 := staysCalm_updateGhostWindowState ({ s with timerShow := s.timerShow.stop }) h
      exact ⟨h1.1, h1.2.1, h1.2.2⟩
    · exact staysCalm_refl s h
  | timerShowTimeout =>
    simp only [step, VisibilityManager.timerShowTimeout]
    split_ifs
    · exact staysCalm_emit ({ s with timerShow := s.timerShow.stop }) _ (by decide) h
    · exact staysCalm_refl ({ s with timerShow := s.timerShow.stop }) h
    · exact staysCalm_refl s h
  | timerHideTimeout =>
    simp only [step, VisibilityManager.timerHideTimeout, h.2.2, Bool.false_eq_true, if_false]
    exact staysCalm_refl s h
  | singleShotTimeout =>
    simp only [step, VisibilityManager.singleShotTimeout]
    split
    · exact staysCalm_refl s h
    · rw [updateHiddenState_of_calm
        ({ s with singleShot := none, raiseTemporarily := false, hideNow := true }) h.1]
      exact staysCalm_refl
        ({ s with singleShot := none, raiseTemporarily := false, hideNow := true }) h

theorem staysCalm_run :
    ∀ (inputs : List Input) (s : VisibilityManager), Calm s →
      (∀ input ∈ inputs, setsModeOrRequestsHide input = false) →
      StaysCalm s (s.run inputs) := by
  intro inputs
  induction inputs with
  | nil => intro s h _; exact staysCalm_refl s h
  | cons input inputs ih =>
    intro s h hinputs
    have h1 := staysCalm_step s input h (hinputs input (List.mem_cons_self _ _))
    exact staysCalm_trans s _ _ h1
      (ih (s.step input) h1.1 (fun i hi => hinputs i (List.mem_cons_of_mem _ hi)))

theorem setModeFinish_timerShow (s : VisibilityManager) :
    s.setModeFinish.timerShow = s.timerShow :=
  (updateKWinEdgesSupport_timers _).1

theorem setModeClear_proj (s : VisibilityManager) :
    s.setModeClear.timerShow.isActive = false
      ∧ s.setModeClear.timerHide.isActive = false
      ∧ s.setModeClear.blockHiding = s.blockHiding := by
  simp only [setModeClear, emit, ite_proj, ite_self, Timer.stop, and_self]

theorem setMode_windowsGoBelow_timerShow (s : VisibilityManager)
    (hchange : s.mode ≠ Visibility.WindowsGoBelow) :
    (s.setMode Visibility.WindowsGoBelow).timerShow.isActive = false := by
  rw [setMode_eq, if_neg hchange, setModeFinish_timerShow]
  have hswitch : (s.setModeClear.setModeBase Visibility.WindowsGoBelow).setModeSwitch
      = s.setModeClear.setModeBase Visibility.WindowsGoBelow := by
    simp [setModeSwitch, setModeBase]
  rw [hswitch]
  have hbase : (s.setModeClear.setModeBase Visibility.WindowsGoBelow).timerShow
      = s.setModeClear.timerShow := by
    simp [setModeBase]
  rw [hbase]
  exact (setModeClear_proj s).1

theorem setMode_alwaysVisible_timerShow (s : VisibilityManager)
    (hchange : s.mode ≠ Visibility.AlwaysVisible) :
    (s.setMode Visibility.AlwaysVisible).timerShow.isActive = !s.blockHiding := by
  rw [setMode_eq, if_neg hchange, setModeFinish_timerShow]
  have hbase : (s.setModeClear.setModeBase Visibility.AlwaysVisible).timerShow
        = s.setModeClear.timerShow
      ∧ (s.setModeClear.setModeBase Visibility.AlwaysVisible).blockHiding
        = s.setModeClear.blockHiding
      ∧ (s.setModeClear.setModeBase Visibility.AlwaysVisible).mode
        = Visibility.AlwaysVisible := by
    simp [setModeBase]
  obtain ⟨h1, _, h3⟩ := setModeClear_proj s
  generalize s.setModeClear.setModeBase Visibility.AlwaysVisible = b at hbase
  obtain ⟨hb1, hb2, hb3⟩ := hbase
  rw [h3] at hb2
  rw [← hb1] at h1
  unfold setModeSwitch
  simp only [hb3, raiseView_proj, connect, ite_proj, updateStrutsBasedOnLayoutsAndActivities,
    emit, ite_self, Timer.start, hb2]
  cases hblock : s.blockHiding <;> simp [h1]

/-- C22: `setMode` to `AlwaysVisible` or `WindowsGoBelow` stops both timers (the first
part of the function leaves both idle): after the call the hide timer is idle, and the
show timer is idle in `WindowsGoBelow` and, in `AlwaysVisible`, pending only through the
`raiseView(true)` that mode makes on entry. From then on, after any inputs other than
`setMode`, the start-up timer (which calls `setMode`) and a direct `raiseView(false)`,
so after any pointer, drag, window-tracker, desktop, activity, `blockHiding` and timer
events, the mode is the same, the hide timer is idle and `mustBeHide` has not been
emitted. -/
theorem no_hiding_in_alwaysVisible_and_windowsGoBelow (s : VisibilityManager)
    (mode : Visibility) (inputs : List Input)
    (hmode : mode = Visibility.AlwaysVisible ∨ mode = Visibility.WindowsGoBelow)
    (hchange : s.mode ≠ mode)
    (hinputs : ∀ input ∈ inputs, setsModeOrRequestsHide input = false) :
    (s.setModeClear.timerShow.isActive = false ∧ s.setModeClear.timerHide.isActive = false)
      ∧ (s.setMode mode).timerHide.isActive = false
      ∧ (mode = Visibility.WindowsGoBelow → (s.setMode mode).timerShow.isActive = false)
      ∧ (mode = Visibility.AlwaysVisible →
          (s.setMode mode).timerShow.isActive = !s.blockHiding)
      ∧ ((s.setMode mode).run inputs).mode = mode
      ∧ ((s.setMode mode).run inputs).timerHide.isActive = false
      ∧ ((s.setMode mode).run inputs).mustBeHideCount = (s.setMode mode).mustBeHideCount := by
  obtain ⟨hcalm, hset⟩ := calm_setMode s mode hmode hchange
  have hrun := staysCalm_run inputs (s.setMode mode) hcalm hinputs
  refine ⟨⟨(setModeClear_proj s).1, (setModeClear_proj s).2.1⟩, hcalm.2.2, ?_, ?_,
    hrun.2.1.trans hset, hrun.1.2.2, hrun.2.2⟩
  · intro h
    subst h
    exact setMode_windowsGoBelow_timerShow s hchange
  · intro h
    subst h
    exact setMode_alwaysVisible_timerShow s hchange

/-- Witness of C22: a manager in mode `AutoHide` with the hide timer pending is set to
`AlwaysVisible`; the pointer, a drag, the window tracker, the desktop and `blockHiding`
then report. -/
theorem no_hiding_in_alwaysVisible_and_windowsGoBelow_witness :
    demoHidingAutoHide.timerHide.isActive = true
      ∧ (demoHidingAutoHide.setMode Visibility.AlwaysVisible).timerHide.isActive = false
      ∧ ((demoHidingAutoHide.setMode Visibility.AlwaysVisible).run
          [Input.eventTriggered QEvent.Enter, Input.eventTriggered QEvent.Leave,
            Input.eventTriggered QEvent.DragEnter, Input.eventTriggered QEvent.Drop,
            Input.activeWindowTouchingChanged true, Input.currentDesktopChanged,
            Input.setBlockHiding true, Input.setBlockHiding false,
            Input.timerHideTimeout]).mustBeHideCount
        = (demoHidingAutoHide.setMode Visibility.AlwaysVisible).mustBeHideCount :=
  ⟨by decide,
    (no_hiding_in_alwaysVisible_and_windowsGoBelow demoHidingAutoHide Visibility.AlwaysVisible
      [] (Or.inl rfl) (by decide) (by decide)).2.1,
    (no_hiding_in_alwaysVisible_and_windowsGoBelow demoHidingAutoHide Visibility.AlwaysVisible
      [Input.eventTriggered QEvent.Enter, Input.eventTriggered QEvent.Leave,
        Input.eventTriggered QEvent.DragEnter, Input.eventTriggered QEvent.Drop,
        Input.activeWindowTouchingChanged true, Input.currentDesktopChanged,
        Input.setBlockHiding true, Input.setBlockHiding false, Input.timerHideTimeout]
      (Or.inl rfl) (by decide) (by decide)).2.2.2.2.2.2⟩

theorem ghostFrame_refl (s : VisibilityManager) : GhostFrame s s :=
  ⟨rfl, rfl, rfl⟩

theorem ghostFrame_trans (s t u : VisibilityManager) (h1 : GhostFrame s t)
    (h2 : GhostFrame t u) : GhostFrame s u :=
  ⟨h2.1.trans h1.1, h2.2.1.trans h1.2.1, h2.2.2.trans h1.2.2⟩

theorem ghostAsSpecified_of_frame (s t : VisibilityManager) (h : GhostAsSpecified s)
    (hframe : GhostFrame s t) : GhostAsSpecified t := by
  unfold GhostAsSpecified supportsKWinEdges at *
  rw [hframe.1, hframe.2.1, hframe.2.2]
  exact h

theorem ghostFrame_raiseView (s : VisibilityManager) (raise : Bool) :
    GhostFrame s (s.raiseView raise) := by
  simp only [GhostFrame, raiseView_proj, and_self]

theorem ghostFrame_dodgeActive (s : VisibilityManager) : GhostFrame s s.dodgeActive := by
  simp only [GhostFrame, dodgeActive, raiseView_proj, ite_proj, ite_self, and_self]

theorem ghostFrame_dodgeMaximized (s : VisibilityManager) : GhostFrame s s.dodgeMaximized := by
  simp only [GhostFrame, dodgeMaximized, raiseView_proj, ite_proj, ite_self, and_self]

theorem ghostFrame_dodgeAllWindows (s : VisibilityManager) :
    GhostFrame s s.dodgeAllWindows := by
  simp only [GhostFrame, dodgeAllWindows, raiseView_proj, ite_proj, ite_self, and_self]

theorem ghostFrame_updateHiddenState (s : VisibilityManager) :
    GhostFrame s s.updateHiddenState := by
  unfold updateHiddenState
  split_ifs
  · exact ghostFrame_refl s
  · split
    · exact ghostFrame_raiseView s _
    · exact ghostFrame_dodgeActive s
    · exact ghostFrame_dodgeMaximized s
    · exact ghostFrame_dodgeAllWindows s
    · exact ghostFrame_refl s

theorem ghostFrame_raiseViewTemporarily (s : VisibilityManager) :
    GhostFrame s s.raiseViewTemporarily := by
  simp only [GhostFrame, raiseViewTemporarily, emit, ite_proj, ite_self, and_self]

theorem ghostFrame_updateStruts (s : VisibilityManager) :
    GhostFrame s s.updateStrutsBasedOnLayoutsAndActivities := by
  simp only [GhostFrame, updateStrutsBasedOnLayoutsAndActivities, emit, ite_proj, ite_self,
    and_self]

theorem ghostFrame_updateGhostWindowState (s : VisibilityManager) :
    GhostFrame s s.updateGhostWindowState := by
  simp only [GhostFrame, updateGhostWindowState, emit, ite_proj, ite_self, and_self]

theorem ghostFrame_runSlot (s : VisibilityManager) (slot : Slot) :
    GhostFrame s (s.runSlot slot) := by
  cases slot <;> simp only [runSlot] <;> (try split_ifs) <;>
  first
    | exact ghostFrame_refl s
    | exact ⟨rfl, rfl, rfl⟩
    | exact ghostFrame_raiseViewTemporarily s
    | exact ghostFrame_updateHiddenState s
    | exact ghostFrame_updateStruts s
    | exact ghostFrame_raiseView s _
    | exact ghostFrame_dodgeActive s
    | exact ghostFrame_dodgeMaximized s
    | exact ghostFrame_dodgeAllWindows s

theorem ghostFrame_signal (s : VisibilityManager) (sender : Sender) :
    GhostFrame s (s.signal sender) := by
  unfold signal
  apply foldl_runSlot_invariant (fun t => GhostFrame s t)
  · intro t slot ht
    exact ghostFrame_trans s t _ ht (ghostFrame_runSlot t slot)
  · exact ghostFrame_refl s

theorem ghostFrame_setContainsMouse (s : VisibilityManager) (contains : Bool) :
    GhostFrame s (s.setContainsMouse contains) := by
  unfold setContainsMouse
  split_ifs with h1
  · exact ghostFrame_refl s
  · have h2 : GhostFrame s (({ s with containsMouse := contains }).emit
        Emission.containsMouseChanged) := ⟨rfl, rfl, rfl⟩
    have h3 := ghostFrame_trans _ _ _ h2 (ghostFrame_signal _ Sender.containsMouseChanged)
    simp only []
    split_ifs
    · exact ghostFrame_trans _ _ _ h3 (ghostFrame_raiseView _ _)
    · exact h3

theorem ghostFrame_viewEventManager (s : VisibilityManager) (ev : QEvent) :
    GhostFrame s (s.viewEventManager ev) := by
  cases ev
  · exact ghostFrame_setContainsMouse s true
  · exact ghostFrame_setContainsMouse s false
  · simp only [GhostFrame, viewEventManager, emit, ite_proj, ite_self, and_self]
  · exact ghostFrame_updateHiddenState ({ s with dragEnter := false })
  · exact ghostFrame_updateHiddenState ({ s with dragEnter := false })
  · exact ⟨rfl, rfl, rfl⟩
  · exact ghostFrame_refl s

/-- What `updateKWinEdgesSupport` leaves: the ghost window as specified in every mode
but `None`, where it leaves the ghost window as it was. -/
theorem updateKWinEdgesSupport_ghost (s : VisibilityManager) :
    s.updateKWinEdgesSupport.mode = s.mode
      ∧ s.updateKWinEdgesSupport.enableKWinEdgesFromUser = s.enableKWinEdgesFromUser
      ∧ (s.mode ≠ Visibility.None → GhostAsSpecified s.updateKWinEdgesSupport)
      ∧ (s.mode = Visibility.None →
          s.updateKWinEdgesSupport.edgeGhostWindow = s.edgeGhostWindow) := by
  refine ⟨?_, ?_, ?_, ?_⟩
  · simp only [updateKWinEdgesSupport, createEdgeGhostWindow, deleteEdgeGhostWindow, emit,
      connect, ite_proj, ite_self]
  · simp only [updateKWinEdgesSupport, createEdgeGhostWindow, deleteEdgeGhostWindow, emit,
      connect, ite_proj, ite_self]
  · intro hmode
    simp only [GhostAsSpecified, supportsKWinEdges, updateKWinEdgesSupport,
      createEdgeGhostWindow, deleteEdgeGhostWindow, emit, connect, ite_proj, ite_self]
    cases hm : s.mode <;> cases he : s.enableKWinEdgesFromUser <;>
      cases hg : s.edgeGhostWindow <;> simp_all
  · intro hmode
    simp [updateKWinEdgesSupport, hmode]

theorem setModeFinish_ghost (s : VisibilityManager) (hmode : s.mode ≠ Visibility.None) :
    GhostAsSpecified s.setModeFinish := by
  have h := (updateKWinEdgesSupport_ghost (s.emit (Emission.writeVisibility s.mode))).2.2.1
    hmode
  exact h

theorem ghostAsSpecified_setMode (s : VisibilityManager) (mode : Visibility)
    (hchange : s.mode ≠ mode) (hmode : mode ≠ Visibility.None) :
    GhostAsSpecified (s.setMode mode) := by
  rw [setMode_eq, if_neg hchange]
  apply setModeFinish_ghost
  rw [setModeSwitch_mode, setModeBase_mode]
  exact hmode

theorem ghostAsSpecified_setMode_of_specified (s : VisibilityManager) (mode : Visibility)
    (h : GhostAsSpecified s) (hmode : mode ≠ Visibility.None) :
    GhostAsSpecified (s.setMode mode) := by
  by_cases hchange : s.mode = mode
  · rw [setMode_eq, if_pos hchange]
    exact h
  · exact ghostAsSpecified_setMode s mode hchange hmode

theorem ghostAsSpecified_setEnableKWinEdges (s : VisibilityManager) (enable : Bool)
    (h : GhostAsSpecified s ∨ (s.mode ≠ Visibility.None
      ∧ s.enableKWinEdgesFromUser ≠ enable)) :
    GhostAsSpecified (s.setEnableKWinEdges enable) := by
  unfold setEnableKWinEdges
  by_cases hsame : s.enableKWinEdgesFromUser = enable
  · rw [if_pos hsame]
    rcases h with h | h
    · exact h
    · exact absurd hsame h.2
  · rw [if_neg hsame]
    by_cases hmode : s.mode = Visibility.None
    · have hspec : GhostAsSpecified s := by
        rcases h with h | h
        · exact h
        · exact absurd hmode h.1
      have hghost := (updateKWinEdgesSupport_ghost
        (({ s with enableKWinEdgesFromUser := enable } : VisibilityManager).emit
          Emission.enableKWinEdgesChanged)).2.2.2 hmode
      have hm := (updateKWinEdgesSupport_ghost
        (({ s with enableKWinEdgesFromUser := enable } : VisibilityManager).emit
          Emission.enableKWinEdgesChanged)).1
      unfold GhostAsSpecified supportsKWinEdges at *
      simp only []
      rw [hghost, hm]
      simp only [emit, hmode] at hspec ⊢
      constructor
      · intro hg
        exact absurd (hspec.1 hg).1 (by decide)
      · intro hg
        exact absurd hg.1 (by decide)
    · exact (updateKWinEdgesSupport_ghost
        (({ s with enableKWinEdgesFromUser := enable } : VisibilityManager).emit
          Emission.enableKWinEdgesChanged)).2.2.1 hmode

theorem ghostAsSpecified_step (s : VisibilityManager) (input : Input)
    (h : GhostAsSpecified s) (hinput : setsModeNone input = false) :
    GhostAsSpecified (s.step input) := by
  cases input with
  | setMode mode =>
    apply ghostAsSpecified_setMode_of_specified s mode h
    intro hnone
    rw [hnone] at hinput
    exact Bool.noConfusion hinput
  | timerStartUpTimeout fMode =>
    simp only [step, VisibilityManager.timerStartUpTimeout]
    split_ifs
    · apply ghostAsSpecified_setMode_of_specified
        ({ s with timerStartUp := s.timerStartUp.stop }) fMode h
      intro hnone
      rw [hnone] at hinput
      exact Bool.noConfusion hinput
    · exact h
  | setEnableKWinEdges enable => exact ghostAsSpecified_setEnableKWinEdges s enable (Or.inl h)
  | setRaiseOnDesktop enable =>
    apply ghostAsSpecified_of_frame s _ h
    simp only [step, GhostFrame, setRaiseOnDesktop, emit, ite_proj, ite_self, and_self]
  | setRaiseOnActivity enable =>
    apply ghostAsSpecified_of_frame s _ h
    simp only [step, GhostFrame, setRaiseOnActivity, emit, ite_proj, ite_self, and_self]
  | setIsHidden isHidden =>
    apply ghostAsSpecified_of_frame s _ h
    simp only [step, GhostFrame, setIsHidden, updateGhostWindowState, emit, ite_proj, ite_self,
      and_self]
  | setBlockHiding blockHiding =>
    apply ghostAsSpecified_of_frame s _ h
    simp only [step, setBlockHiding]
    split_ifs <;>
    first
      | exact ghostFrame_refl s
      | exact ⟨rfl, rfl, rfl⟩
      | exact ghostFrame_trans _ _ _
          (ghostFrame_updateHiddenState ({ s with blockHiding := blockHiding }))
          ⟨rfl, rfl, rfl⟩
  | setTimerShow msec => exact ghostAsSpecified_of_frame s _ h ⟨rfl, rfl, rfl⟩
  | setTimerHide msec => exact ghostAsSpecified_of_frame s _ h ⟨rfl, rfl, rfl⟩
  | raiseView raise => exact ghostAsSpecified_of_frame s _ h (ghostFrame_raiseView s raise)
  | raiseViewTemporarily =>
    exact ghostAsSpecified_of_frame s _ h (ghostFrame_raiseViewTemporarily s)
  | updateHiddenState => exact ghostAsSpecified_of_frame s _ h (ghostFrame_updateHiddenState s)
  | eventTriggered ev => exact ghostAsSpecified_of_frame s _ h (ghostFrame_viewEventManager s ev)
  | absoluteGeometryChanged =>
    apply ghostAsSpecified_of_frame s _ h
    simp only [step, VisibilityManager.absoluteGeometryChanged]
    split_ifs
    · exact ghostFrame_updateStruts s
    · exact ghostFrame_refl s
  | activeWindowDraggingStarted =>
    exact ghostAsSpecified_of_frame s _ h
      (ghostFrame_trans _ _ _ (ghostFrame_setContainsMouse s false)
        (ghostFrame_updateHiddenState _))
  | activeWindowTouchingChanged touching =>
    exact ghostAsSpecified_of_frame s _ h (ghostFrame_signal
      ({ s with tracker := { s.tracker with activeWindowTouching := touching } }) _)
  | activeWindowMaximizedChanged maximized =>
    exact ghostAsSpecified_of_frame s _ h (ghostFrame_signal
      ({ s with tracker := { s.tracker with activeWindowMaximized := maximized } }) _)
  | existsWindowTouchingChanged touching =>
    exact ghostAsSpecified_of_frame s _ h (ghostFrame_signal
      ({ s with tracker := { s.tracker with existsWindowTouching := touching } }) _)
  | currentDesktopChanged => exact ghostAsSpecified_of_frame s _ h (ghostFrame_signal s _)
  | currentActivityChanged => exact ghostAsSpecified_of_frame s _ h (ghostFrame_signal s _)
  | consumerCurrentActivityChanged =>
    exact ghostAsSpecified_of_frame s _ h (ghostFrame_signal s _)
  | activitiesChanged => exact ghostAsSpecified_of_frame s _ h (ghostFrame_signal s _)
  | ghostContainsMouseChanged contains =>
    apply ghostAsSpecified_of_frame s _ h
    simp only [step, VisibilityManager.ghostContainsMouseChanged]
    split_ifs
    · exact ghostFrame_raiseView s true
    · exact ghostFrame_updateGhostWindowState ({ s with timerShow := s.timerShow.stop })
    · exact ghostFrame_refl s
  | timerShowTimeout =>
    apply ghostAsSpecified_of_frame s _ h
    simp only [step, GhostFrame, VisibilityManager.timerShowTimeout, emit, ite_proj, ite_self,
      and_self]
  | timerHideTimeout =>
    apply ghostAsSpecified_of_frame s _ h
    simp only [step, GhostFrame, VisibilityManager.timerHideTimeout, emit, ite_proj, ite_self,
      and_self]
  | singleShotTimeout =>
    apply ghostAsSpecified_of_frame s _ h
    simp only [step, VisibilityManager.singleShotTimeout]
    split
    · exact ghostFrame_refl s
    · exact ghostFrame_updateHiddenState
        ({ s with singleShot := none, raiseTemporarily := false, hideNow := true })

theorem ghostAsSpecified_run :
    ∀ (inputs : List Input) (s : VisibilityManager), GhostAsSpecified s →
      (∀ input ∈ inputs, setsModeNone input = false) → GhostAsSpecified (s.run inputs) := by
  intro inputs
  induction inputs with
  | nil => intro s h _; exact h
  | cons input inputs ih =>
    intro s h hinputs
    exact ih (s.step input)
      (ghostAsSpecified_step s input h (hinputs input (List.mem_cons_self _ _)))
      (fun i hi => hinputs i (List.mem_cons_of_mem _ hi))

theorem setModeSwitch_edgeGhostWindow (s : VisibilityManager) :
    s.setModeSwitch.edgeGhostWindow = s.edgeGhostWindow := by
  unfold setModeSwitch
  split <;>
  simp only [raiseView_proj, dodgeActive, dodgeMaximized, connect, ite_proj,
    updateStrutsBasedOnLayoutsAndActivities, emit, ite_self]

/-- What `setMode(None)` leaves: the ghost window as it was. -/
theorem setMode_none_edgeGhostWindow (s : VisibilityManager) :
    (s.setMode Visibility.None).edgeGhostWindow = s.edgeGhostWindow := by
  rw [setMode_eq]
  by_cases hchange : s.mode = Visibility.None
  · rw [if_pos hchange]
  · rw [if_neg hchange]
    have hmode : ((s.setModeClear.setModeBase Visibility.None).setModeSwitch.emit
        (Emission.writeVisibility
          (s.setModeClear.setModeBase Visibility.None).setModeSwitch.mode)).mode
        = Visibility.None := by
      simp only [emit]
      rw [setModeSwitch_mode, setModeBase_mode]
    have h := (updateKWinEdgesSupport_ghost _).2.2.2 hmode
    have hfin : ((s.setModeClear.setModeBase Visibility.None).setModeSwitch).setModeFinish.edgeGhostWindow
        = ((s.setModeClear.setModeBase Visibility.None).setModeSwitch).edgeGhostWindow := by
      simp only [setModeFinish, emit] at h ⊢
      exact h
    rw [hfin, setModeSwitch_edgeGhostWindow]
    simp only [setModeBase, setModeClear, connect, emit, ite_proj, ite_self]

theorem setEnableKWinEdges_none_edgeGhostWindow (s : VisibilityManager) (enable : Bool)
    (hmode : s.mode = Visibility.None) :
    (s.setEnableKWinEdges enable).edgeGhostWindow = s.edgeGhostWindow := by
  unfold setEnableKWinEdges
  split_ifs with hsame
  · rfl
  · exact (updateKWinEdgesSupport_ghost
      (({ s with enableKWinEdgesFromUser := enable } : VisibilityManager).emit
        Emission.enableKWinEdgesChanged)).2.2.2 hmode

/-- C24, as stated, fails: in mode `AutoHide` with the KWin edges enabled the ghost
window exists; `setMode(None)` passes the assertion and leaves it in place, in a mode
that is none of the four hiding modes, and a following `setEnableKWinEdges(false)` leaves
it in place too, with the edges disabled. -/
theorem setMode_none_leaves_the_ghost_window :
    demoHidingAutoHide.mode = Visibility.AutoHide
      ∧ demoHidingAutoHide.supportsKWinEdges = true
      ∧ (demoHidingAutoHide.setMode Visibility.None).mode = Visibility.None
      ∧ Emission.assertFailed ∉ (demoHidingAutoHide.setMode Visibility.None).emitted
      ∧ (demoHidingAutoHide.setMode Visibility.None).supportsKWinEdges = true
      ∧ ((demoHidingAutoHide.setMode Visibility.None).setEnableKWinEdges
          false).enableKWinEdgesFromUser = false
      ∧ ((demoHidingAutoHide.setMode Visibility.None).setEnableKWinEdges
          false).supportsKWinEdges = true := by
  decide

/-- C24, amended: after every `setMode` call that changes the mode to one other than
`None`, and after every `setEnableKWinEdges` call that changes the setting in a mode
other than `None`, the ghost window exists exactly when the mode is `AutoHide`,
`DodgeActive`, `DodgeMaximized` or `DodgeAllWindows` and the KWin edges are enabled by
the user. A call that changes nothing returns at once, and every other input leaves the
mode, the setting and the ghost window alone: so once the ghost window is as specified
it stays so after every `setMode` (to a mode other than `None`), every
`setEnableKWinEdges` and every sequence of inputs that does not set the mode `None`; it
then never exists in `AlwaysVisible` or `WindowsGoBelow` nor while the edges are
disabled. `setMode(None)`, and `setEnableKWinEdges` in mode `None`, leave the ghost
window as it was. -/
theorem ghost_window_exists_iff_hiding_mode_and_enabled (s : VisibilityManager)
    (mode : Visibility) (enable : Bool) (inputs : List Input)
    (hmode : mode ≠ Visibility.None)
    (hinputs : ∀ input ∈ inputs, setsModeNone input = false) :
    (s.mode ≠ mode → GhostAsSpecified (s.setMode mode))
      ∧ (s.mode ≠ Visibility.None → s.enableKWinEdgesFromUser ≠ enable →
          GhostAsSpecified (s.setEnableKWinEdges enable))
      ∧ (GhostAsSpecified s →
          GhostAsSpecified (s.setMode mode) ∧ GhostAsSpecified (s.setEnableKWinEdges enable)
            ∧ GhostAsSpecified (s.run inputs)
            ∧ (((s.run inputs).mode = Visibility.AlwaysVisible
                ∨ (s.run inputs).mode = Visibility.WindowsGoBelow
                ∨ (s.run inputs).enableKWinEdgesFromUser = false) →
                (s.run inputs).supportsKWinEdges = false))
      ∧ (s.setMode Visibility.None).supportsKWinEdges = s.supportsKWinEdges
      ∧ (s.mode = Visibility.None →
          (s.setEnableKWinEdges enable).supportsKWinEdges = s.supportsKWinEdges) := by
  refine ⟨fun hchange => ghostAsSpecified_setMode s mode hchange hmode,
    fun hm he => ghostAsSpecified_setEnableKWinEdges s enable (Or.inr ⟨hm, he⟩), ?_,
    setMode_none_edgeGhostWindow s, setEnableKWinEdges_none_edgeGhostWindow s enable⟩
  intro h
  have hrun := ghostAsSpecified_run inputs s h hinputs
  refine ⟨ghostAsSpecified_setMode_of_specified s mode h hmode,
    ghostAsSpecified_setEnableKWinEdges s enable (Or.inl h), hrun, ?_⟩
  intro hcase
  cases hg : (s.run inputs).supportsKWinEdges
  · rfl
  · have := hrun.1 hg
    rcases hcase with hc | hc | hc
    · rw [hc] at this
      simp at this
    · rw [hc] at this
      simp at this
    · rw [hc] at this
      simp at this

/-- Witness of C24, amended: from `WindowsGoBelow` without ghost window to `AutoHide`,
the edges disabled and enabled again, then to `AlwaysVisible`. -/
theorem ghost_window_exists_iff_hiding_mode_and_enabled_witness :
    GhostAsSpecified (demoManager.setMode Visibility.AutoHide)
      ∧ (demoManager.setMode Visibility.AutoHide).supportsKWinEdges = true
      ∧ ((demoManager.setMode Visibility.AutoHide).setEnableKWinEdges false).supportsKWinEdges
          = false
      ∧ (demoManager.run [Input.setMode Visibility.AutoHide, Input.setEnableKWinEdges false,
          Input.setEnableKWinEdges true, Input.setMode Visibility.AlwaysVisible]).supportsKWinEdges
          = false :=
  ⟨(ghost_window_exists_iff_hiding_mode_and_enabled demoManager Visibility.AutoHide true []
      (by decide) (by decide)).1 (by decide),
    by decide, by decide,
    ((ghost_window_exists_iff_hiding_mode_and_enabled demoManager Visibility.AutoHide true
      [Input.setMode Visibility.AutoHide, Input.setEnableKWinEdges false,
        Input.setEnableKWinEdges true, Input.setMode Visibility.AlwaysVisible]
      (by decide) (by decide)).2.2.1
      (by unfold GhostAsSpecified; decide)).2.2.2 (Or.inl (by decide))⟩

theorem toDigitsCore_ne_nil (base : Nat) :
    ∀ (fuel n : Nat) (ds : List Char), (0 < fuel ∨ ds ≠ []) →
      Nat.toDigitsCore base fuel n ds ≠ [] := by
  intro fuel
  induction fuel with
  | zero =>
    intro n ds h
    rcases h with h | h
    · exact absurd h (Nat.lt_irrefl 0)
    · exact h
  | succ fuel ih =>
    intro n ds _
    unfold Nat.toDigitsCore
    simp only []
    split_ifs
    · exact List.cons_ne_nil _ _
    · exact ih _ _ (Or.inr (List.cons_ne_nil _ _))

theorem natRepr_ne_empty (n : Nat) : Nat.repr n ≠ "" := by
  intro h
  have hdata : (Nat.toDigits 10 n) = [] := by
    have := congrArg String.data h
    simpa [Nat.repr, List.asString] using this
  exact toDigitsCore_ne_nil 10 (n + 1) n [] (Or.inl (Nat.succ_pos n)) hdata

/-- The decimal string of an integer is not empty. -/
theorem toString_int_ne_empty (i : Int) : toString i ≠ "" := by
  cases i with
  | ofNat m => exact natRepr_ne_empty m
  | negSucc m =>
    intro h
    have := congrArg String.length h
    have hlen : (toString (Int.negSucc m)).length
        = "-".length + (Nat.repr (m + 1)).length := by
      show ("-" ++ Nat.repr (Nat.succ m)).length = _
      rw [String.length_append]
    rw [hlen] at this
    have hdash : "-".length = 1 := by decide
    rw [hdash] at this
    have hzero : "".length = 0 := by decide
    rw [hzero] at this
    omega

theorem freeId_iff (all assigned : List String) (i : Int) :
    (!all.contains (toString i) && !assigned.contains (toString i)) = true
      ↔ FreeId all assigned i := by
  unfold FreeId
  simp

/-- The loop of `availableId` with enough iterations left returns the decimal string of
the smallest free id from `i` below 32000, and the empty string when there is none. -/
theorem availableIdLoop_spec (all assigned : List String) :
    ∀ (fuel : Nat) (i : Int), (32000 - i).toNat ≤ fuel →
      (∃ j, i ≤ j ∧ j < 32000 ∧ FreeId all assigned j
          ∧ (∀ k, i ≤ k → k < j → ¬ FreeId all assigned k)
          ∧ availableIdLoop all assigned fuel i = toString j)
        ∨ ((∀ k, i ≤ k → k < 32000 → ¬ FreeId all assigned k)
          ∧ availableIdLoop all assigned fuel i = "") := by
  intro fuel
  induction fuel with
  | zero =>
    intro i hfuel
    refine Or.inr ⟨fun k hk1 hk2 => ?_, rfl⟩
    omega
  | succ fuel ih =>
    intro i hfuel
    unfold availableIdLoop
    by_cases hlt : i < 32000
    · rw [if_pos hlt]
      simp only []
      by_cases hfree : (!all.contains (toString i) && !assigned.contains (toString i)) = true
      · rw [if_pos hfree]
        refine Or.inl ⟨i, Int.le_refl i, hlt, (freeId_iff all assigned i).1 hfree, ?_, rfl⟩
        intro k hk1 hk2
        omega
      · rw [if_neg hfree]
        have hnot : ¬ FreeId all assigned i := fun h => hfree ((freeId_iff all assigned i).2 h)
        rcases ih (i + 1) (by omega) with ⟨j, hj1, hj2, hj3, hj4, hj5⟩ | ⟨hnone, hempty⟩
        · refine Or.inl ⟨j, by omega, hj2, hj3, ?_, hj5⟩
          intro k hk1 hk2
          by_cases hki : k = i
          · rw [hki]; exact hnot
          · exact hj4 k (by omega) hk2
        · refine Or.inr ⟨?_, hempty⟩
          intro k hk1 hk2
          by_cases hki : k = i
          · rw [hki]; exact hnot
          · exact hnone k (by omega) hk2
    · rw [if_neg hlt]
      refine Or.inr ⟨fun k hk1 hk2 => ?_, rfl⟩
      omega

theorem availableId_spec (all assigned : List String) (base : Int) :
    (∃ j, base ≤ j ∧ j < 32000 ∧ FreeId all assigned j
        ∧ (∀ k, base ≤ k → k < j → ¬ FreeId all assigned k)
        ∧ availableId all assigned base = toString j)
      ∨ ((∀ k, base ≤ k → k < 32000 → ¬ FreeId all assigned k)
        ∧ availableId all assigned base = "") :=
  availableIdLoop_spec all assigned _ base (Nat.le_refl _)

theorem availableId_not_mem (all assigned : List String) (base : Int)
    (h : availableId all assigned base ≠ "") :
    availableId all assigned base ∉ all ∧ availableId all assigned base ∉ assigned := by
  rcases availableId_spec all assigned base with ⟨j, _, _, hfree, _, heq⟩ | ⟨_, hempty⟩
  · rw [heq]
    exact hfree
  · exact absurd hempty h

/-- One reassignment loop appends as many ids as it investigates; when none of them is
empty they are pairwise distinct and occur neither among the ids of the corona nor among
the ids assigned before. -/
theorem assignIds_spec (allIds : List String) (base : Int) :
    ∀ (toInvestigate assignedIds : List String),
      ∃ newIds, assignIds allIds base assignedIds toInvestigate = assignedIds ++ newIds
        ∧ newIds.length = toInvestigate.length
        ∧ ("" ∉ newIds →
            newIds.Nodup ∧ ∀ id ∈ newIds, id ∉ allIds ∧ id ∉ assignedIds) := by
  intro toInvestigate
  induction toInvestigate with
  | nil =>
    intro assignedIds
    exact ⟨[], (List.append_nil _).symm, rfl, fun _ => ⟨List.nodup_nil, fun id hid => by
      simp at hid⟩⟩
  | cons cId toInvestigate ih =>
    intro assignedIds
    obtain ⟨rest, heq, hlen, hrest⟩ :=
      ih (assignedIds ++ [availableId allIds assignedIds base])
    refine ⟨availableId allIds assignedIds base :: rest, ?_, ?_, ?_⟩
    · unfold assignIds at heq ⊢
      rw [List.foldl_cons, heq, List.append_assoc]
      rfl
    · simp [hlen]
    · intro hne
      have hfirst : availableId allIds assignedIds base ≠ "" := fun h =>
        hne (by rw [h]; exact List.mem_cons_self _ _)
      obtain ⟨hnodup, hfresh⟩ := hrest (fun h => hne (List.mem_cons_of_mem _ h))
      obtain ⟨h1, h2⟩ := availableId_not_mem allIds assignedIds base hfirst
      refine ⟨List.nodup_cons.2 ⟨?_, hnodup⟩, ?_⟩
      · intro hmem
        exact (hfresh _ hmem).2 (List.mem_append_right _ (List.mem_singleton_self _))
      · intro id hid
        rcases List.mem_cons.1 hid with hid | hid
        · rw [hid]
          exact ⟨h1, h2⟩
        · exact ⟨(hfresh id hid).1, fun h => (hfresh id hid).2 (List.mem_append_left _ h)⟩

/-- C30: `availableId(all, assigned, base)` returns the decimal string of the smallest
integer `i` with `base ≤ i < 32000` whose decimal string is in neither list, and the
empty string exactly when there is no such `i`. In a reassignment loop of
`newUniqueIdsLayoutFromFile`, which appends each result to `assigned`, the new ids, as
long as none is empty, are pairwise distinct and collide with no id of the corona and
with no id assigned before; the same holds for both loops together. -/
theorem availableId_returns_smallest_free_id (all assigned : List String) (base : Int) :
    ((∃ i, base ≤ i ∧ i < 32000 ∧ FreeId all assigned i) →
        ∃ i, base ≤ i ∧ i < 32000 ∧ FreeId all assigned i
          ∧ (∀ k, base ≤ k → k < i → ¬ FreeId all assigned k)
          ∧ availableId all assigned base = toString i)
      ∧ (availableId all assigned base = ""
          ↔ ¬ ∃ i, base ≤ i ∧ i < 32000 ∧ FreeId all assigned i)
      ∧ (∀ toInvestigate : List String,
          ∃ newIds, assignIds all base assigned toInvestigate = assigned ++ newIds
            ∧ newIds.length = toInvestigate.length
            ∧ ("" ∉ newIds → newIds.Nodup ∧ ∀ id ∈ newIds, id ∉ all ∧ id ∉ assigned))
      ∧ (∀ toInvestigateContainmentIds toInvestigateAppletIds : List String,
          "" ∉ reassignedIds all toInvestigateContainmentIds toInvestigateAppletIds →
            (reassignedIds all toInvestigateContainmentIds toInvestigateAppletIds).Nodup
              ∧ ∀ id ∈ reassignedIds all toInvestigateContainmentIds toInvestigateAppletIds,
                  id ∉ all) := by
  refine ⟨?_, ?_, fun toInvestigate => assignIds_spec all base toInvestigate assigned, ?_⟩
  · rintro ⟨i, hi1, hi2, hi3⟩
    rcases availableId_spec all assigned base with h | ⟨hnone, _⟩
    · exact h
    · exact absurd hi3 (hnone i hi1 hi2)
  · constructor
    · intro hempty
      rintro ⟨i, hi1, hi2, hi3⟩
      rcases availableId_spec all assigned base with ⟨j, _, _, _, _, heq⟩ | ⟨hnone, _⟩
      · rw [heq] at hempty
        exact toString_int_ne_empty j hempty
      · exact hnone i hi1 hi2 hi3
    · intro hnone
      rcases availableId_spec all assigned base with ⟨j, hj1, hj2, hj3, _, _⟩ | ⟨_, hempty⟩
      · exact absurd ⟨j, hj1, hj2, hj3⟩ hnone
      · exact hempty
  · intro conts applets hne
    unfold reassignedIds at hne ⊢
    obtain ⟨ids1, heq1, _, h1⟩ := assignIds_spec all 12 conts []
    rw [heq1] at hne ⊢
    obtain ⟨ids2, heq2, _, h2⟩ := assignIds_spec all 40 applets ([] ++ ids1)
    rw [heq2] at hne ⊢
    simp only [List.nil_append, List.mem_append, not_or] at hne ⊢
    obtain ⟨hn1, hf1⟩ := h1 hne.1
    obtain ⟨hn2, hf2⟩ := h2 hne.2
    refine ⟨List.nodup_append.2 ⟨hn1, hn2, ?_⟩, ?_⟩
    · intro id hid1 hid2
      exact (hf2 id hid2).2 (by simpa using hid1)
    · intro id hid
      rcases hid with hid | hid
      · exact (hf1 id hid).1
      · exact (hf2 id hid).1

/-- Witness of C30: the ids 12, 13 and 41 are taken. -/
theorem availableId_returns_smallest_free_id_witness :
    availableId ["12", "13", "41"] ["14"] 12 = "15"
      ∧ reassignedIds ["12", "13", "41"] ["1", "2"] ["3", "4", "5"]
          = ["14", "15", "40", "42", "43"]
      ∧ (reassignedIds ["12", "13", "41"] ["1", "2"] ["3", "4", "5"]).Nodup :=
  ⟨by decide, by decide,
    ((availableId_returns_smallest_free_id ["12", "13", "41"] [] 12).2.2.2
      ["1", "2"] ["3", "4", "5"] (by decide)).1⟩

end Latte
